import Mathlib

/-!
# blobl.io game server: a shallow embedding of `server/game` and `server/network`

Go values become Lean structures and Go methods become pure functions that
return the updated receiver (explicit state passing).  Machine integers are
natural numbers; `uint16` arithmetic is written out with `% 65536`.
Mutexes are not represented: every function is the sequential behaviour of
the Go method it is named after; where a statement is about the order of lock
operations and channel sends, the function also returns this order.

Floating point values are represented where the code computes on whole or
dyadic numbers, each representation being described at its definition; the
polygon code runs on an arbitrary interpretation of the floating point
operations.  Where the Go code branches on another floating point test, the
outcome of the test is an explicit argument of the embedded function.
-/

namespace Game

/-! ## Machine arithmetic -/

/-- Addition of two `uint16` values (wraps at 2^16). -/
def add16 (a b : Nat) : Nat := (a + b) % 65536

/-- Subtraction of two `uint16` values (wraps at 2^16). -/
def sub16 (a b : Nat) : Nat := (a % 65536 + 65536 - b % 65536) % 65536

/-! ## constants.go -/

abbrev BuildingType := Nat
abbrev BuildingVariant := Nat
abbrev UnitType := Nat
abbrev UnitVariant := Nat

def WALL : BuildingType := 0
def SIMPLE_TURRET : BuildingType := 1
def SNIPER_TURRET : BuildingType := 2
def BARRACKS : BuildingType := 4
def GENERATOR : BuildingType := 5
def HOUSE : BuildingType := 6

def BASIC_BUILDING : BuildingVariant := 0
def BOULDER : BuildingVariant := 1
def SPIKE : BuildingVariant := 2
def MICRO_GENERATOR : BuildingVariant := 3
def RAPID_TURRET : BuildingVariant := 1
def GATLING_TURRET : BuildingVariant := 2
def HEAVY_TURRET : BuildingVariant := 3
def SEMI_AUTOMATIC_SNIPER : BuildingVariant := 1
def HEAVY_SNIPER : BuildingVariant := 2
def ANTI_TANK_GUN : BuildingVariant := 3
def TRAPPER : BuildingVariant := 4
def HEAVY_TRAPPER : BuildingVariant := 5
def GREATER_BARRACKS : BuildingVariant := 1
def TANK_FACTORY : BuildingVariant := 2
def HEAVY_TANK_FACTORY : BuildingVariant := 3
def BOOSTER_TANK_FACTORY : BuildingVariant := 4
def CANNON_TANK_FACTORY : BuildingVariant := 5
def SIEGE_TANK_FACTORY : BuildingVariant := 6
def HEAVY_BOOSTER_TANK_FACTORY : BuildingVariant := 7
def BOOSTER_CANNON_TANK_FACTORY : BuildingVariant := 8
def HEAVY_SIEGE_TANK_FACTORY : BuildingVariant := 9
def BOOSTER_SIEGE_TANK_FACTORY : BuildingVariant := 10
def CANNON_SIEGE_TANK_FACTORY : BuildingVariant := 11
def HEAVY_BOOSTER_SIEGE_TANK_FACTORY : BuildingVariant := 12
def BOOSTER_CANNON_SIEGE_TANK_FACTORY : BuildingVariant := 13
def POWER_PLANT : BuildingVariant := 1
def LARGE_HOUSE : BuildingVariant := 1

def SOLDIER : UnitType := 0
def TANK : UnitType := 1
def SIEGE_TANK : UnitType := 2
def COMMANDER : UnitType := 3

def BASIC_UNIT : UnitVariant := 0
def LIGHT_ARMOR_SOLDIER : UnitVariant := 1
def HEAVY_ARMOR_TANK : UnitVariant := 1
def BOOSTER_ENGINE_TANK : UnitVariant := 2
def CANNON_TANK : UnitVariant := 3
def HEAVY_ARMOR_BOOSTER_ENGINE_TANK : UnitVariant := 4
def BOOSTER_ENGINE_CANNON_TANK : UnitVariant := 5
def HEAVY_ARMOR_SIEGE_TANK : UnitVariant := 1
def BOOSTER_ENGINE_SIEGE_TANK : UnitVariant := 2
def CANNON_SIEGE_TANK : UnitVariant := 3
def HEAVY_ARMOR_BOOSTER_ENGINE_SIEGE_TANK : UnitVariant := 4
def BOOSTER_ENGINE_CANNON_SIEGE_TANK : UnitVariant := 5

def PLAYER_INITIAL_POPULATION : Nat := 64
def PLAYER_INITIAL_HEALTH : Nat := 2000
def PLAYER_INITIAL_POWER : Nat := 6000
def PLAYER_MAX_POWER : Nat := 8000
def NEUTRAL_BASE_POPULATION : Nat := 32

/-! ## health.go -/

structure Health where
  Current : Nat
  Max : Nat
deriving DecidableEq, Repr

def Health.Reset (h : Health) : Health :=
  { h with Current := h.Max }

def Health.Increment (h : Health) (amount : Nat) : Health :=
  if h.Current > sub16 h.Max amount then
    { h with Current := h.Max }
  else
    { h with Current := add16 h.Current amount }

def Health.Decrement (h : Health) (amount : Nat) : Health :=
  if amount ≥ h.Current then
    { h with Current := 0 }
  else
    { h with Current := sub16 h.Current amount }

def Health.IsAlive (h : Health) : Bool :=
  decide (h.Current > 0)

def Health.hasMaxHealth (h : Health) : Bool :=
  h.Current == h.Max

def Health.Get (h : Health) : Nat :=
  h.Current

/-! ## resource.go -/

structure Resource where
  Current : Nat
  Capacity : Nat
deriving DecidableEq, Repr

def Resource.Increment (r : Resource) (amount : Nat) : Resource :=
  let r1 := { r with Current := add16 r.Current amount }
  if r1.Current > r1.Capacity then
    { r1 with Current := r1.Capacity }
  else
    r1

def Resource.Decrement (r : Resource) (amount : Nat) : Resource × Bool :=
  if r.Current ≥ amount then
    ({ r with Current := sub16 r.Current amount }, true)
  else
    (r, false)

structure Generating where
  Power : Nat
deriving DecidableEq, Repr

structure Resources where
  Power : Resource
deriving DecidableEq, Repr

/-! ## population.go -/

structure Population where
  Used : Nat
  Capacity : Nat
deriving DecidableEq, Repr

def MaxCapacity : Nat := 2048

def Population.IncrementCapacity (p : Population) (amount : Nat) : Population :=
  if p.Capacity > sub16 MaxCapacity amount then
    { p with Capacity := MaxCapacity }
  else
    { p with Capacity := add16 p.Capacity amount }

def Population.DecrementCapacity (p : Population) (amount : Nat) : Population × Bool :=
  if p.Capacity ≥ amount then
    ({ p with Capacity := sub16 p.Capacity amount }, true)
  else
    (p, false)

def Population.IncrementUsed (p : Population) (amount : Nat) : Population × Bool :=
  if add16 p.Used amount > p.Capacity then
    (p, false)
  else
    ({ p with Used := add16 p.Used amount }, true)

def Population.DecrementUsed (p : Population) (amount : Nat) : Population × Bool :=
  if p.Used ≥ amount then
    ({ p with Used := sub16 p.Used amount }, true)
  else
    (p, false)

/-! ## capacity.go -/

structure Capacity where
  Current : Nat
  Max : Nat
deriving DecidableEq, Repr

def Capacity.Increment (c : Capacity) (amount : Nat) : Capacity :=
  if add16 c.Current amount > c.Max then
    { c with Current := c.Max }
  else
    { c with Current := add16 c.Current amount }

def Capacity.Decrement (c : Capacity) (amount : Nat) : Capacity :=
  if c.Current ≤ amount then
    { c with Current := 0 }
  else
    { c with Current := sub16 c.Current amount }

def Capacity.Reset (c : Capacity) : Capacity :=
  { c with Current := c.Max }

def Capacity.Get (c : Capacity) : Nat :=
  c.Current

def Capacity.HasMaxCapacity (c : Capacity) : Bool :=
  c.Current == c.Max

/-! ## id_allocator.go -/

/-- The Go type `ID` is a byte. -/
abbrev ID := Nat

structure AvailableIDs where
  IDs : List ID
deriving DecidableEq, Repr

/-- `ids[i] = ID(i)`: the conversion to a byte keeps the low 8 bits. -/
def InitAvailableIDs (numIDs : Nat) : AvailableIDs :=
  { IDs := (List.range numIDs).map (fun i => i % 256) }

def AvailableIDs.getNextAvailableID (a : AvailableIDs) : AvailableIDs × ID × Bool :=
  match a.IDs with
  | [] => (a, 0, false)
  | id :: rest => ({ IDs := rest }, id, true)

def AvailableIDs.returnID (a : AvailableIDs) (id : ID) : AvailableIDs :=
  { IDs := a.IDs ++ [id] }

/-! ## Go maps

A Go `map[K]V` with a byte-sized key is an association list with at most one
entry per key: `mapSet` replaces, `mapDelete` unlinks.  A lookup in a static
two-level table `map[T]map[V]X` is `tableGet`. -/

def mapGet {β : Type} (m : List (Nat × β)) (k : Nat) : Option β :=
  m.lookup k

def mapDelete {β : Type} (m : List (Nat × β)) (k : Nat) : List (Nat × β) :=
  m.filter (fun e => e.1 != k)

def mapSet {β : Type} (m : List (Nat × β)) (k : Nat) (v : β) : List (Nat × β) :=
  (k, v) :: mapDelete m k

def mapKeys {β : Type} (m : List (Nat × β)) : List Nat :=
  m.map (fun e => e.1)

def tableGet {β : Type} (table : List (Nat × List (Nat × β))) (t v : Nat) : Option β :=
  match table.lookup t with
  | some inner => inner.lookup v
  | none => none

/-! ## Entities (building.go, unit.go, bullet.go) -/

/-- The dynamic value of an `Owner` interface: nil, a `*Player` or a
`*NeutralBase`, the pointer being an address. -/
inductive OwnerRef where
  | nil
  | player (ptr : Nat)
  | neutral (ptr : Nat)
deriving DecidableEq, Repr

/-- A `Building` object.  `Ptr` is the address of the Go object: two
`*Building` values are equal iff their `Ptr` agree.  `Typ` is the Go field
`Type`. -/
structure Building where
  Ptr : Nat
  Owner : OwnerRef
  ID : ID
  Typ : BuildingType
  Variant : BuildingVariant
  Health : Health
  RemoveFlag : Bool
deriving DecidableEq, Repr

def Building.IsMarkedForRemoval (b : Building) : Bool :=
  b.RemoveFlag

def Building.MarkForRemoval (b : Building) : Building :=
  { b with RemoveFlag := true }

/-- A `Unit` object; `Ptr` is its address and `Typ` the Go field `Type`. -/
structure Unit where
  Ptr : Nat
  ID : ID
  Typ : UnitType
  Variant : UnitVariant
  Health : Health
  Size : Nat
  ExplosionRadius : Nat
  RemoveFlag : Bool
deriving DecidableEq, Repr

inductive BulletBehavior where
  | NormalBullet
  | AntiTankBullet
  | TrapperBullet
  | UnitBullet
deriving DecidableEq, Repr

/-- A non-negative `float32` or `float64` value with a finite binary expansion,
the number `Mantissa / 2 ^ Shift`: 1.5 is `⟨3, 1⟩`, 2.0 is `⟨2, 0⟩` and 0 is
`⟨0, 0⟩`. -/
structure Dyadic where
  Mantissa : Nat
  Shift : Nat
deriving DecidableEq, Repr

/-- The Go conversion `uint16(x)` of a floating point value: the fraction is
discarded (truncation toward zero). -/
def Dyadic.toUint16 (x : Dyadic) : Nat :=
  (x.Mantissa / 2 ^ x.Shift) % 65536

structure Bullet where
  Owner : OwnerRef
  ID : ID
  Health : Health
  Size : Nat
  FiredByUnit : Bool
  RemoveFlag : Bool
  DamageMultiplier : Dyadic
  Behavior : BulletBehavior
  ReachedTargetPosition : Bool
  StayDuration : Int
deriving DecidableEq, Repr

structure SpawnFrequency where
  Current : Nat
  Original : Nat
deriving DecidableEq, Repr

def SpawnFrequency.Decrement (f : SpawnFrequency) (amount : Nat) : SpawnFrequency :=
  if amount ≥ f.Current then
    { f with Current := 0 }
  else
    { f with Current := sub16 f.Current amount }

def SpawnFrequency.Get (f : SpawnFrequency) : Nat :=
  f.Current

def SpawnFrequency.Reset (f : SpawnFrequency) : SpawnFrequency :=
  { f with Current := f.Original }

/-- Bullet statistics; `StayDuration` is in nanoseconds.  A table entry that
does not set `DamageMultiplier` has the zero value. -/
structure BulletStats where
  Health : Health
  Size : Nat
  StayDuration : Int
  DamageMultiplier : Dyadic := ⟨0, 0⟩
  Behavior : BulletBehavior
deriving DecidableEq, Repr

/-- The dynamic value of a `Shooter` interface: nil, a `*Building` or a
`*Unit`; the payload is the object the pointer refers to when it is read. -/
inductive Shooter where
  | nil
  | building (b : Building)
  | unit (u : Unit)
deriving DecidableEq, Repr

structure BulletSpawning where
  Shooter : Shooter
  Frequency : SpawnFrequency
  Range : Nat
deriving DecidableEq, Repr

open BulletBehavior in
def turretBulletStats : List (BuildingType × List (BuildingVariant × BulletStats)) :=
  [ (SIMPLE_TURRET,
      [ (BASIC_BUILDING, { Health := ⟨15, 15⟩, Size := 10, StayDuration := 0, Behavior := NormalBullet }),
        (RAPID_TURRET, { Health := ⟨15, 15⟩, Size := 10, StayDuration := 0, Behavior := NormalBullet }),
        (GATLING_TURRET, { Health := ⟨15, 15⟩, Size := 8, StayDuration := 0, Behavior := NormalBullet }),
        (HEAVY_TURRET, { Health := ⟨400, 400⟩, Size := 20, StayDuration := 0, Behavior := NormalBullet }) ]),
    (SNIPER_TURRET,
      [ (BASIC_BUILDING, { Health := ⟨50, 50⟩, Size := 10, StayDuration := 0, Behavior := NormalBullet }),
        (SEMI_AUTOMATIC_SNIPER, { Health := ⟨50, 50⟩, Size := 10, StayDuration := 0, Behavior := NormalBullet }),
        (HEAVY_SNIPER, { Health := ⟨60, 60⟩, Size := 12, StayDuration := 0, Behavior := NormalBullet }),
        (ANTI_TANK_GUN, { Health := ⟨60, 60⟩, Size := 12, StayDuration := 0, DamageMultiplier := ⟨3, 1⟩, Behavior := AntiTankBullet }),
        (TRAPPER, { Health := ⟨300, 300⟩, Size := 20, StayDuration := 5000000000, Behavior := TrapperBullet }) ]) ]

open BulletBehavior in
def unitBulletStats : List (UnitType × List (UnitVariant × BulletStats)) :=
  [ (TANK,
      [ (CANNON_TANK, { Health := ⟨16, 16⟩, Size := 6, StayDuration := 0, DamageMultiplier := ⟨2, 0⟩, Behavior := UnitBullet }),
        (BOOSTER_ENGINE_CANNON_TANK, { Health := ⟨16, 16⟩, Size := 6, StayDuration := 0, DamageMultiplier := ⟨2, 0⟩, Behavior := UnitBullet }) ]),
    (SIEGE_TANK,
      [ (CANNON_SIEGE_TANK, { Health := ⟨16, 16⟩, Size := 8, StayDuration := 0, DamageMultiplier := ⟨2, 0⟩, Behavior := UnitBullet }),
        (BOOSTER_ENGINE_CANNON_SIEGE_TANK, { Health := ⟨16, 16⟩, Size := 8, StayDuration := 0, DamageMultiplier := ⟨2, 0⟩, Behavior := UnitBullet }) ]),
    (COMMANDER,
      [ (BASIC_UNIT, { Health := ⟨100, 100⟩, Size := 12, StayDuration := 0, DamageMultiplier := ⟨2, 0⟩, Behavior := UnitBullet }) ]) ]

def turretBulletSpawningConfig : List (BuildingType × List (BuildingVariant × BulletSpawning)) :=
  [ (SIMPLE_TURRET,
      [ (BASIC_BUILDING, { Shooter := .nil, Frequency := ⟨0, 750⟩, Range := 350 }),
        (RAPID_TURRET, { Shooter := .nil, Frequency := ⟨0, 300⟩, Range := 350 }),
        (GATLING_TURRET, { Shooter := .nil, Frequency := ⟨0, 200⟩, Range := 350 }),
        (HEAVY_TURRET, { Shooter := .nil, Frequency := ⟨0, 8000⟩, Range := 350 }) ]),
    (SNIPER_TURRET,
      [ (BASIC_BUILDING, { Shooter := .nil, Frequency := ⟨0, 1500⟩, Range := 400 }),
        (SEMI_AUTOMATIC_SNIPER, { Shooter := .nil, Frequency := ⟨0, 1000⟩, Range := 450 }),
        (HEAVY_SNIPER, { Shooter := .nil, Frequency := ⟨0, 1500⟩, Range := 450 }),
        (ANTI_TANK_GUN, { Shooter := .nil, Frequency := ⟨0, 2500⟩, Range := 450 }),
        (TRAPPER, { Shooter := .nil, Frequency := ⟨0, 6000⟩, Range := 450 }) ]) ]

def unitBulletSpawningConfig : List (UnitType × List (UnitVariant × BulletSpawning)) :=
  [ (TANK,
      [ (CANNON_TANK, { Shooter := .nil, Frequency := ⟨0, 1500⟩, Range := 350 }),
        (BOOSTER_ENGINE_CANNON_TANK, { Shooter := .nil, Frequency := ⟨0, 1500⟩, Range := 350 }) ]),
    (SIEGE_TANK,
      [ (CANNON_SIEGE_TANK, { Shooter := .nil, Frequency := ⟨0, 1600⟩, Range := 400 }),
        (BOOSTER_ENGINE_CANNON_SIEGE_TANK, { Shooter := .nil, Frequency := ⟨0, 1600⟩, Range := 400 }) ]),
    (COMMANDER,
      [ (BASIC_UNIT, { Shooter := .nil, Frequency := ⟨0, 2000⟩, Range := 600 }) ]) ]

/-- The pair `(entityType, variant)` of `interface{}` arguments, by dynamic type. -/
inductive EntityKey where
  | unit (t : UnitType) (v : UnitVariant)
  | building (t : BuildingType) (v : BuildingVariant)
deriving DecidableEq, Repr

def GetBulletStats : EntityKey → Option BulletStats
  | .unit t v => tableGet unitBulletStats t v
  | .building t v => tableGet turretBulletStats t v

def GetBulletSpawning : EntityKey → Option BulletSpawning
  | .building t v => tableGet turretBulletSpawningConfig t v
  | .unit t v => tableGet unitBulletSpawningConfig t v

/-! ## position.go -/

/-- The value of an `int16` expression: the low 16 bits of the exact result,
read as a signed number. -/
def wrapInt16 (z : Int) : Int :=
  (z + 32768) % 65536 - 32768

/-- The coordinates are `int16`. -/
structure PositionInt where
  X : Int
  Y : Int
deriving DecidableEq, Repr

/-- The `float32` that `float32(math.Sqrt(float64(n)))` yields for a whole
number `n`, kept as its radicand.  The code only compares such a value with
the constants 50.0 and 100.0, and the square root and its roundings are
monotone and exact at 2500 and at 10000, so the comparison is the comparison
of the radicand with the square of the constant. -/
structure Root where
  Radicand : Nat
deriving DecidableEq, Repr

/-- The test `r < c` for a whole constant `c`. -/
def Root.lt (r : Root) (c : Nat) : Bool :=
  r.Radicand < c * c

/-- The test `r > c` for a whole constant `c`. -/
def Root.gt (r : Root) (c : Nat) : Bool :=
  r.Radicand > c * c

/-- `PositionInt.DistanceTo`: the differences `p.X - other.X` and
`p.Y - other.Y` are taken in `int16` before they are converted to `float32`. -/
def PositionInt.DistanceTo (p other : PositionInt) : Root :=
  let dx := wrapInt16 (p.X - other.X)
  let dy := wrapInt16 (p.Y - other.Y)
  ⟨(dx * dx + dy * dy).toNat⟩

/-! ## base.go: bullets -/

/-- The fields are Go's `int`. -/
structure BuildingLimit where
  Current : Int
  Max : Int
deriving DecidableEq, Repr

structure Base where
  Owner : OwnerRef
  Health : Health
  Buildings : List (ID × Building)
  BuildingLimits : List (BuildingType × BuildingLimit)
  Bullets : List (ID × Bullet)
  BulletSpawning : List Game.BulletSpawning
  AvailableBuildingIDs : AvailableIDs
  AvailableBulletIDs : AvailableIDs
  Position : PositionInt := ⟨0, 0⟩
deriving DecidableEq, Repr

/-- `Base.AddBullet`.  `distanceIsZero` is the outcome of the floating point
test `distance == 0` (base.go:84) between the target and the computed spawn
position. -/
def Base.AddBullet (b : Base) (spawning : Game.BulletSpawning) (distanceIsZero : Bool) :
    Base × Option Bullet :=
  match b.AvailableBulletIDs.getNextAvailableID with
  | (_, _, false) => (b, none)
  | (ids, bulletID, true) =>
    let b1 := { b with AvailableBulletIDs := ids }
    let resolved : Option (BulletStats × Bool) :=
      match spawning.Shooter with
      | .building shooter =>
        match GetBulletStats (.building shooter.Typ shooter.Variant) with
        | some bulletStats => some (bulletStats, false)
        | none => none
      | .unit shooter =>
        match GetBulletStats (.unit shooter.Typ shooter.Variant) with
        | some bulletStats => some (bulletStats, true)
        | none => none
      | .nil => none
    match resolved with
    | none => (b1, none)
    | some (bulletStats, firedByUnit) =>
      if distanceIsZero then
        (b1, none)
      else
        let bullet : Bullet :=
          { Owner := b1.Owner
            ID := bulletID
            Health := bulletStats.Health
            Size := bulletStats.Size
            FiredByUnit := firedByUnit
            RemoveFlag := false
            DamageMultiplier := bulletStats.DamageMultiplier
            Behavior := bulletStats.Behavior
            ReachedTargetPosition := false
            StayDuration := bulletStats.StayDuration }
        ({ b1 with Bullets := mapSet b1.Bullets bulletID bullet }, some bullet)

def Base.RemoveBullet (b : Base) (bulletID : ID) : Base × Bool :=
  match mapGet b.Bullets bulletID with
  | none => (b, false)
  | some _ =>
    let b1 := { b with Bullets := mapDelete b.Bullets bulletID }
    ({ b1 with AvailableBulletIDs := b1.AvailableBulletIDs.returnID bulletID }, true)

/-! ## building.go: the static catalogue -/

structure BuildingUpgrade where
  Variant : BuildingVariant
  Health : Health
  Next : List BuildingVariant
  Cost : Nat
deriving DecidableEq, Repr

def buildingTypes : List (BuildingType × List (BuildingVariant × BuildingUpgrade)) :=
  [ (WALL,
      [ (BASIC_BUILDING, { Variant := BASIC_BUILDING, Health := ⟨800, 800⟩, Next := [MICRO_GENERATOR, BOULDER], Cost := 50 }),
        (MICRO_GENERATOR, { Variant := MICRO_GENERATOR, Health := ⟨800, 800⟩, Next := [], Cost := 100 }),
        (BOULDER, { Variant := BOULDER, Health := ⟨1000, 1000⟩, Next := [SPIKE], Cost := 80 }),
        (SPIKE, { Variant := SPIKE, Health := ⟨1200, 1200⟩, Next := [], Cost := 120 }) ]),
    (SIMPLE_TURRET,
      [ (BASIC_BUILDING, { Variant := BASIC_BUILDING, Health := ⟨100, 100⟩, Next := [RAPID_TURRET, HEAVY_TURRET], Cost := 150 }),
        (RAPID_TURRET, { Variant := RAPID_TURRET, Health := ⟨100, 100⟩, Next := [GATLING_TURRET], Cost := 200 }),
        (GATLING_TURRET, { Variant := GATLING_TURRET, Health := ⟨100, 100⟩, Next := [], Cost := 300 }),
        (HEAVY_TURRET, { Variant := GATLING_TURRET, Health := ⟨100, 100⟩, Next := [], Cost := 500 }) ]),
    (SNIPER_TURRET,
      [ (BASIC_BUILDING, { Variant := BASIC_BUILDING, Health := ⟨100, 100⟩, Next := [SEMI_AUTOMATIC_SNIPER, HEAVY_SNIPER], Cost := 200 }),
        (SEMI_AUTOMATIC_SNIPER, { Variant := SEMI_AUTOMATIC_SNIPER, Health := ⟨100, 100⟩, Next := [], Cost := 250 }),
        (HEAVY_SNIPER, { Variant := HEAVY_SNIPER, Health := ⟨100, 100⟩, Next := [TRAPPER, ANTI_TANK_GUN], Cost := 250 }),
        (ANTI_TANK_GUN, { Variant := ANTI_TANK_GUN, Health := ⟨100, 100⟩, Next := [], Cost := 400 }),
        (TRAPPER, { Variant := TRAPPER, Health := ⟨100, 100⟩, Next := [], Cost := 550 }) ]),
    (BARRACKS,
      [ (BASIC_BUILDING, { Variant := BASIC_BUILDING, Health := ⟨150, 150⟩, Next := [GREATER_BARRACKS, TANK_FACTORY], Cost := 150 }),
        (GREATER_BARRACKS, { Variant := GREATER_BARRACKS, Health := ⟨150, 150⟩, Next := [], Cost := 200 }),
        (TANK_FACTORY, { Variant := TANK_FACTORY, Health := ⟨150, 150⟩, Next := [HEAVY_TANK_FACTORY, BOOSTER_TANK_FACTORY], Cost := 200 }),
        (HEAVY_TANK_FACTORY, { Variant := HEAVY_TANK_FACTORY, Health := ⟨150, 150⟩, Next := [CANNON_TANK_FACTORY, SIEGE_TANK_FACTORY], Cost := 250 }),
        (BOOSTER_TANK_FACTORY, { Variant := BOOSTER_TANK_FACTORY, Health := ⟨150, 150⟩, Next := [HEAVY_BOOSTER_TANK_FACTORY, BOOSTER_CANNON_TANK_FACTORY], Cost := 250 }),
        (CANNON_TANK_FACTORY, { Variant := CANNON_TANK_FACTORY, Health := ⟨150, 150⟩, Next := [], Cost := 300 }),
        (SIEGE_TANK_FACTORY, { Variant := SIEGE_TANK_FACTORY, Health := ⟨150, 150⟩, Next := [HEAVY_SIEGE_TANK_FACTORY, BOOSTER_SIEGE_TANK_FACTORY], Cost := 300 }),
        (HEAVY_BOOSTER_TANK_FACTORY, { Variant := HEAVY_BOOSTER_TANK_FACTORY, Health := ⟨150, 150⟩, Next := [BOOSTER_SIEGE_TANK_FACTORY], Cost := 300 }),
        (BOOSTER_CANNON_TANK_FACTORY, { Variant := BOOSTER_CANNON_TANK_FACTORY, Health := ⟨150, 150⟩, Next := [], Cost := 300 }),
        (HEAVY_SIEGE_TANK_FACTORY, { Variant := HEAVY_SIEGE_TANK_FACTORY, Health := ⟨150, 150⟩, Next := [CANNON_SIEGE_TANK_FACTORY, HEAVY_BOOSTER_SIEGE_TANK_FACTORY], Cost := 350 }),
        (BOOSTER_SIEGE_TANK_FACTORY, { Variant := BOOSTER_SIEGE_TANK_FACTORY, Health := ⟨150, 150⟩, Next := [HEAVY_BOOSTER_SIEGE_TANK_FACTORY, BOOSTER_CANNON_SIEGE_TANK_FACTORY], Cost := 350 }),
        (CANNON_SIEGE_TANK_FACTORY, { Variant := CANNON_SIEGE_TANK_FACTORY, Health := ⟨150, 150⟩, Next := [], Cost := 400 }),
        (HEAVY_BOOSTER_SIEGE_TANK_FACTORY, { Variant := HEAVY_BOOSTER_SIEGE_TANK_FACTORY, Health := ⟨150, 150⟩, Next := [], Cost := 400 }),
        (BOOSTER_CANNON_SIEGE_TANK_FACTORY, { Variant := BOOSTER_CANNON_SIEGE_TANK_FACTORY, Health := ⟨150, 150⟩, Next := [], Cost := 400 }) ]),
    (GENERATOR,
      [ (BASIC_BUILDING, { Variant := BASIC_BUILDING, Health := ⟨100, 100⟩, Next := [POWER_PLANT], Cost := 100 }),
        (POWER_PLANT, { Variant := POWER_PLANT, Health := ⟨100, 100⟩, Next := [], Cost := 200 }) ]),
    (HOUSE,
      [ (BASIC_BUILDING, { Variant := BASIC_BUILDING, Health := ⟨100, 100⟩, Next := [LARGE_HOUSE], Cost := 120 }),
        (LARGE_HOUSE, { Variant := LARGE_HOUSE, Health := ⟨100, 100⟩, Next := [], Cost := 150 }) ]) ]

def buildingSizes : List (BuildingType × Nat) :=
  [ (WALL, 30), (SIMPLE_TURRET, 30), (SNIPER_TURRET, 33), (BARRACKS, 60), (GENERATOR, 40), (HOUSE, 35) ]

def resourceGeneration : List (BuildingType × List (BuildingVariant × Generating)) :=
  [ (WALL, [ (MICRO_GENERATOR, ⟨2⟩) ]),
    (GENERATOR, [ (BASIC_BUILDING, ⟨2⟩), (POWER_PLANT, ⟨3⟩) ]) ]

def populationCapacity : List (BuildingType × List (BuildingVariant × Nat)) :=
  [ (HOUSE, [ (BASIC_BUILDING, 8), (LARGE_HOUSE, 12) ]) ]

/-- An entry of `player.UnitSpawning`.  `Barracks` is Go's `*Building`:
`none` is nil, `some b` is the building the pointer refers to. -/
structure UnitSpawning where
  Barracks : Option Building
  UnitType : UnitType
  UnitVariant : UnitVariant
  Frequency : SpawnFrequency
  Activated : Bool
deriving DecidableEq, Repr

def unitSpawningConfig : List (BuildingType × List (BuildingVariant × UnitSpawning)) :=
  [ (BARRACKS,
      [ (BASIC_BUILDING, { Barracks := none, UnitType := SOLDIER, UnitVariant := BASIC_UNIT, Frequency := ⟨0, 4⟩, Activated := false }),
        (GREATER_BARRACKS, { Barracks := none, UnitType := SOLDIER, UnitVariant := BASIC_UNIT, Frequency := ⟨0, 2⟩, Activated := false }),
        (TANK_FACTORY, { Barracks := none, UnitType := TANK, UnitVariant := BASIC_UNIT, Frequency := ⟨0, 20⟩, Activated := false }),
        (HEAVY_TANK_FACTORY, { Barracks := none, UnitType := TANK, UnitVariant := HEAVY_ARMOR_TANK, Frequency := ⟨0, 20⟩, Activated := false }),
        (BOOSTER_TANK_FACTORY, { Barracks := none, UnitType := TANK, UnitVariant := BOOSTER_ENGINE_TANK, Frequency := ⟨0, 20⟩, Activated := false }),
        (CANNON_TANK_FACTORY, { Barracks := none, UnitType := TANK, UnitVariant := CANNON_TANK, Frequency := ⟨0, 20⟩, Activated := false }),
        (HEAVY_BOOSTER_TANK_FACTORY, { Barracks := none, UnitType := TANK, UnitVariant := HEAVY_ARMOR_BOOSTER_ENGINE_SIEGE_TANK, Frequency := ⟨0, 20⟩, Activated := false }),
        (BOOSTER_CANNON_TANK_FACTORY, { Barracks := none, UnitType := TANK, UnitVariant := BOOSTER_ENGINE_CANNON_TANK, Frequency := ⟨0, 20⟩, Activated := false }),
        (SIEGE_TANK_FACTORY, { Barracks := none, UnitType := SIEGE_TANK, UnitVariant := BASIC_UNIT, Frequency := ⟨0, 30⟩, Activated := false }),
        (HEAVY_SIEGE_TANK_FACTORY, { Barracks := none, UnitType := SIEGE_TANK, UnitVariant := HEAVY_ARMOR_SIEGE_TANK, Frequency := ⟨0, 30⟩, Activated := false }),
        (BOOSTER_SIEGE_TANK_FACTORY, { Barracks := none, UnitType := SIEGE_TANK, UnitVariant := BOOSTER_ENGINE_SIEGE_TANK, Frequency := ⟨0, 30⟩, Activated := false }),
        (CANNON_SIEGE_TANK_FACTORY, { Barracks := none, UnitType := SIEGE_TANK, UnitVariant := CANNON_SIEGE_TANK, Frequency := ⟨0, 30⟩, Activated := false }),
        (HEAVY_BOOSTER_SIEGE_TANK_FACTORY, { Barracks := none, UnitType := SIEGE_TANK, UnitVariant := HEAVY_ARMOR_BOOSTER_ENGINE_SIEGE_TANK, Frequency := ⟨0, 30⟩, Activated := false }),
        (BOOSTER_CANNON_SIEGE_TANK_FACTORY, { Barracks := none, UnitType := SIEGE_TANK, UnitVariant := BOOSTER_ENGINE_CANNON_SIEGE_TANK, Frequency := ⟨0, 30⟩, Activated := false }) ]) ]

/-- The key set of `buildingPolygons`; the polygons themselves are floating
point data. -/
def buildingPolygons : List BuildingType :=
  [ BARRACKS, GENERATOR, HOUSE, SIMPLE_TURRET, SNIPER_TURRET, WALL ]

/-- `GetBuildingPolygon`: the `ok` result. -/
def GetBuildingPolygon (buildingType : BuildingType) : Bool :=
  buildingPolygons.contains buildingType

def GetInitialHealth (buildingType : BuildingType) (buildingVariant : BuildingVariant) : Health :=
  match tableGet buildingTypes buildingType buildingVariant with
  | some building => building.Health
  | none => ⟨0, 0⟩

def GetBuildingSize (buildingType : BuildingType) : Nat :=
  (buildingSizes.lookup buildingType).getD 0

def GetBuildingCost (buildingType : BuildingType) (buildingVariant : BuildingVariant) : Option Nat :=
  match tableGet buildingTypes buildingType buildingVariant with
  | some upgrade => some upgrade.Cost
  | none => none

def GetResourceGeneration (buildingType : BuildingType) (buildingVariant : BuildingVariant) :
    Option Generating :=
  tableGet resourceGeneration buildingType buildingVariant

def GetPopulationCapacity (buildingType : BuildingType) (buildingVariant : BuildingVariant) :
    Option Nat :=
  tableGet populationCapacity buildingType buildingVariant

def GetUnitSpawning (buildingVariant : BuildingVariant) : Option UnitSpawning :=
  tableGet unitSpawningConfig BARRACKS buildingVariant

def ValidateBuildingType (buildingType : BuildingType) : Bool :=
  (tableGet buildingTypes buildingType BASIC_BUILDING).isSome

/-- The `for ... range currentUpgrade.Next` loop of `ValidateUpgradePath`. -/
def validateUpgradeLoop (targetVariant : BuildingVariant) : List BuildingVariant → Bool
  | [] => false
  | nextVariant :: rest =>
    if nextVariant == targetVariant then true else validateUpgradeLoop targetVariant rest

def ValidateUpgradePath (buildingType : BuildingType)
    (currentVariant targetVariant : BuildingVariant) : Bool :=
  match tableGet buildingTypes buildingType currentVariant with
  | some currentUpgrade => validateUpgradeLoop targetVariant currentUpgrade.Next
  | none => false

/-! ## unit.go: the static catalogue -/

structure UnitStats where
  Variant : UnitVariant
  Health : Health
  Size : Nat
  RequiredPopulation : Nat
  ExplosionRadius : Nat
deriving DecidableEq, Repr

def unitTypes : List (UnitType × List (UnitVariant × UnitStats)) :=
  [ (SOLDIER,
      [ (BASIC_UNIT, { Variant := BASIC_UNIT, Health := ⟨180, 180⟩, Size := 18, RequiredPopulation := 16, ExplosionRadius := 0 }),
        (LIGHT_ARMOR_SOLDIER, { Variant := LIGHT_ARMOR_SOLDIER, Health := ⟨225, 225⟩, Size := 18, RequiredPopulation := 0, ExplosionRadius := 0 }) ]),
    (TANK,
      [ (BASIC_UNIT, { Variant := BASIC_UNIT, Health := ⟨800, 800⟩, Size := 28, RequiredPopulation := 32, ExplosionRadius := 0 }),
        (HEAVY_ARMOR_TANK, { Variant := HEAVY_ARMOR_TANK, Health := ⟨1000, 1000⟩, Size := 28, RequiredPopulation := 0, ExplosionRadius := 0 }),
        (CANNON_TANK, { Variant := CANNON_TANK, Health := ⟨1000, 1000⟩, Size := 28, RequiredPopulation := 0, ExplosionRadius := 0 }),
        (BOOSTER_ENGINE_TANK, { Variant := BOOSTER_ENGINE_TANK, Health := ⟨800, 800⟩, Size := 28, RequiredPopulation := 0, ExplosionRadius := 0 }),
        (HEAVY_ARMOR_BOOSTER_ENGINE_TANK, { Variant := HEAVY_ARMOR_BOOSTER_ENGINE_TANK, Health := ⟨1000, 1000⟩, Size := 28, RequiredPopulation := 0, ExplosionRadius := 0 }),
        (BOOSTER_ENGINE_CANNON_TANK, { Variant := BOOSTER_ENGINE_CANNON_TANK, Health := ⟨800, 800⟩, Size := 28, RequiredPopulation := 0, ExplosionRadius := 0 }) ]),
    (SIEGE_TANK,
      [ (BASIC_UNIT, { Variant := BASIC_UNIT, Health := ⟨2800, 2800⟩, Size := 38, RequiredPopulation := 80, ExplosionRadius := 0 }),
        (HEAVY_ARMOR_SIEGE_TANK, { Variant := HEAVY_ARMOR_SIEGE_TANK, Health := ⟨3200, 3200⟩, Size := 38, RequiredPopulation := 0, ExplosionRadius := 0 }),
        (BOOSTER_ENGINE_SIEGE_TANK, { Variant := BOOSTER_ENGINE_SIEGE_TANK, Health := ⟨2800, 2800⟩, Size := 38, RequiredPopulation := 0, ExplosionRadius := 0 }),
        (CANNON_SIEGE_TANK, { Variant := CANNON_SIEGE_TANK, Health := ⟨3200, 3200⟩, Size := 38, RequiredPopulation := 0, ExplosionRadius := 0 }),
        (BOOSTER_ENGINE_CANNON_SIEGE_TANK, { Variant := BOOSTER_ENGINE_CANNON_SIEGE_TANK, Health := ⟨2800, 2800⟩, Size := 38, RequiredPopulation := 0, ExplosionRadius := 0 }),
        (HEAVY_ARMOR_BOOSTER_ENGINE_SIEGE_TANK, { Variant := HEAVY_ARMOR_BOOSTER_ENGINE_SIEGE_TANK, Health := ⟨3200, 3200⟩, Size := 38, RequiredPopulation := 0, ExplosionRadius := 0 }) ]),
    (COMMANDER,
      [ (BASIC_UNIT, { Variant := BASIC_UNIT, Health := ⟨4000, 4000⟩, Size := 40, RequiredPopulation := 0, ExplosionRadius := 0 }) ]) ]

/-- The key set of `unitPolygons`; the polygons themselves are floating
point data. -/
def unitPolygons : List (UnitType × List UnitVariant) :=
  [ (SOLDIER, [ BASIC_UNIT, LIGHT_ARMOR_SOLDIER ]),
    (TANK, [ BASIC_UNIT, HEAVY_ARMOR_TANK, CANNON_TANK, BOOSTER_ENGINE_TANK,
             HEAVY_ARMOR_BOOSTER_ENGINE_TANK, BOOSTER_ENGINE_CANNON_TANK ]),
    (SIEGE_TANK, [ BASIC_UNIT, HEAVY_ARMOR_SIEGE_TANK, BOOSTER_ENGINE_SIEGE_TANK, CANNON_SIEGE_TANK,
                   BOOSTER_ENGINE_CANNON_SIEGE_TANK, HEAVY_ARMOR_BOOSTER_ENGINE_SIEGE_TANK ]),
    (COMMANDER, [ BASIC_UNIT ]) ]

def GetUnitRequiredPopulation (unitType : UnitType) : Option Nat :=
  match tableGet unitTypes unitType BASIC_UNIT with
  | some unit => some unit.RequiredPopulation
  | none => none

/-- `GetUnitPolygon`: the `ok` result. -/
def GetUnitPolygon (unitType : UnitType) (variant : UnitVariant) : Bool :=
  match unitPolygons.lookup unitType with
  | some unitPolygonsForType => unitPolygonsForType.contains variant
  | none => false

def GetUnitStats (unitType : UnitType) (variant : UnitVariant) : Option UnitStats :=
  tableGet unitTypes unitType variant

/-! ## Time

A `time.Time` is the number of nanoseconds since the zero `Time`; a
`time.Duration` is a number of nanoseconds in `int64`. -/

abbrev Time := Int

def Millisecond : Int := 1000000
def Second : Int := 1000000000

/-- `t.Sub(u)`: the difference, saturated to the range of `Duration`. -/
def Time.Sub (t u : Time) : Int :=
  max (-9223372036854775808) (min 9223372036854775807 (t - u))

/-! ## player.go -/

structure MovementPackage where
  Timestamp : Time
  TargetPosition : PositionInt
  UnitPositions : List PositionInt
  UnitIds : List Nat
deriving DecidableEq, Repr

/-- The fields of `Player` that the embedded operations read or write.
`Ptr` is the address of the Go object; `CapturedNeutralBases` holds the
addresses of the captured `NeutralBase` objects; `Conn` is the address of the
connection, 0 for nil.  `SuspiciousCounter`,
`SuspicionDecayRate` and `SuspicionThreshold` are `float32` fields that hold
whole numbers (0, 1.0 and 5.0 at the start, the counter changing by 1 and by
the decay rate): `float32` arithmetic is exact on whole numbers up to
16777216, where adding 1 no longer changes the value. -/
structure Player where
  Ptr : Nat
  ID : ID
  Permission : Nat
  Kills : Nat
  Score : Nat
  Population : Population
  Resources : Resources
  Generating : Generating
  CapturedNeutralBases : List Nat
  Base : Base
  HasSpawnProtection : Bool
  AvailableUnitIDs : AvailableIDs
  Units : List (Game.ID × Unit)
  UnitSpawning : List Game.UnitSpawning
  UnitBulletSpawning : List BulletSpawning
  UnitSpawningLimit : Capacity
  HasCommander : Bool
  LastBuildingAction : Time
  BuildingActionCount : Nat
  LastMovementPackage : MovementPackage
  SuspiciousCounter : Nat
  SuspicionDecayRate : Nat
  SuspicionThreshold : Nat
  RemoveFlag : Bool
  Conn : Nat := 0
deriving DecidableEq, Repr

/-- `Player.UpdateSuspicion`. -/
def Player.UpdateSuspicion (p : Player) : Player × Bool :=
  if p.SuspiciousCounter ≥ p.SuspicionThreshold then
    (p, true)
  else
    -- the subtraction followed by the clamp `if p.SuspiciousCounter < 0`
    ({ p with SuspiciousCounter := p.SuspiciousCounter - p.SuspicionDecayRate }, false)

/-- `Player.HandleSuspiciousBehavior`: `p.SuspiciousCounter++` in `float32`. -/
def Player.HandleSuspiciousBehavior (p : Player) : Player :=
  { p with SuspiciousCounter :=
      if p.SuspiciousCounter < 16777216 then p.SuspiciousCounter + 1 else p.SuspiciousCounter }

/-- `Player.CanPerformBuildingAction`; `now` is the value of `time.Now()`. -/
def Player.CanPerformBuildingAction (p : Player) (now : Time) : Player × Bool :=
  let maxActionsPerSecond := 10
  let timeThreshold := Second
  let p1 :=
    if Time.Sub now p.LastBuildingAction ≥ timeThreshold then
      { p with BuildingActionCount := 0, LastBuildingAction := now }
    else p
  if p1.BuildingActionCount ≥ maxActionsPerSecond then
    (p1, false)
  else
    ({ p1 with BuildingActionCount := (p1.BuildingActionCount + 1) % 4294967296 }, true)

def Player.IsMarkedForRemoval (p : Player) : Bool :=
  p.RemoveFlag

/-- Pointer equality `s.Barracks == barracks` between a stored `*Building` and
a non-nil `*Building`. -/
def samePtr (stored : Option Building) (barracks : Building) : Bool :=
  match stored with
  | some b => b.Ptr == barracks.Ptr
  | none => false

/-- `Player.GetUnitSpawningForBarrack`: the first entry whose `Barracks` is
the given building, or `none` for nil. -/
def Player.GetUnitSpawningForBarrack (p : Player) (barrack : Building) :
    Option Game.UnitSpawning :=
  p.UnitSpawning.find? (fun unitSpawn => samePtr unitSpawn.Barracks barrack)

def Player.AddUnitSpawning (p : Player) (barracks : Building) (setActive : Bool) :
    Player × Bool :=
  match GetUnitSpawning barracks.Variant with
  | none => (p, false)
  | some unitSpawning =>
    let setActive := if p.UnitSpawningLimit.HasMaxCapacity then false else setActive
    let spawning : Game.UnitSpawning :=
      { Barracks := some barracks
        UnitType := unitSpawning.UnitType
        UnitVariant := unitSpawning.UnitVariant
        Frequency := unitSpawning.Frequency
        Activated := setActive }
    let p1 :=
      if setActive then { p with UnitSpawningLimit := p.UnitSpawningLimit.Increment 1 } else p
    ({ p1 with UnitSpawning := p1.UnitSpawning ++ [spawning] }, true)

/-- The `for _, s := range p.UnitSpawning` loop of `RemoveUnitSpawning`, with
its two loop-carried variables. -/
def removeUnitSpawningLoop (barracks : Building) :
    List UnitSpawning → Bool → List UnitSpawning → Bool × List UnitSpawning
  | [], wasActive, updatedUnitSpawning => (wasActive, updatedUnitSpawning)
  | s :: rest, wasActive, updatedUnitSpawning =>
    if samePtr s.Barracks barracks then
      removeUnitSpawningLoop barracks rest s.Activated updatedUnitSpawning
    else
      removeUnitSpawningLoop barracks rest wasActive (updatedUnitSpawning ++ [s])

def Player.RemoveUnitSpawning (p : Player) (barracks : Building) : Player :=
  let (wasActive, updatedUnitSpawning) := removeUnitSpawningLoop barracks p.UnitSpawning false []
  let p1 := { p with UnitSpawning := updatedUnitSpawning }
  if wasActive then
    { p1 with UnitSpawningLimit := p1.UnitSpawningLimit.Decrement 1 }
  else
    p1

/-- The assignment `unitSpawning.Activated = !unitSpawning.Activated` through
the pointer returned by `GetUnitSpawningForBarrack`: the first entry of the
list for that building is the one written. -/
def flipActivated (building : Building) : List UnitSpawning → List UnitSpawning
  | [] => []
  | s :: rest =>
    if samePtr s.Barracks building then
      { s with Activated := !s.Activated } :: rest
    else
      s :: flipActivated building rest

def Player.ToggleUnitSpawning (p : Player) (building : Building) : Player × Bool :=
  match p.GetUnitSpawningForBarrack building with
  | none => (p, false)
  | some unitSpawning =>
    if unitSpawning.Activated then
      if p.UnitSpawningLimit.Get == 0 then
        (p, false)
      else
        let p1 := { p with UnitSpawningLimit := p.UnitSpawningLimit.Decrement 1 }
        ({ p1 with UnitSpawning := flipActivated building p1.UnitSpawning }, true)
    else
      if p.UnitSpawningLimit.HasMaxCapacity then
        (p, false)
      else
        let p1 := { p with UnitSpawningLimit := p.UnitSpawningLimit.Increment 1 }
        ({ p1 with UnitSpawning := flipActivated building p1.UnitSpawning }, true)

def Player.AddUnitBulletSpawning (p : Player) (unit : Unit) : Player × Bool :=
  match GetBulletSpawning (.unit unit.Typ unit.Variant) with
  | none => (p, false)
  | some bulletSpawning =>
    let spawning : BulletSpawning :=
      { Shooter := .unit unit
        Frequency := ⟨bulletSpawning.Frequency.Current, bulletSpawning.Frequency.Original⟩
        Range := bulletSpawning.Range }
    ({ p with UnitBulletSpawning := p.UnitBulletSpawning ++ [spawning] }, true)

/-- `Player.AddUnit`; `ptr` is the address of the `Unit` object it allocates.
The spawn position is floating point data and is not represented. -/
def Player.AddUnit (p : Player) (unitType : UnitType) (unitVariant : UnitVariant)
    (ptr : Nat) : Player × Option Unit :=
  match p.AvailableUnitIDs.getNextAvailableID with
  | (_, _, false) => (p, none)
  | (ids, unitID, true) =>
    let p1 := { p with AvailableUnitIDs := ids }
    match GetUnitStats unitType unitVariant with
    | none => (p1, none)
    | some unitStats =>
      if !GetUnitPolygon unitType unitVariant then
        (p1, none)
      else
        let unit : Unit :=
          { Ptr := ptr
            ID := unitID
            Typ := unitType
            Variant := unitVariant
            Health := unitStats.Health
            Size := unitStats.Size
            ExplosionRadius := unitStats.ExplosionRadius
            RemoveFlag := false }
        ({ p1 with Units := mapSet p1.Units unitID unit }, some unit)

def Player.RemoveUnit (p : Player) (unitID : Game.ID) : Player × Bool :=
  match mapGet p.Units unitID with
  | none => (p, false)
  | some unit =>
    let p1 := if unit.Typ == COMMANDER then { p with HasCommander := false } else p
    let p2 := { p1 with Units := mapDelete p1.Units unitID }
    ({ p2 with AvailableUnitIDs := p2.AvailableUnitIDs.returnID unitID }, true)

/-! ## base.go: buildings

`Base.AddBuilding` and `Base.RemoveBuilding` write to the receiver base, to
the base of the owning player and to the player.  The receiver is either the
player's own base or the base of a neutral base, so these methods are
functions of a `World`: the player, one neutral base of the map, and a
`BaseRef` that says which of the two bases is the receiver. -/

/-- A `NeutralBase` object.  `CapturedBy` is Go's `*Player`: in a `World`,
which holds one player, it is `true` for a pointer to that player and `false`
for nil. -/
structure NeutralBase where
  Ptr : Nat
  CapturedBy : Bool
  ID : ID
  Base : Base
deriving DecidableEq, Repr

structure World where
  player : Player
  neutral : NeutralBase
deriving DecidableEq, Repr

inductive BaseRef where
  | playerBase
  | neutralBase
deriving DecidableEq, Repr

def World.getBase (w : World) : BaseRef → Base
  | .playerBase => w.player.Base
  | .neutralBase => w.neutral.Base

def World.setBase (w : World) (r : BaseRef) (b : Base) : World :=
  match r with
  | .playerBase => { w with player := { w.player with Base := b } }
  | .neutralBase => { w with neutral := { w.neutral with Base := b } }

/-- A write to the base `r` of the world. -/
def World.modifyBase (w : World) (r : BaseRef) (f : Base → Base) : World :=
  w.setBase r (f (w.getBase r))

/-- A write to the player of the world. -/
def World.modifyPlayer (w : World) (f : Player → Player) : World :=
  { w with player := f w.player }

/-- The type assertions on `b.Owner` that open `AddBuilding`, `UpgradeBuilding`
and `RemoveBuilding`: `true` iff the resolved `player` is not nil. -/
def World.hasPlayer (w : World) (r : BaseRef) : Bool :=
  match (w.getBase r).Owner with
  | .player _ => true
  | .neutral _ => w.neutral.CapturedBy
  | .nil => false

/-- The Go zero value of a missing `BuildingLimits` entry is `{0, 0}`. -/
def Base.getLimit (b : Base) (buildingType : BuildingType) : BuildingLimit :=
  (mapGet b.BuildingLimits buildingType).getD ⟨0, 0⟩

def Base.canAddBuilding (b : Base) (buildingType : BuildingType) : Bool :=
  let limit := b.getLimit buildingType
  decide (limit.Current < limit.Max)

def Base.incrementBuildingLimit (b : Base) (buildingType : BuildingType) : Base × Bool :=
  let limit := b.getLimit buildingType
  if limit.Current < limit.Max then
    ({ b with BuildingLimits :=
        mapSet b.BuildingLimits buildingType { limit with Current := limit.Current + 1 } }, true)
  else
    (b, false)

def Base.decrementBuildingLimit (b : Base) (buildingType : BuildingType) : Base × Bool :=
  let limit := b.getLimit buildingType
  if limit.Current > 0 then
    ({ b with BuildingLimits :=
        mapSet b.BuildingLimits buildingType { limit with Current := limit.Current - 1 } }, true)
  else
    (b, false)

def Base.AddBulletSpawning (b : Base) (turret : Building) : Base × Bool :=
  match GetBulletSpawning (.building turret.Typ turret.Variant) with
  | none => (b, false)
  | some bulletSpawning =>
    let spawning : Game.BulletSpawning :=
      { Shooter := .building turret
        Frequency := ⟨bulletSpawning.Frequency.Current, bulletSpawning.Frequency.Original⟩
        Range := bulletSpawning.Range }
    ({ b with BulletSpawning := b.BulletSpawning ++ [spawning] }, true)

/-- The test `shooterBuilding == turret` of `RemoveBulletSpawning`. -/
def shooterIs (s : BulletSpawning) (turret : Building) : Bool :=
  match s.Shooter with
  | .building shooterBuilding => shooterBuilding.Ptr == turret.Ptr
  | _ => false

def Base.RemoveBulletSpawning (b : Base) (turret : Building) : Base :=
  { b with BulletSpawning := b.BulletSpawning.filter (fun s => !shooterIs s turret) }

/-- A write through a `*Building` pointer is seen by every holder of the
pointer.  The spawner lists hold such pointers as copies of the object, so
after a write the copies with the same address are replaced by the new
object. -/
def refreshUnitSpawning (building : Building) (l : List UnitSpawning) : List UnitSpawning :=
  l.map (fun s => if samePtr s.Barracks building then { s with Barracks := some building } else s)

def refreshBulletSpawning (building : Building) (l : List BulletSpawning) :
    List BulletSpawning :=
  l.map (fun s => if shooterIs s building then { s with Shooter := .building building } else s)

def Player.refreshBuilding (p : Player) (building : Building) : Player :=
  { p with
    UnitSpawning := refreshUnitSpawning building p.UnitSpawning
    Base := { p.Base with
      BulletSpawning := refreshBulletSpawning building p.Base.BulletSpawning } }

def NeutralBase.refreshBuilding (n : NeutralBase) (building : Building) : NeutralBase :=
  { n with Base := { n.Base with
      BulletSpawning := refreshBulletSpawning building n.Base.BulletSpawning } }

def World.refreshBuilding (w : World) (building : Building) : World :=
  { player := w.player.refreshBuilding building
    neutral := w.neutral.refreshBuilding building }

/-- The statement `player.Resources.Power = power`. -/
def Player.setPower (p : Player) (power : Resource) : Player :=
  { p with Resources := ⟨power⟩ }

/-- The statement `player.Resources.Power.Increment(costs)`. -/
def Player.refund (p : Player) (costs : Nat) : Player :=
  { p with Resources := ⟨p.Resources.Power.Increment costs⟩ }

/-- The statement `if ok { player.Generating.Power += generating.Power }` after a
lookup `generating, ok := GetResourceGeneration(..)`. -/
def Player.addGenerating (p : Player) (lookup : Option Game.Generating) : Player :=
  match lookup with
  | some generating => { p with Generating := ⟨add16 p.Generating.Power generating.Power⟩ }
  | none => p

/-- The statement `if ok { player.Generating.Power -= generating.Power }`. -/
def Player.subGenerating (p : Player) (lookup : Option Game.Generating) : Player :=
  match lookup with
  | some generating => { p with Generating := ⟨sub16 p.Generating.Power generating.Power⟩ }
  | none => p

/-- The statement `if ok { player.Population.IncrementCapacity(capacity) }` after a
lookup `capacity, ok := GetPopulationCapacity(..)`. -/
def Player.incrementCapacity (p : Player) (lookup : Option Nat) : Player :=
  match lookup with
  | some capacity => { p with Population := p.Population.IncrementCapacity capacity }
  | none => p

/-- The statement `if ok { player.Population.DecrementCapacity(capacity) }`. -/
def Player.decrementCapacity (p : Player) (lookup : Option Nat) : Player :=
  match lookup with
  | some capacity => { p with Population := (p.Population.DecrementCapacity capacity).1 }
  | none => p

/-- The statement `player.Base.decrementBuildingLimit(building.Type)`. -/
def Player.decrementLimit (p : Player) (buildingType : BuildingType) : Player :=
  { p with Base := (p.Base.decrementBuildingLimit buildingType).1 }

/-- The `switch buildingType` that closes `AddBuilding` (base.go:255–260). -/
def addBuildingSpawners (w : World) (r : BaseRef) (building : Building) : World :=
  if building.Typ == BARRACKS then
    w.modifyPlayer (fun p => (p.AddUnitSpawning building true).1)
  else if building.Typ == SIMPLE_TURRET || building.Typ == SNIPER_TURRET then
    w.modifyBase r (fun b => (b.AddBulletSpawning building).1)
  else
    w

/-- `Base.AddBuilding` with receiver `w.getBase r`; `ptr` is the address of the
`Building` object it allocates.  Position and polygon are not represented. -/
def Base.AddBuilding (w : World) (r : BaseRef) (buildingType : BuildingType) (ptr : Nat) :
    World × Option Building :=
  if !w.hasPlayer r then
    (w, none)
  else if !w.player.Base.canAddBuilding buildingType then
    (w, none)
  else
    match (w.getBase r).AvailableBuildingIDs.getNextAvailableID with
    | (_, _, false) => (w, none)
    | (ids, buildingID, true) =>
      let w1 := w.modifyBase r (fun b => { b with AvailableBuildingIDs := ids })
      if !GetBuildingPolygon buildingType then
        (w1, none)
      else
        let building : Building :=
          { Ptr := ptr
            Owner := (w.getBase r).Owner
            ID := buildingID
            Typ := buildingType
            Variant := BASIC_BUILDING
            Health := GetInitialHealth buildingType BASIC_BUILDING
            RemoveFlag := false }
        let w2 := w1.modifyBase r
          (fun b => { b with Buildings := mapSet b.Buildings buildingID building })
        match w2.player.Base.incrementBuildingLimit buildingType with
        | (_, false) =>
          (w2.modifyBase r (fun b => { b with Buildings := mapDelete b.Buildings buildingID }),
            none)
        | (playerBase, true) =>
          (addBuildingSpawners (w2.setBase .playerBase playerBase) r building, some building)

def Base.UpgradeBuilding (w : World) (r : BaseRef) (buildingID : ID)
    (variant : BuildingVariant) : World × Bool :=
  if !w.hasPlayer r then
    (w, false)
  else
    match mapGet (w.getBase r).Buildings buildingID with
    | none => (w, false)
    | some building =>
      let building1 :=
        { building with Variant := variant, Health := GetInitialHealth building.Typ variant }
      let w1 := w.modifyBase r
        (fun b => { b with Buildings := mapSet b.Buildings buildingID building1 })
      (w1.refreshBuilding building1, true)

/-- The `switch building.Type` of `RemoveBuilding` (base.go:318–344);
`hasPlayer` is `player != nil`. -/
def removeBuildingEffects (w : World) (r : BaseRef) (hasPlayer : Bool)
    (building : Building) : World :=
  if building.Typ == BARRACKS then
    if hasPlayer then
      w.modifyPlayer (fun p => p.RemoveUnitSpawning building)
    else w
  else if building.Typ == GENERATOR || building.Typ == WALL then
    if hasPlayer then
      if building.Typ == GENERATOR ||
          (building.Typ == WALL && building.Variant == MICRO_GENERATOR) then
        w.modifyPlayer
          (fun p => p.subGenerating (GetResourceGeneration building.Typ building.Variant))
      else w
    else w
  else if building.Typ == HOUSE then
    if hasPlayer then
      w.modifyPlayer
        (fun p => p.decrementCapacity (GetPopulationCapacity building.Typ building.Variant))
    else w
  else if building.Typ == SIMPLE_TURRET || building.Typ == SNIPER_TURRET then
    w.modifyBase r (fun b => b.RemoveBulletSpawning building)
  else
    w

/-- `Base.RemoveBuilding` with receiver `w.getBase r`.  The building is marked
for removal before the effects of its type are undone; it is then unlinked,
the limit of the owning player is decremented and the ID is returned. -/
def Base.RemoveBuilding (w : World) (r : BaseRef) (buildingID : ID) : World × Bool :=
  match mapGet (w.getBase r).Buildings buildingID with
  | none => (w, false)
  | some found =>
    let building := found.MarkForRemoval
    let w1 := removeBuildingEffects (w.refreshBuilding building) r (w.hasPlayer r) building
    let w2 := w1.modifyBase r (fun b => { b with Buildings := mapDelete b.Buildings buildingID })
    let w3 :=
      if w.hasPlayer r then w2.modifyPlayer (fun p => p.decrementLimit building.Typ) else w2
    (w3.modifyBase r
      (fun b => { b with AvailableBuildingIDs := b.AvailableBuildingIDs.returnID buildingID }),
      true)

/-! ## neutral_base.go -/

/-- The loop of `PopulateNeutralBase`: `n` SPIKE walls are still to be placed;
the wall objects are allocated at `ptr`, `ptr + 1`, ... -/
def populateLoop : Nat → Nat → Base → Base
  | 0, _, b => b
  | n + 1, ptr, b =>
    match b.AvailableBuildingIDs.getNextAvailableID with
    | (_, _, false) => b
    | (ids, buildingID, true) =>
      let b1 := { b with AvailableBuildingIDs := ids }
      if !GetBuildingPolygon WALL then
        b1
      else
        let building : Building :=
          { Ptr := ptr
            Owner := .nil
            ID := buildingID
            Typ := WALL
            Variant := SPIKE
            Health := GetInitialHealth WALL SPIKE
            RemoveFlag := false }
        populateLoop n (ptr + 1) { b1 with Buildings := mapSet b1.Buildings buildingID building }

def PopulateNeutralBase (neutral : NeutralBase) (ptr : Nat) : NeutralBase :=
  { neutral with Base := populateLoop 22 ptr neutral.Base }

/-- The neutral base built by `InitializeMap` (map.go:264–285). -/
def newNeutralBase (ptr : Nat) (id : ID) (wallPtr : Nat) : NeutralBase :=
  PopulateNeutralBase
    { Ptr := ptr
      CapturedBy := false
      ID := id
      Base :=
        { Owner := .neutral ptr
          Health := ⟨1000, 1000⟩
          Buildings := []
          BuildingLimits := []
          Bullets := []
          BulletSpawning := []
          AvailableBuildingIDs := InitAvailableIDs 256
          AvailableBulletIDs := InitAvailableIDs 256 } } wallPtr

/-- `NeutralBase.Clear` for the neutral base of the world. -/
def NeutralBase.Clear (w : World) : World :=
  let w1 := (mapKeys w.neutral.Base.Buildings).foldl
    (fun acc id => (Base.RemoveBuilding acc .neutralBase id).1) w
  let w2 := w1.modifyBase .neutralBase (fun b => { b with Buildings := [] })
  w2.modifyBase .neutralBase
    (fun b => (mapKeys b.Bullets).foldl (fun acc id => (acc.RemoveBullet id).1) b)

/-- `NeutralBase.Captured(player)` for the neutral base of the world;
`byPlayer` is `player != nil`, and `wallPtr` the address of the first wall
object allocated by `PopulateNeutralBase`. -/
def NeutralBase.Captured (w : World) (byPlayer : Bool) (wallPtr : Nat) : World :=
  let w1 := w.modifyBase .neutralBase (fun b => { b with Health := b.Health.Reset })
  let w2 :=
    if byPlayer then
      let c := NeutralBase.Clear w1
      { c with neutral := PopulateNeutralBase c.neutral wallPtr }
    else w1
  { w2 with neutral := { w2.neutral with CapturedBy := byPlayer } }

def Player.AddCapturedNeutralBase (p : Player) (neutralBase : Nat) : Player :=
  { p with
    Population := p.Population.IncrementCapacity NEUTRAL_BASE_POPULATION
    CapturedNeutralBases := p.CapturedNeutralBases ++ [neutralBase] }

/-- `Player.RemoveCapturedNeutralBase`; `buildings` is
`neutralBase.Base.Buildings`. -/
def Player.RemoveCapturedNeutralBase (p : Player) (neutralBase : Nat)
    (buildings : List (Game.ID × Building)) : Player :=
  let p1 := { p with Population := (p.Population.DecrementCapacity NEUTRAL_BASE_POPULATION).1 }
  if p1.CapturedNeutralBases.contains neutralBase then
    let base := buildings.foldl (fun b e => (b.decrementBuildingLimit e.2.Typ).1) p1.Base
    { p1 with Base := base, CapturedNeutralBases := p1.CapturedNeutralBases.erase neutralBase }
  else
    p1

/-- `handleNeutralBaseCaptured(player, neutral)` for the player and the
neutral base of the world. -/
def handleNeutralBaseCaptured (w : World) (wallPtr : Nat) : World :=
  let w1 :=
    if w.neutral.CapturedBy then
      w.modifyPlayer
        (fun p => p.RemoveCapturedNeutralBase w.neutral.Ptr w.neutral.Base.Buildings)
    else w
  let w2 := NeutralBase.Captured w1 true wallPtr
  w2.modifyPlayer (fun p => p.AddCapturedNeutralBase w2.neutral.Ptr)

/-! ## game.go -/

def PERMISSION_ADMIN : Nat := 2

/-- The `Player` value built by `AddPlayer` (game.go:1382–1436). -/
def newPlayer (ptr : Nat) (permission : Nat) (id : ID) : Player :=
  let initialPower := if permission == PERMISSION_ADMIN then 60000 else PLAYER_INITIAL_POWER
  let maxPower := if permission == PERMISSION_ADMIN then 60000 else PLAYER_MAX_POWER
  { Ptr := ptr
    ID := id
    Permission := permission
    Kills := 0
    Score := 0
    Population := { Capacity := PLAYER_INITIAL_POPULATION, Used := 0 }
    Resources := { Power := { Current := initialPower, Capacity := maxPower } }
    Generating := { Power := 1 }
    CapturedNeutralBases := []
    Base :=
      { Owner := .player ptr
        Health := ⟨PLAYER_INITIAL_HEALTH, PLAYER_INITIAL_HEALTH⟩
        Buildings := []
        BuildingLimits :=
          [ (WALL, ⟨0, 9999⟩), (SIMPLE_TURRET, ⟨0, 9999⟩), (SNIPER_TURRET, ⟨0, 9999⟩),
            (BARRACKS, ⟨0, 9999⟩), (GENERATOR, ⟨0, 9999⟩), (HOUSE, ⟨0, 64⟩) ]
        Bullets := []
        BulletSpawning := []
        AvailableBuildingIDs := InitAvailableIDs 256
        AvailableBulletIDs := InitAvailableIDs 256 }
    HasSpawnProtection := true
    AvailableUnitIDs := InitAvailableIDs 128
    Units := []
    UnitSpawning := []
    UnitBulletSpawning := []
    UnitSpawningLimit := { Current := 0, Max := 5 }
    HasCommander := false
    LastBuildingAction := 0
    BuildingActionCount := 0
    LastMovementPackage := { Timestamp := 0, TargetPosition := ⟨0, 0⟩, UnitPositions := [], UnitIds := [] }
    SuspiciousCounter := 0
    SuspicionDecayRate := 1
    SuspicionThreshold := 5
    RemoveFlag := false }

/-- The body of the `for _, spawning := range player.UnitSpawning` loop of
`startUnitSpawnLoop` for one spawner; `ptr` is the address of the unit object
that `AddUnit` allocates.  The third component is the unit passed to
`TriggerUnitSpawnEvent`, if any. -/
def unitSpawnBody (p : Player) (spawning : UnitSpawning) (ptr : Nat) :
    Player × UnitSpawning × Option Unit :=
  match spawning.Barracks with
  | none => (p, spawning, none)
  | some barracks =>
    if !spawning.Activated then
      (p, spawning, none)
    else if barracks.IsMarkedForRemoval then
      (p, spawning, none)
    else
      let spawning1 :=
        if spawning.Frequency.Current > 0 then
          { spawning with Frequency := spawning.Frequency.Decrement 1 }
        else spawning
      if spawning1.Frequency.Get == 0 then
        match GetUnitRequiredPopulation spawning1.UnitType with
        | none => (p, spawning1, none)
        | some requiredPopulation =>
          match p.Population.IncrementUsed requiredPopulation with
          | (_, false) => (p, spawning1, none)
          | (population, true) =>
            let p1 := { p with Population := population }
            match p1.AddUnit spawning1.UnitType spawning1.UnitVariant ptr with
            | (p2, none) =>
              ({ p2 with Population := (p2.Population.DecrementUsed requiredPopulation).1 },
                spawning1, none)
            | (p2, some unit) =>
              let spawning2 := { spawning1 with Frequency := spawning1.Frequency.Reset }
              let p3 := (p2.AddUnitBulletSpawning unit).1
              (p3, spawning2, some unit)
      else
        (p, spawning1, none)

/-- The loop over `player.UnitSpawning`: `todo` are the spawners still to be
visited, `done` the visited ones (in reverse), `events` the units spawned so
far (in reverse). -/
def unitSpawnLoop : List UnitSpawning → Player → Nat → List UnitSpawning → List Unit →
    Player × List UnitSpawning × List Unit
  | [], p, _, done, events => (p, done.reverse, events.reverse)
  | spawning :: todo, p, ptr, done, events =>
    match unitSpawnBody p spawning ptr with
    | (p1, spawning1, none) => unitSpawnLoop todo p1 (ptr + 1) (spawning1 :: done) events
    | (p1, spawning1, some unit) =>
      unitSpawnLoop todo p1 (ptr + 1) (spawning1 :: done) (unit :: events)

/-- One tick of `startUnitSpawnLoop` for one player: the new player state and
the units for which a spawn event is emitted. -/
def startUnitSpawnLoop (p : Player) (ptr : Nat) : Player × List Unit :=
  if p.IsMarkedForRemoval then
    (p, [])
  else
    match unitSpawnLoop p.UnitSpawning p ptr [] [] with
    | (p1, spawners, events) => ({ p1 with UnitSpawning := spawners }, events)

/-! ## game.go: bullets against units

The collision tests are floating point geometry; the functions below are the
bodies of the `if isBulletCollidingWithUnit(bullet, unit)` blocks of
`checkBulletCollisions`. -/

def Bullet.TakeDamage (b : Bullet) (amount : Nat) : Bullet × Bool :=
  let b1 := { b with Health := b.Health.Decrement amount }
  (b1, b1.Health.IsAlive)

def Bullet.MarkForRemoval (b : Bullet) : Bullet :=
  { b with RemoveFlag := true }

def Unit.TakeDamage (u : Unit) (amount : Nat) : Unit × Bool :=
  let u1 := { u with Health := u.Health.Decrement amount }
  (u1, u1.Health.IsAlive)

def Unit.MarkForRemoval (u : Unit) : Unit :=
  { u with RemoveFlag := true }

/-- The product of two `uint16` values. -/
def mul16 (a b : Nat) : Nat :=
  (a * b) % 65536

/-- What a hit leaves behind: the base that owns the bullet, the bullet, the
unit, whether the bullet was destroyed (it is then removed from the base) and
whether the unit was destroyed (it is then handed to `handleUnitDestroyed`). -/
structure HitResult where
  base : Base
  bullet : Bullet
  unit : Unit
  bulletDestroyed : Bool
  unitDestroyed : Bool
deriving DecidableEq, Repr

/-- The bullet object is shared with `base.Bullets`: a bullet that survives
is seen there with its new health. -/
def Base.storeBullet (b : Base) (bullet : Bullet) : Base :=
  { b with Bullets := b.Bullets.map (fun e => if e.1 == bullet.ID then (e.1, bullet) else e) }

/-- The hit of a bullet of another player's base on a unit
(game.go:678-703); `base` is `otherPlayer.Base`. -/
def playerBulletUnitBody (base : Base) (bullet : Bullet) (unit : Unit) : HitResult :=
  let unitHealth := unit.Health.Current
  let bulletHealth := mul16 bullet.Health.Current 2
  let (bullet1, isAlive) := bullet.TakeDamage unitHealth
  let bullet2 := if !isAlive then bullet1.MarkForRemoval else bullet1
  let base1 := if !isAlive then (base.RemoveBullet bullet.ID).1 else base.storeBullet bullet1
  let damage := bulletHealth
  let damage :=
    if bullet2.Behavior == .AntiTankBullet && (unit.Typ == TANK || unit.Typ == SIEGE_TANK) then
      mul16 damage bullet2.DamageMultiplier.toUint16
    else damage
  let damage :=
    if bullet2.Behavior == .UnitBullet then
      mul16 damage bullet2.DamageMultiplier.toUint16
    else damage
  let (unit1, unitAlive) := unit.TakeDamage damage
  let unit2 := if !unitAlive then unit1.MarkForRemoval else unit1
  { base := base1, bullet := bullet2, unit := unit2,
    bulletDestroyed := !isAlive, unitDestroyed := !unitAlive }

/-- The hit of a bullet of a neutral base on a unit (game.go:788-812);
`base` is `neutral.Base`. -/
def neutralBulletUnitBody (base : Base) (bullet : Bullet) (unit : Unit) : HitResult :=
  let unitHealth := unit.Health.Current
  let bulletHealth := bullet.Health.Current
  let (bullet1, isAlive) := bullet.TakeDamage unitHealth
  let bullet2 := if !isAlive then bullet1.MarkForRemoval else bullet1
  let base1 := if !isAlive then (base.RemoveBullet bullet.ID).1 else base.storeBullet bullet1
  let damage := bulletHealth
  let damage :=
    if bullet2.Behavior == .AntiTankBullet && unit.Typ == TANK && unit.Typ == SIEGE_TANK then
      mul16 damage bullet2.DamageMultiplier.toUint16
    else damage
  let (unit1, unitAlive) := unit.TakeDamage damage
  let unit2 := if !unitAlive then unit1.MarkForRemoval else unit1
  { base := base1, bullet := bullet2, unit := unit2,
    bulletDestroyed := !isAlive, unitDestroyed := !unitAlive }

/-- `hasCaptured`: `capturedBases` holds addresses. -/
def hasCaptured (base : Nat) (capturedBases : List Nat) : Bool :=
  capturedBases.any (fun capturedBase => capturedBase == base)

/-- `handleUnitCollision`: the units are handled in the order of their IDs and
the results are returned in the order of the arguments.  The first component
holds the two units after the collision, in the order of the arguments. -/
def handleUnitCollision (unit1 unit2 : Game.Unit) : (Game.Unit × Game.Unit) × Bool × Bool :=
  let originalUnit1 := unit1.ID
  let originalUnit2 := unit2.ID
  let swapped := decide (unit1.ID > unit2.ID)
  let (first, second) := if swapped then (unit2, unit1) else (unit1, unit2)
  let unit1Health := first.Health.Current
  let unit2Health := second.Health.Current
  let (first1, isAliveUnit1) := first.TakeDamage unit2Health
  let (second1, isAliveUnit2) := second.TakeDamage unit1Health
  let units := if swapped then (second1, first1) else (first1, second1)
  if originalUnit1 > originalUnit2 then
    (units, isAliveUnit2, isAliveUnit1)
  else
    (units, isAliveUnit1, isAliveUnit2)

/-! ## leaderboard.go -/

structure LeaderboardScore where
  FullValue : Nat
  IntegerPart : Nat
  FractionalPart : Nat
  Unit : Nat
deriving DecidableEq, Repr

/-- An entry; `Player` is the player the pointer refers to. -/
structure LeaderboardEntry where
  Player : Player
  Score : LeaderboardScore
deriving DecidableEq, Repr

structure Leaderboard where
  Entries : List LeaderboardEntry
deriving DecidableEq, Repr

def Player.GetScore (p : Player) : Nat :=
  p.Score

/-- `ConvertToLeaderboardScore` for a `uint32` score; the units are the bytes
`'M'` (77) and `'k'` (107). -/
def ConvertToLeaderboardScore (score : Nat) : LeaderboardScore :=
  if score ≥ 1000000 then
    { FullValue := score
      IntegerPart := (score / 1000000) % 65536
      FractionalPart := ((score % 1000000) / 10000) % 256
      Unit := 77 }
  else if score ≥ 1000 then
    { FullValue := score
      IntegerPart := (score / 1000) % 65536
      FractionalPart := ((score % 1000) / 100) % 256
      Unit := 107 }
  else
    { FullValue := score
      IntegerPart := score % 65536
      FractionalPart := 0
      Unit := 0 }

/-- The comparison that `Update` hands to `sort.Slice`. -/
def scoreLess (a b : LeaderboardEntry) : Bool :=
  a.Score.FullValue > b.Score.FullValue

/-- The test of the comparison loop of `Update`: the entry is new, or its
displayed score differs from the previous one. -/
def entryChanged (previousMap : List (ID × LeaderboardEntry)) (entry : LeaderboardEntry) : Bool :=
  match mapGet previousMap entry.Player.ID with
  | none => true
  | some prevEntry =>
    entry.Score.IntegerPart != prevEntry.Score.IntegerPart ||
    entry.Score.FractionalPart != prevEntry.Score.FractionalPart ||
    entry.Score.Unit != prevEntry.Score.Unit

/-- The loop `for _, entry := range updatedEntries` of `Update`. -/
def updateChangesLoop (previousMap : List (ID × LeaderboardEntry)) :
    List LeaderboardEntry → List LeaderboardEntry → Bool → List LeaderboardEntry × Bool
  | [], changes, changed => (changes, changed)
  | entry :: rest, changes, changed =>
    if entryChanged previousMap entry then
      updateChangesLoop previousMap rest (changes ++ [entry]) true
    else
      updateChangesLoop previousMap rest changes changed

/-- `Leaderboard.Update`.  `players` lists the map in the order in which the
`range` loop visits it, and `sortSlice` is the effect of the library call
`sort.Slice(updatedEntries, less)` on the slice. -/
def Leaderboard.Update (l : Leaderboard) (players : List (ID × Player))
    (sortSlice : List LeaderboardEntry → List LeaderboardEntry) :
    Leaderboard × List LeaderboardEntry × Bool :=
  let previousEntries := l.Entries
  let updatedEntries : List LeaderboardEntry :=
    players.map (fun kv => { Player := kv.2, Score := ConvertToLeaderboardScore kv.2.GetScore })
  let updatedEntries := sortSlice updatedEntries
  let updatedEntries := if updatedEntries.length > 10 then updatedEntries.take 10 else updatedEntries
  let previousMap : List (ID × LeaderboardEntry) :=
    previousEntries.foldl (fun m entry => mapSet m entry.Player.ID entry) []
  let (changes, changed) := updateChangesLoop previousMap updatedEntries [] false
  ({ Entries := updatedEntries }, changes, changed)

end Game

namespace Network

open Game

/-! ## handlers.go -/

/-- `handlePlacedBuildingMessage` from the type validation (handlers.go:283)
on.  The floating point tests are arguments: `placement` is the base selected
by the radius checks (`none` when the position is valid for neither the player
base nor a captured neutral base), `collisionFree` is the result of
`CheckBuildingCollision`, `overlapsUnits` that of
`CheckBuildingOverlapWithUnits`.  The result carries the building passed to
`broadcastBuildingPlaced`, if any. -/
def handlePlacedBuildingMessage (w : World) (buildingType : BuildingType)
    (placement : Option BaseRef) (collisionFree overlapsUnits : Bool) (ptr : Nat) :
    World × Option Building :=
  if !ValidateBuildingType buildingType then
    (w, none)
  else
    match placement with
    | none => (w, none)
    | some base =>
      match GetBuildingCost buildingType BASIC_BUILDING with
      | none => (w, none)
      | some costs =>
        match w.player.Resources.Power.Decrement costs with
        | (_, false) => (w, none)
        | (power, true) =>
          let w1 := w.modifyPlayer (fun p => p.setPower power)
          if !collisionFree then
            (w1.modifyPlayer (fun p => p.refund costs), none)
          else if overlapsUnits then
            (w1.modifyPlayer (fun p => p.refund costs), none)
          else
            match Base.AddBuilding w1 base buildingType ptr with
            | (w2, none) => (w2.modifyPlayer (fun p => p.refund costs), none)
            | (w2, some building) =>
              (w2.modifyPlayer (fun p =>
                (p.addGenerating (GetResourceGeneration buildingType BASIC_BUILDING)).incrementCapacity
                  (GetPopulationCapacity building.Typ building.Variant)), some building)

/-- The bookkeeping of `handleUpgradeBuildingsMessage` between the cost
deduction and the call of `UpgradeBuilding` (handlers.go:500–545) for the
building found under the ID: power, generation and population of the player,
and the spawner of the building. -/
def upgradeAccounts (p : Player) (power : Resource) (building : Building)
    (buildingVariant : BuildingVariant) : Player :=
  (((((p.setPower power).subGenerating
    (GetResourceGeneration building.Typ building.Variant)).addGenerating
    (GetResourceGeneration building.Typ buildingVariant)).decrementCapacity
    (GetPopulationCapacity building.Typ building.Variant)).incrementCapacity
    (GetPopulationCapacity building.Typ buildingVariant))

/-- The first `switch building.Type` of the loop body (handlers.go:534–545):
the spawner of the building is removed; the `Bool` is `wasUnitSpawningActive`. -/
def upgradeRemoveSpawner (w : World) (base : BaseRef) (building : Building) : World × Bool :=
  if building.Typ == BARRACKS then
    let wasUnitSpawningActive :=
      match w.player.GetUnitSpawningForBarrack building with
      | some unitSpawning => unitSpawning.Activated
      | none => false
    (w.modifyPlayer (fun p => p.RemoveUnitSpawning building), wasUnitSpawningActive)
  else if building.Typ == SIMPLE_TURRET || building.Typ == SNIPER_TURRET then
    (w.modifyBase base (fun b => b.RemoveBulletSpawning building), false)
  else
    (w, false)

/-- The second `switch building.Type` of the loop body (handlers.go:554–559);
`building` is the object after the upgrade. -/
def upgradeAddSpawner (w : World) (base : BaseRef) (building : Building)
    (wasUnitSpawningActive : Bool) : World :=
  if building.Typ == BARRACKS then
    w.modifyPlayer (fun p => (p.AddUnitSpawning building wasUnitSpawningActive).1)
  else if building.Typ == SIMPLE_TURRET || building.Typ == SNIPER_TURRET then
    w.modifyBase base (fun b => (b.AddBulletSpawning building).1)
  else
    w

/-- The body of the loop of `handleUpgradeBuildingsMessage` over the building
IDs of the payload (handlers.go:464–560) for one ID, `base` being the base
selected by the flag byte.  The `Bool` is `false` when the handler returns
inside the body and `true` when the loop goes on. -/
def upgradeBuildingsBody (base : BaseRef) (buildingVariant : BuildingVariant)
    (w : World) (buildingID : ID) : World × Bool :=
  match mapGet (w.getBase base).Buildings buildingID with
  | none => (w, false)
  | some building =>
    if !ValidateUpgradePath building.Typ building.Variant buildingVariant then
      (w, false)
    else
      match GetBuildingCost building.Typ buildingVariant with
      | none => (w, false)
      | some costs =>
        match w.player.Resources.Power.Decrement costs with
        | (_, false) => (w, false)
        | (power, true) =>
          match upgradeRemoveSpawner
              (w.modifyPlayer (fun p => upgradeAccounts p power building buildingVariant))
              base building with
          | (w1, wasUnitSpawningActive) =>
            match Base.UpgradeBuilding w1 base buildingID buildingVariant with
            | (w2, false) => (w2.modifyPlayer (fun p => p.refund costs), false)
            | (w2, true) =>
              (upgradeAddSpawner w2 base
                ((mapGet (w2.getBase base).Buildings buildingID).getD building)
                wasUnitSpawningActive, true)

/-- The loop of `handleUpgradeBuildingsMessage` over the building IDs.  The
`Bool` is `false` when the handler returned inside the loop and `true` when it
went on to `broadcastBuildingsUpgraded`. -/
def upgradeBuildingsLoop (base : BaseRef) (buildingVariant : BuildingVariant) :
    List ID → World → World × Bool
  | [], w => (w, true)
  | buildingID :: rest, w =>
    match upgradeBuildingsBody base buildingVariant w buildingID with
    | (w1, false) => (w1, false)
    | (w1, true) => upgradeBuildingsLoop base buildingVariant rest w1

/-- `handleUpgradeBuildingsMessage` after the payload has been split into the
selected base, the target variant and the building IDs. -/
def handleUpgradeBuildingsMessage (w : World) (base : BaseRef)
    (buildingVariant : BuildingVariant) (buildingIDs : List ID) : World × Bool :=
  upgradeBuildingsLoop base buildingVariant buildingIDs w

/-- `getPositionIntFromPayload`: two big-endian `int16` values. -/
def getPositionIntFromPayload (payload : List Nat) : PositionInt :=
  match payload with
  | b0 :: b1 :: b2 :: b3 :: _ =>
    { X := wrapInt16 (b0 * 256 + b1), Y := wrapInt16 (b2 * 256 + b3) }
  | _ => { X := 0, Y := 0 }

/-- `areUnitsGrouped`: false as soon as one pair of positions is more than
`radius` apart. -/
def areUnitsGrouped (lastUnitPositions newUnitPositions : List PositionInt) (radius : Nat) :
    Bool :=
  newUnitPositions.all (fun newPos =>
    lastUnitPositions.all (fun lastPos => !(lastPos.DistanceTo newPos).gt radius))

/-- `isSuspiciousMovement`; `now` is the clock read by `time.Since`. -/
def isSuspiciousMovement (player : Player) (newMovement : MovementPackage) (now : Time) : Bool :=
  let distanceThreshold := 100
  let targetThreshold := 50
  let timeThreshold := Millisecond * 250
  let lastMove := player.LastMovementPackage
  let allUnitsFound :=
    newMovement.UnitIds.all (fun newUnitId =>
      lastMove.UnitIds.any (fun lastUnitId => newUnitId == lastUnitId))
  if allUnitsFound then
    false
  else if Time.Sub now lastMove.Timestamp < timeThreshold &&
      (lastMove.TargetPosition.DistanceTo newMovement.TargetPosition).lt targetThreshold &&
      areUnitsGrouped lastMove.UnitPositions newMovement.UnitPositions distanceThreshold then
    true
  else
    false

/-- `handleMoveUnitsMessage` up to the point where the movement package is
stored.  `payload` is the message as bytes, `unitPositions` the rounded
positions of the valid units named in it, `stamp` the clock read for the
package and `now` the clock read by `isSuspiciousMovement`.  The second
component tells whether `TriggerKickEvent(player, KICK_REASON_SCRIPTING)` was
called.  The target positions that the rest of the handler gives to the units
are floating point data. -/
def handleMoveUnitsMessage (player : Player) (payload : List Nat)
    (unitPositions : List PositionInt) (stamp now : Time) : Player × Bool :=
  if payload.length < 6 then
    (player, false)
  else
    let numUnits := payload.headD 0
    if numUnits ≤ 0 || numUnits > (payload.drop 1).length then
      (player, false)
    else
      let targetPosition := getPositionIntFromPayload (payload.drop 1)
      let unitIDs := payload.drop 5
      if unitIDs.length != numUnits then
        (player, false)
      else
        let newMovement : MovementPackage :=
          { Timestamp := stamp
            TargetPosition := targetPosition
            UnitPositions := unitPositions
            UnitIds := unitIDs }
        if isSuspiciousMovement player newMovement now then
          (player.HandleSuspiciousBehavior, false)
        else
          match player.UpdateSuspicion with
          | (player1, isScripting) =>
            ({ player1 with LastMovementPackage := newMovement }, isScripting)

/-! ## encoder.go -/

/-- `binary.Write(buffer, binary.BigEndian, v)` for a `uint16`. -/
def writeUint16BigEndian (buffer : List Nat) (v : Nat) : List Nat :=
  buffer ++ [(v / 256) % 256, v % 256]

/-- `EncodeScore`; the buffer is the list of the bytes written so far. -/
def EncodeScore (buffer : List Nat) (score : LeaderboardScore) : List Nat :=
  let buffer := buffer ++ [score.Unit]
  if score.FullValue ≥ 1000000 then
    let integerPart := if score.IntegerPart > 0x1FF then 0x1FF else score.IntegerPart
    let fractionalPart := if score.FractionalPart > 99 then 99 else score.FractionalPart
    let packedScore := ((integerPart <<< 7) % 65536) ||| fractionalPart
    writeUint16BigEndian buffer packedScore
  else if score.FullValue ≥ 1000 then
    let integerPart := if score.IntegerPart > 0x3FF then 0x3FF else score.IntegerPart
    let fractionalPart := if score.FractionalPart > 0x3F then 0x3F else score.FractionalPart
    let packedScore := ((integerPart <<< 6) % 65536) ||| fractionalPart
    writeUint16BigEndian buffer packedScore
  else
    writeUint16BigEndian buffer (score.FullValue % 65536)

end Network

/-! ## Vocabulary of the statements -/

namespace Game

/-- A call of one of the three spawner operations of `Player`. -/
inductive SpawnerCall where
  | add (barracks : Building) (setActive : Bool)
  | toggle (building : Building)
  | remove (barracks : Building)

def SpawnerCall.run (p : Player) : SpawnerCall → Player
  | .add barracks setActive => (p.AddUnitSpawning barracks setActive).1
  | .toggle building => (p.ToggleUnitSpawning building).1
  | .remove barracks => p.RemoveUnitSpawning barracks

def runSpawnerCalls (p : Player) (calls : List SpawnerCall) : Player :=
  calls.foldl SpawnerCall.run p

/-- Number of `UnitSpawning` entries with `Activated = true`. -/
def activeSpawners (p : Player) : Nat :=
  p.UnitSpawning.countP (fun s => s.Activated)

/-- The invariant of the spawner operations. -/
def SpawnerInv (p : Player) : Prop :=
  activeSpawners p ≤ p.UnitSpawningLimit.Current ∧ p.UnitSpawningLimit.Current ≤ 5 ∧
    p.UnitSpawningLimit.Max = 5

/-- How one upgrade request may change a building: the type stays, and the
variant either stays or moves to `target` along an edge of the catalogue. -/
def VariantStep (target : BuildingVariant) (b b' : Building) : Prop :=
  b'.Typ = b.Typ ∧
    (b'.Variant = b.Variant ∨
      (b'.Variant = target ∧ ValidateUpgradePath b.Typ b.Variant target = true))

/-- Every building of `w'` is a building of `w` under the same ID of the same
base, changed by at most a `VariantStep`. -/
def UpgradeRel (target : BuildingVariant) (w w' : World) : Prop :=
  ∀ r id b', mapGet (w'.getBase r).Buildings id = some b' →
    ∃ b, mapGet (w.getBase r).Buildings id = some b ∧ VariantStep target b b'

/-- The building object that the successful path of `AddBuilding` creates. -/
def placedBuilding (w : World) (r : BaseRef) (t : BuildingType) (ptr : Nat) (id : ID) :
    Building :=
  { Ptr := ptr, Owner := (w.getBase r).Owner, ID := id, Typ := t, Variant := BASIC_BUILDING,
    Health := GetInitialHealth t BASIC_BUILDING, RemoveFlag := false }

/-- Number of buildings of a map that have type `t` and are not marked for
removal. -/
def countType (t : BuildingType) (m : List (ID × Building)) : Nat :=
  m.countP (fun e => e.2.Typ == t && !e.2.RemoveFlag)

/-- The invariant of a base under placement and removal: the IDs of the
buildings and the free IDs are two duplicate-free, disjoint lists, no linked
building is marked for removal, and every limit counter is the number of
buildings of its type. -/
def BaseInv (b : Base) : Prop :=
  (mapKeys b.Buildings).Nodup ∧
  b.AvailableBuildingIDs.IDs.Nodup ∧
  (∀ id ∈ b.AvailableBuildingIDs.IDs, id ∉ mapKeys b.Buildings) ∧
  (∀ e ∈ b.Buildings, e.2.RemoveFlag = false) ∧
  ∀ t, (b.getLimit t).Current = (countType t b.Buildings : Int)

end Game

/-! ## Concrete states used by the statements -/

namespace Game

/-- The base of a new player: no bullets, all 256 bullet IDs free. -/
def freshBase : Base :=
  (newPlayer 1 0 0).Base

/-- A spawner whose shooter is a SIMPLE_TURRET of the player. -/
def turretSpawner : BulletSpawning :=
  { Shooter := .building
      { Ptr := 7, Owner := .player 1, ID := 0, Typ := SIMPLE_TURRET, Variant := BASIC_BUILDING,
        Health := ⟨100, 100⟩, RemoveFlag := false }
    Frequency := ⟨0, 750⟩
    Range := 350 }

/-- A spawner whose shooter is a WALL, a building type without bullet stats. -/
def wallSpawner : BulletSpawning :=
  { Shooter := .building
      { Ptr := 7, Owner := .player 1, ID := 0, Typ := WALL, Variant := BASIC_BUILDING,
        Health := ⟨800, 800⟩, RemoveFlag := false }
    Frequency := ⟨0, 750⟩
    Range := 350 }

/-- A spawner without a shooter. -/
def nilSpawner : BulletSpawning :=
  { Shooter := .nil, Frequency := ⟨0, 750⟩, Range := 350 }

/-- A new player next to a neutral base of the map that nobody has captured. -/
def startWorld : World :=
  { player := newPlayer 1 0 0, neutral := newNeutralBase 2 0 100 }

/-- The start world after the player has captured the neutral base. -/
def capturedWorld : World :=
  handleNeutralBaseCaptured startWorld 200

/-- The start world with a limit entry for building type 3, a type that has no
polygon. -/
def oddLimitWorld : World :=
  startWorld.modifyBase .playerBase (fun b => { b with BuildingLimits := [(3, ⟨0, 1⟩)] })

/-- The start world with a population capacity of 2045. -/
def crowdedWorld : World :=
  startWorld.modifyPlayer (fun p => { p with Population := ⟨0, 2045⟩ })

/-- A new player (power 6000, population 0 of 64) who has placed one
barracks on the own base. -/
def barracksPlayer : Player :=
  (Network.handlePlacedBuildingMessage startWorld BARRACKS (some .playerBase) true false
    300).1.player

/-- A run of one-second ticks of the spawn loop for one player, one tick per
element of `ptrs` (the address at which that tick allocates its first unit). -/
def spawnTicks (p : Player) (ptrs : List Nat) : Player :=
  ptrs.foldl (fun q ptr => (startUnitSpawnLoop q ptr).1) p

/-- What a tick shows: the types of the spawned units, the used population
and the frequency counters of the spawners after the tick. -/
def tickView (p : Player) (ptr : Nat) : List UnitType × Nat × List Nat :=
  ((startUnitSpawnLoop p ptr).2.map (fun u => u.Typ),
   (startUnitSpawnLoop p ptr).1.Population.Used,
   (startUnitSpawnLoop p ptr).1.UnitSpawning.map (fun s => s.Frequency.Current))

/-- The views of the ticks of a run. -/
def ticksView : Player → List Nat → List (List UnitType × Nat × List Nat)
  | _, [] => []
  | p, ptr :: rest => tickView p ptr :: ticksView (startUnitSpawnLoop p ptr).1 rest

/-- A barracks object at the address `ptr`. -/
def barracksAt (ptr : Nat) : Building :=
  { Ptr := ptr, Owner := .player 1, ID := ptr, Typ := BARRACKS, Variant := BASIC_BUILDING,
    Health := ⟨150, 150⟩, RemoveFlag := false }

/-- A new player after six barracks have registered their spawners. -/
def sixBarracksPlayer : Player :=
  runSpawnerCalls (newPlayer 1 0 0)
    [ .add (barracksAt 11) true, .add (barracksAt 12) true, .add (barracksAt 13) true,
      .add (barracksAt 14) true, .add (barracksAt 15) true, .add (barracksAt 16) true ]

/-- The start world after the player has placed a SIMPLE_TURRET. -/
def turretWorld : World :=
  (Network.handlePlacedBuildingMessage startWorld SIMPLE_TURRET (some .playerBase) true false
    300).1

end Game

/-! ## Vocabulary and states of the anti-script statements -/

namespace Game

/-- The results of a run of `CanPerformBuildingAction` calls, one call per
element of the list (the clock value that the call reads). -/
def buildingActionResults : Player → List Time → List Bool
  | _, [] => []
  | p, now :: rest =>
    (p.CanPerformBuildingAction now).2 ::
      buildingActionResults (p.CanPerformBuildingAction now).1 rest

/-- Twenty calls: one at second 1, nine 950 ms later and ten 1000 ms later. -/
def burstTimes : List Time :=
  [1000000000] ++ List.replicate 9 1950000000 ++ List.replicate 10 2000000000

end Game

namespace Network

open Game

/-- The three payload checks of `handleMoveUnitsMessage`. -/
def validMovePayload (payload : List Nat) : Bool :=
  !(payload.length < 6) &&
  !(payload.headD 0 ≤ 0 || payload.headD 0 > (payload.drop 1).length) &&
  !((payload.drop 5).length != payload.headD 0)

/-- The movement package that `handleMoveUnitsMessage` builds. -/
def movementOf (payload : List Nat) (unitPositions : List PositionInt) (stamp : Time) :
    MovementPackage :=
  { Timestamp := stamp
    TargetPosition := getPositionIntFromPayload (payload.drop 1)
    UnitPositions := unitPositions
    UnitIds := payload.drop 5 }

/-- A run of move messages, each with its payload, the positions of its
units and the clock value; the result lists the kick flag of every message. -/
def moveRun : Player → List (List Nat × List PositionInt × Time) → Player × List Bool
  | p, [] => (p, [])
  | p, (payload, positions, now) :: rest =>
    ((moveRun (handleMoveUnitsMessage p payload positions now now).1 rest).1,
      (handleMoveUnitsMessage p payload positions now now).2 ::
        (moveRun (handleMoveUnitsMessage p payload positions now now).1 rest).2)

/-- A new player whose first move message sent unit 1 to (32767, 0). -/
def farPlayer : Player :=
  (handleMoveUnitsMessage (newPlayer 1 0 0) [1, 127, 255, 0, 0, 1] [⟨0, 0⟩] 1000000000
    1000000000).1

/-- Eight identical move messages (unit 1 to (100, 100)) at 80 ms intervals. -/
def identicalMoves : List (List Nat × List PositionInt × Time) :=
  (List.range 8).map (fun i => ([1, 0, 100, 0, 100, 1], [⟨0, 0⟩], 1000000000 + 80000000 * (i : Int)))

/-- One move message for unit 1, five messages for the units 2 to 6 at 40 ms
intervals, and a last message for unit 1 again, 240 ms after the first. -/
def splitMoves : List (List Nat × List PositionInt × Time) :=
  [ ([1, 0, 100, 0, 100, 1], [⟨0, 0⟩], 1000000000),
    ([1, 0, 100, 0, 100, 2], [⟨0, 0⟩], 1040000000),
    ([1, 0, 100, 0, 100, 3], [⟨0, 0⟩], 1080000000),
    ([1, 0, 100, 0, 100, 4], [⟨0, 0⟩], 1120000000),
    ([1, 0, 100, 0, 100, 5], [⟨0, 0⟩], 1160000000),
    ([1, 0, 100, 0, 100, 6], [⟨0, 0⟩], 1200000000),
    ([1, 0, 100, 0, 100, 1], [⟨0, 0⟩], 1240000000) ]

end Network

namespace Game

/-- A spawner whose shooter is a SNIPER_TURRET upgraded to ANTI_TANK_GUN. -/
def antiTankSpawner : BulletSpawning :=
  { Shooter := .building
      { Ptr := 7, Owner := .player 1, ID := 0, Typ := SNIPER_TURRET, Variant := ANTI_TANK_GUN,
        Health := ⟨100, 100⟩, RemoveFlag := false }
    Frequency := ⟨0, 2500⟩
    Range := 450 }

/-- The bullet that `AddBullet` creates for `antiTankSpawner`. -/
def antiTankBullet : Bullet :=
  { Owner := .player 1, ID := 0, Health := ⟨60, 60⟩, Size := 12, FiredByUnit := false,
    RemoveFlag := false, DamageMultiplier := ⟨3, 1⟩, Behavior := .AntiTankBullet,
    ReachedTargetPosition := false, StayDuration := 0 }

/-- The bullet that `AddBullet` creates for `turretSpawner`. -/
def turretBullet : Bullet :=
  { Owner := .player 1, ID := 0, Health := ⟨15, 15⟩, Size := 10, FiredByUnit := false,
    RemoveFlag := false, DamageMultiplier := ⟨0, 0⟩, Behavior := .NormalBullet,
    ReachedTargetPosition := false, StayDuration := 0 }

/-- A unit of the given type at full health, as `AddUnit` creates it. -/
def freshUnit (unitType : UnitType) : Game.Unit :=
  match ((newPlayer 2 0 1).AddUnit unitType BASIC_UNIT 50).2 with
  | some u => u
  | none => { Ptr := 50, ID := 0, Typ := unitType, Variant := BASIC_UNIT, Health := ⟨0, 0⟩,
              Size := 0, ExplosionRadius := 0, RemoveFlag := false }

/-- The bullet that `AddBullet` creates for `turretSpawner` on the neutral
base at address 2. -/
def neutralTurretBullet : Bullet :=
  { turretBullet with Owner := .neutral 2 }

/-- The base of the neutral base at address 2 after it has fired
`neutralTurretBullet`. -/
def neutralFiringBase : Base :=
  ((newNeutralBase 2 0 100).Base.AddBullet turretSpawner false).1

end Game

namespace Network

open Game

/-- The big-endian `uint16` at the given offset of a byte buffer. -/
def readUint16BigEndian (bytes : List Nat) (offset : Nat) : Nat :=
  bytes.getD offset 0 * 256 + bytes.getD (offset + 1) 0

end Network

/-! ## Vocabulary and states of the leaderboard statements -/

namespace Game

/-- What the library call `sort.Slice(xs, less)` promises of its result: a
rearrangement of the slice in which no element is `less` than an element
before it. -/
def SortsBy {α : Type} (less : α → α → Bool) (sortSlice : List α → List α) : Prop :=
  ∀ xs, (sortSlice xs).Perm xs ∧ (sortSlice xs).Pairwise (fun a b => less b a = false)

/-- The entry that `Update` builds for a player of the map. -/
def entryOf (kv : ID × Player) : LeaderboardEntry :=
  { Player := kv.2, Score := ConvertToLeaderboardScore kv.2.GetScore }

/-- The score as the client displays it. -/
def displayed (e : LeaderboardEntry) : Nat × Nat × Nat :=
  (e.Score.IntegerPart, e.Score.FractionalPart, e.Score.Unit)

/-- The order by descending `FullValue`. -/
def scoreGe (a b : LeaderboardEntry) : Prop :=
  a.Score.FullValue ≥ b.Score.FullValue

instance : DecidableRel scoreGe :=
  fun a b => inferInstanceAs (Decidable (a.Score.FullValue ≥ b.Score.FullValue))

/-- A sorting function that meets `SortsBy scoreLess`: insertion sort. -/
def scoreSort (xs : List LeaderboardEntry) : List LeaderboardEntry :=
  xs.insertionSort scoreGe

/-- A new player with the given ID and score. -/
def scorePlayer (id : ID) (score : Nat) : Player :=
  { newPlayer id 0 id with Score := score }

instance : IsTotal LeaderboardEntry scoreGe :=
  ⟨fun a b => by unfold scoreGe; omega⟩

instance : IsTrans LeaderboardEntry scoreGe :=
  ⟨fun a b c h1 h2 => by unfold scoreGe at *; omega⟩

/-- Each number is strictly greater than the number after it. -/
def strictlyDescending : List Nat → Bool
  | a :: b :: rest => decide (a > b) && strictlyDescending (b :: rest)
  | _ => true

/-- Two players with score 0. -/
def tiedPlayers : List (ID × Player) :=
  [(1, scorePlayer 1 0), (2, scorePlayer 2 0)]

/-- The players 1, 2, 3 at the scores 100, 200, 300. -/
def scoreMap0 : List (ID × Player) :=
  [(1, scorePlayer 1 100), (2, scorePlayer 2 200), (3, scorePlayer 3 300)]

/-- The same players after player 1 has gained 2000. -/
def scoreMap1 : List (ID × Player) :=
  [(1, scorePlayer 1 2100), (2, scorePlayer 2 200), (3, scorePlayer 3 300)]

/-- The leaderboard after the first update of the scenario. -/
def board0 : Leaderboard :=
  { Entries := [entryOf (3, scorePlayer 3 300), entryOf (2, scorePlayer 2 200),
      entryOf (1, scorePlayer 1 100)] }

end Game

namespace Game

/-- The start world with the neutral base damaged to 400 of 1000 health. -/
def damagedNeutralWorld : World :=
  startWorld.modifyBase .neutralBase (fun b => { b with Health := ⟨400, 1000⟩ })

end Game

/-! ## handlers.go: the radius check of a placement -/

namespace Network

open Game

/-- The minimum radius that the `switch buildingType` of
`handlePlacedBuildingMessage` computes for the player base
(handlers.go:302-314). -/
def playerMinRadius (buildingType : BuildingType) : Int :=
  if buildingType = BARRACKS then
    355
  else if buildingType = GENERATOR ∨ buildingType = HOUSE then
    120 + ((GetBuildingSize buildingType : Nat) + (-6 : Int))
  else
    120 + (GetBuildingSize buildingType : Nat)

/-- The conversion `uint16(x)` of an `int`. -/
def toUint16 (x : Int) : Nat :=
  (x % 65536).toNat

/-- `math.Floor` of a `float64` that is not negative: `some d` is the finite
value `d`, `none` is NaN or +Inf, which `math.Floor` returns as they are.  The
result of a finite value is a whole number. -/
def floorFloat (x : Option Dyadic) : Option Nat :=
  x.map (fun d => d.Mantissa / 2 ^ d.Shift)

/-- `math.Ceil` of a `float64` that is not negative. -/
def ceilFloat (x : Option Dyadic) : Option Nat :=
  x.map (fun d => (d.Mantissa + 2 ^ d.Shift - 1) / 2 ^ d.Shift)

/-- The conversion `uint16(x)` of a whole-valued `float64` that is not
negative.  A value that `uint16` cannot hold (65536 and above, NaN, +Inf)
converts to an implementation-dependent value: `outOfRange` is what the
platform yields for it. -/
def floatToUint16 (outOfRange : Option Nat → Nat) (x : Option Nat) : Nat :=
  match x with
  | some n => if n < 65536 then n else outOfRange (some n) % 65536
  | none => outOfRange none % 65536

/-- The test `isPlayerRadiusValid` (handlers.go:322-330) on the `float64`
value `distance` of handlers.go:293. -/
def isPlayerRadiusValid (outOfRange : Option Nat → Nat) (buildingType : BuildingType)
    (distance : Option Dyadic) : Bool :=
  let maxRadius : Int := 355
  let minRadius := playerMinRadius buildingType
  let tolerance : Int := 2
  if buildingType = BARRACKS then
    decide (floatToUint16 outOfRange (floorFloat distance) ≥ toUint16 (maxRadius - tolerance)) &&
      decide (floatToUint16 outOfRange (ceilFloat distance) ≤ toUint16 (maxRadius + tolerance))
  else
    !(decide (floatToUint16 outOfRange (floorFloat distance) > toUint16 (maxRadius + tolerance)) ||
      decide (floatToUint16 outOfRange (ceilFloat distance) < toUint16 (minRadius - tolerance)))

/-- The base that the radius checks select (handlers.go:316-358).
`neutralInRange` is the outcome of the floating point test on the distance to
the neutral base of the world. -/
def selectBase (outOfRange : Option Nat → Nat) (w : World) (buildingType : BuildingType)
    (distance : Option Dyadic) (neutralInRange : Bool) : Option BaseRef :=
  if isPlayerRadiusValid outOfRange buildingType distance then
    some .playerBase
  else if w.player.CapturedNeutralBases.contains w.neutral.Ptr && neutralInRange then
    some .neutralBase
  else
    none

/-- The world of `turretWorld` after the turret has been upgraded to
RAPID_TURRET. -/
def rapidTurretWorld : World :=
  (handleUpgradeBuildingsMessage turretWorld .playerBase RAPID_TURRET [0]).1

end Network

/-! ## player.go and game.go: commander and unit destruction -/

namespace Game

/-- `Player.AddCommander`; `ptr` is the address of the `Unit` object it
allocates. -/
def Player.AddCommander (p : Player) (ptr : Nat) : Player × Option Game.Unit :=
  match p.AvailableUnitIDs.getNextAvailableID with
  | (_, _, false) => (p, none)
  | (ids, unitID, true) =>
    let p1 := { p with AvailableUnitIDs := ids }
    match GetUnitStats COMMANDER 0 with
    | none => (p1, none)
    | some unitStats =>
      if !GetUnitPolygon COMMANDER 0 then
        (p1, none)
      else
        let unit : Game.Unit :=
          { Ptr := ptr
            ID := unitID
            Typ := COMMANDER
            Variant := 0
            Health := unitStats.Health
            Size := unitStats.Size
            ExplosionRadius := unitStats.ExplosionRadius
            RemoveFlag := false }
        let p2 := { p1 with Units := mapSet p1.Units unitID unit, HasCommander := true }
        ((p2.AddUnitBulletSpawning unit).1, some unit)

/-- The test `shooterUnit == unit` of `RemoveUnitBulletSpawning`. -/
def shooterIsUnit (s : BulletSpawning) (unit : Game.Unit) : Bool :=
  match s.Shooter with
  | .unit shooterUnit => shooterUnit.Ptr == unit.Ptr
  | _ => false

def Player.RemoveUnitBulletSpawning (p : Player) (unit : Game.Unit) : Player :=
  { p with UnitBulletSpawning := p.UnitBulletSpawning.filter (fun s => !shooterIsUnit s unit) }

/-- `handleUnitDestroyed(unit)` for a unit of the player `p` (`unit.Player`). -/
def handleUnitDestroyed (p : Player) (unit : Game.Unit) : Player :=
  let p1 :=
    if unit.Typ == TANK && unit.Variant == CANNON_TANK ||
        unit.Typ == SIEGE_TANK && unit.Variant == CANNON_SIEGE_TANK then
      p.RemoveUnitBulletSpawning unit
    else p
  match p1.RemoveUnit unit.ID with
  | (p2, true) =>
    match GetUnitRequiredPopulation unit.Typ with
    | none => p2
    | some requiredPopulation =>
      { p2 with Population := (p2.Population.DecrementUsed requiredPopulation).1 }
  | (p2, false) => p2

/-- A new player who has bought a commander (the unit object is at address 60). -/
def commanderPlayer : Player :=
  ((newPlayer 1 0 0).AddCommander 60).1

/-- The commander of `commanderPlayer`. -/
def theCommander : Game.Unit :=
  { Ptr := 60, ID := 0, Typ := COMMANDER, Variant := 0, Health := ⟨4000, 4000⟩, Size := 40,
    ExplosionRadius := 0, RemoveFlag := false }

/-- A new player with one unit of type TANK and the given variant (the unit
object at address 61), as the spawn loop adds it: `AddUnit` followed by
`AddUnitBulletSpawning`. -/
def tankPlayer (variant : UnitVariant) : Player :=
  match (newPlayer 1 0 0).AddUnit TANK variant 61 with
  | (p, some unit) => (p.AddUnitBulletSpawning unit).1
  | (p, none) => p

/-- The unit of `tankPlayer variant`. -/
def theTank (variant : UnitVariant) : Game.Unit :=
  { Ptr := 61, ID := 0, Typ := TANK, Variant := variant,
    Health := (GetUnitStats TANK variant).elim ⟨0, 0⟩ (fun s => s.Health), Size := 28,
    ExplosionRadius := 0, RemoveFlag := false }

end Game

namespace Game

/-! ## float64 arithmetic -/

/-- The whole number nearest to `n / d`, a tie going to the even neighbour. -/
def roundHalfEven (n d : Nat) : Nat :=
  let q := n / d
  let r := n % d
  if 2 * r < d then q else if 2 * r > d then q + 1 else if q % 2 = 0 then q else q + 1

/-- The least shift `k`, searched upwards from the given one, for which
`n * 2 ^ k / d` has reached 53 bits. -/
def normShift (n d : Nat) : Nat → Nat → Nat
  | 0, k => k
  | fuel + 1, k => if n * 2 ^ k < 2 ^ 52 * d then normShift n d fuel (k + 1) else k

/-- The `float64` nearest to the rational `n / d` (rounding to nearest, ties
to even, 53 bits of mantissa), for `n / d` below `2 ^ 53` and not subnormal. -/
def Float64.ofRatio (n d : Nat) : Dyadic :=
  if n = 0 then ⟨0, 0⟩
  else
    let k := normShift n d 1074 0
    ⟨roundHalfEven (n * 2 ^ k) d, k⟩

/-- The `float64` quotient `float64(x) / y` of two whole numbers below
`2 ^ 53`. -/
def Float64.divNat (x y : Nat) : Dyadic :=
  Float64.ofRatio x y

/-- The `float64` product `a * c` for a whole number `c`. -/
def Float64.mulNat (a : Dyadic) (c : Nat) : Dyadic :=
  Float64.ofRatio (a.Mantissa * c) (2 ^ a.Shift)

/-- `math.Min(a, c)` for a whole number `c`. -/
def Float64.minNat (a : Dyadic) (c : Nat) : Dyadic :=
  if a.Mantissa ≤ c * 2 ^ a.Shift then a else ⟨c, 0⟩

/-- The sum of two `uint32` values. -/
def add32 (a b : Nat) : Nat :=
  (a + b) % 4294967296

def Player.IncrementKills (p : Player) (value : Nat) : Player :=
  { p with Kills := add32 p.Kills value }

/-- `Player.IncrementScore`; the leaderboard update that follows the addition
is not part of it here. -/
def Player.IncrementScore (p : Player) (value : Nat) : Player :=
  { p with Score := add32 p.Score value }

def Player.MarkForRemoval (p : Player) : Player :=
  { p with RemoveFlag := true }

def Base.TakeDamage (b : Base) (amount : Nat) : Base × Bool :=
  let b1 := { b with Health := b.Health.Decrement amount }
  (b1, b1.Health.IsAlive)

/-- The value `uint16(powerIncrement)` of `checkBaseCollisions`, where
`powerIncrement := math.Min((float64(otherPlayer.Score)/100)*10, 6000)`. -/
def killPowerIncrement (score : Nat) : Nat :=
  (Float64.minNat (Float64.mulNat (Float64.divNat score 100) 10) 6000).toUint16

/-- The body of `if isNearCore` in `checkBaseCollisions` (game.go:932-959) for
a unit of `player` at the core of `otherPlayer`, up to the destruction of the
unit: the two players and the unit after the hit, whether `otherPlayer` was
killed and whether the unit was destroyed. -/
def coreHitBody (player otherPlayer : Player) (unit : Game.Unit) :
    Player × Player × Game.Unit × Bool × Bool :=
  let otherPlayerHealth := otherPlayer.Base.Health.Current
  let unitHealth := unit.Health.Current
  let (unit1, unitIsAlive) := unit.TakeDamage otherPlayerHealth
  let (base1, otherPlayerIsAlive) := otherPlayer.Base.TakeDamage unitHealth
  let otherPlayer1 := { otherPlayer with Base := base1 }
  let (player1, otherPlayer2) :=
    if !otherPlayerIsAlive then
      let scoreIncrement := ((otherPlayer1.Score / 100) * 50) % 4294967296
      let player1 := (player.IncrementScore scoreIncrement).IncrementKills 1
      let player2 :=
        { player1 with Resources :=
            ⟨player1.Resources.Power.Increment (killPowerIncrement otherPlayer1.Score)⟩ }
      (player2, otherPlayer1.MarkForRemoval)
    else
      (player, otherPlayer1)
  let unit2 := if !unitIsAlive then unit1.MarkForRemoval else unit1
  (player1, otherPlayer2, unit2, !otherPlayerIsAlive, !unitIsAlive)

/-- A player with score 150 whose base is down to 100 health. -/
def weakPlayer : Player :=
  { newPlayer 2 0 1 with Score := 150, Base := { (newPlayer 2 0 1).Base with Health := ⟨100, 2000⟩ } }

end Game

/-! ## Vocabulary of the catalogue statement -/

namespace Game

/-- The variants a two-level table lists for the type `t`. -/
def variantsOf {β : Type} (table : List (Nat × List (Nat × β))) (t : Nat) : List Nat :=
  match table.lookup t with
  | some inner => mapKeys inner
  | none => []

/-- The `(type, variant)` keys of a two-level table. -/
def tableKeys {β : Type} (table : List (Nat × List (Nat × β))) : List (Nat × Nat) :=
  table.flatMap (fun e => (mapKeys e.2).map (fun v => (e.1, v)))

/-- The unit of the spawning entry of a barracks variant has statistics and a
polygon. -/
def barracksUnitKnown (v : BuildingVariant) : Bool :=
  match GetUnitSpawning v with
  | some s => (GetUnitStats s.UnitType s.UnitVariant).isSome && GetUnitPolygon s.UnitType s.UnitVariant
  | none => false

end Game

/-! ## Vocabulary of the ID pool statement -/

namespace Game

/-- A call on an ID pool. -/
inductive PoolCall where
  | acquire
  | release (id : ID)
deriving DecidableEq, Repr

/-- A sequence of calls on a pool: the final pool and the results of the
`getNextAvailableID` calls, in order. -/
def runPool : AvailableIDs → List PoolCall → AvailableIDs × List (ID × Bool)
  | a, [] => (a, [])
  | a, .acquire :: calls =>
    let r := a.getNextAvailableID
    let rest := runPool r.1 calls
    (rest.1, (r.2.1, r.2.2) :: rest.2)
  | a, .release id :: calls => runPool (a.returnID id) calls

/-- The IDs handed out by the successful acquisitions, in order. -/
def handedOut (results : List (ID × Bool)) : List ID :=
  (results.filter (fun r => r.2)).map (fun r => r.1)

/-- The IDs given back by the calls, in order. -/
def released : List PoolCall → List ID
  | [] => []
  | .acquire :: calls => released calls
  | .release id :: calls => id :: released calls

end Game

/-! ## encoder.go: base positions -/

namespace Network

open Game

/-- `binary.Write(buffer, binary.BigEndian, v)` for an `int16`: the two bytes
of the two's-complement bit pattern, the high byte first. -/
def writeInt16BigEndian (buffer : List Nat) (v : Int) : List Nat :=
  writeUint16BigEndian buffer (v % 65536).toNat

/-- `writeBasePosition`; the buffer is the list of the bytes written so far. -/
def writeBasePosition (buffer : List Nat) (position : PositionInt) : List Nat :=
  writeInt16BigEndian (writeInt16BigEndian buffer position.X) position.Y

end Network

/-! ## position.go: `Distance` -/

namespace Game

/-- `Distance`: the differences, their squares and the sum are `int16`
expressions; the sum is converted to `float64` and `math.Sqrt` of a negative
number is NaN, which is `none`. -/
def Distance (p1 p2 : PositionInt) : Option Root :=
  let dx := wrapInt16 (p1.X - p2.X)
  let dy := wrapInt16 (p1.Y - p2.Y)
  let sum := wrapInt16 (wrapInt16 (dx * dx) + wrapInt16 (dy * dy))
  if sum < 0 then none else some ⟨sum.toNat⟩

end Game

/-! ## handlers.go: the toggle request -/

namespace Network

open Game

/-- `player.GetCapturedNeutralBase(id)` for the player of the world: the
neutral base of the world is found when it is in `CapturedNeutralBases` and
has the ID. -/
def getCapturedNeutralBase (w : World) (id : ID) : Bool :=
  w.player.CapturedNeutralBases.contains w.neutral.Ptr && w.neutral.ID == id

/-- `handleToggleUnitSpawning` for the connection of the player of the world.
The result is `none` when the handler faults on an index out of range; the
`Bool` says whether `broadcastBarracksActivationUpdate` is called. -/
def handleToggleUnitSpawning (w : World) (payload : List Nat) : Option (World × Bool) :=
  if payload.length > 2 then
    some (w, false)
  else
    match payload[0]? with
    | none => none
    | some buildingID =>
      let selected : Option BaseRef :=
        if payload.length == 2 then
          match payload[1]? with
          | none => none
          | some neutralBaseID =>
            if getCapturedNeutralBase w neutralBaseID then some .neutralBase else none
        else some .playerBase
      match selected with
      | none => some (w, false)
      | some base =>
        match mapGet (w.getBase base).Buildings buildingID with
        | none => some (w, false)
        | some building =>
          match w.player.GetUnitSpawningForBarrack building with
          | none => some (w, false)
          | some _ =>
            match w.player.ToggleUnitSpawning building with
            | (player, ok) => some ({ w with player := player }, ok)

end Network

/-! ## polygon.go

The floating point operations are a parameter: `F` is the set of floating
point values and `Floats F` interprets the operations the code applies to
them.  Every operation is a function of its operands. -/

namespace Game

structure Floats (F : Type) where
  /-- The `float32` operations `+`, `-`, `*`, `/`. -/
  add32 : F → F → F
  sub32 : F → F → F
  mul32 : F → F → F
  div32 : F → F → F
  /-- The `float64` operations `-`, `+`, `*`. -/
  sub64 : F → F → F
  add64 : F → F → F
  mul64 : F → F → F
  /-- The conversions `float32(x)` and `float64(x)`. -/
  to32 : F → F
  to64 : F → F
  sqrt : F → F
  cos : F → F
  sin : F → F
  /-- The comparison `x < y`. -/
  lt : F → F → Bool
  /-- The comparison `x == 0`. -/
  isZero : F → Bool
  posInf : F
  negInf : F

structure PositionFloat (F : Type) where
  X : F
  Y : F

structure Polygon (F : Type) where
  Vertices : List (PositionFloat F)
  Center : PositionFloat F
  Rotation : F
  rotationOffset : F

def Polygon.GetGlobalVertices {F : Type} (fl : Floats F) (p : Polygon F) :
    List (PositionFloat F) :=
  let cos := fl.cos p.Rotation
  let sin := fl.sin p.Rotation
  p.Vertices.map (fun vertex =>
    let x := fl.to64 vertex.X
    let y := fl.to64 vertex.Y
    let globalX := fl.to32 (fl.sub64 (fl.mul64 x cos) (fl.mul64 y sin))
    let globalY := fl.to32 (fl.add64 (fl.mul64 x sin) (fl.mul64 y cos))
    { X := fl.add32 globalX p.Center.X, Y := fl.add32 globalY p.Center.Y })

/-- `projectVertices`: the pair `(min, max)`. -/
def projectVertices {F : Type} (fl : Floats F) (vertices : List (PositionFloat F))
    (axis : PositionFloat F) : F × F :=
  vertices.foldl
    (fun acc vertex =>
      let projected := fl.to64 (fl.add32 (fl.mul32 vertex.X axis.X) (fl.mul32 vertex.Y axis.Y))
      let min := if fl.lt projected acc.1 then projected else acc.1
      let max := if fl.lt acc.2 projected then projected else acc.2
      (min, max))
    (fl.posInf, fl.negInf)

/-- The closure `getNormal` of `DoPolygonsIntersect`. -/
def getNormal {F : Type} (fl : Floats F) (p1 p2 : PositionFloat F) : PositionFloat F :=
  { X := fl.sub32 p2.Y p1.Y, Y := fl.sub32 p1.X p2.X }

/-- The closure `checkOverlap` of `DoPolygonsIntersect`. -/
def checkOverlap {F : Type} (fl : Floats F) (verticesA verticesB : List (PositionFloat F))
    (axis : PositionFloat F) : Bool :=
  let a := projectVertices fl verticesA axis
  let b := projectVertices fl verticesB axis
  !(fl.lt a.2 b.1 || fl.lt b.2 a.1)

/-- The loop `for i := 0; i < numVertices; i++` of the closure `checkPolygon`
for the indices still to be visited.  The result is `none` when an index
expression is out of range. -/
def checkPolygonLoop {F : Type} (fl : Floats F) (verticesA verticesB : List (PositionFloat F)) :
    List Nat → Option Bool
  | [] => some true
  | i :: rest =>
    let numVertices := verticesA.length
    match verticesA[i]?, verticesA[(i + 1) % numVertices]? with
    | some p1, some p2 =>
      let axis := getNormal fl p1 p2
      let axisLength :=
        fl.sqrt (fl.to64 (fl.add32 (fl.mul32 axis.X axis.X) (fl.mul32 axis.Y axis.Y)))
      if fl.isZero axisLength then
        checkPolygonLoop fl verticesA verticesB rest
      else
        let axis : PositionFloat F :=
          { X := fl.div32 axis.X (fl.to32 axisLength), Y := fl.div32 axis.Y (fl.to32 axisLength) }
        if !checkOverlap fl verticesA verticesB axis then
          some false
        else
          checkPolygonLoop fl verticesA verticesB rest
    | _, _ => none

/-- The closure `checkPolygon` of `DoPolygonsIntersect`. -/
def checkPolygon {F : Type} (fl : Floats F) (verticesA verticesB : List (PositionFloat F)) :
    Option Bool :=
  checkPolygonLoop fl verticesA verticesB (List.range verticesA.length)

/-- `DoPolygonsIntersect`; the operator `&&` evaluates its second operand only
when the first is true.  The result is `none` when the evaluation faults. -/
def DoPolygonsIntersect {F : Type} (fl : Floats F) (polygon1 polygon2 : Polygon F) :
    Option Bool :=
  let vertices1 := polygon1.GetGlobalVertices fl
  let vertices2 := polygon2.GetGlobalVertices fl
  match checkPolygon fl vertices1 vertices2 with
  | none => none
  | some false => some false
  | some true => checkPolygon fl vertices2 vertices1

end Game

/-! ## Locks and event sends

The order in which one goroutine takes and releases locks and sends on
`eventChan` is a list of `SyncAction`. -/

namespace Game

inductive LockRef where
  | world
  | player (ptr : Nat)
deriving DecidableEq, Repr

/-- The event types that occur in the embedded code. -/
inductive EventType where
  | RemoveSpawnProtection
deriving DecidableEq, Repr

inductive SyncAction where
  | lock (l : LockRef)
  | unlock (l : LockRef)
  | rlock (l : LockRef)
  | runlock (l : LockRef)
  | send (event : EventType)
deriving DecidableEq, Repr

/-- The statement `eventChan <- Event{Type: RemoveSpawnProtection, ...}` of
`TriggerRemoveSpawnProtectionEvent`. -/
def TriggerRemoveSpawnProtectionEvent : List SyncAction :=
  [.send .RemoveSpawnProtection]

def Player.HasProtection (p : Player) : Bool :=
  p.HasSpawnProtection

/-- `Player.RemoveProtection`: `p.Lock()`, the deferred `p.Unlock()`, and the
event in between.  `SpawnProtectionEndTime` is not represented. -/
def Player.RemoveProtection (p : Player) : Player × List SyncAction :=
  if p.HasSpawnProtection then
    ({ p with HasSpawnProtection := false },
      [.lock (.player p.Ptr)] ++ TriggerRemoveSpawnProtectionEvent ++ [.unlock (.player p.Ptr)])
  else
    (p, [.lock (.player p.Ptr), .unlock (.player p.Ptr)])

/-- The body of the loop over the players of `startProtectionCheckLoop`;
`ended player` is the value of `time.Now().After(player.GetProtectionEndTime())`,
and `GetProtectionEndTime` takes and releases the read lock of the player. -/
def protectionCheckBody (ended : Player → Bool) (player : Player) : Player × List SyncAction :=
  if player.HasProtection then
    let getProtectionEndTime : List SyncAction :=
      [.rlock (.player player.Ptr), .runlock (.player player.Ptr)]
    if ended player then
      (player.RemoveProtection.1, getProtectionEndTime ++ player.RemoveProtection.2)
    else
      (player, getProtectionEndTime)
  else
    (player, [])

/-- One tick of `startProtectionCheckLoop` over the players of the state. -/
def startProtectionCheckLoop (ended : Player → Bool) (players : List Player) :
    List Player × List SyncAction :=
  let r := players.foldl
    (fun acc player =>
      (acc.1 ++ [(protectionCheckBody ended player).1],
        acc.2 ++ (protectionCheckBody ended player).2))
    (([] : List Player), [SyncAction.rlock .world])
  (r.1, r.2 ++ [.runlock .world])

/-- The events sent in a sequence of actions, each with the locks held by the
goroutine at the moment of the send, the latest first. -/
def heldAtSends : List SyncAction → List LockRef → List (EventType × List LockRef)
  | [], _ => []
  | .lock l :: rest, held => heldAtSends rest (l :: held)
  | .rlock l :: rest, held => heldAtSends rest (l :: held)
  | .unlock l :: rest, held => heldAtSends rest (held.erase l)
  | .runlock l :: rest, held => heldAtSends rest (held.erase l)
  | .send event :: rest, held => (event, held) :: heldAtSends rest held

end Game

/-! ## game.go: `updateBullets` -/

namespace Game

/-- The events `updateBullets` emits, by the ID of the bullet. -/
inductive BulletEvent where
  | remove (bulletID : ID)
  | positionUpdate (bulletID : ID)
deriving DecidableEq, Repr

def Bullet.isMarkedForRemoval (b : Bullet) : Bool :=
  b.RemoveFlag

/-- `Bullet.UpdatePosition`; `arrives` is the outcome of the floating point
test `distanceToMove > distance`.  The position is not represented. -/
def Bullet.UpdatePosition (b : Bullet) (arrives : Bool) : Bullet × Bool :=
  if arrives then ({ b with ReachedTargetPosition := true }, false) else (b, true)

/-- The body of the loop of `updateBullets` for one bullet of the base;
`arrives` gives the outcome of the floating point test of `UpdatePosition`.
The writes through the bullet pointer are stored in `base.Bullets`. -/
def updateBulletsBody (arrives : Bullet → Bool) (duration : Int) (base : Base)
    (bullet : Bullet) : Base × List BulletEvent :=
  if bullet.isMarkedForRemoval then
    (base, [])
  else if bullet.Behavior == .TrapperBullet && bullet.ReachedTargetPosition then
    let bullet1 :=
      if bullet.StayDuration > 0 then
        { bullet with StayDuration := bullet.StayDuration - duration }
      else bullet
    if bullet1.StayDuration ≤ 0 then
      (((base.storeBullet bullet1.MarkForRemoval).RemoveBullet bullet1.ID).1,
        [.remove bullet1.ID])
    else
      (base.storeBullet bullet1, [])
  else
    match bullet.UpdatePosition (arrives bullet) with
    | (bullet1, false) =>
      if bullet1.Behavior != .TrapperBullet then
        (((base.storeBullet bullet1.MarkForRemoval).RemoveBullet bullet1.ID).1,
          [.remove bullet1.ID])
      else
        (base.storeBullet { bullet1 with ReachedTargetPosition := true }, [])
    | (bullet1, true) => (base.storeBullet bullet1, [.positionUpdate bullet1.ID])

/-- The loop `for _, bullet := range bullets` of `updateBullets`, with the
events emitted so far. -/
def updateBulletsLoop (arrives : Bullet → Bool) (duration : Int) :
    List Bullet → Base × List BulletEvent → Base × List BulletEvent
  | [], acc => acc
  | bullet :: rest, acc =>
    updateBulletsLoop arrives duration rest
      ((updateBulletsBody arrives duration acc.1 bullet).1,
        acc.2 ++ (updateBulletsBody arrives duration acc.1 bullet).2)

/-- `updateBullets`: the bullets of the base are collected first and then
visited, here in the order of the list; the result carries the events in the
order of their emission. -/
def updateBullets (arrives : Bullet → Bool) (base : Base) (duration : Int) :
    Base × List BulletEvent :=
  updateBulletsLoop arrives duration (base.Bullets.map (fun e => e.2)) (base, [])

/-- The tick of `startEntityUpdateLoop`. -/
def entityTickDuration : Int := 50 * Millisecond

/-- Successive ticks of `updateBullets` on one base, one `arrives` function
per tick: the final base and the events of each tick. -/
def bulletTicks (duration : Int) : List (Bullet → Bool) → Base → Base × List (List BulletEvent)
  | [], base => (base, [])
  | arrives :: rest, base =>
    ((bulletTicks duration rest (updateBullets arrives base duration).1).1,
      (updateBullets arrives base duration).2 ::
        (bulletTicks duration rest (updateBullets arrives base duration).1).2)

/-- The keys of `base.Bullets` are distinct and each bullet is stored under
its own ID. -/
def BulletsWf (base : Base) : Prop :=
  (mapKeys base.Bullets).Nodup ∧ ∀ e ∈ base.Bullets, e.2.ID = e.1

/-- What the loop body of `updateBullets` does for another bullet leaves the
bullet `id` alone. -/
def BulletFrame (id : ID) (base base' : Base) (evs : List BulletEvent) : Prop :=
  mapGet base'.Bullets id = mapGet base.Bullets id ∧
  evs.count (.remove id) = 0 ∧ evs.count (.positionUpdate id) = 0 ∧
  (id ∈ base.AvailableBulletIDs.IDs → id ∈ base'.AvailableBulletIDs.IDs) ∧
  (BulletsWf base → BulletsWf base')

/-- A TRAPPER bullet that has reached its target, as `Base.AddBullet` creates
it and `updateBullets` marks it on arrival. -/
def trapperBullet : Bullet :=
  { Owner := .player 1, ID := 0, Health := ⟨300, 300⟩, Size := 20, FiredByUnit := false,
    RemoveFlag := false, DamageMultiplier := ⟨0, 0⟩, Behavior := .TrapperBullet,
    ReachedTargetPosition := true, StayDuration := 5000000000 }

/-- The base of a new player with the TRAPPER bullet in flight. -/
def trapperBase : Base :=
  { (newPlayer 1 0 0).Base with
    Bullets := [(0, trapperBullet)]
    AvailableBulletIDs := ⟨(List.range 255).map (fun i => i + 1)⟩ }

end Game

/-! ## Vocabulary of the barracks upgrade statement -/

namespace Game

/-- The `Next` variants of the barracks variant `k` have a unit-spawning
config. -/
def nextSpawningKnown (k : BuildingVariant) : Bool :=
  match tableGet buildingTypes BARRACKS k with
  | some u => u.Next.all (fun n => (GetUnitSpawning n).isSome)
  | none => true

end Game

namespace Network

open Game

/-- The world after a new player has placed a BARRACKS on the own base. -/
def barracksWorld : World :=
  (handlePlacedBuildingMessage startWorld BARRACKS (some .playerBase) true false 300).1

/-- The BARRACKS of `barracksWorld`. -/
def theBarracks : Building :=
  { Ptr := 300, Owner := .player 1, ID := 0, Typ := BARRACKS, Variant := BASIC_BUILDING,
    Health := ⟨150, 150⟩, RemoveFlag := false }

end Network

/-! ## game.go and position.go: the game state

`State` holds every player and every neutral base.  A method that writes to a
neutral base and to the player held in its `CapturedBy` runs on the `World` made
of these two objects, and the results are stored back under the player ID and
the address of the neutral base. -/

namespace Game

/-- A `NeutralBase` object of the state.  `CapturedBy` is Go's `*Player`:
`none` is nil and `some ptr` the address of a `Player` object. -/
structure StateNeutralBase where
  Ptr : Nat
  CapturedBy : Option Nat
  ID : ID
  Base : Base
deriving DecidableEq, Repr

/-- `GameState`, with the package variable `availablePlayerIDs`. -/
structure GameState where
  Players : List (ID × Player)
  NeutralBases : List StateNeutralBase
  AvailablePositions : List (PositionInt × Bool)
  availablePlayerIDs : AvailableIDs
deriving DecidableEq, Repr

/-- A read `State.AvailablePositions[pos]`: a missing key reads as false. -/
def positionGet (m : List (PositionInt × Bool)) (pos : PositionInt) : Bool :=
  (m.lookup pos).getD false

/-- A write `State.AvailablePositions[pos] = v`. -/
def positionSet (m : List (PositionInt × Bool)) (pos : PositionInt) (v : Bool) :
    List (PositionInt × Bool) :=
  (pos, v) :: m.filter (fun e => e.1 != pos)

def MarkPositionAvailable (s : GameState) (pos : PositionInt) : GameState :=
  { s with AvailablePositions := positionSet s.AvailablePositions pos true }

/-- The loop of `FindFreePosition` for a state without players, over the keys
still to be visited: the first available position, if any. -/
def findFirstAvailable (m : List (PositionInt × Bool)) : List PositionInt → Option PositionInt
  | [] => none
  | pos :: rest => if positionGet m pos then some pos else findFirstAvailable m rest

/-- The loop over the players for one available position.  `minDistance` is
`none` while it is `math.MaxFloat32`, which every distance is below; `closer`
is the floating point test `distance < minDistance` otherwise. -/
def nearestPlayerLoop (closer : Root → Root → Bool) (pos : PositionInt) :
    List (ID × Player) → Option Root × PositionInt → Option Root × PositionInt
  | [], acc => acc
  | e :: rest, acc =>
    let distance := pos.DistanceTo e.2.Base.Position
    let isLess :=
      match acc.1 with
      | none => true
      | some minDistance => closer distance minDistance
    nearestPlayerLoop closer pos rest (if isLess then (some distance, pos) else acc)

/-- The loop over `State.AvailablePositions` of `FindFreePosition` for the keys
still to be visited, with the loop-carried `(minDistance, nearestPosition)`. -/
def nearestPositionLoop (closer : Root → Root → Bool) (s : GameState) :
    List PositionInt → Option Root × PositionInt → Option Root × PositionInt
  | [], acc => acc
  | pos :: rest, acc =>
    if positionGet s.AvailablePositions pos then
      nearestPositionLoop closer s rest (nearestPlayerLoop closer pos s.Players acc)
    else
      nearestPositionLoop closer s rest acc

/-- `FindFreePosition`; `order` is the order in which `range` visits the keys
of `State.AvailablePositions`.  The zero `PositionInt` is returned when no
position is available. -/
def FindFreePosition (closer : Root → Root → Bool) (order : List PositionInt) (s : GameState) :
    GameState × PositionInt :=
  if s.Players.length == 0 then
    match findFirstAvailable s.AvailablePositions order with
    | some pos =>
      ({ s with AvailablePositions := positionSet s.AvailablePositions pos false }, pos)
    | none => (s, ⟨0, 0⟩)
  else
    match nearestPositionLoop closer s order (none, ⟨0, 0⟩) with
    | (none, _) => (s, ⟨0, 0⟩)
    | (some _, nearestPosition) =>
      ({ s with AvailablePositions := positionSet s.AvailablePositions nearestPosition false },
        nearestPosition)

/-- `AddPlayer`; `ptr` is the address of the `Player` object it allocates. -/
def AddPlayer (closer : Root → Root → Bool) (s : GameState) (conn permission ptr : Nat)
    (order : List PositionInt) : GameState × Option Player :=
  if s.Players.any (fun e => e.2.Conn == conn) then
    (s, none)
  else
    match FindFreePosition closer order s with
    | (s1, position) =>
      if position == ⟨0, 0⟩ then
        (s1, none)
      else
        match s1.availablePlayerIDs.getNextAvailableID with
        | (_, _, false) => (s1, none)
        | (ids, playerID, true) =>
          let player : Player :=
            { newPlayer ptr permission playerID with
              Conn := conn
              Base := { (newPlayer ptr permission playerID).Base with Position := position } }
          ({ s1 with availablePlayerIDs := ids, Players := mapSet s1.Players playerID player },
            some player)

/-- The neutral base of the state as the neutral base of a `World` whose
player is the player held in `CapturedBy`, if any. -/
def StateNeutralBase.inWorld (n : StateNeutralBase) : NeutralBase :=
  { Ptr := n.Ptr, CapturedBy := n.CapturedBy.isSome, ID := n.ID, Base := n.Base }

/-- The call `base.Captured(nil)` of `RemovePlayer` on a neutral base of the
removed player. -/
def decapture (player : Player) (n : StateNeutralBase) : StateNeutralBase :=
  { n with
    CapturedBy := none
    Base := (NeutralBase.Captured { player := player, neutral := n.inWorld } false 0).neutral.Base }

/-- `RemovePlayer`; the connection 0 is nil.  The result carries the ID of the
removed player, if one was found.  The loop over
`player.CapturedNeutralBases` visits distinct objects and is a map over the
neutral bases of the state; the maps of the removed player object, which are
emptied, are not represented. -/
def RemovePlayer (s : GameState) (conn : Nat) : GameState × Option ID :=
  if conn == 0 then
    (s, none)
  else
    match s.Players.find? (fun e => e.2.Conn == conn) with
    | none => (s, none)
    | some (playerID, found) =>
      let player := found.MarkForRemoval
      let s1 := MarkPositionAvailable s player.Base.Position
      let neutrals := s1.NeutralBases.map
        (fun n => if player.CapturedNeutralBases.contains n.Ptr then decapture player n else n)
      let s2 := { s1 with NeutralBases := neutrals }
      ({ s2 with
          availablePlayerIDs := s2.availablePlayerIDs.returnID playerID
          Players := mapDelete s2.Players playerID }, some playerID)

/-- A write through the pointer to a neutral base of the state. -/
def setNeutral (s : GameState) (n : StateNeutralBase) : GameState :=
  { s with NeutralBases := s.NeutralBases.map (fun x => if x.Ptr == n.Ptr then n else x) }

/-- `handleNeutralBaseCaptured(player, neutral)` for the player with the given
ID and the neutral base with the given address; `wallPtr` is the address of the
first wall object allocated by `PopulateNeutralBase`.  The result is `none`
when `CapturedBy` holds the address of a player that is not in
`State.Players`: such an object is outside the state. -/
def handleNeutralBaseCapturedIn (s : GameState) (playerID : ID) (neutralPtr wallPtr : Nat) :
    Option GameState :=
  match mapGet s.Players playerID, s.NeutralBases.find? (fun n => n.Ptr == neutralPtr) with
  | some player, some neutral =>
    if neutral.CapturedBy == none || neutral.CapturedBy == some player.Ptr then
      let w := handleNeutralBaseCaptured { player := player, neutral := neutral.inWorld } wallPtr
      some (setNeutral { s with Players := mapSet s.Players playerID w.player }
        { neutral with CapturedBy := some player.Ptr, Base := w.neutral.Base })
    else
      match s.Players.find? (fun e => some e.2.Ptr == neutral.CapturedBy) with
      | none => none
      | some (ownerID, capturedBy) =>
        let w1 : World := { player := capturedBy, neutral := neutral.inWorld }
        let w2 := w1.modifyPlayer
          (fun p => p.RemoveCapturedNeutralBase neutral.Ptr neutral.Base.Buildings)
        let w3 := NeutralBase.Captured w2 true wallPtr
        let s1 := setNeutral { s with Players := mapSet s.Players ownerID w3.player }
          { neutral with CapturedBy := some player.Ptr, Base := w3.neutral.Base }
        some { s1 with
          Players := mapSet s1.Players playerID (player.AddCapturedNeutralBase neutral.Ptr) }
  | _, _ => some s

/-- A step of the game on the state. -/
inductive StateCall where
  | add (conn permission ptr : Nat) (order : List PositionInt)
  | remove (conn : Nat)
  | capture (playerID : ID) (neutralPtr wallPtr : Nat)
  | coreHit (playerID otherID : ID) (unit : Game.Unit)
deriving DecidableEq, Repr

/-- The steps: `AddPlayer`; `RemovePlayer`; the capture of a neutral base by a
unit of a player in `checkNeutralBaseCollisions`, which skips the bases the
player holds; and the hit of a unit of a player on the core of another player
in `checkBaseCollisions`, which marks the other player for removal when the
base is destroyed. -/
def StateCall.run (closer : Root → Root → Bool) (s : GameState) : StateCall → Option GameState
  | .add conn permission ptr order => some (AddPlayer closer s conn permission ptr order).1
  | .remove conn => some (RemovePlayer s conn).1
  | .capture playerID neutralPtr wallPtr =>
    match mapGet s.Players playerID, s.NeutralBases.find? (fun n => n.Ptr == neutralPtr) with
    | some player, some neutral =>
      if neutral.CapturedBy == some player.Ptr then some s
      else handleNeutralBaseCapturedIn s playerID neutralPtr wallPtr
    | _, _ => some s
  | .coreHit playerID otherID unit =>
    match mapGet s.Players playerID, mapGet s.Players otherID with
    | some player, some otherPlayer =>
      if playerID == otherID then some s
      else
        let hit := coreHitBody player otherPlayer unit
        some { s with Players := mapSet (mapSet s.Players playerID hit.1) otherID hit.2.1 }
    | _, _ => some s

def runStateCalls (closer : Root → Root → Bool) : GameState → List StateCall → Option GameState
  | s, [] => some s
  | s, call :: rest =>
    match call.run closer s with
    | some s1 => runStateCalls closer s1 rest
    | none => none

/-- The addresses of the player objects allocated by the steps. -/
def newPlayerPtrs : List StateCall → List Nat
  | [] => []
  | .add _ _ ptr _ :: rest => ptr :: newPlayerPtrs rest
  | _ :: rest => newPlayerPtrs rest

/-- The state after `Start`: no players, every position of the map available,
no neutral base captured. -/
def startState (positions : List PositionInt) (neutrals : List (Nat × ID)) : GameState :=
  { Players := []
    NeutralBases := neutrals.map
      (fun n => { Ptr := n.1, CapturedBy := none, ID := n.2, Base := (newNeutralBase n.1 n.2 0).Base })
    AvailablePositions := positions.map (fun pos => (pos, true))
    availablePlayerIDs := InitAvailableIDs 64 }

end Game

/-! ## Vocabulary of the statements on the game state -/

namespace Game

/-- The player `p'` is the object `p` at the same address, on the same
connection and at the same base position. -/
def PlayerSame (p p' : Player) : Prop :=
  p'.Ptr = p.Ptr ∧ p'.Conn = p.Conn ∧ p'.Base.Position = p.Base.Position

/-- The world `w'` holds the objects of `w`: the same player with the same
list of captured bases, and the neutral base at the same address. -/
def WorldSame (w w' : World) : Prop :=
  PlayerSame w.player w'.player ∧
  w'.player.CapturedNeutralBases = w.player.CapturedNeutralBases ∧
  w'.neutral.Ptr = w.neutral.Ptr

/-- The value of `CapturedBy` of the neutral base of the state at the address
`neutralPtr`, if there is such a base. -/
def capturedByOf (s : GameState) (neutralPtr : Nat) : Option (Option Nat) :=
  (s.NeutralBases.find? (fun n => n.Ptr == neutralPtr)).map (fun n => n.CapturedBy)

/-- The invariant of the game state: the player IDs in use and the IDs of the
pool are distinct; the players stand on distinct positions that are marked
unavailable and live at distinct addresses, as do the neutral bases; the
`CapturedBy` of a neutral base holds the address of a player of the state; and
the list `CapturedNeutralBases` of a player holds, once each, the addresses of
the neutral bases whose `CapturedBy` is that player. -/
structure StateInv (s : GameState) : Prop where
  keys : (mapKeys s.Players).Nodup
  pool : s.availablePlayerIDs.IDs.Nodup
  poolFree : ∀ id ∈ s.availablePlayerIDs.IDs, mapGet s.Players id = none
  taken : ∀ id p, mapGet s.Players id = some p →
    positionGet s.AvailablePositions p.Base.Position = false
  positions : ∀ id id' p p', mapGet s.Players id = some p → mapGet s.Players id' = some p' →
    p.Base.Position = p'.Base.Position → id = id'
  addresses : ∀ id id' p p', mapGet s.Players id = some p → mapGet s.Players id' = some p' →
    p.Ptr = p'.Ptr → id = id'
  neutrals : (s.NeutralBases.map (fun n => n.Ptr)).Nodup
  owner : ∀ neutralPtr q, capturedByOf s neutralPtr = some (some q) →
    ∃ id p, mapGet s.Players id = some p ∧ p.Ptr = q
  lists : ∀ id p, mapGet s.Players id = some p →
    p.CapturedNeutralBases.Nodup ∧
    ∀ neutralPtr, neutralPtr ∈ p.CapturedNeutralBases ↔
      capturedByOf s neutralPtr = some (some p.Ptr)

end Game

/-! ## Scenarios on the game state -/

namespace Game

/-- The test `distance < minDistance` on the radicands; it is exact when the
two roots are whole numbers. -/
def closerByRadicand (a b : Root) : Bool :=
  a.Radicand < b.Radicand

/-- The spawn positions of a small map, in the order in which the loops visit
them. -/
def samplePositions : List PositionInt :=
  [⟨100, 0⟩, ⟨-100, 0⟩]

/-- The state after `Start` on the small map with the neutral base objects at
the addresses 1000 and 1001. -/
def sampleState : GameState :=
  startState samplePositions [(1000, 0), (1001, 1)]

/-- Two connections join, the player objects are allocated at the addresses 501
and 502; player 1 captures the neutral base at 1000; then three TANK units of
player 0, of 800 health each, hit the core of player 1, of 2000 health. -/
def killCalls : List StateCall :=
  [.add 11 0 501 samplePositions, .add 12 0 502 samplePositions, .capture 1 1000 8000] ++
    List.replicate 3 (.coreHit 0 1 (freshUnit TANK))

/-- After the steps of `killCalls`, the connection of player 1 is closed and
another connection joins. -/
def rejoinCalls : List StateCall :=
  killCalls ++ [.remove 12, .add 13 0 503 samplePositions]

end Game

/-! ## userData.go, handlers.go and websocket.go: connections

A `*websocket.Conn` is its address, 0 for nil.  `ipIndex`, which the statements
do not read, and the `Skins` and `Username` of the user data are not
represented; neither are the messages sent to the clients. -/

namespace Network

open Game

structure DiscordDetails where
  ID : String
deriving DecidableEq, Repr

/-- `UserData`; `Fingerprint` is Go's `*uint32`, `none` for nil. -/
structure UserData where
  ClientIP : String
  Fingerprint : Option Nat
  Role : String
  Discord : DiscordDetails
deriving DecidableEq, Repr

/-- The game state with the package variables of userData.go.
`activeConnections` maps the address of a connection to the `UserData` of its
`UserConnection`; `playingDiscordIds` is the list of the keys of the set. -/
structure Server where
  State : GameState
  activeConnections : List (Nat × UserData)
  ipFingerprintIndex : List (String × List Nat)
  playingDiscordIds : List String
deriving DecidableEq, Repr

def isDiscordAccountAlreadyPlaying (sv : Server) (discordId : String) : Bool :=
  sv.playingDiscordIds.contains discordId

def AddPlayingDiscordAccount (sv : Server) (discordId : String) : Server :=
  let ids := discordId :: sv.playingDiscordIds.filter (fun d => d != discordId)
  { sv with playingDiscordIds := ids }

def RemovePlayingDiscordAccount (sv : Server) (discordId : String) : Server :=
  { sv with playingDiscordIds := sv.playingDiscordIds.filter (fun d => d != discordId) }

def StoreUserData (sv : Server) (conn : Nat) (userData : UserData) : Server :=
  { sv with activeConnections := mapSet sv.activeConnections conn userData }

def GetUserDataByConn (sv : Server) (conn : Nat) : Option UserData :=
  mapGet sv.activeConnections conn

/-- The statement `delete(ipFingerprintIndex[clientIP], fingerprint)`; on a
missing key the inner map is nil and the statement does nothing. -/
def deleteFingerprint (index : List (String × List Nat)) (clientIP : String) (fingerprint : Nat) :
    List (String × List Nat) :=
  index.map (fun e => if e.1 == clientIP then (e.1, e.2.filter (fun f => f != fingerprint)) else e)

/-- The statements of `AddFingerprintForConn` that create the inner map if it
is nil and add the fingerprint to it. -/
def insertFingerprint (index : List (String × List Nat)) (clientIP : String) (fingerprint : Nat) :
    List (String × List Nat) :=
  match index.lookup clientIP with
  | none => (clientIP, [fingerprint]) :: index
  | some _ =>
    index.map (fun e =>
      if e.1 == clientIP then (e.1, fingerprint :: e.2.filter (fun f => f != fingerprint)) else e)

def RemoveUserConnection (sv : Server) (conn : Nat) : Server :=
  match mapGet sv.activeConnections conn with
  | some userData =>
    let sv1 := { sv with activeConnections := mapDelete sv.activeConnections conn }
    match userData.Fingerprint with
    | some fingerprint =>
      let index := deleteFingerprint sv1.ipFingerprintIndex userData.ClientIP fingerprint
      { sv1 with ipFingerprintIndex := index }
    | none => sv1
  | none => sv

def AddFingerprintForConn (sv : Server) (conn : Nat) (fingerprint : Nat) : Server :=
  match mapGet sv.activeConnections conn with
  | none => sv
  | some userData =>
    let connections :=
      mapSet sv.activeConnections conn { userData with Fingerprint := some fingerprint }
    let sv1 := { sv with activeConnections := connections }
    if userData.ClientIP != "" then
      let index := insertFingerprint sv1.ipFingerprintIndex userData.ClientIP fingerprint
      { sv1 with ipFingerprintIndex := index }
    else
      sv1

def IsFingerprintUsedForIP (sv : Server) (clientIP : String) (fingerprint : Nat) : Bool :=
  match sv.ipFingerprintIndex.lookup clientIP with
  | some fingerprints => fingerprints.contains fingerprint
  | none => false

def PERMISSION_NONE : Nat := 0
def PERMISSION_MODERATOR : Nat := 1

def MapRoleToPermission (role : String) : Nat :=
  if role == "admin" then PERMISSION_ADMIN
  else if role == "moderator" then PERMISSION_MODERATOR
  else PERMISSION_NONE

/-- The fingerprint of a join payload: its last four bytes, big-endian. -/
def joinFingerprint (payload : List Nat) : Nat :=
  let n := payload.length
  ((payload.getD (n - 4) 0 % 256) <<< 24) ||| ((payload.getD (n - 3) 0 % 256) <<< 16) |||
    ((payload.getD (n - 2) 0 % 256) <<< 8) ||| (payload.getD (n - 1) 0 % 256)

/-- `handleJoinMessage`, up to the messages it sends after `AddPlayer` has
succeeded: the state it leaves and whether the player was added.  `rebooting`
is `SERVER_REBOOTING`; `ptr` is the address of the `Player` object that
`AddPlayer` allocates and `order` the order in which `FindFreePosition` visits
the positions.  The name, the skin and the colour of the player are not
represented. -/
def handleJoinMessage (closer : Root → Root → Bool) (sv : Server) ( rebooting : Bool)
    (conn : Nat) (payload : List Nat) (ptr : Nat) (order : List PositionInt) : Server × Bool :=
  if payload.length < 5 || payload.length > 17 then
    (sv, false)
  else if rebooting then
    (sv, false)
  else
    let fingerprint := joinFingerprint payload
    match GetUserDataByConn sv conn with
    | none => (sv, false)
    | some userData =>
      let permission := MapRoleToPermission userData.Role
      if IsFingerprintUsedForIP sv userData.ClientIP fingerprint then
        (sv, false)
      else
        let sv1 := AddFingerprintForConn sv conn fingerprint
        let playing := userData.Discord.ID != "" &&
          isDiscordAccountAlreadyPlaying sv1 userData.Discord.ID
        if playing then
          (sv1, false)
        else
          let sv2 :=
            if userData.Discord.ID != "" then AddPlayingDiscordAccount sv1 userData.Discord.ID
            else sv1
          let added := AddPlayer closer sv2.State conn permission ptr order
          ({ sv2 with State := added.1 }, added.2.isSome)

/-- `removePlayerByConnection`.  The statistics of the Discord account are
updated on another goroutine and are not represented. -/
def removePlayerByConnection (sv : Server) (conn : Nat) : Server :=
  let user := GetUserDataByConn sv conn
  let removed := RemovePlayer sv.State conn
  let sv1 := { sv with State := removed.1 }
  let sv2 :=
    match removed.2, user with
    | some _, some userData =>
      if userData.Discord.ID != "" then RemovePlayingDiscordAccount sv1 userData.Discord.ID
      else sv1
    | _, _ => sv1
  if user.isSome then RemoveUserConnection sv2 conn else sv2

/-- A step of a connection: `WsEndpoint` stores the user data of a new
connection, handles a join message, or removes the connection after a read
error. -/
inductive ServerCall where
  | connect (conn : Nat) (userData : UserData)
  | join (conn : Nat) (payload : List Nat) (ptr : Nat) (order : List PositionInt)
  | disconnect (conn : Nat)
deriving DecidableEq, Repr

def ServerCall.run (closer : Root → Root → Bool) (sv : Server) : ServerCall → Server
  | .connect conn userData => StoreUserData sv conn userData
  | .join conn payload ptr order => (handleJoinMessage closer sv false conn payload ptr order).1
  | .disconnect conn => removePlayerByConnection sv conn

def runServerCalls (closer : Root → Root → Bool) (sv : Server) (calls : List ServerCall) : Server :=
  calls.foldl (ServerCall.run closer) sv

/-- The server after `Start` on the small map, without connections. -/
def sampleServer : Server :=
  { State := sampleState, activeConnections := [], ipFingerprintIndex := [],
    playingDiscordIds := [] }

/-- The user data of a connection from the given address, logged in with the
given Discord account. -/
def sampleUser (clientIP discordId : String) : UserData :=
  { ClientIP := clientIP, Fingerprint := none, Role := "", Discord := ⟨discordId⟩ }

/-- Three clients connect.  The first two join, which takes the two positions
of the small map.  The third, logged in with the Discord account "d3", sends a
join message with the empty name, skin 0 and the fingerprint 7, and closes its
connection afterwards. -/
def fullMapCalls : List ServerCall :=
  [.connect 11 (sampleUser "10.0.0.1" ""), .connect 12 (sampleUser "10.0.0.2" ""),
    .connect 13 (sampleUser "10.0.0.3" "d3"),
    .join 11 [0, 0, 0, 0, 5] 501 samplePositions, .join 12 [0, 0, 0, 0, 6] 502 samplePositions,
    .join 13 [0, 0, 0, 0, 7] 503 samplePositions,
    .disconnect 13]

end Network

/-! ## Vocabulary of the statement on the building limits -/

namespace Game

/-- The IDs of the buildings of a base and its free IDs are two duplicate-free,
disjoint lists, and no linked building is marked for removal. -/
def BaseWf (b : Base) : Prop :=
  (mapKeys b.Buildings).Nodup ∧
  b.AvailableBuildingIDs.IDs.Nodup ∧
  (∀ id ∈ b.AvailableBuildingIDs.IDs, id ∉ mapKeys b.Buildings) ∧
  (∀ e ∈ b.Buildings, e.2.RemoveFlag = false)

/-- Number of buildings of a map that have type `t`, are not marked for removal
and were placed by `AddBuilding`, which sets their `Owner`; the walls of
`PopulateNeutralBase` have none. -/
def countPlaced (t : BuildingType) (m : List (ID × Building)) : Nat :=
  m.countP (fun e => e.2.Typ == t && !e.2.RemoveFlag && e.2.Owner != .nil)

/-- The buildings of type `t` that the player of the world has placed on the
neutral base it holds. -/
def heldPlaced (w : World) (t : BuildingType) : Nat :=
  if w.neutral.CapturedBy then countPlaced t w.neutral.Base.Buildings else 0

/-- The world `v` has the neutral base of `w` with the same owner and the same
`CapturedBy`. -/
def NeutralKept (w v : World) : Prop :=
  v.neutral.Base.Owner = w.neutral.Base.Owner ∧ v.neutral.CapturedBy = w.neutral.CapturedBy

/-- The invariant of the building limits: the two bases are well-formed, the
base of the player belongs to the player and the neutral base to the neutral
base object, and every limit counter of the player is the number of buildings
of its type on the base of the player plus the number the player has placed on
the neutral base it holds. -/
def LimitInv (w : World) : Prop :=
  w.hasPlayer .playerBase = true ∧
  (∃ ptr, w.neutral.Base.Owner = .neutral ptr) ∧
  BaseWf w.player.Base ∧
  BaseWf w.neutral.Base ∧
  ∀ t, (w.player.Base.getLimit t).Current =
    ((countType t w.player.Base.Buildings + heldPlaced w t : Nat) : Int)

end Game

namespace Network

open Game

/-- A step that moves the building limits of the player of a world: a
placement request (with the base selected by the radius checks, the outcomes of
the two collision tests and the address of the new object); the removal of a
building of one of the two bases, by a destroy request or by
`handleBuildingDestroyed`; and the capture of the neutral base by the player in
`checkNeutralBaseCollisions`, which skips a base the player holds.  For the
player that captures it, a neutral base held by another player is a base with
`CapturedBy = false`: what `Clear` undoes then is undone for the other
player. -/
inductive LimitCall where
  | place (buildingType : BuildingType) (placement : Option BaseRef)
      (collisionFree overlapsUnits : Bool) (ptr : Nat)
  | remove (base : BaseRef) (buildingID : ID)
  | capture (wallPtr : Nat)
deriving DecidableEq, Repr

def LimitCall.run (w : World) : LimitCall → World
  | .place buildingType placement collisionFree overlapsUnits ptr =>
    (handlePlacedBuildingMessage w buildingType placement collisionFree overlapsUnits ptr).1
  | .remove base buildingID => (Base.RemoveBuilding w base buildingID).1
  | .capture wallPtr => if w.neutral.CapturedBy then w else handleNeutralBaseCaptured w wallPtr

/-- The step is not the removal of a wall of `PopulateNeutralBase` from the
neutral base that the player holds. -/
def LimitCall.keepsWalls (w : World) : LimitCall → Bool
  | .remove .neutralBase buildingID =>
    !w.neutral.CapturedBy ||
      (match mapGet w.neutral.Base.Buildings buildingID with
       | some building => building.Owner != .nil
       | none => true)
  | _ => true

/-- No step of the run removes a wall of `PopulateNeutralBase` from the neutral
base that the player holds at that step. -/
def keepsWallsRun : World → List LimitCall → Bool
  | _, [] => true
  | w, call :: rest => call.keepsWalls w && keepsWallsRun (call.run w) rest

def runLimitCalls (w : World) (calls : List LimitCall) : World :=
  calls.foldl LimitCall.run w

/-- The neutral base is captured by another player while the player of the
world holds it: the part of `handleNeutralBaseCaptured` that writes to the
player that loses the base and to the base. -/
def loseNeutralBase (w : World) (wallPtr : Nat) : World :=
  let w1 := w.modifyPlayer
    (fun p => p.RemoveCapturedNeutralBase w.neutral.Ptr w.neutral.Base.Buildings)
  let w2 := NeutralBase.Captured w1 true wallPtr
  { w2 with neutral := { w2.neutral with CapturedBy := false } }

/-- A new player places a WALL and a SIMPLE_TURRET on its base, captures the
neutral base, places a WALL on it (ID 44: the walls of `PopulateNeutralBase`
took the IDs 22 to 43 at the capture), and removes that wall and the own
wall. -/
def limitCalls : List LimitCall :=
  [.place WALL (some .playerBase) true false 300,
    .place SIMPLE_TURRET (some .playerBase) true false 301,
    .capture 200,
    .place WALL (some .neutralBase) true false 302,
    .remove .neutralBase 44,
    .remove .playerBase 0]

/-- A new player places a WALL on its base and captures the neutral base. -/
def wallHolder : World :=
  runLimitCalls startWorld [.place WALL (some .playerBase) true false 300, .capture 200]

end Network

/-! # Theorems -/

open Game Network

/-! ## Lemmas -/

namespace Game

theorem removeUnitSpawningLoop_count (barracks : Building) (l : List UnitSpawning) :
    ∀ (wasActive : Bool) (acc : List UnitSpawning),
      ((removeUnitSpawningLoop barracks l wasActive acc).2.countP (fun s => s.Activated) ≤
          acc.countP (fun s => s.Activated) + l.countP (fun s => s.Activated)) ∧
      ((removeUnitSpawningLoop barracks l wasActive acc).1 = true →
        wasActive = true ∨
        (removeUnitSpawningLoop barracks l wasActive acc).2.countP (fun s => s.Activated) + 1 ≤
          acc.countP (fun s => s.Activated) + l.countP (fun s => s.Activated)) := by
  induction l with
  | nil => intro wasActive acc; simp [removeUnitSpawningLoop]
  | cons s rest ih =>
    intro wasActive acc
    unfold removeUnitSpawningLoop
    by_cases hm : samePtr s.Barracks barracks = true
    · simp only [hm, if_true]
      obtain ⟨h1, h2⟩ := ih s.Activated acc
      cases hs : s.Activated with
      | true =>
        rw [hs] at h1 h2
        simp only [List.countP_cons, hs, if_true]
        refine ⟨by omega, fun h => ?_⟩
        rcases h2 h with h3 | h3
        · right; omega
        · right; omega
      | false =>
        rw [hs] at h1 h2
        simp only [List.countP_cons, hs]
        refine ⟨by simpa using h1, fun h => ?_⟩
        rcases h2 h with h3 | h3
        · exact absurd h3 (by simp)
        · right; simpa using h3
    · have hm' : samePtr s.Barracks barracks = false := by simpa using hm
      simp only [hm', Bool.false_eq_true, if_false]
      obtain ⟨h1, h2⟩ := ih wasActive (acc ++ [s])
      simp only [List.countP_append, List.countP_cons, List.countP_nil] at h1 h2
      simp only [List.countP_cons]
      refine ⟨by simp at h1 ⊢; omega, fun h => ?_⟩
      rcases h2 h with h3 | h3
      · left; exact h3
      · right; simp at h3 ⊢; omega

theorem flipActivated_count (building : Building) (l : List UnitSpawning) (us : UnitSpawning)
    (h : l.find? (fun s => samePtr s.Barracks building) = some us) :
    (us.Activated = true →
      (flipActivated building l).countP (fun s => s.Activated) + 1 =
        l.countP (fun s => s.Activated)) ∧
    (us.Activated = false →
      (flipActivated building l).countP (fun s => s.Activated) =
        l.countP (fun s => s.Activated) + 1) := by
  induction l with
  | nil => simp at h
  | cons s rest ih =>
    unfold flipActivated
    by_cases hm : samePtr s.Barracks building = true
    · simp only [List.find?_cons, hm] at h
      cases h
      simp only [hm, if_true, List.countP_cons]
      constructor
      · intro ha; simp [ha]
      · intro ha; simp [ha]
    · have hm' : samePtr s.Barracks building = false := by simpa using hm
      simp only [List.find?_cons, hm'] at h
      simp only [hm', Bool.false_eq_true, if_false, List.countP_cons]
      obtain ⟨h1, h2⟩ := ih h
      constructor
      · intro ha; have := h1 ha; omega
      · intro ha; have := h2 ha; omega

theorem SpawnerInv_run (p : Player) (c : SpawnerCall) (h : SpawnerInv p) :
    SpawnerInv (c.run p) := by
  obtain ⟨h1, h2, h3⟩ := h
  cases c with
  | add barracks setActive =>
    simp only [SpawnerCall.run, Player.AddUnitSpawning]
    cases hg : GetUnitSpawning barracks.Variant with
    | none => exact ⟨h1, h2, h3⟩
    | some us =>
      simp only [Capacity.HasMaxCapacity]
      by_cases hmax : p.UnitSpawningLimit.Current = p.UnitSpawningLimit.Max
      · simp [SpawnerInv, activeSpawners, hmax, List.countP_append] at h1 ⊢
        omega
      · cases setActive with
        | false =>
          simp [SpawnerInv, activeSpawners, hmax, List.countP_append] at h1 ⊢
          omega
        | true =>
          have hlt : p.UnitSpawningLimit.Current < 5 := by omega
          have hinc : p.UnitSpawningLimit.Increment 1 =
              { p.UnitSpawningLimit with Current := p.UnitSpawningLimit.Current + 1 } := by
            unfold Capacity.Increment add16
            rw [if_neg (by omega)]
            congr 1
            omega
          simp [SpawnerInv, activeSpawners, hmax, List.countP_append, hinc] at h1 ⊢
          omega
  | toggle building =>
    simp only [SpawnerCall.run, Player.ToggleUnitSpawning, Player.GetUnitSpawningForBarrack]
    cases hf : p.UnitSpawning.find? (fun s => samePtr s.Barracks building) with
    | none => exact ⟨h1, h2, h3⟩
    | some us =>
      obtain ⟨f1, f2⟩ := flipActivated_count building p.UnitSpawning us hf
      simp only
      cases ha : us.Activated with
      | true =>
        have f := f1 ha
        simp only [if_true, Capacity.Get]
        by_cases h0 : p.UnitSpawningLimit.Current = 0
        · simp [h0]; exact ⟨h1, h2, h3⟩
        · have hdec : (p.UnitSpawningLimit.Decrement 1).Current + 1 = p.UnitSpawningLimit.Current
              ∧ (p.UnitSpawningLimit.Decrement 1).Max = p.UnitSpawningLimit.Max := by
            unfold Capacity.Decrement sub16
            split <;> simp only [and_true] <;> omega
          simp only [beq_iff_eq, h0, if_false]
          dsimp only [SpawnerInv, activeSpawners] at h1 ⊢
          omega
      | false =>
        have f := f2 ha
        simp only [Capacity.HasMaxCapacity, Bool.false_eq_true, if_false]
        by_cases hmax : p.UnitSpawningLimit.Current = p.UnitSpawningLimit.Max
        · simp [hmax]; exact ⟨by simpa [activeSpawners] using h1, h2, h3⟩
        · have hinc : (p.UnitSpawningLimit.Increment 1).Current = p.UnitSpawningLimit.Current + 1
              ∧ (p.UnitSpawningLimit.Increment 1).Max = p.UnitSpawningLimit.Max := by
            unfold Capacity.Increment add16
            split <;> simp only [and_true] <;> omega
          simp only [beq_iff_eq, hmax, if_false]
          dsimp only [SpawnerInv, activeSpawners] at h1 ⊢
          omega
  | remove barracks =>
    simp only [SpawnerCall.run, Player.RemoveUnitSpawning]
    obtain ⟨r1, r2⟩ := removeUnitSpawningLoop_count barracks p.UnitSpawning false []
    generalize removeUnitSpawningLoop barracks p.UnitSpawning false [] = res at r1 r2
    obtain ⟨wa, upd⟩ := res
    simp only [List.countP_nil, Nat.zero_add] at r1 r2
    simp only [activeSpawners] at h1
    cases wa with
    | false =>
      simp only [Bool.false_eq_true, if_false, SpawnerInv, activeSpawners]
      exact ⟨by omega, h2, h3⟩
    | true =>
      have r := r2 rfl
      simp at r
      have hdec : (p.UnitSpawningLimit.Decrement 1).Current + 1 = p.UnitSpawningLimit.Current
            ∧ (p.UnitSpawningLimit.Decrement 1).Max = p.UnitSpawningLimit.Max := by
        unfold Capacity.Decrement sub16
        split <;> simp only [and_true] <;> omega
      simp only [if_true]
      dsimp only [SpawnerInv, activeSpawners]
      omega

theorem SpawnerInv_runCalls (calls : List SpawnerCall) :
    ∀ p, SpawnerInv p → SpawnerInv (runSpawnerCalls p calls) := by
  induction calls with
  | nil => intro p h; exact h
  | cons c rest ih =>
    intro p h
    exact ih _ (SpawnerInv_run p c h)

end Game


namespace Game

theorem lookup_filter_ne {β : Type} (m : List (Nat × β)) (k k' : Nat) (h : k' ≠ k) :
    List.lookup k' (m.filter (fun e => e.1 != k)) = List.lookup k' m := by
  induction m with
  | nil => rfl
  | cons e rest ih =>
    obtain ⟨a, b⟩ := e
    by_cases hak : a = k
    · subst hak
      have h1 : (k' == a) = false := by simpa using h
      simp [List.filter_cons, List.lookup_cons, h1, ih]
    · have h2 : (a != k) = true := by simpa using hak
      simp only [List.filter_cons, h2, if_true, List.lookup_cons, ih]

theorem lookup_filter_self {β : Type} (m : List (Nat × β)) (k : Nat) :
    List.lookup k (m.filter (fun e => e.1 != k)) = none := by
  induction m with
  | nil => rfl
  | cons e rest ih =>
    obtain ⟨a, b⟩ := e
    by_cases hak : a = k
    · subst hak
      simp [List.filter_cons, ih]
    · have h2 : (a != k) = true := by simpa using hak
      have h1 : (k == a) = false := by simpa using fun h => hak h.symm
      simp only [List.filter_cons, h2, if_true, List.lookup_cons, h1, ih]

theorem mapGet_mapSet {β : Type} (m : List (Nat × β)) (k k' : Nat) (v : β) :
    mapGet (mapSet m k v) k' = if k' = k then some v else mapGet m k' := by
  unfold mapGet mapSet mapDelete
  by_cases h : k' = k
  · subst h; simp [List.lookup_cons]
  · have h1 : (k' == k) = false := by simpa using h
    simp only [List.lookup_cons, h1, h, if_false]
    exact lookup_filter_ne m k k' h

theorem mapGet_mapDelete {β : Type} (m : List (Nat × β)) (k k' : Nat) :
    mapGet (mapDelete m k) k' = if k' = k then none else mapGet m k' := by
  unfold mapGet mapDelete
  by_cases h : k' = k
  · subst h; simp [lookup_filter_self]
  · simp only [h, if_false]
    exact lookup_filter_ne m k k' h

theorem validateUpgradeLoop_iff (target : BuildingVariant) (next : List BuildingVariant) :
    validateUpgradeLoop target next = true ↔ target ∈ next := by
  induction next with
  | nil => simp [validateUpgradeLoop]
  | cons a rest ih =>
    unfold validateUpgradeLoop
    by_cases h : a = target
    · subst h; simp
    · have h1 : (a == target) = false := by simpa using h
      simp only [h1, Bool.false_eq_true, if_false, ih, List.mem_cons]
      constructor
      · intro hm; exact Or.inr hm
      · intro hm
        rcases hm with hm | hm
        · exact absurd hm.symm h
        · exact hm

theorem ValidateUpgradePath_iff (t : BuildingType) (v v' : BuildingVariant) :
    ValidateUpgradePath t v v' = true ↔
      ∃ u, tableGet buildingTypes t v = some u ∧ v' ∈ u.Next := by
  unfold ValidateUpgradePath
  cases h : tableGet buildingTypes t v with
  | none => simp
  | some u => simp [validateUpgradeLoop_iff]

theorem UpgradeRel_refl (target : BuildingVariant) (w : World) : UpgradeRel target w w := by
  intro r id b' h
  exact ⟨b', h, rfl, Or.inl rfl⟩

theorem UpgradeRel_of_eq (target : BuildingVariant) (w w' : World)
    (h : ∀ r, (w'.getBase r).Buildings = (w.getBase r).Buildings) : UpgradeRel target w w' := by
  intro r id b' hb
  rw [h r] at hb
  exact ⟨b', hb, rfl, Or.inl rfl⟩

theorem UpgradeRel_trans (target : BuildingVariant) (w w1 w2 : World)
    (h1 : UpgradeRel target w w1) (h2 : UpgradeRel target w1 w2) : UpgradeRel target w w2 := by
  intro r id b2 hb2
  obtain ⟨b1, hb1, ht1, hv1⟩ := h2 r id b2 hb2
  obtain ⟨b, hb, ht, hv⟩ := h1 r id b1 hb1
  refine ⟨b, hb, ht1.trans ht, ?_⟩
  rcases hv with hv | ⟨hv, hval⟩
  · rcases hv1 with hv1 | ⟨hv1, hval1⟩
    · left; exact hv1.trans hv
    · right; refine ⟨hv1, ?_⟩
      rw [← ht, ← hv]; exact hval1
  · right
    refine ⟨?_, hval⟩
    rcases hv1 with hv1 | ⟨hv1, _⟩
    · exact hv1.trans hv
    · exact hv1

/-! ### Frame lemmas: which operations leave the `Buildings` maps alone -/

theorem getBase_modifyBase (w : World) (r r' : BaseRef) (f : Base → Base) :
    (w.modifyBase r f).getBase r' = if r' = r then f (w.getBase r) else w.getBase r' := by
  cases r <;> cases r' <;> rfl

theorem getBase_setBase (w : World) (r r' : BaseRef) (b : Base) :
    (w.setBase r b).getBase r' = if r' = r then b else w.getBase r' := by
  cases r <;> cases r' <;> rfl

theorem buildings_modifyPlayer (w : World) (f : Player → Player)
    (hf : (f w.player).Base.Buildings = w.player.Base.Buildings) (r : BaseRef) :
    ((w.modifyPlayer f).getBase r).Buildings = (w.getBase r).Buildings := by
  cases r
  · exact hf
  · rfl

theorem buildings_modifyBase_same (w : World) (r : BaseRef) (f : Base → Base)
    (hf : (f (w.getBase r)).Buildings = (w.getBase r).Buildings) (r' : BaseRef) :
    ((w.modifyBase r f).getBase r').Buildings = (w.getBase r').Buildings := by
  rw [getBase_modifyBase]
  by_cases h : r' = r
  · subst h; simpa using hf
  · simp [h]

theorem buildings_refreshBuilding (w : World) (b : Building) (r : BaseRef) :
    ((w.refreshBuilding b).getBase r).Buildings = (w.getBase r).Buildings := by
  cases r <;> rfl

theorem RemoveUnitSpawning_Base (p : Player) (b : Building) :
    (p.RemoveUnitSpawning b).Base = p.Base := by
  unfold Player.RemoveUnitSpawning
  split
  split <;> rfl

theorem AddUnitSpawning_Base (p : Player) (b : Building) (a : Bool) :
    (p.AddUnitSpawning b a).1.Base = p.Base := by
  unfold Player.AddUnitSpawning
  split
  · rfl
  · simp only
    split
    · rfl
    · cases a <;> rfl

theorem AddBulletSpawning_Buildings (b : Base) (t : Building) :
    (b.AddBulletSpawning t).1.Buildings = b.Buildings := by
  unfold Base.AddBulletSpawning
  split <;> rfl

theorem subGenerating_Base (p : Player) (g : Option Generating) :
    (p.subGenerating g).Base = p.Base := by
  cases g <;> rfl

theorem addGenerating_Base (p : Player) (g : Option Generating) :
    (p.addGenerating g).Base = p.Base := by
  cases g <;> rfl

theorem incrementCapacity_Base (p : Player) (c : Option Nat) :
    (p.incrementCapacity c).Base = p.Base := by
  cases c <;> rfl

theorem decrementCapacity_Base (p : Player) (c : Option Nat) :
    (p.decrementCapacity c).Base = p.Base := by
  cases c <;> rfl

theorem UpgradeBuilding_buildings (w : World) (r : BaseRef) (id : ID) (v : BuildingVariant) :
    ((Base.UpgradeBuilding w r id v).2 = false → (Base.UpgradeBuilding w r id v).1 = w) ∧
    ((Base.UpgradeBuilding w r id v).2 = true →
      ∃ b, mapGet (w.getBase r).Buildings id = some b ∧
        ∀ r', ((Base.UpgradeBuilding w r id v).1.getBase r').Buildings =
          if r' = r then
            mapSet (w.getBase r).Buildings id
              { b with Variant := v, Health := GetInitialHealth b.Typ v }
          else (w.getBase r').Buildings) := by
  unfold Base.UpgradeBuilding
  by_cases hp : w.hasPlayer r = true
  · simp only [hp, Bool.not_true, Bool.false_eq_true, if_false]
    cases hb : mapGet (w.getBase r).Buildings id with
    | none => simp
    | some b =>
      simp only [Bool.true_eq_false, false_implies, true_and, forall_const]
      refine ⟨b, rfl, ?_⟩
      intro r'
      rw [buildings_refreshBuilding, getBase_modifyBase]
      by_cases h : r' = r
      · subst h; simp
      · simp [h]
  · simp [hp]

end Game

namespace Network
open Game

theorem upgradeAccounts_Base (p : Player) (power : Resource) (b : Building)
    (v : BuildingVariant) : (upgradeAccounts p power b v).Base = p.Base := by
  unfold upgradeAccounts
  rw [incrementCapacity_Base, decrementCapacity_Base, addGenerating_Base, subGenerating_Base]
  rfl

theorem upgradeRemoveSpawner_buildings (w : World) (base : BaseRef) (b : Building)
    (r : BaseRef) :
    ((upgradeRemoveSpawner w base b).1.getBase r).Buildings = (w.getBase r).Buildings := by
  unfold upgradeRemoveSpawner
  split
  · exact buildings_modifyPlayer _ _ (by rw [RemoveUnitSpawning_Base]) r
  · split
    · exact buildings_modifyBase_same _ _ _ rfl r
    · rfl

theorem upgradeAddSpawner_buildings (w : World) (base : BaseRef) (b : Building) (a : Bool)
    (r : BaseRef) :
    ((upgradeAddSpawner w base b a).getBase r).Buildings = (w.getBase r).Buildings := by
  unfold upgradeAddSpawner
  split
  · exact buildings_modifyPlayer _ _ (by rw [AddUnitSpawning_Base]) r
  · split
    · exact buildings_modifyBase_same _ _ _ (AddBulletSpawning_Buildings _ _) r
    · rfl

theorem upgradeBuildingsBody_rel (base : BaseRef) (target : BuildingVariant) (w : World)
    (id : ID) : UpgradeRel target w (upgradeBuildingsBody base target w id).1 := by
  unfold upgradeBuildingsBody
  split
  · exact UpgradeRel_refl _ _
  · rename_i building hb
    split
    · exact UpgradeRel_refl _ _
    · rename_i hv
      split
      · exact UpgradeRel_refl _ _
      · rename_i costs hc
        split
        · exact UpgradeRel_refl _ _
        · rename_i power hd
          have hacc : ∀ r, ((w.modifyPlayer
              (fun p => upgradeAccounts p power building target)).getBase r).Buildings =
              (w.getBase r).Buildings :=
            fun r => buildings_modifyPlayer _ _ (by rw [upgradeAccounts_Base]) r
          generalize w.modifyPlayer (fun p => upgradeAccounts p power building target) = wa
            at hacc
          have hrem := upgradeRemoveSpawner_buildings wa base building
          generalize upgradeRemoveSpawner wa base building = res at hrem
          obtain ⟨w1, was⟩ := res
          simp only at hrem ⊢
          have h1 : ∀ r, (w1.getBase r).Buildings = (w.getBase r).Buildings :=
            fun r => (hrem r).trans (hacc r)
          obtain ⟨hfalse, htrue⟩ := UpgradeBuilding_buildings w1 base id target
          generalize Base.UpgradeBuilding w1 base id target = up at hfalse htrue
          obtain ⟨w2, ok⟩ := up
          cases ok with
          | false =>
            simp only at hfalse ⊢
            have := hfalse trivial
            subst this
            exact UpgradeRel_of_eq _ _ _
              (fun r => (buildings_modifyPlayer _ _ rfl r).trans (h1 r))
          | true =>
            simp only at htrue ⊢
            obtain ⟨b, hb1, hset⟩ := htrue trivial
            rw [h1 base, hb] at hb1
            cases hb1
            intro r id' b' hb'
            rw [upgradeAddSpawner_buildings, hset r] at hb'
            by_cases hr : r = base
            · subst hr
              simp only [if_true] at hb'
              rw [h1 r, mapGet_mapSet] at hb'
              by_cases hid : id' = id
              · subst hid
                simp only [if_true] at hb'
                cases hb'
                refine ⟨building, hb, rfl, Or.inr ⟨rfl, ?_⟩⟩
                simpa using hv
              · simp only [hid, if_false] at hb'
                exact ⟨b', hb', rfl, Or.inl rfl⟩
            · simp only [hr, if_false] at hb'
              rw [h1 r] at hb'
              exact ⟨b', hb', rfl, Or.inl rfl⟩

theorem upgradeBuildingsLoop_rel (base : BaseRef) (target : BuildingVariant)
    (ids : List ID) : ∀ w, UpgradeRel target w (upgradeBuildingsLoop base target ids w).1 := by
  induction ids with
  | nil => intro w; exact UpgradeRel_refl _ _
  | cons id rest ih =>
    intro w
    unfold upgradeBuildingsLoop
    have hbody := upgradeBuildingsBody_rel base target w id
    generalize upgradeBuildingsBody base target w id = res at hbody
    obtain ⟨w1, ok⟩ := res
    cases ok with
    | false => exact hbody
    | true => exact UpgradeRel_trans _ _ _ _ hbody (ih w1)

end Network


namespace Game

theorem addBuildingSpawners_frame (w : World) (r : BaseRef) (b : Building) :
    (addBuildingSpawners w r b).player.Generating = w.player.Generating ∧
    (addBuildingSpawners w r b).player.Population = w.player.Population ∧
    (addBuildingSpawners w r b).player.Base.BuildingLimits = w.player.Base.BuildingLimits ∧
    (∀ r', ((addBuildingSpawners w r b).getBase r').Buildings = (w.getBase r').Buildings) ∧
    (∀ r', ((addBuildingSpawners w r b).getBase r').AvailableBuildingIDs =
      (w.getBase r').AvailableBuildingIDs) ∧
    (∀ r', (addBuildingSpawners w r b).hasPlayer r' = w.hasPlayer r') := by
  unfold addBuildingSpawners
  split
  · have h : ∀ p : Player, (p.AddUnitSpawning b true).1.Base = p.Base ∧
        (p.AddUnitSpawning b true).1.Generating = p.Generating ∧
        (p.AddUnitSpawning b true).1.Population = p.Population := by
      intro p
      unfold Player.AddUnitSpawning
      split
      · exact ⟨rfl, rfl, rfl⟩
      · simp only
        split <;> exact ⟨rfl, rfl, rfl⟩
    obtain ⟨h1, h2, h3⟩ := h w.player
    refine ⟨h2, h3, ?_, ?_, ?_, ?_⟩
    · show ((w.player.AddUnitSpawning b true).1).Base.BuildingLimits = _
      rw [h1]
    · intro r'; cases r'
      · show ((w.player.AddUnitSpawning b true).1).Base.Buildings = _
        rw [h1]; rfl
      · rfl
    · intro r'; cases r'
      · show ((w.player.AddUnitSpawning b true).1).Base.AvailableBuildingIDs = _
        rw [h1]; rfl
      · rfl
    · intro r'; cases r'
      · show (match ((w.player.AddUnitSpawning b true).1).Base.Owner with
          | .player _ => true | .neutral _ => w.neutral.CapturedBy | .nil => false) = _
        rw [h1]; rfl
      · rfl
  · split
    · have h : ∀ x : Base, (x.AddBulletSpawning b).1.Buildings = x.Buildings ∧
          (x.AddBulletSpawning b).1.BuildingLimits = x.BuildingLimits ∧
          (x.AddBulletSpawning b).1.AvailableBuildingIDs = x.AvailableBuildingIDs ∧
          (x.AddBulletSpawning b).1.Owner = x.Owner := by
        intro x
        unfold Base.AddBulletSpawning
        split <;> exact ⟨rfl, rfl, rfl, rfl⟩
      cases r
      · obtain ⟨h1, h2, h3, h4⟩ := h w.player.Base
        refine ⟨rfl, rfl, h2, ?_, ?_, ?_⟩
        · intro r'; cases r'
          · exact h1
          · rfl
        · intro r'; cases r'
          · exact h3
          · rfl
        · intro r'; cases r'
          · show (match ((w.player.Base.AddBulletSpawning b).1).Owner with
              | .player _ => true | .neutral _ => w.neutral.CapturedBy | .nil => false) = _
            rw [h4]; rfl
          · rfl
      · obtain ⟨h1, h2, h3, h4⟩ := h w.neutral.Base
        refine ⟨rfl, rfl, rfl, ?_, ?_, ?_⟩
        · intro r'; cases r'
          · rfl
          · exact h1
        · intro r'; cases r'
          · rfl
          · exact h3
        · intro r'; cases r'
          · rfl
          · show (match ((w.neutral.Base.AddBulletSpawning b).1).Owner with
              | .player _ => true | .neutral _ => w.neutral.CapturedBy | .nil => false) = _
            rw [h4]; rfl
    · exact ⟨rfl, rfl, rfl, fun _ => rfl, fun _ => rfl, fun _ => rfl⟩


theorem AddBuilding_some (w : World) (r : BaseRef) (t : BuildingType) (ptr : Nat)
    (w' : World) (bld : Building) (h : Base.AddBuilding w r t ptr = (w', some bld)) :
    w.hasPlayer r = true ∧
    (w.player.Base.getLimit t).Current < (w.player.Base.getLimit t).Max ∧
    ∃ rest, (w.getBase r).AvailableBuildingIDs.IDs = bld.ID :: rest ∧
      bld = placedBuilding w r t ptr bld.ID ∧
      w'.player.Generating = w.player.Generating ∧
      w'.player.Population = w.player.Population ∧
      w'.player.Base.BuildingLimits =
        mapSet w.player.Base.BuildingLimits t
          ⟨(w.player.Base.getLimit t).Current + 1, (w.player.Base.getLimit t).Max⟩ ∧
      (w'.getBase r).Buildings = mapSet (w.getBase r).Buildings bld.ID bld ∧
      (∀ r', r' ≠ r → (w'.getBase r').Buildings = (w.getBase r').Buildings) ∧
      (w'.getBase r).AvailableBuildingIDs.IDs = rest ∧
      (∀ r', r' ≠ r →
        (w'.getBase r').AvailableBuildingIDs = (w.getBase r').AvailableBuildingIDs) ∧
      (∀ r', w'.hasPlayer r' = w.hasPlayer r') := by
  unfold Base.AddBuilding at h
  by_cases hp : w.hasPlayer r = true
  swap
  · simp [hp] at h
  simp only [hp, Bool.not_true, Bool.false_eq_true, if_false] at h
  by_cases hc : w.player.Base.canAddBuilding t = true
  swap
  · simp [hc] at h
  simp only [hc, Bool.not_true, Bool.false_eq_true, if_false] at h
  have hlt : (w.player.Base.getLimit t).Current < (w.player.Base.getLimit t).Max := by
    simpa [Base.canAddBuilding] using hc
  refine ⟨hp, hlt, ?_⟩
  unfold AvailableIDs.getNextAvailableID at h
  cases hids : (w.getBase r).AvailableBuildingIDs.IDs with
  | nil => simp [hids] at h
  | cons id rest =>
    simp only [hids] at h
    by_cases hpoly : GetBuildingPolygon t = true
    swap
    · simp [hpoly] at h
    simp only [hpoly, Bool.not_true, Bool.false_eq_true, if_false] at h
    have hlim : ∀ bl : Building,
        ((w.modifyBase r (fun b => { b with AvailableBuildingIDs := ⟨rest⟩ })).modifyBase r
          (fun b => { b with Buildings := mapSet b.Buildings id bl })).player.Base.BuildingLimits =
        w.player.Base.BuildingLimits := by
      intro bl; cases r <;> rfl
    unfold Base.incrementBuildingLimit Base.getLimit at h
    rw [hlim] at h
    unfold Base.getLimit at hlt
    simp only [hlt, if_true] at h
    injection h with h1 h2
    injection h2 with h2
    subst h2
    subst h1
    refine ⟨rest, rfl, rfl, ?_, ?_, ?_, ?_, ?_, ?_, ?_, ?_⟩
    · rw [(addBuildingSpawners_frame _ _ _).1]; cases r <;> rfl
    · rw [(addBuildingSpawners_frame _ _ _).2.1]; cases r <;> rfl
    · rw [(addBuildingSpawners_frame _ _ _).2.2.1]; cases r <;> rfl
    · rw [(addBuildingSpawners_frame _ _ _).2.2.2.1]; cases r <;> rfl
    · intro r' hr
      rw [(addBuildingSpawners_frame _ _ _).2.2.2.1]
      cases r <;> cases r' <;> first | rfl | exact absurd rfl hr
    · rw [(addBuildingSpawners_frame _ _ _).2.2.2.2.1]; cases r <;> rfl
    · intro r' hr
      rw [(addBuildingSpawners_frame _ _ _).2.2.2.2.1]
      cases r <;> cases r' <;> first | rfl | exact absurd rfl hr
    · intro r'
      rw [(addBuildingSpawners_frame _ _ _).2.2.2.2.2]
      cases r <;> cases r' <;> rfl


theorem AddBuilding_none (w : World) (r : BaseRef) (t : BuildingType) (ptr : Nat)
    (w' : World) (h : Base.AddBuilding w r t ptr = (w', none)) :
    w' = w ∨
    ∃ id rest, (w.getBase r).AvailableBuildingIDs.IDs = id :: rest ∧
      GetBuildingPolygon t = false ∧
      w' = w.modifyBase r (fun b => { b with AvailableBuildingIDs := ⟨rest⟩ }) := by
  unfold Base.AddBuilding at h
  by_cases hp : w.hasPlayer r = true
  swap
  · simp only [hp, Bool.not_false, if_true] at h
    injection h with h1 _
    exact Or.inl h1.symm
  simp only [hp, Bool.not_true, Bool.false_eq_true, if_false] at h
  by_cases hc : w.player.Base.canAddBuilding t = true
  swap
  · simp only [hc, Bool.not_false, if_true] at h
    injection h with h1 _
    exact Or.inl h1.symm
  simp only [hc, Bool.not_true, Bool.false_eq_true, if_false] at h
  have hlt : (w.player.Base.getLimit t).Current < (w.player.Base.getLimit t).Max := by
    simpa [Base.canAddBuilding] using hc
  unfold AvailableIDs.getNextAvailableID at h
  cases hids : (w.getBase r).AvailableBuildingIDs.IDs with
  | nil =>
    simp only [hids] at h
    injection h with h1 _
    exact Or.inl h1.symm
  | cons id rest =>
    simp only [hids] at h
    by_cases hpoly : GetBuildingPolygon t = true
    swap
    · simp only [hpoly, Bool.not_false, if_true] at h
      injection h with h1 _
      exact Or.inr ⟨id, rest, rfl, by simpa using hpoly, h1.symm⟩
    simp only [hpoly, Bool.not_true, Bool.false_eq_true, if_false] at h
    have hlim : ∀ bl : Building,
        ((w.modifyBase r (fun b => { b with AvailableBuildingIDs := ⟨rest⟩ })).modifyBase r
          (fun b => { b with Buildings := mapSet b.Buildings id bl })).player.Base.BuildingLimits =
        w.player.Base.BuildingLimits := by
      intro bl; cases r <;> rfl
    unfold Base.incrementBuildingLimit Base.getLimit at h
    rw [hlim] at h
    unfold Base.getLimit at hlt
    simp only [hlt, if_true] at h
    injection h with _ h2
    cases h2

theorem removeBuildingEffects_frame (w : World) (r : BaseRef) (hp : Bool) (b : Building) :
    (removeBuildingEffects w r hp b).player.Base.BuildingLimits = w.player.Base.BuildingLimits ∧
    (∀ r', ((removeBuildingEffects w r hp b).getBase r').Buildings = (w.getBase r').Buildings) ∧
    (∀ r', ((removeBuildingEffects w r hp b).getBase r').AvailableBuildingIDs =
      (w.getBase r').AvailableBuildingIDs) ∧
    (∀ r', (removeBuildingEffects w r hp b).hasPlayer r' = w.hasPlayer r') := by
  have hpl : ∀ (f : Player → Player), (∀ p, (f p).Base = p.Base) →
      (w.modifyPlayer f).player.Base.BuildingLimits = w.player.Base.BuildingLimits ∧
      (∀ r', ((w.modifyPlayer f).getBase r').Buildings = (w.getBase r').Buildings) ∧
      (∀ r', ((w.modifyPlayer f).getBase r').AvailableBuildingIDs =
        (w.getBase r').AvailableBuildingIDs) ∧
      (∀ r', (w.modifyPlayer f).hasPlayer r' = w.hasPlayer r') := by
    intro f hf
    have e : (w.modifyPlayer f).player.Base = w.player.Base := hf w.player
    refine ⟨by rw [e], ?_, ?_, ?_⟩
    · intro r'; cases r'
      · show (w.modifyPlayer f).player.Base.Buildings = _; rw [e]; rfl
      · rfl
    · intro r'; cases r'
      · show (w.modifyPlayer f).player.Base.AvailableBuildingIDs = _; rw [e]; rfl
      · rfl
    · intro r'; cases r'
      · show (match (w.modifyPlayer f).player.Base.Owner with
          | .player _ => true | .neutral _ => w.neutral.CapturedBy | .nil => false) = _
        rw [e]; rfl
      · rfl
  unfold removeBuildingEffects
  split
  · split
    · exact hpl _ (fun p => by
        unfold Player.RemoveUnitSpawning
        split
        split <;> rfl)
    · exact ⟨rfl, fun _ => rfl, fun _ => rfl, fun _ => rfl⟩
  · split
    · split
      · split
        · exact hpl _ (fun p => by cases GetResourceGeneration b.Typ b.Variant <;> rfl)
        · exact ⟨rfl, fun _ => rfl, fun _ => rfl, fun _ => rfl⟩
      · exact ⟨rfl, fun _ => rfl, fun _ => rfl, fun _ => rfl⟩
    · split
      · split
        · exact hpl _ (fun p => by cases GetPopulationCapacity b.Typ b.Variant <;> rfl)
        · exact ⟨rfl, fun _ => rfl, fun _ => rfl, fun _ => rfl⟩
      · split
        · cases r
          · exact ⟨rfl, fun r' => by cases r' <;> rfl, fun r' => by cases r' <;> rfl,
              fun r' => by cases r' <;> rfl⟩
          · exact ⟨rfl, fun r' => by cases r' <;> rfl, fun r' => by cases r' <;> rfl,
              fun r' => by cases r' <;> rfl⟩
        · exact ⟨rfl, fun _ => rfl, fun _ => rfl, fun _ => rfl⟩


theorem decrementBuildingLimit_limits (x y : Base) (t : BuildingType)
    (h : x.BuildingLimits = y.BuildingLimits) :
    (x.decrementBuildingLimit t).1.BuildingLimits =
      (y.decrementBuildingLimit t).1.BuildingLimits := by
  unfold Base.decrementBuildingLimit Base.getLimit
  rw [h]
  dsimp only
  split <;> simp [h]

theorem decrementBuildingLimit_frame (x : Base) (t : BuildingType) :
    (x.decrementBuildingLimit t).1.Buildings = x.Buildings ∧
    (x.decrementBuildingLimit t).1.AvailableBuildingIDs = x.AvailableBuildingIDs ∧
    (x.decrementBuildingLimit t).1.Owner = x.Owner := by
  unfold Base.decrementBuildingLimit
  dsimp only
  split <;> exact ⟨rfl, rfl, rfl⟩

/-- The effect of `removeBuildingEffects` on the generation rate and the
population of the player. -/
theorem removeBuildingEffects_player (w : World) (r : BaseRef) (hp : Bool) (b : Building) :
    (removeBuildingEffects w r hp b).player.Generating =
      (if hp && (b.Typ == GENERATOR || (b.Typ == WALL && b.Variant == MICRO_GENERATOR)) then
        (w.player.subGenerating (GetResourceGeneration b.Typ b.Variant)).Generating
      else w.player.Generating) ∧
    (removeBuildingEffects w r hp b).player.Population =
      (if hp && b.Typ == HOUSE then
        (w.player.decrementCapacity (GetPopulationCapacity b.Typ b.Variant)).Population
      else w.player.Population) := by
  unfold removeBuildingEffects
  by_cases h4 : b.Typ = BARRACKS
  · have e1 : (b.Typ == BARRACKS) = true := by simpa using h4
    have e2 : (b.Typ == GENERATOR) = false := by rw [h4]; decide
    have e3 : (b.Typ == WALL) = false := by rw [h4]; decide
    have e4 : (b.Typ == HOUSE) = false := by rw [h4]; decide
    simp only [e1, e2, e3, e4, if_true, Bool.or_false, Bool.false_and, Bool.and_false,
      Bool.false_eq_true, if_false]
    cases hp
    · exact ⟨rfl, rfl⟩
    · simp only [if_true]
      show (w.player.RemoveUnitSpawning b).Generating = _ ∧
        (w.player.RemoveUnitSpawning b).Population = _
      unfold Player.RemoveUnitSpawning
      split
      split <;> exact ⟨rfl, rfl⟩
  · have e1 : (b.Typ == BARRACKS) = false := by simpa using h4
    simp only [e1, Bool.false_eq_true, if_false]
    by_cases h5 : b.Typ = GENERATOR ∨ b.Typ = WALL
    · have e2 : (b.Typ == GENERATOR || b.Typ == WALL) = true := by simpa using h5
      have e4 : (b.Typ == HOUSE) = false := by
        rcases h5 with h5 | h5 <;> rw [h5] <;> decide
      simp only [e2, e4, if_true, Bool.and_false, Bool.false_eq_true, if_false]
      cases hp
      · exact ⟨rfl, rfl⟩
      · simp only [if_true, Bool.true_and]
        split
        · refine ⟨rfl, ?_⟩
          show (w.player.subGenerating _).Population = _
          cases GetResourceGeneration b.Typ b.Variant <;> rfl
        · exact ⟨rfl, rfl⟩
    · have e2 : (b.Typ == GENERATOR || b.Typ == WALL) = false := by simpa using h5
      have e5 : (b.Typ == GENERATOR) = false := by
        simp only [Bool.or_eq_false_iff] at e2; exact e2.1
      have e6 : (b.Typ == WALL) = false := by
        simp only [Bool.or_eq_false_iff] at e2; exact e2.2
      simp only [e2, e5, e6, Bool.false_eq_true, if_false, Bool.false_and, Bool.or_false,
        Bool.and_false]
      by_cases h6 : b.Typ = HOUSE
      · have e4 : (b.Typ == HOUSE) = true := by simpa using h6
        simp only [e4, if_true, Bool.and_true]
        cases hp
        · exact ⟨rfl, rfl⟩
        · simp only [if_true]
          refine ⟨?_, rfl⟩
          show (w.player.decrementCapacity _).Generating = _
          cases GetPopulationCapacity b.Typ b.Variant <;> rfl
      · have e4 : (b.Typ == HOUSE) = false := by simpa using h6
        simp only [e4, Bool.false_eq_true, if_false, Bool.and_false]
        split
        · cases r <;> exact ⟨rfl, rfl⟩
        · exact ⟨rfl, rfl⟩

theorem refreshBuilding_frame (w : World) (b : Building) :
    (w.refreshBuilding b).player.Generating = w.player.Generating ∧
    (w.refreshBuilding b).player.Population = w.player.Population ∧
    (w.refreshBuilding b).player.Base.BuildingLimits = w.player.Base.BuildingLimits ∧
    (∀ r', ((w.refreshBuilding b).getBase r').Buildings = (w.getBase r').Buildings) ∧
    (∀ r', ((w.refreshBuilding b).getBase r').AvailableBuildingIDs =
      (w.getBase r').AvailableBuildingIDs) ∧
    (∀ r', (w.refreshBuilding b).hasPlayer r' = w.hasPlayer r') :=
  ⟨rfl, rfl, rfl, fun r' => by cases r' <;> rfl, fun r' => by cases r' <;> rfl,
    fun r' => by cases r' <;> rfl⟩

theorem removeBuildingEffects_player_congr (w v : World) (r : BaseRef) (hp : Bool)
    (b : Building) (hg : v.player.Generating = w.player.Generating)
    (hq : v.player.Population = w.player.Population) :
    (removeBuildingEffects v r hp b).player.Generating =
      (removeBuildingEffects w r hp b).player.Generating ∧
    (removeBuildingEffects v r hp b).player.Population =
      (removeBuildingEffects w r hp b).player.Population := by
  rw [(removeBuildingEffects_player v r hp b).1, (removeBuildingEffects_player v r hp b).2,
    (removeBuildingEffects_player w r hp b).1, (removeBuildingEffects_player w r hp b).2]
  have e1 : ∀ g, (v.player.subGenerating g).Generating = (w.player.subGenerating g).Generating := by
    intro g; cases g
    · exact hg
    · show Generating.mk _ = Generating.mk _
      rw [hg]
  have e2 : ∀ c, (v.player.decrementCapacity c).Population =
      (w.player.decrementCapacity c).Population := by
    intro c; cases c
    · exact hq
    · show (v.player.Population.DecrementCapacity _).1 = (w.player.Population.DecrementCapacity _).1
      rw [hq]
  rw [e1, e2, hg, hq]
  exact ⟨rfl, rfl⟩

theorem modifyBase_frame (w : World) (r : BaseRef) (f : Base → Base) :
    (w.modifyBase r f).player.Generating = w.player.Generating ∧
    (w.modifyBase r f).player.Population = w.player.Population ∧
    (w.modifyBase r f).neutral.CapturedBy = w.neutral.CapturedBy ∧
    (w.modifyBase r f).player.Base = (if r = .playerBase then f w.player.Base else w.player.Base) := by
  cases r <;> exact ⟨rfl, rfl, rfl, rfl⟩

theorem hasPlayer_congr (w v : World)
    (h1 : ∀ r, (v.getBase r).Owner = (w.getBase r).Owner)
    (h2 : v.neutral.CapturedBy = w.neutral.CapturedBy) (r : BaseRef) :
    v.hasPlayer r = w.hasPlayer r := by
  unfold World.hasPlayer
  rw [h1 r, h2]

theorem hasPlayer_modifyBase (w : World) (r : BaseRef) (f : Base → Base)
    (hf : (f (w.getBase r)).Owner = (w.getBase r).Owner) (r' : BaseRef) :
    (w.modifyBase r f).hasPlayer r' = w.hasPlayer r' := by
  apply hasPlayer_congr
  · intro x
    rw [getBase_modifyBase]
    by_cases h : x = r
    · subst h; simpa using hf
    · simp [h]
  · exact (modifyBase_frame w r f).2.2.1

theorem RemoveBuilding_some (w : World) (r : BaseRef) (id : ID) (found : Building)
    (h : mapGet (w.getBase r).Buildings id = some found) :
    (Base.RemoveBuilding w r id).2 = true ∧
    ((Base.RemoveBuilding w r id).1.getBase r).Buildings =
      mapDelete (w.getBase r).Buildings id ∧
    (∀ r', r' ≠ r → ((Base.RemoveBuilding w r id).1.getBase r').Buildings =
      (w.getBase r').Buildings) ∧
    ((Base.RemoveBuilding w r id).1.getBase r).AvailableBuildingIDs.IDs =
      (w.getBase r).AvailableBuildingIDs.IDs ++ [id] ∧
    (∀ r', r' ≠ r → ((Base.RemoveBuilding w r id).1.getBase r').AvailableBuildingIDs =
      (w.getBase r').AvailableBuildingIDs) ∧
    (Base.RemoveBuilding w r id).1.player.Base.BuildingLimits =
      (if w.hasPlayer r then (w.player.Base.decrementBuildingLimit found.Typ).1.BuildingLimits
       else w.player.Base.BuildingLimits) ∧
    (Base.RemoveBuilding w r id).1.player.Generating =
      (removeBuildingEffects w r (w.hasPlayer r) found.MarkForRemoval).player.Generating ∧
    (Base.RemoveBuilding w r id).1.player.Population =
      (removeBuildingEffects w r (w.hasPlayer r) found.MarkForRemoval).player.Population ∧
    (∀ r', (Base.RemoveBuilding w r id).1.hasPlayer r' = w.hasPlayer r') := by
  unfold Base.RemoveBuilding
  simp only [h]
  obtain ⟨a1, a2, a3, a4, a5, a6⟩ := refreshBuilding_frame w found.MarkForRemoval
  obtain ⟨c1, c2⟩ := removeBuildingEffects_player_congr w
    (w.refreshBuilding found.MarkForRemoval) r (w.hasPlayer r) found.MarkForRemoval a1 a2
  generalize w.refreshBuilding found.MarkForRemoval = W0 at a1 a2 a3 a4 a5 a6 c1 c2 ⊢
  obtain ⟨b3, b4, b5, b6⟩ :=
    removeBuildingEffects_frame W0 r (w.hasPlayer r) found.MarkForRemoval
  generalize removeBuildingEffects W0 r (w.hasPlayer r) found.MarkForRemoval = W1
    at b3 b4 b5 b6 c1 c2 ⊢
  have hT : found.MarkForRemoval.Typ = found.Typ := rfl
  rw [hT]
  -- the last three writes
  have key : ∀ (W3 : World),
      W3 = (if w.hasPlayer r = true then
        (W1.modifyBase r (fun b => { b with Buildings := mapDelete b.Buildings id })).modifyPlayer
          (fun p => p.decrementLimit found.Typ)
        else W1.modifyBase r (fun b => { b with Buildings := mapDelete b.Buildings id })) →
      (∀ r', (W3.getBase r').Buildings =
        if r' = r then mapDelete (W1.getBase r).Buildings id else (W1.getBase r').Buildings) ∧
      (∀ r', (W3.getBase r').AvailableBuildingIDs = (W1.getBase r').AvailableBuildingIDs) ∧
      (∀ r', (W3.getBase r').Owner = (W1.getBase r').Owner) ∧
      W3.neutral.CapturedBy = W1.neutral.CapturedBy ∧
      W3.player.Generating = W1.player.Generating ∧
      W3.player.Population = W1.player.Population ∧
      W3.player.Base.BuildingLimits =
        (if w.hasPlayer r = true then
          (W1.player.Base.decrementBuildingLimit found.Typ).1.BuildingLimits
        else W1.player.Base.BuildingLimits) := by
    intro W3 hW3
    subst hW3
    cases hpl : w.hasPlayer r
    · simp only [Bool.false_eq_true, if_false]
      refine ⟨?_, ?_, ?_, ?_, ?_, ?_, ?_⟩
      · intro r'; cases r <;> cases r' <;> rfl
      · intro r'; cases r <;> cases r' <;> rfl
      · intro r'; cases r <;> cases r' <;> rfl
      · cases r <;> rfl
      · cases r <;> rfl
      · cases r <;> rfl
      · cases r <;> rfl
    · simp only [if_true]
      have d := fun x => decrementBuildingLimit_frame x found.Typ
      refine ⟨?_, ?_, ?_, ?_, ?_, ?_, ?_⟩
      · intro r'; cases r <;> cases r' <;> first | rfl | exact (d _).1
      · intro r'; cases r <;> cases r' <;> first | rfl | exact (d _).2.1
      · intro r'; cases r <;> cases r' <;> first | rfl | exact (d _).2.2
      · cases r <;> rfl
      · cases r <;> rfl
      · cases r <;> rfl
      · cases r
        · exact decrementBuildingLimit_limits _ _ _ rfl
        · exact decrementBuildingLimit_limits _ _ _ rfl
  obtain ⟨k1, k2, k3, k4, k5, k6, k7⟩ := key _ rfl
  generalize (if w.hasPlayer r = true then
        (W1.modifyBase r (fun b => { b with Buildings := mapDelete b.Buildings id })).modifyPlayer
          (fun p => p.decrementLimit found.Typ)
        else W1.modifyBase r (fun b => { b with Buildings := mapDelete b.Buildings id })) = W3
    at k1 k2 k3 k4 k5 k6 k7 ⊢
  have m := modifyBase_frame W3 r
    (fun b => { b with AvailableBuildingIDs := b.AvailableBuildingIDs.returnID id })
  refine ⟨trivial, ?_, ?_, ?_, ?_, ?_, ?_, ?_, ?_⟩
  · rw [getBase_modifyBase]; simp only [if_true]
    rw [k1, if_pos rfl, b4, a4]
  · intro r' hr
    rw [getBase_modifyBase, if_neg hr, k1, if_neg hr, b4, a4]
  · rw [getBase_modifyBase]; simp only [if_true]
    rw [k2, b5, a5]; rfl
  · intro r' hr
    rw [getBase_modifyBase, if_neg hr, k2, b5, a5]
  · rw [m.2.2.2]
    have : (if r = BaseRef.playerBase then
        (fun b : Base => { b with AvailableBuildingIDs := b.AvailableBuildingIDs.returnID id })
          W3.player.Base else W3.player.Base).BuildingLimits = W3.player.Base.BuildingLimits := by
      split <;> rfl
    rw [this, k7]
    split
    · exact decrementBuildingLimit_limits _ _ _ (b3.trans a3)
    · exact b3.trans a3
  · rw [m.1, k5, c1]
  · rw [m.2.1, k6, c2]
  · intro r'
    rw [hasPlayer_modifyBase _ _ _ rfl]
    rw [hasPlayer_congr W1 W3 k3 k4, b6, a6]

end Game

namespace Game

theorem lookup_none_of_forall {β : Type} (l : List (Nat × β)) (k : Nat)
    (h : ∀ e ∈ l, e.1 ≠ k) : l.lookup k = none := by
  induction l with
  | nil => rfl
  | cons e rest ih =>
    obtain ⟨a, b⟩ := e
    have h1 : (k == a) = false := by
      have := h (a, b) (List.mem_cons_self _ _)
      simpa using fun h' => this h'.symm
    simp only [List.lookup_cons, h1]
    exact ih (fun e he => h e (List.mem_cons_of_mem _ he))

theorem ValidateBuildingType_cases (t : BuildingType) (h : ValidateBuildingType t = true) :
    t = WALL ∨ t = SIMPLE_TURRET ∨ t = SNIPER_TURRET ∨ t = BARRACKS ∨ t = GENERATOR ∨
      t = HOUSE := by
  by_contra hne
  simp only [not_or] at hne
  obtain ⟨h0, h1, h2, h4, h5, h6⟩ := hne
  have : buildingTypes.lookup t = none := by
    apply lookup_none_of_forall
    intro e he
    simp only [buildingTypes, List.mem_cons, List.mem_singleton, List.not_mem_nil, or_false] at he
    rcases he with he | he | he | he | he | he <;> subst he <;> simp only <;>
      first
      | exact fun h => h0 h.symm
      | exact fun h => h1 h.symm
      | exact fun h => h2 h.symm
      | exact fun h => h4 h.symm
      | exact fun h => h5 h.symm
      | exact fun h => h6 h.symm
  simp [ValidateBuildingType, tableGet, this] at h

end Game

namespace Network

theorem handlePlaced_some (w : World) (t : BuildingType) (placement : Option BaseRef)
    (cf ov : Bool) (ptr : Nat) (w1 : World) (bld : Building)
    (h : handlePlacedBuildingMessage w t placement cf ov ptr = (w1, some bld)) :
    ValidateBuildingType t = true ∧
    ∃ base costs power w2,
      placement = some base ∧
      GetBuildingCost t BASIC_BUILDING = some costs ∧
      w.player.Resources.Power.Decrement costs = (power, true) ∧
      Base.AddBuilding (w.modifyPlayer (fun p => p.setPower power)) base t ptr =
        (w2, some bld) ∧
      w1 = w2.modifyPlayer (fun p =>
        (p.addGenerating (GetResourceGeneration t BASIC_BUILDING)).incrementCapacity
          (GetPopulationCapacity bld.Typ bld.Variant)) := by
  unfold handlePlacedBuildingMessage at h
  by_cases hv : ValidateBuildingType t = true
  swap
  · simp [hv] at h
  simp only [hv, Bool.not_true, Bool.false_eq_true, if_false] at h
  refine ⟨hv, ?_⟩
  cases placement with
  | none => simp at h
  | some base =>
    simp only at h
    cases hc : GetBuildingCost t BASIC_BUILDING with
    | none => simp [hc] at h
    | some costs =>
      simp only [hc] at h
      rcases hd : w.player.Resources.Power.Decrement costs with ⟨power, ok⟩
      rw [hd] at h
      cases ok with
      | false => simp at h
      | true =>
        simp only at h
        cases cf with
        | false => simp at h
        | true =>
          cases ov with
          | true => simp at h
          | false =>
            simp only [Bool.not_true, Bool.false_eq_true, if_false] at h
            rcases ha : Base.AddBuilding (w.modifyPlayer (fun p => p.setPower power)) base t ptr
              with ⟨w2, res⟩
            rw [ha] at h
            cases res with
            | none => simp at h
            | some b =>
              simp only at h
              injection h with h1 h2
              injection h2 with h2
              subst h2
              exact ⟨base, costs, power, w2, rfl, rfl, hd, ha, h1.symm⟩


theorem addGenerating_fields (p : Player) (g : Option Generating) :
    (p.addGenerating g).Generating =
      (match g with
        | some x => ⟨add16 p.Generating.Power x.Power⟩
        | none => p.Generating) ∧
    (p.addGenerating g).Population = p.Population := by
  cases g <;> exact ⟨rfl, rfl⟩

theorem subGenerating_fields (p : Player) (g : Option Generating) :
    (p.subGenerating g).Generating =
      (match g with
        | some x => ⟨sub16 p.Generating.Power x.Power⟩
        | none => p.Generating) ∧
    (p.subGenerating g).Population = p.Population := by
  cases g <;> exact ⟨rfl, rfl⟩

theorem incrementCapacity_fields (p : Player) (c : Option Nat) :
    (p.incrementCapacity c).Population =
      (match c with
        | some x => p.Population.IncrementCapacity x
        | none => p.Population) ∧
    (p.incrementCapacity c).Generating = p.Generating := by
  cases c <;> exact ⟨rfl, rfl⟩

theorem decrementCapacity_fields (p : Player) (c : Option Nat) :
    (p.decrementCapacity c).Population =
      (match c with
        | some x => (p.Population.DecrementCapacity x).1
        | none => p.Population) ∧
    (p.decrementCapacity c).Generating = p.Generating := by
  cases c <;> exact ⟨rfl, rfl⟩

theorem getLimit_mapSet (b : Base) (l : List (BuildingType × BuildingLimit))
    (t : BuildingType) (v : BuildingLimit) (h : b.BuildingLimits = mapSet l t v) :
    b.getLimit t = v := by
  unfold Base.getLimit
  rw [h, mapGet_mapSet]
  simp

theorem Population.increment_decrement (p : Population) (c : Nat)
    (h : p.Capacity + c ≤ MaxCapacity) :
    ((p.IncrementCapacity c).DecrementCapacity c).1.Capacity = p.Capacity := by
  unfold MaxCapacity at h
  have h1 : p.IncrementCapacity c = { p with Capacity := p.Capacity + c } := by
    unfold Population.IncrementCapacity sub16 add16 MaxCapacity
    rw [if_neg (by omega)]
    congr 1
    omega
  rw [h1]
  unfold Population.DecrementCapacity sub16
  rw [if_pos (by simp)]
  simp only
  omega

end Network

namespace Game

theorem mem_mapKeys_of_mapGet {β : Type} (m : List (Nat × β)) (k : Nat) (v : β)
    (h : mapGet m k = some v) : k ∈ mapKeys m := by
  unfold mapGet at h
  induction m with
  | nil => simp at h
  | cons e rest ih =>
    obtain ⟨a, b⟩ := e
    by_cases hk : k = a
    · subst hk; simp [mapKeys]
    · have h1 : (k == a) = false := by simpa using hk
      simp only [List.lookup_cons, h1] at h
      have := ih h
      simp only [mapKeys, List.map_cons, List.mem_cons] at this ⊢
      exact Or.inr this

theorem mapDelete_eq_self {β : Type} (m : List (Nat × β)) (k : Nat)
    (h : k ∉ mapKeys m) : mapDelete m k = m := by
  unfold mapDelete
  rw [List.filter_eq_self]
  intro e he
  have : e.1 ≠ k := by
    intro hek
    apply h
    unfold mapKeys
    exact List.mem_map.mpr ⟨e, he, hek⟩
  simpa using this

theorem mapKeys_mapDelete {β : Type} (m : List (Nat × β)) (k : Nat) :
    mapKeys (mapDelete m k) = (mapKeys m).filter (fun x => x != k) := by
  unfold mapKeys mapDelete
  induction m with
  | nil => rfl
  | cons e rest ih =>
    by_cases h : e.1 = k
    · simp [List.filter_cons, h, ih]
    · have h1 : (e.1 != k) = true := by simpa using h
      simp [List.filter_cons, h1, ih]

theorem countP_mapDelete {β : Type} (p : Nat × β → Bool) (m : List (Nat × β)) (k : Nat)
    (v : β) (hnd : (mapKeys m).Nodup) (h : mapGet m k = some v) :
    (mapDelete m k).countP p + (if p (k, v) then 1 else 0) = m.countP p := by
  induction m with
  | nil => simp [mapGet] at h
  | cons e rest ih =>
    obtain ⟨a, b⟩ := e
    simp only [mapKeys, List.map_cons, List.nodup_cons] at hnd
    by_cases hk : k = a
    · subst hk
      have hv : b = v := by simpa [mapGet] using h
      subst hv
      have hrest : mapDelete rest k = rest := mapDelete_eq_self rest k hnd.1
      have : mapDelete ((k, b) :: rest) k = rest := by
        unfold mapDelete at hrest ⊢
        simp [List.filter_cons, hrest]
      rw [this, List.countP_cons]
    · have h1 : (k == a) = false := by simpa using hk
      have h2 : (a != k) = true := by simpa using fun h' => hk h'.symm
      have hrest : mapGet rest k = some v := by
        simpa [mapGet, List.lookup_cons, h1] using h
      have := ih hnd.2 hrest
      have e1 : mapDelete ((a, b) :: rest) k = (a, b) :: mapDelete rest k := by
        unfold mapDelete
        simp [List.filter_cons, h2]
      rw [e1, List.countP_cons, List.countP_cons]
      omega

theorem mem_of_mapGet {β : Type} (m : List (Nat × β)) (k : Nat) (v : β)
    (h : mapGet m k = some v) : (k, v) ∈ m := by
  unfold mapGet at h
  induction m with
  | nil => simp at h
  | cons e rest ih =>
    obtain ⟨a, b⟩ := e
    by_cases hk : k = a
    · subst hk
      have : b = v := by simpa using h
      subst this
      exact List.mem_cons_self _ _
    · have h1 : (k == a) = false := by simpa using hk
      simp only [List.lookup_cons, h1] at h
      exact List.mem_cons_of_mem _ (ih h)

theorem countType_cons (t : BuildingType) (id : ID) (b : Building)
    (m : List (ID × Building)) :
    countType t ((id, b) :: m) =
      countType t m + (if (b.Typ == t && !b.RemoveFlag) = true then 1 else 0) := by
  unfold countType
  rw [List.countP_cons]

theorem countType_mapDelete (t : BuildingType) (m : List (ID × Building)) (id : ID)
    (found : Building) (hnd : (mapKeys m).Nodup) (h : mapGet m id = some found) :
    countType t (mapDelete m id) +
      (if (found.Typ == t && !found.RemoveFlag) = true then 1 else 0) = countType t m :=
  countP_mapDelete _ m id found hnd h

theorem mem_mapDelete {β : Type} (m : List (Nat × β)) (k : Nat) (e : Nat × β)
    (h : e ∈ mapDelete m k) : e ∈ m := by
  unfold mapDelete at h
  exact (List.mem_filter.mp h).1

theorem getLimit_mapSet_ne (b : Base) (l : List (BuildingType × BuildingLimit))
    (t t' : BuildingType) (v : BuildingLimit) (h : b.BuildingLimits = mapSet l t v)
    (hne : t' ≠ t) : b.getLimit t' = (mapGet l t').getD ⟨0, 0⟩ := by
  unfold Base.getLimit
  rw [h, mapGet_mapSet]
  simp [hne]

end Game

namespace Network
open Game

theorem modifyPlayer_base (w : World) (f : Player → Player)
    (hf : (f w.player).Base = w.player.Base) :
    (w.modifyPlayer f).player.Base = w.player.Base ∧
    (∀ r, (w.modifyPlayer f).hasPlayer r = w.hasPlayer r) := by
  refine ⟨hf, ?_⟩
  intro r
  apply hasPlayer_congr
  · intro x; cases x
    · show (f w.player).Base.Owner = _; rw [hf]; rfl
    · rfl
  · rfl

theorem newPlayer_BaseInv (ptr permission : Nat) (id : ID) :
    BaseInv (newPlayer ptr permission id).Base := by
  refine ⟨List.nodup_nil, ?_, ?_, ?_, ?_⟩
  · show ((List.range 256).map (fun i => i % 256)).Nodup
    refine List.Nodup.map_on ?_ (List.nodup_range 256)
    intro x hx y hy hxy
    have hx' := List.mem_range.mp hx
    have hy' := List.mem_range.mp hy
    have hxy' : x % 256 = y % 256 := hxy
    omega
  · intro x _ hx
    exact absurd hx (List.not_mem_nil _)
  · intro e he
    exact absurd he (List.not_mem_nil _)
  · intro t
    show ((mapGet [ (WALL, (⟨0, 9999⟩ : BuildingLimit)), (SIMPLE_TURRET, ⟨0, 9999⟩),
      (SNIPER_TURRET, ⟨0, 9999⟩), (BARRACKS, ⟨0, 9999⟩), (GENERATOR, ⟨0, 9999⟩),
      (HOUSE, ⟨0, 64⟩) ] t).getD ⟨0, 0⟩).Current = 0
    unfold mapGet
    simp only [List.lookup_cons, List.lookup_nil]
    repeat' split
    all_goals rfl

end Network

namespace Game

set_option maxRecDepth 100000 in
theorem spawn_saturated_fixpoint (ptr : Nat) :
    startUnitSpawnLoop (spawnTicks barracksPlayer (List.range 17)) ptr =
      (spawnTicks barracksPlayer (List.range 17), []) := by
  rfl

set_option maxRecDepth 100000 in
theorem tickView_saturated (ptr : Nat) :
    tickView (spawnTicks barracksPlayer (List.range 17)) ptr = ([], 64, [0]) := by
  rfl

theorem ticksView_fixpoint (p : Player) (v0 : List UnitType × Nat × List Nat)
    (h1 : ∀ ptr, startUnitSpawnLoop p ptr = (p, []))
    (h2 : ∀ ptr, tickView p ptr = v0) (ptrs : List Nat) :
    ticksView p ptrs = List.replicate ptrs.length v0 := by
  induction ptrs with
  | nil => rfl
  | cons ptr rest ih =>
    unfold ticksView
    rw [h1, h2, ih]
    rfl

end Game

/-! ## The claims -/

namespace Game

set_option maxRecDepth 100000 in
/-- Claim C1 (code defect): a failed `AddBullet` does not give the bullet ID
back.  On the base of a new player (pool `InitAvailableIDs 256`) one call that
fails because the target coincides with the spawn point, because the shooter
has no bullet stats, or because the shooter is nil, takes ID 0 from the
free-list and links no bullet: afterwards ID 0 is neither a key of `Bullets`
nor in `AvailableBulletIDs.IDs`, and the free-list differs from the one before
the call. -/
theorem C1_failed_addBullet_loses_id :
    freshBase.AvailableBulletIDs = InitAvailableIDs 256 ∧
    (freshBase.AddBullet turretSpawner true).2 = none ∧
    (freshBase.AddBullet turretSpawner true).1.AvailableBulletIDs ≠
      freshBase.AvailableBulletIDs ∧
    0 ∉ (freshBase.AddBullet turretSpawner true).1.AvailableBulletIDs.IDs ∧
    0 ∉ mapKeys (freshBase.AddBullet turretSpawner true).1.Bullets ∧
    (freshBase.AddBullet wallSpawner false).2 = none ∧
    0 ∉ (freshBase.AddBullet wallSpawner false).1.AvailableBulletIDs.IDs ∧
    0 ∉ mapKeys (freshBase.AddBullet wallSpawner false).1.Bullets ∧
    (freshBase.AddBullet nilSpawner false).2 = none ∧
    0 ∉ (freshBase.AddBullet nilSpawner false).1.AvailableBulletIDs.IDs ∧
    0 ∉ mapKeys (freshBase.AddBullet nilSpawner false).1.Bullets := by
  decide

/-- Claim C2 (code defect): `Health.Increment` does not cap at `Max` when the
amount exceeds `Max`.  With `Current = 5`, `Max = 10` and `amount = 20` the
guard `h.Current > h.Max-amount` compares 5 with the wrapped difference 65526,
the else branch adds, and `Current` becomes 25: above `Max` and different from
`min (5 + 20) 10`. -/
theorem C2_health_increment_exceeds_max :
    (⟨5, 10⟩ : Health).Current ≤ (⟨5, 10⟩ : Health).Max ∧
    Health.Increment ⟨5, 10⟩ 20 = ⟨25, 10⟩ ∧
    ¬ ((Health.Increment ⟨5, 10⟩ 20).Current ≤ (Health.Increment ⟨5, 10⟩ 20).Max) ∧
    (Health.Increment ⟨5, 10⟩ 20).Current ≠ min (5 + 20) 10 := by
  decide

/-- Claim C3 (code defect): `Resource.Increment` adds in 16 bits before it
clamps.  An admin player with power 60000 of capacity 60000 who receives the
6000 kill reward ends with power 464: the sum 66000 wraps to 464, which is not
above the capacity, so no clamp applies and the power has decreased. -/
theorem C3_resource_increment_wraps :
    (newPlayer 1 PERMISSION_ADMIN 0).Resources.Power = ⟨60000, 60000⟩ ∧
    Resource.Increment ⟨60000, 60000⟩ 6000 = ⟨464, 60000⟩ ∧
    (Resource.Increment ⟨60000, 60000⟩ 6000).Current ≠ min (60000 + 6000) 60000 ∧
    (Resource.Increment ⟨60000, 60000⟩ 6000).Current < 60000 := by
  decide

/-- Claim C4 fails as stated: with `Used = Capacity = 64`, `DecrementCapacity 8`
(the removal of a HOUSE) succeeds and leaves `Capacity = 56` below `Used = 64`. -/
theorem C4_decrementCapacity_below_used :
    (⟨64, 64⟩ : Population).Used ≤ (⟨64, 64⟩ : Population).Capacity ∧
    GetPopulationCapacity HOUSE BASIC_BUILDING = some 8 ∧
    Population.DecrementCapacity ⟨64, 64⟩ 8 = (⟨64, 56⟩, true) ∧
    ¬ ((Population.DecrementCapacity ⟨64, 64⟩ 8).1.Used ≤
        (Population.DecrementCapacity ⟨64, 64⟩ 8).1.Capacity) := by
  decide

/-- Claim C4 (amended): from `Used ≤ Capacity`, `IncrementUsed` and
`DecrementUsed` keep `Used ≤ Capacity` for every amount, whether they succeed
or fail; `IncrementCapacity` keeps it when capacity and amount are at most
2048; `DecrementCapacity` does not look at `Used`: it succeeds iff
`amount ≤ Capacity`, and it leaves `Used ≤ Capacity` exactly when it fails or
`Used + amount ≤ Capacity` held before the call. -/
theorem C4_population_used_le_capacity (p : Population) (amount : Nat)
    (h : p.Used ≤ p.Capacity) (hc : p.Capacity < 65536) :
    (p.IncrementUsed amount).1.Used ≤ (p.IncrementUsed amount).1.Capacity ∧
    (p.DecrementUsed amount).1.Used ≤ (p.DecrementUsed amount).1.Capacity ∧
    (p.Capacity ≤ MaxCapacity → amount ≤ MaxCapacity →
      (p.IncrementCapacity amount).Used ≤ (p.IncrementCapacity amount).Capacity) ∧
    (p.DecrementCapacity amount).2 = decide (amount ≤ p.Capacity) ∧
    ((p.DecrementCapacity amount).1.Used ≤ (p.DecrementCapacity amount).1.Capacity ↔
      (p.Capacity < amount ∨ p.Used + amount ≤ p.Capacity)) := by
  refine ⟨?_, ?_, ?_, ?_, ?_⟩
  · unfold Population.IncrementUsed
    split
    · exact h
    · simp only; omega
  · unfold Population.DecrementUsed sub16
    split
    · simp only; omega
    · exact h
  · intro hm ha
    unfold Population.IncrementCapacity sub16 add16 MaxCapacity
    unfold MaxCapacity at hm ha
    split <;> simp only <;> omega
  · unfold Population.DecrementCapacity
    split
    · rename_i hge; simp only; exact (decide_eq_true hge).symm
    · rename_i hlt; simp only; exact (decide_eq_false hlt).symm
  · unfold Population.DecrementCapacity sub16
    split
    · simp only; omega
    · simp only; omega

/-- Witness of C4 (amended): a population of 16 used out of 64 and the
amount 8. -/
theorem C4_population_used_le_capacity_witness :
    (⟨16, 64⟩ : Population).Used ≤ (⟨16, 64⟩ : Population).Capacity ∧
    (Population.IncrementUsed ⟨16, 64⟩ 8).1.Used ≤
      (Population.IncrementUsed ⟨16, 64⟩ 8).1.Capacity :=
  ⟨by decide, (C4_population_used_le_capacity ⟨16, 64⟩ 8 (by decide) (by decide)).1⟩

end Game

namespace Network

open Game

set_option maxRecDepth 100000 in
/-- Claim C5 fails as stated: the limits are kept per player, not per base.
After the player has captured the neutral base and placed a WALL on it, the
WALL counter of the player base is 1 while the player base holds no building. -/
theorem C5_neutral_placement_counts_for_player :
    capturedWorld.neutral.CapturedBy = true ∧
    (handlePlacedBuildingMessage capturedWorld WALL (some .neutralBase) true false 300).2.isSome
      = true ∧
    ((handlePlacedBuildingMessage capturedWorld WALL (some .neutralBase) true false
        300).1.player.Base.getLimit WALL).Current = 1 ∧
    countType WALL (handlePlacedBuildingMessage capturedWorld WALL (some .neutralBase) true false
        300).1.player.Base.Buildings = 0 := by
  decide

end Network

namespace Game

theorem BaseWf_congr (b b' : Base) (h1 : b'.Buildings = b.Buildings)
    (h3 : b'.AvailableBuildingIDs.IDs = b.AvailableBuildingIDs.IDs) (h : BaseWf b) :
    BaseWf b' := by
  unfold BaseWf at *
  rw [h1, h3]
  exact h

theorem BaseWf_pop (b b' : Base) (id : ID) (h1 : b'.Buildings = b.Buildings)
    (h3 : b.AvailableBuildingIDs.IDs = id :: b'.AvailableBuildingIDs.IDs) (h : BaseWf b) :
    BaseWf b' := by
  obtain ⟨i1, i2, i3, i4⟩ := h
  rw [h3] at i2 i3
  refine ⟨by rw [h1]; exact i1, (List.nodup_cons.mp i2).2, ?_, by rw [h1]; exact i4⟩
  intro x hx
  rw [h1]
  exact i3 x (List.mem_cons_of_mem _ hx)

theorem BaseWf_add (b b' : Base) (id : ID) (rest : List ID) (bld : Building)
    (hids : b.AvailableBuildingIDs.IDs = id :: rest)
    (hids' : b'.AvailableBuildingIDs.IDs = rest)
    (hb : b'.Buildings = mapSet b.Buildings id bld)
    (hF : bld.RemoveFlag = false) (h : BaseWf b) :
    BaseWf b' ∧ b'.Buildings = (id, bld) :: b.Buildings := by
  obtain ⟨i1, i2, i3, i4⟩ := h
  rw [hids] at i2 i3
  have hfresh : id ∉ mapKeys b.Buildings := i3 id (List.mem_cons_self _ _)
  have hB : b'.Buildings = (id, bld) :: b.Buildings := by
    rw [hb]; unfold mapSet; rw [mapDelete_eq_self _ _ hfresh]
  refine ⟨⟨?_, ?_, ?_, ?_⟩, hB⟩
  · rw [hB]
    simp only [mapKeys, List.map_cons, List.nodup_cons]
    exact ⟨hfresh, i1⟩
  · rw [hids']; exact (List.nodup_cons.mp i2).2
  · rw [hids', hB]
    intro x hx
    simp only [mapKeys, List.map_cons, List.mem_cons, not_or]
    refine ⟨?_, i3 x (List.mem_cons_of_mem _ hx)⟩
    intro hxe
    subst hxe
    exact (List.nodup_cons.mp i2).1 hx
  · rw [hB]
    intro e he
    rcases List.mem_cons.mp he with he | he
    · subst he; exact hF
    · exact i4 e he

theorem BaseWf_remove (b b' : Base) (id : ID) (found : Building)
    (hfound : mapGet b.Buildings id = some found)
    (hb : b'.Buildings = mapDelete b.Buildings id)
    (hids : b'.AvailableBuildingIDs.IDs = b.AvailableBuildingIDs.IDs ++ [id])
    (h : BaseWf b) : BaseWf b' := by
  obtain ⟨i1, i2, i3, i4⟩ := h
  have hmem : id ∈ mapKeys b.Buildings := mem_mapKeys_of_mapGet _ _ _ hfound
  refine ⟨?_, ?_, ?_, ?_⟩
  · rw [hb, mapKeys_mapDelete]
    exact i1.filter _
  · rw [hids]
    rw [List.nodup_append]
    refine ⟨i2, List.nodup_singleton _, ?_⟩
    intro x hx hx'
    simp only [List.mem_singleton] at hx'
    subst hx'
    exact i3 x hx hmem
  · rw [hids, hb, mapKeys_mapDelete]
    intro x hx
    rcases List.mem_append.mp hx with hx | hx
    · intro hx'
      exact i3 x hx (List.mem_filter.mp hx').1
    · simp only [List.mem_singleton] at hx
      subst hx
      simp [List.mem_filter]
  · rw [hb]
    intro e he
    exact i4 e (mem_mapDelete _ _ _ he)

theorem countPlaced_cons (t : BuildingType) (id : ID) (b : Building)
    (m : List (ID × Building)) :
    countPlaced t ((id, b) :: m) =
      countPlaced t m +
        (if (b.Typ == t && !b.RemoveFlag && b.Owner != .nil) = true then 1 else 0) := by
  unfold countPlaced
  rw [List.countP_cons]

theorem countPlaced_mapDelete (t : BuildingType) (m : List (ID × Building)) (id : ID)
    (found : Building) (hnd : (mapKeys m).Nodup) (h : mapGet m id = some found) :
    countPlaced t (mapDelete m id) +
      (if (found.Typ == t && !found.RemoveFlag && found.Owner != .nil) = true then 1 else 0) =
      countPlaced t m :=
  countP_mapDelete _ m id found hnd h

/-- `PopulateNeutralBase` keeps a base well-formed and its owner, and the
buildings it adds have no owner. -/
theorem populateLoop_wf (n : Nat) : ∀ (ptr : Nat) (b : Base), BaseWf b →
    BaseWf (populateLoop n ptr b) ∧ (populateLoop n ptr b).Owner = b.Owner ∧
    (∀ e ∈ (populateLoop n ptr b).Buildings, e ∈ b.Buildings ∨ e.2.Owner = .nil) := by
  induction n with
  | zero => intro ptr b h; exact ⟨h, rfl, fun e he => Or.inl he⟩
  | succ n ih =>
    intro ptr b h
    unfold populateLoop
    cases hl : b.AvailableBuildingIDs.IDs with
    | nil =>
      have : b.AvailableBuildingIDs.getNextAvailableID = (b.AvailableBuildingIDs, 0, false) := by
        simp [AvailableIDs.getNextAvailableID, hl]
      simp only [this]
      refine ⟨h, ?_, fun e he => Or.inl he⟩
      first | rfl | trivial
    | cons id rest =>
      have : b.AvailableBuildingIDs.getNextAvailableID = (⟨rest⟩, id, true) := by
        simp [AvailableIDs.getNextAvailableID, hl]
      simp only [this]
      by_cases hpoly : GetBuildingPolygon WALL = true
      · simp only [hpoly, Bool.not_true, Bool.false_eq_true, if_false]
        have hadd := BaseWf_add b
          { b with AvailableBuildingIDs := ⟨rest⟩,
                   Buildings := mapSet b.Buildings id
                     { Ptr := ptr, Owner := .nil, ID := id, Typ := WALL, Variant := SPIKE,
                       Health := GetInitialHealth WALL SPIKE, RemoveFlag := false } }
          id rest _ hl rfl rfl rfl h
        obtain ⟨h1, h2, h3⟩ := ih (ptr + 1) _ hadd.1
        refine ⟨h1, h2, ?_⟩
        intro e he
        rcases h3 e he with h4 | h4
        · rw [hadd.2] at h4
          rcases List.mem_cons.mp h4 with h6 | h6
          · right; rw [h6]
          · exact Or.inl h6
        · exact Or.inr h4
      · simp only [hpoly, Bool.not_false, if_true]
        refine ⟨BaseWf_pop b _ id rfl hl h, ?_, fun e he => Or.inl he⟩
        first | rfl | trivial

theorem countPlaced_of_nil (t : BuildingType) (m : List (ID × Building))
    (h : ∀ e ∈ m, e.2.Owner = .nil) : countPlaced t m = 0 := by
  unfold countPlaced
  rw [List.countP_eq_zero]
  intro e he
  simp [h e he]

theorem InitAvailableIDs_256_nodup : (InitAvailableIDs 256).IDs.Nodup := by
  show ((List.range 256).map (fun i => i % 256)).Nodup
  refine List.Nodup.map_on ?_ (List.nodup_range 256)
  intro x hx y hy hxy
  have hx' := List.mem_range.mp hx
  have hy' := List.mem_range.mp hy
  have hxy' : x % 256 = y % 256 := hxy
  omega

theorem newNeutralBase_wf (ptr : Nat) (id : ID) (wallPtr : Nat) :
    BaseWf (newNeutralBase ptr id wallPtr).Base ∧
    (newNeutralBase ptr id wallPtr).Base.Owner = .neutral ptr ∧
    (newNeutralBase ptr id wallPtr).CapturedBy = false := by
  have h := populateLoop_wf 22 wallPtr
    { Owner := .neutral ptr, Health := ⟨1000, 1000⟩, Buildings := [], BuildingLimits := [],
      Bullets := [], BulletSpawning := [], AvailableBuildingIDs := InitAvailableIDs 256,
      AvailableBulletIDs := InitAvailableIDs 256 }
    ⟨List.nodup_nil, InitAvailableIDs_256_nodup, fun _ _ h => absurd h (List.not_mem_nil _),
      fun _ h => absurd h (List.not_mem_nil _)⟩
  exact ⟨h.1, h.2.1, rfl⟩

theorem newPlayer_wf (ptr permission : Nat) (id : ID) :
    BaseWf (newPlayer ptr permission id).Base :=
  ⟨List.nodup_nil, InitAvailableIDs_256_nodup, fun _ _ h => absurd h (List.not_mem_nil _),
    fun _ h => absurd h (List.not_mem_nil _)⟩

end Game

namespace Network

open Game

theorem NeutralKept_refl (w : World) : NeutralKept w w := ⟨rfl, rfl⟩

theorem NeutralKept_trans {u v w : World} (h1 : NeutralKept u v) (h2 : NeutralKept v w) :
    NeutralKept u w :=
  ⟨h2.1.trans h1.1, h2.2.trans h1.2⟩

theorem NeutralKept_modifyPlayer (w : World) (f : Player → Player) :
    NeutralKept w (w.modifyPlayer f) := ⟨rfl, rfl⟩

theorem NeutralKept_modifyBase (w : World) (r : BaseRef) (f : Base → Base)
    (hf : ∀ b, (f b).Owner = b.Owner) : NeutralKept w (w.modifyBase r f) := by
  cases r
  · exact ⟨rfl, rfl⟩
  · exact ⟨hf _, rfl⟩

theorem NeutralKept_setPlayerBase (w : World) (b : Base) :
    NeutralKept w (w.setBase .playerBase b) := ⟨rfl, rfl⟩

theorem NeutralKept_removeBuildingEffects (w : World) (r : BaseRef) (hp : Bool) (b : Building) :
    NeutralKept w (removeBuildingEffects w r hp b) := by
  unfold removeBuildingEffects
  split
  · split
    · exact NeutralKept_modifyPlayer _ _
    · exact NeutralKept_refl _
  · split
    · split
      · split
        · exact NeutralKept_modifyPlayer _ _
        · exact NeutralKept_refl _
      · exact NeutralKept_refl _
    · split
      · split
        · exact NeutralKept_modifyPlayer _ _
        · exact NeutralKept_refl _
      · split
        · exact NeutralKept_modifyBase _ _ _ (fun _ => rfl)
        · exact NeutralKept_refl _

theorem NeutralKept_RemoveBuilding (w : World) (r : BaseRef) (id : ID) :
    NeutralKept w (Base.RemoveBuilding w r id).1 := by
  unfold Base.RemoveBuilding
  split
  · exact NeutralKept_refl _
  · rename_i found _
    have h0 : NeutralKept w (w.refreshBuilding found.MarkForRemoval) := ⟨rfl, rfl⟩
    have h1 := NeutralKept_removeBuildingEffects (w.refreshBuilding found.MarkForRemoval) r
      (w.hasPlayer r) found.MarkForRemoval
    simp only
    refine NeutralKept_trans ?_ (NeutralKept_modifyBase _ _ _ (fun _ => rfl))
    by_cases hp : w.hasPlayer r = true
    · simp only [hp, if_true] at h1 ⊢
      refine NeutralKept_trans ?_ (NeutralKept_modifyPlayer _ _)
      exact NeutralKept_trans (NeutralKept_trans h0 h1)
        (NeutralKept_modifyBase _ _ _ (fun _ => rfl))
    · simp only [hp, Bool.false_eq_true, if_false] at h1 ⊢
      exact NeutralKept_trans (NeutralKept_trans h0 h1)
        (NeutralKept_modifyBase _ _ _ (fun _ => rfl))

theorem NeutralKept_addBuildingSpawners (w : World) (r : BaseRef) (b : Building) :
    NeutralKept w (addBuildingSpawners w r b) := by
  unfold addBuildingSpawners
  split
  · exact NeutralKept_modifyPlayer _ _
  · split
    · refine NeutralKept_modifyBase _ _ _ ?_
      intro x
      unfold Base.AddBulletSpawning
      split <;> rfl
    · exact NeutralKept_refl _

theorem NeutralKept_AddBuilding (w : World) (r : BaseRef) (t : BuildingType) (ptr : Nat)
    (w' : World) (res : Option Building) (h : Base.AddBuilding w r t ptr = (w', res)) :
    NeutralKept w w' := by
  cases res with
  | none =>
    rcases AddBuilding_none w r t ptr w' h with h1 | ⟨id, rest, _, _, h1⟩
    · rw [h1]; exact NeutralKept_refl _
    · rw [h1]; exact NeutralKept_modifyBase _ _ _ (fun _ => rfl)
  | some bld =>
    unfold Base.AddBuilding at h
    by_cases hp : w.hasPlayer r = true
    swap
    · simp [hp] at h
    simp only [hp, Bool.not_true, Bool.false_eq_true, if_false] at h
    by_cases hc : w.player.Base.canAddBuilding t = true
    swap
    · simp [hc] at h
    simp only [hc, Bool.not_true, Bool.false_eq_true, if_false] at h
    unfold AvailableIDs.getNextAvailableID at h
    cases hids : (w.getBase r).AvailableBuildingIDs.IDs with
    | nil => simp [hids] at h
    | cons id rest =>
      simp only [hids] at h
      by_cases hpoly : GetBuildingPolygon t = true
      swap
      · simp [hpoly] at h
      simp only [hpoly, Bool.not_true, Bool.false_eq_true, if_false] at h
      split at h
      · simp at h
      · injection h with h1 _
        rw [← h1]
        refine NeutralKept_trans ?_ (NeutralKept_addBuildingSpawners _ _ _)
        refine NeutralKept_trans ?_ (NeutralKept_setPlayerBase _ _)
        refine NeutralKept_trans ?_ (NeutralKept_modifyBase _ _ _ (fun _ => rfl))
        exact NeutralKept_modifyBase _ _ _ (fun _ => rfl)

/-- What a placement request that places nothing leaves of the two bases: the
buildings and the limits as they were, and of the free IDs at most the first
one taken. -/
theorem handlePlaced_none (w : World) (t : BuildingType) (placement : Option BaseRef)
    (cf ov : Bool) (ptr : Nat) (w1 : World)
    (h : handlePlacedBuildingMessage w t placement cf ov ptr = (w1, none)) :
    (∀ r, w1.hasPlayer r = w.hasPlayer r) ∧
    NeutralKept w w1 ∧
    w1.player.Base.BuildingLimits = w.player.Base.BuildingLimits ∧
    (∀ r, (w1.getBase r).Buildings = (w.getBase r).Buildings) ∧
    (∀ r, (w1.getBase r).AvailableBuildingIDs.IDs = (w.getBase r).AvailableBuildingIDs.IDs ∨
      ∃ id, (w.getBase r).AvailableBuildingIDs.IDs =
        id :: (w1.getBase r).AvailableBuildingIDs.IDs) := by
  have same : ∀ v : World, v.player.Base = w.player.Base → v.neutral = w.neutral →
      (∀ r, v.hasPlayer r = w.hasPlayer r) ∧
      NeutralKept w v ∧
      v.player.Base.BuildingLimits = w.player.Base.BuildingLimits ∧
      (∀ r, (v.getBase r).Buildings = (w.getBase r).Buildings) ∧
      (∀ r, (v.getBase r).AvailableBuildingIDs.IDs = (w.getBase r).AvailableBuildingIDs.IDs ∨
        ∃ id, (w.getBase r).AvailableBuildingIDs.IDs =
          id :: (v.getBase r).AvailableBuildingIDs.IDs) := by
    intro v hv hn
    have hb : ∀ r, v.getBase r = w.getBase r := by
      intro r; cases r
      · exact hv
      · show v.neutral.Base = w.neutral.Base; rw [hn]
    refine ⟨?_, ⟨by rw [hn], by rw [hn]⟩, by rw [hv], fun r => by rw [hb r],
      fun r => Or.inl (by rw [hb r])⟩
    intro r
    unfold World.hasPlayer
    rw [hb r, hn]
  unfold handlePlacedBuildingMessage at h
  by_cases hv : ValidateBuildingType t = true
  swap
  · simp only [hv, Bool.not_false, if_true] at h
    injection h with h1 _
    subst h1
    exact same _ rfl rfl
  simp only [hv, Bool.not_true, Bool.false_eq_true, if_false] at h
  cases placement with
  | none =>
    simp only at h
    injection h with h1 _
    subst h1
    exact same _ rfl rfl
  | some base =>
    simp only at h
    cases hc : GetBuildingCost t BASIC_BUILDING with
    | none =>
      simp only [hc] at h
      injection h with h1 _
      subst h1
      exact same _ rfl rfl
    | some costs =>
      simp only [hc] at h
      rcases hd : w.player.Resources.Power.Decrement costs with ⟨power, ok⟩
      rw [hd] at h
      cases ok with
      | false =>
        simp only at h
        injection h with h1 _
        subst h1
        exact same _ rfl rfl
      | true =>
        simp only at h
        by_cases hcf : cf = true
        swap
        · simp only [hcf, Bool.not_false, if_true] at h
          injection h with h1 _
          subst h1
          exact same _ rfl rfl
        simp only [hcf, Bool.not_true, Bool.false_eq_true, if_false] at h
        by_cases hov : ov = true
        · simp only [hov, if_true] at h
          injection h with h1 _
          subst h1
          exact same _ rfl rfl
        simp only [hov, Bool.false_eq_true, if_false] at h
        rcases ha : Base.AddBuilding (w.modifyPlayer (fun p => p.setPower power)) base t ptr
          with ⟨w2, res⟩
        rw [ha] at h
        cases res with
        | some b => simp at h
        | none =>
          simp only at h
          injection h with h1 _
          subst h1
          rcases AddBuilding_none _ _ _ _ _ ha with hw2 | ⟨id, rest, hids, _, hw2⟩
          · subst hw2
            exact same _ rfl rfl
          · subst hw2
            refine ⟨?_, ?_, ?_, ?_, ?_⟩
            · intro r
              cases base <;> cases r <;> rfl
            · cases base <;> exact ⟨rfl, rfl⟩
            · cases base <;> rfl
            · intro r
              cases base <;> cases r <;> rfl
            · intro r
              cases base <;> cases r
              · exact Or.inr ⟨id, hids⟩
              · exact Or.inl rfl
              · exact Or.inl rfl
              · exact Or.inr ⟨id, hids⟩

theorem NeutralKept_handlePlaced (w : World) (t : BuildingType) (placement : Option BaseRef)
    (cf ov : Bool) (ptr : Nat) :
    NeutralKept w (handlePlacedBuildingMessage w t placement cf ov ptr).1 := by
  rcases hres : handlePlacedBuildingMessage w t placement cf ov ptr with ⟨w1, res⟩
  cases res with
  | none => exact (handlePlaced_none w t placement cf ov ptr w1 hres).2.1
  | some bld =>
    obtain ⟨_, base, costs, power, w2, _, _, _, ha, hw1⟩ :=
      handlePlaced_some w t placement cf ov ptr w1 bld hres
    show NeutralKept w w1
    rw [hw1]
    exact NeutralKept_trans (NeutralKept_trans (NeutralKept_modifyPlayer _ _)
      (NeutralKept_AddBuilding _ _ _ _ _ _ ha)) (NeutralKept_modifyPlayer _ _)

end Network

namespace Network

open Game

/-- What a placement request that places a building changes: the building is
linked under the first free ID of the selected base and counted in the limit of
its type of the player. -/
theorem handlePlaced_placed (w : World) (t : BuildingType) (placement : Option BaseRef)
    (cf ov : Bool) (ptr : Nat) (w1 : World) (bld : Building)
    (h : handlePlacedBuildingMessage w t placement cf ov ptr = (w1, some bld)) :
    ∃ base rest, w.hasPlayer base = true ∧
      (w.getBase base).AvailableBuildingIDs.IDs = bld.ID :: rest ∧
      bld.Typ = t ∧ bld.RemoveFlag = false ∧ bld.Owner = (w.getBase base).Owner ∧
      w1.player.Base.BuildingLimits =
        mapSet w.player.Base.BuildingLimits t
          ⟨(w.player.Base.getLimit t).Current + 1, (w.player.Base.getLimit t).Max⟩ ∧
      (w1.getBase base).Buildings = mapSet (w.getBase base).Buildings bld.ID bld ∧
      (∀ r', r' ≠ base → (w1.getBase r').Buildings = (w.getBase r').Buildings) ∧
      (w1.getBase base).AvailableBuildingIDs.IDs = rest ∧
      (∀ r', r' ≠ base →
        (w1.getBase r').AvailableBuildingIDs = (w.getBase r').AvailableBuildingIDs) ∧
      (∀ r', w1.hasPlayer r' = w.hasPlayer r') := by
  obtain ⟨_, base, costs, power, w2, _, _, _, ha, hw1⟩ :=
    handlePlaced_some w t placement cf ov ptr w1 bld h
  obtain ⟨hp, _, rest, hids, hbld, _, _, l2, b2, b3, i2, i3, p2⟩ :=
    AddBuilding_some _ _ _ _ _ _ ha
  have e := modifyPlayer_base w2 (fun p =>
    (p.addGenerating (GetResourceGeneration t BASIC_BUILDING)).incrementCapacity
      (GetPopulationCapacity bld.Typ bld.Variant))
    (by show ((w2.player.addGenerating _).incrementCapacity _).Base = _
        rw [incrementCapacity_Base, addGenerating_Base])
  rw [← hw1] at e
  have hW : ∀ r, (w.modifyPlayer (fun p => p.setPower power)).getBase r = w.getBase r := by
    intro r; cases r <;> rfl
  have hWp : ∀ r, (w.modifyPlayer (fun p => p.setPower power)).hasPlayer r = w.hasPlayer r := by
    intro r; cases r <;> rfl
  have hb1 : ∀ r, w1.getBase r = w2.getBase r := by
    intro r; cases r
    · exact e.1
    · rw [hw1]; rfl
  refine ⟨base, rest, ?_, ?_, ?_, ?_, ?_, ?_, ?_, ?_, ?_, ?_, ?_⟩
  · rw [← hWp]; exact hp
  · rw [← hW]; exact hids
  · rw [hbld]; rfl
  · rw [hbld]; rfl
  · rw [hbld, ← hW]; rfl
  · rw [e.1, l2]; rfl
  · rw [hb1, b2, hW]
  · intro r' hr; rw [hb1, b3 r' hr, hW]
  · rw [hb1, i2]
  · intro r' hr; rw [hb1, i3 r' hr, hW]
  · intro r'; rw [e.2, p2, hWp]

theorem hasPlayer_neutral (w : World) (h : ∃ ptr, w.neutral.Base.Owner = .neutral ptr) :
    w.hasPlayer .neutralBase = w.neutral.CapturedBy := by
  obtain ⟨ptr, h⟩ := h
  unfold World.hasPlayer
  show (match w.neutral.Base.Owner with
    | .player _ => true
    | .neutral _ => w.neutral.CapturedBy
    | .nil => false) = _
  rw [h]

theorem getLimit_congr (b b' : Base) (h : b'.BuildingLimits = b.BuildingLimits)
    (t : BuildingType) : b'.getLimit t = b.getLimit t := by
  unfold Base.getLimit
  rw [h]

theorem LimitInv_place (w : World) (t : BuildingType) (placement : Option BaseRef)
    (cf ov : Bool) (ptr : Nat) (hinv : LimitInv w) :
    LimitInv (handlePlacedBuildingMessage w t placement cf ov ptr).1 := by
  obtain ⟨hp, ho, wfp, wfn, hcount⟩ := hinv
  have hkept := NeutralKept_handlePlaced w t placement cf ov ptr
  rcases hres : handlePlacedBuildingMessage w t placement cf ov ptr with ⟨w1, res⟩
  rw [hres] at hkept
  simp only at hkept ⊢
  have ho1 : ∃ ptr, w1.neutral.Base.Owner = .neutral ptr := by
    obtain ⟨q, hq⟩ := ho
    exact ⟨q, by rw [hkept.1, hq]⟩
  cases res with
  | none =>
    obtain ⟨n1, _, n3, n4, n5⟩ := handlePlaced_none w t placement cf ov ptr w1 hres
    refine ⟨(n1 _).trans hp, ho1, ?_, ?_, ?_⟩
    · rcases n5 .playerBase with h | ⟨id, h⟩
      · exact BaseWf_congr _ _ (n4 .playerBase) h wfp
      · exact BaseWf_pop _ _ id (n4 .playerBase) h wfp
    · rcases n5 .neutralBase with h | ⟨id, h⟩
      · exact BaseWf_congr _ _ (n4 .neutralBase) h wfn
      · exact BaseWf_pop _ _ id (n4 .neutralBase) h wfn
    · intro t'
      have e1 : w1.player.Base.Buildings = w.player.Base.Buildings := n4 .playerBase
      have e2 : w1.neutral.Base.Buildings = w.neutral.Base.Buildings := n4 .neutralBase
      rw [getLimit_congr _ _ n3, hcount t']
      unfold heldPlaced
      rw [e1, e2, hkept.2]
  | some bld =>
    obtain ⟨base, rest, q1, q2, q3, q4, q5, q6, q7, q8, q9, q10, q11⟩ :=
      handlePlaced_placed w t placement cf ov ptr w1 bld hres
    have hlim : ∀ t', ((w1.player.Base.getLimit t').Current : Int) =
        (w.player.Base.getLimit t').Current + (if t' = t then 1 else 0) := by
      intro t'
      by_cases ht : t' = t
      · subst ht
        rw [getLimit_mapSet _ _ _ _ q6]
        simp
      · rw [getLimit_mapSet_ne _ _ _ _ _ q6 ht]
        simp only [ht, if_false, add_zero]
        rfl
    have hflag : ∀ t', (bld.Typ == t' && !bld.RemoveFlag) = decide (t' = t) := by
      intro t'
      rw [q3, q4]
      by_cases ht : t' = t
      · subst ht; simp
      · have : ¬ t = t' := fun h => ht h.symm
        simp [ht, this]
    refine ⟨(q11 _).trans hp, ho1, ?_, ?_, ?_⟩
    · cases base
      · exact (BaseWf_add w.player.Base w1.player.Base bld.ID rest bld q2 q9 q7 q4 wfp).1
      · exact BaseWf_congr _ _ (q8 .playerBase (by decide))
          (congrArg AvailableIDs.IDs (q10 .playerBase (by decide))) wfp
    · cases base
      · exact BaseWf_congr _ _ (q8 .neutralBase (by decide))
          (congrArg AvailableIDs.IDs (q10 .neutralBase (by decide))) wfn
      · exact (BaseWf_add w.neutral.Base w1.neutral.Base bld.ID rest bld q2 q9 q7 q4 wfn).1
    · intro t'
      rw [hlim t', hcount t']
      cases base
      · have hB := (BaseWf_add w.player.Base w1.player.Base bld.ID rest bld q2 q9 q7 q4 wfp).2
        have e2 : w1.neutral.Base.Buildings = w.neutral.Base.Buildings :=
          q8 .neutralBase (by decide)
        unfold heldPlaced
        rw [hB, countType_cons, hflag t', e2, hkept.2]
        by_cases ht : t' = t
        · simp only [ht, decide_True, if_true]
          push_cast
          omega
        · simp only [ht, decide_False, Bool.false_eq_true, if_false]
          push_cast
          omega
      · have hB := (BaseWf_add w.neutral.Base w1.neutral.Base bld.ID rest bld q2 q9 q7 q4 wfn).2
        have e1 : w1.player.Base.Buildings = w.player.Base.Buildings :=
          q8 .playerBase (by decide)
        have hcap : w.neutral.CapturedBy = true := by
          rw [← hasPlayer_neutral w ho]; exact q1
        have hown : (bld.Owner != OwnerRef.nil) = true := by
          obtain ⟨q, hq⟩ := ho
          rw [q5]
          show (w.neutral.Base.Owner != OwnerRef.nil) = true
          rw [hq]
          rfl
        unfold heldPlaced
        rw [hkept.2, hcap, e1]
        simp only [if_true]
        rw [hB, countPlaced_cons, hown, Bool.and_true, hflag t']
        by_cases ht : t' = t
        · simp only [ht, decide_True, if_true]
          push_cast
          omega
        · simp only [ht, decide_False, Bool.false_eq_true, if_false]
          push_cast
          omega

end Network

namespace Network

open Game

/-- The limits after a decrement of a counter that is positive. -/
theorem getLimit_decrement (b b' : Base) (T : BuildingType)
    (hl : b'.BuildingLimits = (b.decrementBuildingLimit T).1.BuildingLimits)
    (hpos : (b.getLimit T).Current > 0) (t' : BuildingType) :
    ((b'.getLimit t').Current : Int) = (b.getLimit t').Current - (if t' = T then 1 else 0) := by
  have hdec : (b.decrementBuildingLimit T).1.BuildingLimits =
      mapSet b.BuildingLimits T ⟨(b.getLimit T).Current - 1, (b.getLimit T).Max⟩ := by
    unfold Base.decrementBuildingLimit
    dsimp only
    rw [if_pos hpos]
  rw [hdec] at hl
  by_cases ht : t' = T
  · subst ht
    rw [getLimit_mapSet _ _ _ _ hl]
    simp
  · rw [getLimit_mapSet_ne _ _ _ _ _ hl ht]
    simp only [ht, if_false, sub_zero]
    rfl

theorem LimitInv_remove (w : World) (r : BaseRef) (id : ID) (hinv : LimitInv w)
    (hk : (LimitCall.remove r id).keepsWalls w = true) :
    LimitInv (Base.RemoveBuilding w r id).1 := by
  obtain ⟨hp, ho, wfp, wfn, hcount⟩ := hinv
  have hkept := NeutralKept_RemoveBuilding w r id
  have ho1 : ∃ ptr, (Base.RemoveBuilding w r id).1.neutral.Base.Owner = .neutral ptr := by
    obtain ⟨q, hq⟩ := ho
    exact ⟨q, by rw [hkept.1, hq]⟩
  cases hfound : mapGet (w.getBase r).Buildings id with
  | none =>
    have : Base.RemoveBuilding w r id = (w, false) := by
      unfold Base.RemoveBuilding; rw [hfound]
    rw [this]
    exact ⟨hp, ho, wfp, wfn, hcount⟩
  | some found =>
    obtain ⟨_, r2, r3, r4, r5, r6, _, _, r9⟩ := RemoveBuilding_some w r id found hfound
    generalize (Base.RemoveBuilding w r id).1 = w1 at hkept ho1 r2 r3 r4 r5 r6 r9 ⊢
    refine ⟨(r9 _).trans hp, ho1, ?_, ?_, ?_⟩
    · cases r
      · exact BaseWf_remove w.player.Base w1.player.Base id found hfound r2 r4 wfp
      · exact BaseWf_congr _ _ (r3 .playerBase (by decide))
          (congrArg AvailableIDs.IDs (r5 .playerBase (by decide))) wfp
    · cases r
      · exact BaseWf_congr _ _ (r3 .neutralBase (by decide))
          (congrArg AvailableIDs.IDs (r5 .neutralBase (by decide))) wfn
      · exact BaseWf_remove w.neutral.Base w1.neutral.Base id found hfound r2 r4 wfn
    · intro t'
      cases r
      · -- a building of the base of the player
        have hflag : found.RemoveFlag = false := wfp.2.2.2 _ (mem_of_mapGet _ _ _ hfound)
        have hc := countType_mapDelete t' w.player.Base.Buildings id found wfp.1 hfound
        have hc0 := countType_mapDelete found.Typ w.player.Base.Buildings id found wfp.1 hfound
        simp only [hflag, beq_self_eq_true, Bool.not_false, Bool.and_self, if_true] at hc0
        have h5 := hcount found.Typ
        have hpos : (w.player.Base.getLimit found.Typ).Current > 0 := by omega
        rw [hp, if_pos rfl] at r6
        have e1 : w1.player.Base.Buildings = mapDelete w.player.Base.Buildings id := r2
        have e2 : w1.neutral.Base.Buildings = w.neutral.Base.Buildings :=
          r3 .neutralBase (by decide)
        rw [getLimit_decrement _ _ _ r6 hpos t', hcount t']
        unfold heldPlaced
        rw [e1, e2, hkept.2]
        simp only [hflag, Bool.not_false, Bool.and_true] at hc
        by_cases ht : t' = found.Typ
        · have hb : (found.Typ == t') = true := by simpa using ht.symm
          simp only [hb, if_true] at hc
          simp only [ht, if_true]
          rw [← ht]
          push_cast
          omega
        · have hb : (found.Typ == t') = false := by simpa using fun h' => ht h'.symm
          simp only [hb, Bool.false_eq_true, if_false, Nat.add_zero] at hc
          simp only [ht, if_false]
          rw [hc]
          push_cast
          omega
      · -- a building of the neutral base
        have hflag : found.RemoveFlag = false := wfn.2.2.2 _ (mem_of_mapGet _ _ _ hfound)
        have e1 : w1.player.Base.Buildings = w.player.Base.Buildings :=
          r3 .playerBase (by decide)
        have e2 : w1.neutral.Base.Buildings = mapDelete w.neutral.Base.Buildings id := r2
        rw [hasPlayer_neutral w ho] at r6
        cases hcap : w.neutral.CapturedBy with
        | false =>
          rw [hcap] at r6
          simp only [Bool.false_eq_true, if_false] at r6
          rw [getLimit_congr _ _ r6, hcount t']
          unfold heldPlaced
          rw [e1, hkept.2, hcap]
          simp only [Bool.false_eq_true, if_false]
        | true =>
          rw [hcap] at r6
          simp only [if_true] at r6
          have hown : (found.Owner != OwnerRef.nil) = true := by
            have hf : mapGet w.neutral.Base.Buildings id = some found := hfound
            simpa [LimitCall.keepsWalls, hcap, hf] using hk
          have hc := countPlaced_mapDelete t' w.neutral.Base.Buildings id found wfn.1 hfound
          have hc0 := countPlaced_mapDelete found.Typ w.neutral.Base.Buildings id found wfn.1
            hfound
          simp only [hflag, hown, beq_self_eq_true, Bool.not_false, Bool.and_self, if_true]
            at hc0
          have h5 := hcount found.Typ
          unfold heldPlaced at h5
          rw [hcap] at h5
          simp only [if_true] at h5
          have hpos : (w.player.Base.getLimit found.Typ).Current > 0 := by omega
          rw [getLimit_decrement _ _ _ r6 hpos t', hcount t']
          unfold heldPlaced
          rw [e1, e2, hkept.2, hcap]
          simp only [if_true]
          simp only [hflag, hown, Bool.not_false, Bool.and_true] at hc
          by_cases ht : t' = found.Typ
          · have hb : (found.Typ == t') = true := by simpa using ht.symm
            simp only [hb, if_true] at hc
            simp only [ht, if_true]
            rw [← ht]
            push_cast
            omega
          · have hb : (found.Typ == t') = false := by simpa using fun h' => ht h'.symm
            simp only [hb, Bool.false_eq_true, if_false, Nat.add_zero] at hc
            simp only [ht, if_false]
            rw [hc]
            push_cast
            omega

end Network

namespace Network

open Game

theorem RemoveBullet_frame (b : Base) (id : ID) :
    (b.RemoveBullet id).1.Buildings = b.Buildings ∧
    (b.RemoveBullet id).1.AvailableBuildingIDs = b.AvailableBuildingIDs ∧
    (b.RemoveBullet id).1.Owner = b.Owner := by
  unfold Base.RemoveBullet
  split <;> exact ⟨rfl, rfl, rfl⟩

theorem removeBullets_frame (ids : List ID) : ∀ b : Base,
    (ids.foldl (fun acc id => (acc.RemoveBullet id).1) b).Buildings = b.Buildings ∧
    (ids.foldl (fun acc id => (acc.RemoveBullet id).1) b).AvailableBuildingIDs =
      b.AvailableBuildingIDs ∧
    (ids.foldl (fun acc id => (acc.RemoveBullet id).1) b).Owner = b.Owner := by
  induction ids with
  | nil => intro b; exact ⟨rfl, rfl, rfl⟩
  | cons id rest ih =>
    intro b
    obtain ⟨h1, h2, h3⟩ := ih (b.RemoveBullet id).1
    obtain ⟨f1, f2, f3⟩ := RemoveBullet_frame b id
    exact ⟨h1.trans f1, h2.trans f2, h3.trans f3⟩

/-- `LimitInv` reads the base of the player, and of the neutral base the
owner, the buildings, the free IDs and `CapturedBy`. -/
theorem LimitInv_congr (w v : World) (h1 : v.player.Base = w.player.Base)
    (h2 : v.neutral.Base.Owner = w.neutral.Base.Owner)
    (h3 : v.neutral.Base.Buildings = w.neutral.Base.Buildings)
    (h4 : v.neutral.Base.AvailableBuildingIDs = w.neutral.Base.AvailableBuildingIDs)
    (h5 : v.neutral.CapturedBy = w.neutral.CapturedBy) (h : LimitInv w) : LimitInv v := by
  obtain ⟨hp, ho, wfp, wfn, hcount⟩ := h
  refine ⟨?_, ?_, ?_, ?_, ?_⟩
  · rw [← hp]
    unfold World.hasPlayer
    show (match v.player.Base.Owner with
      | .player _ => true
      | .neutral _ => v.neutral.CapturedBy
      | .nil => false) =
      (match w.player.Base.Owner with
      | .player _ => true
      | .neutral _ => w.neutral.CapturedBy
      | .nil => false)
    rw [h1, h5]
  · rw [h2]; exact ho
  · rw [h1]; exact wfp
  · exact BaseWf_congr _ _ h3 (congrArg AvailableIDs.IDs h4) wfn
  · intro t
    unfold heldPlaced
    rw [h1, h3, h5]
    exact hcount t

theorem clearLoop_inv (ids : List ID) : ∀ v : World, LimitInv v →
    v.neutral.CapturedBy = false →
    LimitInv (ids.foldl (fun acc id => (Base.RemoveBuilding acc .neutralBase id).1) v) ∧
    (ids.foldl (fun acc id =>
      (Base.RemoveBuilding acc .neutralBase id).1) v).neutral.CapturedBy = false := by
  induction ids with
  | nil => intro v h hc; exact ⟨h, hc⟩
  | cons id rest ih =>
    intro v h hc
    have hk : (LimitCall.remove .neutralBase id).keepsWalls v = true := by
      simp [LimitCall.keepsWalls, hc]
    have h1 := LimitInv_remove v .neutralBase id h hk
    have h2 := (NeutralKept_RemoveBuilding v .neutralBase id).2
    exact ih _ h1 (h2.trans hc)

/-- `Clear` on a neutral base that the player does not hold: the invariant
stays and the neutral base is left without buildings. -/
theorem Clear_inv (v : World) (hv : LimitInv v) (hc : v.neutral.CapturedBy = false) :
    LimitInv (NeutralBase.Clear v) ∧ (NeutralBase.Clear v).neutral.CapturedBy = false ∧
    (NeutralBase.Clear v).neutral.Base.Buildings = [] := by
  unfold NeutralBase.Clear
  dsimp only
  obtain ⟨h1, hc1⟩ := clearLoop_inv (mapKeys v.neutral.Base.Buildings) v hv hc
  generalize (mapKeys v.neutral.Base.Buildings).foldl
    (fun acc id => (Base.RemoveBuilding acc .neutralBase id).1) v = c1 at h1 hc1 ⊢
  obtain ⟨hp, ⟨q, ho⟩, wfp, wfn, hcount⟩ := h1
  obtain ⟨f1, f2, f3⟩ := removeBullets_frame
    (mapKeys ({ c1.neutral.Base with Buildings := [] } : Base).Bullets)
    ({ c1.neutral.Base with Buildings := [] } : Base)
  have hB : ((c1.modifyBase .neutralBase (fun b => { b with Buildings := [] })).modifyBase
      .neutralBase (fun b => (mapKeys b.Bullets).foldl
        (fun acc id => (acc.RemoveBullet id).1) b)).neutral.Base.Buildings = [] := f1
  refine ⟨⟨?_, ⟨q, ?_⟩, wfp, ⟨?_, ?_, ?_, ?_⟩, ?_⟩, hc1, hB⟩
  · exact hp
  · exact f3.trans ho
  · rw [hB]; exact List.nodup_nil
  · show (List.foldl (fun acc id => (acc.RemoveBullet id).1)
        ({ c1.neutral.Base with Buildings := [] } : Base)
        (mapKeys ({ c1.neutral.Base with Buildings := [] } : Base).Bullets)
        ).AvailableBuildingIDs.IDs.Nodup
    rw [f2]; exact wfn.2.1
  · rw [hB]; intro _ _ h; exact absurd h (List.not_mem_nil _)
  · rw [hB]; intro _ h; exact absurd h (List.not_mem_nil _)
  · intro t
    have := hcount t
    unfold heldPlaced at this ⊢
    rw [hc1] at this
    have hc2 : ((c1.modifyBase .neutralBase (fun b => { b with Buildings := [] })).modifyBase
      .neutralBase (fun b => (mapKeys b.Bullets).foldl
        (fun acc id => (acc.RemoveBullet id).1) b)).neutral.CapturedBy = false := hc1
    rw [hc2]
    exact this

/-- `Captured(player)` on a neutral base that the player does not hold keeps
the invariant: the limits of the player are as before and the neutral base
holds the walls of `PopulateNeutralBase` only. -/
theorem Captured_inv (v : World) (wallPtr : Nat) (hv : LimitInv v)
    (hc : v.neutral.CapturedBy = false) :
    LimitInv (NeutralBase.Captured v true wallPtr) := by
  unfold NeutralBase.Captured
  simp only [if_true]
  have hA : LimitInv (v.modifyBase .neutralBase (fun b => { b with Health := b.Health.Reset })) :=
    LimitInv_congr v _ rfl rfl rfl rfl rfl hv
  have hcA : (v.modifyBase .neutralBase
      (fun b => { b with Health := b.Health.Reset })).neutral.CapturedBy = false := hc
  obtain ⟨h1, hc1, hb1⟩ := Clear_inv _ hA hcA
  generalize NeutralBase.Clear
    (v.modifyBase .neutralBase (fun b => { b with Health := b.Health.Reset })) = c at h1 hc1 hb1 ⊢
  obtain ⟨hp, ⟨q, ho⟩, wfp, wfn, hcount⟩ := h1
  obtain ⟨p1, p2, p3⟩ := populateLoop_wf 22 wallPtr c.neutral.Base wfn
  have hall : ∀ e ∈ (populateLoop 22 wallPtr c.neutral.Base).Buildings, e.2.Owner = .nil := by
    intro e he
    rcases p3 e he with h | h
    · rw [hb1] at h; exact absurd h (List.not_mem_nil _)
    · exact h
  refine ⟨?_, ⟨q, ?_⟩, wfp, ?_, ?_⟩
  · have : ∀ x : World, x.player.Base.Owner = c.player.Base.Owner →
        c.hasPlayer .playerBase = true → x.hasPlayer .playerBase = true := by
      intro x hx hcp
      unfold World.hasPlayer at hcp ⊢
      show (match x.player.Base.Owner with
        | .player _ => true
        | .neutral _ => x.neutral.CapturedBy
        | .nil => false) = true
      rw [hx]
      have hcp' : (match c.player.Base.Owner with
        | .player _ => true
        | .neutral _ => c.neutral.CapturedBy
        | .nil => false) = true := hcp
      rw [hc1] at hcp'
      cases hown : c.player.Base.Owner with
      | player _ => rfl
      | neutral _ => rw [hown] at hcp'; cases hcp'
      | nil => rw [hown] at hcp'; cases hcp'
    exact this _ rfl hp
  · show (populateLoop 22 wallPtr c.neutral.Base).Owner = .neutral q
    rw [p2]; exact ho
  · exact p1
  · intro t
    have := hcount t
    unfold heldPlaced at this ⊢
    rw [hc1] at this
    show ((c.player.Base.getLimit t).Current : Int) =
      ((countType t c.player.Base.Buildings +
        (if true = true then countPlaced t (populateLoop 22 wallPtr c.neutral.Base).Buildings
         else 0) : Nat) : Int)
    rw [if_pos rfl, countPlaced_of_nil t _ hall]
    exact this

/-- The capture of a neutral base that the player does not hold keeps the
invariant. -/
theorem LimitInv_capture (w : World) (wallPtr : Nat) (hinv : LimitInv w)
    (hc : w.neutral.CapturedBy = false) :
    LimitInv (handleNeutralBaseCaptured w wallPtr) := by
  unfold handleNeutralBaseCaptured
  simp only [hc, Bool.false_eq_true, if_false]
  exact LimitInv_congr _ _ rfl rfl rfl rfl rfl (Captured_inv w wallPtr hinv hc)

theorem LimitInv_run (w : World) (call : LimitCall) (hinv : LimitInv w)
    (hk : call.keepsWalls w = true) : LimitInv (call.run w) := by
  cases call with
  | place t placement cf ov ptr => exact LimitInv_place w t placement cf ov ptr hinv
  | remove r id => exact LimitInv_remove w r id hinv hk
  | capture wallPtr =>
    show LimitInv (if w.neutral.CapturedBy then w else handleNeutralBaseCaptured w wallPtr)
    cases hc : w.neutral.CapturedBy with
    | true => simp only [if_true]; exact hinv
    | false =>
      simp only [Bool.false_eq_true, if_false]
      exact LimitInv_capture w wallPtr hinv hc

theorem LimitInv_runCalls (calls : List LimitCall) : ∀ w, LimitInv w →
    keepsWallsRun w calls = true → LimitInv (runLimitCalls w calls) := by
  induction calls with
  | nil => intro w h _; exact h
  | cons call rest ih =>
    intro w h hk
    simp only [keepsWallsRun, Bool.and_eq_true] at hk
    exact ih _ (LimitInv_run w call h hk.1) hk.2

theorem LimitInv_start (ptr permission : Nat) (id : ID) (neutral : NeutralBase)
    (hw : BaseWf neutral.Base) (ho : neutral.Base.Owner = .neutral neutral.Ptr)
    (hc : neutral.CapturedBy = false) :
    LimitInv { player := newPlayer ptr permission id, neutral := neutral } := by
  refine ⟨rfl, ⟨_, ho⟩, newPlayer_wf ptr permission id, hw, ?_⟩
  intro t
  unfold heldPlaced
  simp only [hc, Bool.false_eq_true, if_false]
  exact (newPlayer_BaseInv ptr permission id).2.2.2.2 t

end Network

namespace Network

open Game

set_option maxRecDepth 100000 in
/-- The steps that the statement on the limits leaves out.  The player of
`wallHolder` has one WALL on its base, counted once, and holds the neutral
base with the 22 walls of `PopulateNeutralBase`, which are not counted.  When
the wall with ID 22 of the neutral base is removed, and also when another
player captures the neutral base, the WALL counter of the player drops to 0
while the WALL stays on its base. -/
theorem uncounted_walls_are_uncounted :
    (wallHolder.player.Base.getLimit WALL).Current = 1 ∧
    countType WALL wallHolder.player.Base.Buildings = 1 ∧
    heldPlaced wallHolder WALL = 0 ∧
    (LimitCall.remove .neutralBase 22).keepsWalls wallHolder = false ∧
    (((LimitCall.remove .neutralBase 22).run wallHolder).player.Base.getLimit WALL).Current = 0 ∧
    countType WALL ((LimitCall.remove .neutralBase 22).run wallHolder).player.Base.Buildings = 1 ∧
    ((loseNeutralBase wallHolder 400).player.Base.getLimit WALL).Current = 0 ∧
    countType WALL (loseNeutralBase wallHolder 400).player.Base.Buildings = 1 := by
  decide

/-- Claim C5 (amended): a new player and a neutral base that the player does
not hold go through placement requests, removals of buildings of the two bases
and captures of the neutral base by the player, in any order; no step removes
a wall of `PopulateNeutralBase` from the neutral base while the player holds
it, and the player does not lose the base to another player.  Then for every
building type `t` the counter `BuildingLimits[t].Current` of the base of the
player equals the number of buildings of type `t`, not marked for removal, on
the base of the player plus the number of those the player has placed on the
neutral base it holds.  So the counter is the number on the base of the player
as long as the player has no building on a neutral base, a capture included. -/
theorem C5_limit_counts_per_player (ptr permission : Nat) (id : ID) (neutral : NeutralBase)
    (calls : List LimitCall) (t : BuildingType)
    (hw : BaseWf neutral.Base) (ho : neutral.Base.Owner = .neutral neutral.Ptr)
    (hc : neutral.CapturedBy = false)
    (hk : keepsWallsRun { player := newPlayer ptr permission id, neutral := neutral } calls
      = true) :
    ((runLimitCalls { player := newPlayer ptr permission id, neutral := neutral }
        calls).player.Base.getLimit t).Current =
      ((countType t (runLimitCalls { player := newPlayer ptr permission id, neutral := neutral }
          calls).player.Base.Buildings +
        heldPlaced (runLimitCalls { player := newPlayer ptr permission id, neutral := neutral }
          calls) t : Nat) : Int) ∧
    (heldPlaced (runLimitCalls { player := newPlayer ptr permission id, neutral := neutral }
        calls) t = 0 →
      ((runLimitCalls { player := newPlayer ptr permission id, neutral := neutral }
        calls).player.Base.getLimit t).Current =
      (countType t (runLimitCalls { player := newPlayer ptr permission id, neutral := neutral }
        calls).player.Base.Buildings : Int)) := by
  have h := (LimitInv_runCalls calls _
    (LimitInv_start ptr permission id neutral hw ho hc) hk).2.2.2.2 t
  refine ⟨h, ?_⟩
  intro h0
  rw [h, h0, Nat.add_zero]

set_option maxRecDepth 100000 in
/-- Witness of C5 (amended): the steps of `limitCalls` from the start world.
After the first four steps the WALL counter is 2, one WALL on each base; at
the end it is 0 and the SIMPLE_TURRET counter is 1. -/
theorem C5_limit_counts_per_player_witness :
    BaseWf (newNeutralBase 2 0 100).Base ∧
    keepsWallsRun startWorld limitCalls = true ∧
    ((runLimitCalls startWorld (limitCalls.take 4)).player.Base.getLimit WALL).Current = 2 ∧
    countType WALL (runLimitCalls startWorld (limitCalls.take 4)).player.Base.Buildings = 1 ∧
    heldPlaced (runLimitCalls startWorld (limitCalls.take 4)) WALL = 1 ∧
    ((runLimitCalls startWorld limitCalls).player.Base.getLimit SIMPLE_TURRET).Current =
      ((countType SIMPLE_TURRET (runLimitCalls startWorld limitCalls).player.Base.Buildings +
        heldPlaced (runLimitCalls startWorld limitCalls) SIMPLE_TURRET : Nat) : Int) :=
  ⟨(newNeutralBase_wf 2 0 100).1, by decide, by decide, by decide, by decide,
    (C5_limit_counts_per_player 1 0 0 (newNeutralBase 2 0 100) limitCalls SIMPLE_TURRET
      (newNeutralBase_wf 2 0 100).1 rfl rfl (by decide)).1⟩

end Network

namespace Game

/-- Claim C6: after every sequence of `AddUnitSpawning`, `ToggleUnitSpawning`
and `RemoveUnitSpawning` calls on a new player (limit 0 of 5), the number of
activated spawners is at most `UnitSpawningLimit.Current`, which is at most 5;
and when five spawners are active, a toggle of an inactive spawner returns
false and leaves the player unchanged. -/
theorem C6_active_spawners_bounded (ptr permission : Nat) (id : ID) (calls : List SpawnerCall) :
    activeSpawners (runSpawnerCalls (newPlayer ptr permission id) calls) ≤
        (runSpawnerCalls (newPlayer ptr permission id) calls).UnitSpawningLimit.Current ∧
    (runSpawnerCalls (newPlayer ptr permission id) calls).UnitSpawningLimit.Current ≤ 5 ∧
    ∀ (building : Building) (s : UnitSpawning),
      (runSpawnerCalls (newPlayer ptr permission id) calls).GetUnitSpawningForBarrack building =
          some s →
      s.Activated = false →
      5 ≤ activeSpawners (runSpawnerCalls (newPlayer ptr permission id) calls) →
      (runSpawnerCalls (newPlayer ptr permission id) calls).ToggleUnitSpawning building =
        (runSpawnerCalls (newPlayer ptr permission id) calls, false) := by
  have hinv : SpawnerInv (runSpawnerCalls (newPlayer ptr permission id) calls) :=
    SpawnerInv_runCalls calls _ (by simp [SpawnerInv, activeSpawners, newPlayer])
  obtain ⟨h1, h2, h3⟩ := hinv
  refine ⟨h1, h2, ?_⟩
  intro building s hs ha h5
  unfold Player.ToggleUnitSpawning
  rw [hs]
  simp only [ha, Bool.false_eq_true, if_false, Capacity.HasMaxCapacity]
  have : (runSpawnerCalls (newPlayer ptr permission id) calls).UnitSpawningLimit.Current =
      (runSpawnerCalls (newPlayer ptr permission id) calls).UnitSpawningLimit.Max := by omega
  simp [this]

set_option maxRecDepth 100000 in
/-- Witness of C6: after six barracks have been registered, five spawners
are active, the sixth is inactive, and toggling the sixth returns false and
changes nothing. -/
theorem C6_active_spawners_bounded_witness :
    activeSpawners sixBarracksPlayer = 5 ∧
    sixBarracksPlayer.ToggleUnitSpawning (barracksAt 16) = (sixBarracksPlayer, false) :=
  ⟨by decide,
    (C6_active_spawners_bounded 1 0 0
      [ .add (barracksAt 11) true, .add (barracksAt 12) true, .add (barracksAt 13) true,
        .add (barracksAt 14) true, .add (barracksAt 15) true, .add (barracksAt 16) true ]).2.2
      (barracksAt 16)
      { Barracks := some (barracksAt 16), UnitType := SOLDIER, UnitVariant := BASIC_UNIT,
        Frequency := ⟨0, 4⟩, Activated := false }
      (by decide) (by decide) (by decide)⟩

end Game

namespace Network

open Game

set_option maxRecDepth 100000 in
/-- Claim C7 fails as stated: `IncrementCapacity` saturates at 2048.  With a
population capacity of 2045, placing a HOUSE raises the capacity to 2048 and
removing it lowers the capacity to 2040, not back to 2045. -/
theorem C7_house_roundtrip_saturates :
    crowdedWorld.player.Population.Capacity = 2045 ∧
    (handlePlacedBuildingMessage crowdedWorld HOUSE (some .playerBase) true false 300).2.isSome
      = true ∧
    (handlePlacedBuildingMessage crowdedWorld HOUSE (some .playerBase) true false
      300).1.player.Population.Capacity = 2048 ∧
    (Base.RemoveBuilding
      (handlePlacedBuildingMessage crowdedWorld HOUSE (some .playerBase) true false 300).1
      .playerBase 0).2 = true ∧
    (Base.RemoveBuilding
      (handlePlacedBuildingMessage crowdedWorld HOUSE (some .playerBase) true false 300).1
      .playerBase 0).1.player.Population.Capacity = 2040 := by
  decide

/-- Claim C7 (amended): when `handlePlacedBuildingMessage` places a building
and `Base.RemoveBuilding` then removes that building from the same base, the
generation rate of the player, the population capacity and the limit counter
of the building type are back at their values before the placement, provided
the limit counter was not negative and, for a HOUSE, the placement did not
saturate the population capacity (`Capacity + 8 ≤ 2048`). -/
theorem C7_place_then_remove_roundtrip (w : World) (t : BuildingType) (base : BaseRef)
    (cf ov : Bool) (ptr : Nat) (w1 : World) (bld : Building)
    (hplace : handlePlacedBuildingMessage w t (some base) cf ov ptr = (w1, some bld))
    (hpow : w.player.Generating.Power < 65536)
    (hlim : 0 ≤ (w.player.Base.getLimit t).Current)
    (hsat : t = HOUSE → w.player.Population.Capacity + 8 ≤ MaxCapacity) :
    (Base.RemoveBuilding w1 base bld.ID).2 = true ∧
    (Base.RemoveBuilding w1 base bld.ID).1.player.Generating.Power = w.player.Generating.Power ∧
    (Base.RemoveBuilding w1 base bld.ID).1.player.Population.Capacity =
      w.player.Population.Capacity ∧
    ((Base.RemoveBuilding w1 base bld.ID).1.player.Base.getLimit t).Current =
      (w.player.Base.getLimit t).Current := by
  obtain ⟨hv, base', costs, power, w2, hb, hc, hd, ha, hw1⟩ :=
    handlePlaced_some w t (some base) cf ov ptr w1 bld hplace
  cases hb
  obtain ⟨hp, hlt, rest, hids, hbld, g2, q2, l2, b2, b2', i2, i2', p2⟩ :=
    AddBuilding_some _ _ _ _ _ _ ha
  have hTyp : bld.Typ = t := by rw [hbld]; rfl
  have hVar : bld.Variant = BASIC_BUILDING := by rw [hbld]; rfl
  -- the state after the placement
  have e1 : ∀ r, (w1.getBase r).Buildings = (w2.getBase r).Buildings := by
    intro r; rw [hw1]
    exact buildings_modifyPlayer _ _
      (by rw [incrementCapacity_Base, addGenerating_Base]) r
  have e2 : w1.player.Base = w2.player.Base := by
    rw [hw1]
    show ((w2.player.addGenerating _).incrementCapacity _).Base = _
    rw [incrementCapacity_Base, addGenerating_Base]
  have e3 : ∀ r, w1.hasPlayer r = w2.hasPlayer r := by
    intro r
    apply hasPlayer_congr
    · intro x; cases x
      · show w1.player.Base.Owner = _; rw [e2]; rfl
      · rw [hw1]; rfl
    · rw [hw1]; rfl
  have hfound : mapGet (w1.getBase base).Buildings bld.ID = some bld := by
    rw [e1, b2, mapGet_mapSet]; simp
  obtain ⟨r1, _, _, _, _, r6, r7, r8, _⟩ := RemoveBuilding_some w1 base bld.ID bld hfound
  have hp1 : w1.hasPlayer base = true := by rw [e3, p2]; exact hp
  have hg1 : w1.player.Generating =
      (match GetResourceGeneration t BASIC_BUILDING with
        | some x => ⟨add16 w.player.Generating.Power x.Power⟩
        | none => w.player.Generating) := by
    rw [hw1]
    show ((w2.player.addGenerating _).incrementCapacity _).Generating = _
    rw [(incrementCapacity_fields _ _).2, (addGenerating_fields _ _).1, g2]
    rfl
  have hq1 : w1.player.Population =
      (match GetPopulationCapacity t BASIC_BUILDING with
        | some x => w.player.Population.IncrementCapacity x
        | none => w.player.Population) := by
    rw [hw1]
    show ((w2.player.addGenerating _).incrementCapacity _).Population = _
    rw [(incrementCapacity_fields _ _).1, (addGenerating_fields _ _).2, q2, hTyp, hVar]
    rfl
  have hl1 : w1.player.Base.getLimit t =
      ⟨(w.player.Base.getLimit t).Current + 1, (w.player.Base.getLimit t).Max⟩ := by
    rw [e2]
    exact getLimit_mapSet _ _ _ _ l2
  have hM : bld.MarkForRemoval.Typ = t ∧ bld.MarkForRemoval.Variant = BASIC_BUILDING :=
    ⟨hTyp, hVar⟩
  refine ⟨r1, ?_, ?_, ?_⟩
  · rw [r7, (removeBuildingEffects_player _ _ _ _).1, hp1, hM.1, hM.2,
      (subGenerating_fields _ _).1, hg1]
    rcases ValidateBuildingType_cases t hv with h | h | h | h | h | h <;> subst h
    · rfl
    · rfl
    · rfl
    · rfl
    · show sub16 (add16 w.player.Generating.Power 2) 2 = w.player.Generating.Power
      unfold sub16 add16; omega
    · rfl
  · rw [r8, (removeBuildingEffects_player _ _ _ _).2, hp1, hM.1, hM.2,
      (decrementCapacity_fields _ _).1, hq1]
    rcases ValidateBuildingType_cases t hv with h | h | h | h | h | h <;> subst h
    · rfl
    · rfl
    · rfl
    · rfl
    · rfl
    · have hs := hsat rfl
      show ((w.player.Population.IncrementCapacity 8).DecrementCapacity 8).1.Capacity =
        w.player.Population.Capacity
      exact Population.increment_decrement _ _ hs
  · have : (Base.RemoveBuilding w1 base bld.ID).1.player.Base.BuildingLimits =
        mapSet w1.player.Base.BuildingLimits t
          ⟨(w.player.Base.getLimit t).Current, (w.player.Base.getLimit t).Max⟩ := by
      rw [r6, hp1, if_pos rfl, hTyp]
      unfold Base.decrementBuildingLimit
      rw [hl1]
      dsimp only
      rw [if_pos (by omega)]
      simp
    rw [getLimit_mapSet _ _ _ _ this]


set_option maxRecDepth 100000 in
/-- Witness of C7 (amended): a new player places a HOUSE on the own base and
removes it again; the population capacity is back at 64. -/
theorem C7_place_then_remove_roundtrip_witness :
    handlePlacedBuildingMessage startWorld HOUSE (some .playerBase) true false 300 =
      ((handlePlacedBuildingMessage startWorld HOUSE (some .playerBase) true false 300).1,
        some (placedBuilding startWorld .playerBase HOUSE 300 0)) ∧
    (Base.RemoveBuilding
      (handlePlacedBuildingMessage startWorld HOUSE (some .playerBase) true false 300).1
      .playerBase (placedBuilding startWorld .playerBase HOUSE 300 0).ID).1.player.Population.Capacity
      = startWorld.player.Population.Capacity :=
  ⟨by decide,
    (C7_place_then_remove_roundtrip startWorld HOUSE .playerBase true false 300
      (handlePlacedBuildingMessage startWorld HOUSE (some .playerBase) true false 300).1
      (placedBuilding startWorld .playerBase HOUSE 300 0)
      (by decide) (by decide) (by decide) (by decide)).2.2.1⟩


end Network

namespace Game

set_option maxRecDepth 100000 in
/-- Claim C8 (code defect): a failed `AddBuilding` does not give the building
ID back.  On a base whose limits admit building type 3, a type without a
polygon, `AddBuilding` fails after it has taken ID 0 from the free-list: the
buildings and the limits are unchanged, but ID 0 is gone from
`AvailableBuildingIDs.IDs`. -/
theorem C8_failed_addBuilding_loses_id :
    (Base.AddBuilding oddLimitWorld .playerBase 3 300).2 = none ∧
    (Base.AddBuilding oddLimitWorld .playerBase 3 300).1.player.Base.Buildings =
      oddLimitWorld.player.Base.Buildings ∧
    (Base.AddBuilding oddLimitWorld .playerBase 3 300).1.player.Base.BuildingLimits =
      oddLimitWorld.player.Base.BuildingLimits ∧
    oddLimitWorld.player.Base.AvailableBuildingIDs.IDs =
      0 :: (Base.AddBuilding oddLimitWorld .playerBase 3 300).1.player.Base.AvailableBuildingIDs.IDs ∧
    0 ∉ (Base.AddBuilding oddLimitWorld .playerBase 3 300).1.player.Base.AvailableBuildingIDs.IDs := by
  decide


end Game

namespace Network

open Game

/-- Claim C9: `handleUpgradeBuildingsMessage` changes the variant of a building
only along an edge of the upgrade graph: a building whose variant differs
after the request keeps its type, and `ValidateUpgradePath` holds for its old
and its new variant; and `ValidateUpgradePath t v v1` is true iff `(t, v)` is an
entry of `buildingTypes` whose `Next` list contains `v1`. -/
theorem C9_upgrade_follows_graph :
    (∀ (w : World) (base : BaseRef) (target : BuildingVariant) (ids : List ID)
        (r : BaseRef) (id : ID) (b b' : Building),
      mapGet (w.getBase r).Buildings id = some b →
      mapGet ((handleUpgradeBuildingsMessage w base target ids).1.getBase r).Buildings id =
        some b' →
      b'.Variant ≠ b.Variant →
      b'.Typ = b.Typ ∧ ValidateUpgradePath b.Typ b.Variant b'.Variant = true) ∧
    (∀ (t : BuildingType) (v v' : BuildingVariant),
      ValidateUpgradePath t v v' = true ↔
        ∃ u, tableGet buildingTypes t v = some u ∧ v' ∈ u.Next) := by
  refine ⟨?_, ValidateUpgradePath_iff⟩
  intro w base target ids r id b b' hb hb' hne
  obtain ⟨b0, hb0, ht, hv⟩ := upgradeBuildingsLoop_rel base target ids w r id b' hb'
  rw [hb] at hb0
  cases hb0
  refine ⟨ht, ?_⟩
  rcases hv with hv | ⟨hv, hval⟩
  · exact absurd hv hne
  · rw [hv]; exact hval


set_option maxRecDepth 100000 in
/-- Witness of C9: the SIMPLE_TURRET of `turretWorld` is upgraded from
BASIC_BUILDING to RAPID_TURRET, an edge of the catalogue. -/
theorem C9_upgrade_follows_graph_witness :
    ((mapGet (turretWorld.getBase .playerBase).Buildings 0).map (fun b => b.Variant) =
      some BASIC_BUILDING) ∧
    ((mapGet ((handleUpgradeBuildingsMessage turretWorld .playerBase RAPID_TURRET
      [0]).1.getBase .playerBase).Buildings 0).map (fun b => b.Variant) = some RAPID_TURRET) ∧
    ValidateUpgradePath SIMPLE_TURRET BASIC_BUILDING RAPID_TURRET = true :=
  ⟨by decide, by decide,
    (C9_upgrade_follows_graph.1 turretWorld .playerBase RAPID_TURRET [0] .playerBase 0
      (placedBuilding startWorld .playerBase SIMPLE_TURRET 300 0)
      { placedBuilding startWorld .playerBase SIMPLE_TURRET 300 0 with
        Variant := RAPID_TURRET, Health := ⟨100, 100⟩ }
      (by decide) (by decide) (by decide)).2⟩


end Network

namespace Game

set_option maxRecDepth 100000 in
/-- Claim C10 fails as stated: the spawner of a freshly placed barracks starts
with frequency counter 0, so the first SOLDIER is spawned on the first tick
(used population 16, counter reset to 4), and the ticks 2, 3 and 4 spawn
nothing. -/
theorem C10_first_soldier_on_first_tick :
    barracksPlayer.Population = ⟨0, 64⟩ ∧
    ticksView barracksPlayer [1000, 1001, 1002, 1003] =
      [ ([SOLDIER], 16, [4]), ([], 16, [3]), ([], 16, [2]), ([], 16, [1]) ] := by
  decide

set_option maxRecDepth 100000 in
/-- Claim C10 (amended): for a player with one freshly placed active
BASIC_BUILDING barracks and population (0 used, capacity 64), the spawn loop
spawns a SOLDIER on the ticks 1, 5, 9 and 13 (used population 16, 32, 48, 64,
the frequency counter being reset to 4 each time) and nothing on the ticks in
between; the counter then runs down to 0 on tick 17, and from then on every
tick spawns nothing, leaves the used population at 64 and the counter at 0. -/
theorem C10_spawn_schedule :
    barracksPlayer.Population = ⟨0, 64⟩ ∧
    barracksPlayer.UnitSpawning.map (fun s => (s.UnitType, s.Activated, s.Frequency)) =
      [(SOLDIER, true, ⟨0, 4⟩)] ∧
    ticksView barracksPlayer (List.range 17) =
      [ ([SOLDIER], 16, [4]), ([], 16, [3]), ([], 16, [2]), ([], 16, [1]),
        ([SOLDIER], 32, [4]), ([], 32, [3]), ([], 32, [2]), ([], 32, [1]),
        ([SOLDIER], 48, [4]), ([], 48, [3]), ([], 48, [2]), ([], 48, [1]),
        ([SOLDIER], 64, [4]), ([], 64, [3]), ([], 64, [2]), ([], 64, [1]),
        ([], 64, [0]) ] ∧
    ∀ ptrs : List Nat,
      ticksView (spawnTicks barracksPlayer (List.range 17)) ptrs =
        List.replicate ptrs.length ([], 64, [0]) :=
  ⟨by decide, by decide, by decide,
    ticksView_fixpoint _ _ spawn_saturated_fixpoint tickView_saturated⟩


end Game

/-! ## Lemmas: building actions -/

namespace Game

theorem CanPerformBuildingAction_cases (p : Player) (now : Time) :
    (Time.Sub now p.LastBuildingAction ≥ Second ∧
      (p.CanPerformBuildingAction now).2 = true ∧
      (p.CanPerformBuildingAction now).1.BuildingActionCount = 1 ∧
      (p.CanPerformBuildingAction now).1.LastBuildingAction = now) ∨
    (Time.Sub now p.LastBuildingAction < Second ∧ 10 ≤ p.BuildingActionCount ∧
      (p.CanPerformBuildingAction now).2 = false ∧
      (p.CanPerformBuildingAction now).1 = p) ∨
    (Time.Sub now p.LastBuildingAction < Second ∧ p.BuildingActionCount < 10 ∧
      (p.CanPerformBuildingAction now).2 = true ∧
      (p.CanPerformBuildingAction now).1.BuildingActionCount = p.BuildingActionCount + 1 ∧
      (p.CanPerformBuildingAction now).1.LastBuildingAction = p.LastBuildingAction) := by
  unfold Player.CanPerformBuildingAction
  by_cases h : Time.Sub now p.LastBuildingAction ≥ Second
  · left
    simp [h]
  · right
    by_cases hc : 10 ≤ p.BuildingActionCount
    · left
      simp [h, hc]
      omega
    · right
      have h1 : p.BuildingActionCount < 10 := by omega
      have h2 : (p.BuildingActionCount + 1) % 4294967296 = p.BuildingActionCount + 1 := by omega
      simp [h, hc, h2]
      omega

/-- Within one window at most `10 - BuildingActionCount` calls are accepted. -/
theorem buildingActions_window (ts : List Int) :
    ∀ p : Player, p.BuildingActionCount ≤ 10 →
      (∀ t ∈ ts, Time.Sub t p.LastBuildingAction < Second) →
      (buildingActionResults p ts).count true + p.BuildingActionCount ≤ 10 := by
  induction ts with
  | nil => intro p hp _; simpa [buildingActionResults] using hp
  | cons t rest ih =>
    intro p hp hts
    have ht := hts t (List.mem_cons_self _ _)
    have hrest : ∀ t' ∈ rest, Time.Sub t' p.LastBuildingAction < Second :=
      fun t' h' => hts t' (List.mem_cons_of_mem _ h')
    unfold buildingActionResults
    rcases CanPerformBuildingAction_cases p t with ⟨h, _⟩ | ⟨_, hc, hr, hs⟩ | ⟨_, hc, hr, hn, hl⟩
    · omega
    · rw [hr, hs]
      have := ih p hp hrest
      simp only [List.count_cons, Bool.false_eq_true, beq_iff_eq, if_false, Nat.add_zero]
      simpa using this
    · rw [hr]
      have := ih (p.CanPerformBuildingAction t).1 (by omega) (by rw [hl]; exact hrest)
      simp only [List.count_cons, beq_self_eq_true, if_true]
      omega

/-- Calls that lie in a span shorter than one second meet at most two windows. -/
theorem buildingActions_two_windows (ts : List Int) (t0 : Int) :
    ∀ p : Player, p.BuildingActionCount ≤ 10 →
      (∀ t ∈ ts, t0 ≤ t ∧ t < t0 + Second) →
      (buildingActionResults p ts).count true + p.BuildingActionCount ≤ 20 := by
  induction ts with
  | nil => intro p hp _; simp [buildingActionResults]; omega
  | cons t rest ih =>
    intro p hp hts
    have ht := hts t (List.mem_cons_self _ _)
    have hrest : ∀ t' ∈ rest, t0 ≤ t' ∧ t' < t0 + Second :=
      fun t' h' => hts t' (List.mem_cons_of_mem _ h')
    unfold buildingActionResults
    rcases CanPerformBuildingAction_cases p t with ⟨_, hr, hn, hl⟩ | ⟨_, hc, hr, hs⟩ | ⟨_, hc, hr, hn, hl⟩
    · rw [hr]
      have := buildingActions_window rest (p.CanPerformBuildingAction t).1 (by omega) (by
        intro t' h'
        rw [hl]
        have h1 := hrest t' h'
        unfold Time.Sub
        unfold Second at h1 ht ⊢
        omega)
      simp only [List.count_cons, beq_self_eq_true, if_true]
      omega
    · rw [hr, hs]
      have := ih p hp hrest
      simp only [List.count_cons, Bool.false_eq_true, beq_iff_eq, if_false, Nat.add_zero]
      simpa using this
    · rw [hr]
      have := ih (p.CanPerformBuildingAction t).1 (by omega) hrest
      simp only [List.count_cons, beq_self_eq_true, if_true]
      omega

end Game

/-! ## The claims C11 to C20 -/

namespace Game

set_option maxRecDepth 100000 in
/-- Claim C11 fails as stated: the window is fixed, not rolling.  A new player
calls once at second 1, nine times 950 ms later and ten times 1000 ms later:
all twenty calls return true, and the last nineteen of them lie within 50 ms. -/
theorem C11_nineteen_actions_in_50ms :
    buildingActionResults (newPlayer 1 0 0) burstTimes = List.replicate 20 true ∧
    (∀ t ∈ burstTimes.drop 1, (1950000000 : Int) ≤ t ∧ t ≤ 1950000000 + 50 * Millisecond) ∧
    ((buildingActionResults (newPlayer 1 0 0) burstTimes).drop 1).count true = 19 := by
  decide

/-- Claim C11 (amended): `CanPerformBuildingAction` counts the calls of a fixed
window that starts at `LastBuildingAction`.  A call returns false exactly when
less than one second has passed since the start of the window and the window
has already accepted 10 calls; the counter never exceeds 10; and the calls
that lie in any span shorter than one second are accepted at most 20 times
(the calls of at most two windows). -/
theorem C11_fixed_window (p : Player) (now : Int) (ts : List Int) (t0 : Int)
    (hp : p.BuildingActionCount ≤ 10) (hts : ∀ t ∈ ts, t0 ≤ t ∧ t < t0 + Second) :
    ((p.CanPerformBuildingAction now).2 = false ↔
      (Time.Sub now p.LastBuildingAction < Second ∧ 10 ≤ p.BuildingActionCount)) ∧
    (p.CanPerformBuildingAction now).1.BuildingActionCount ≤ 10 ∧
    (buildingActionResults p ts).count true ≤ 20 := by
  refine ⟨?_, ?_, ?_⟩
  · rcases CanPerformBuildingAction_cases p now with ⟨h, hr, _⟩ | ⟨h, hc, hr, _⟩ | ⟨h, hc, hr, _⟩
    · rw [hr]; constructor
      · intro h'; cases h'
      · intro h'; omega
    · rw [hr]; exact ⟨fun _ => ⟨h, hc⟩, fun _ => rfl⟩
    · rw [hr]; constructor
      · intro h'; cases h'
      · intro h'; omega
  · rcases CanPerformBuildingAction_cases p now with ⟨_, _, hn, _⟩ | ⟨_, _, _, hs⟩ | ⟨_, _, _, hn, _⟩
    · omega
    · rw [hs]; exact hp
    · omega
  · have := buildingActions_two_windows ts t0 p hp hts
    omega

set_option maxRecDepth 100000 in
/-- Witness of C11 (amended): the twenty calls of `burstTimes` lie in a span
shorter than one second only from the second call on; those nineteen calls
are accepted at most 20 times. -/
theorem C11_fixed_window_witness :
    (newPlayer 1 0 0).BuildingActionCount ≤ 10 ∧
    (buildingActionResults (newPlayer 1 0 0) (burstTimes.drop 1)).count true ≤ 20 :=
  ⟨by decide,
    (C11_fixed_window (newPlayer 1 0 0) 1000000000 (burstTimes.drop 1) 1950000000
      (by decide) (by decide)).2.2⟩

end Game

namespace Network

open Game

theorem handleMove_valid (p : Player) (payload : List Nat) (positions : List PositionInt)
    (stamp now : Int) (hvalid : validMovePayload payload = true) :
    handleMoveUnitsMessage p payload positions stamp now =
      if isSuspiciousMovement p (movementOf payload positions stamp) now then
        (p.HandleSuspiciousBehavior, false)
      else
        ({ p.UpdateSuspicion.1 with LastMovementPackage := movementOf payload positions stamp },
          p.UpdateSuspicion.2) := by
  unfold validMovePayload at hvalid
  simp only [Bool.and_eq_true, Bool.not_eq_true', decide_eq_false_iff_not,
    Bool.or_eq_false_iff, bne_eq_false_iff_eq] at hvalid
  obtain ⟨⟨h1, h2, h3⟩, h4⟩ := hvalid
  unfold handleMoveUnitsMessage
  rw [if_neg h1]
  have h5 : (decide (payload.headD 0 ≤ 0) || decide (payload.headD 0 > (payload.drop 1).length))
      = false := by
    simp only [Bool.or_eq_false_iff, decide_eq_false_iff_not]
    exact ⟨h2, h3⟩
  simp only [h5, Bool.false_eq_true, if_false, h4, bne_self_eq_false, movementOf]

set_option maxRecDepth 100000 in
/-- Claim C12 (code defect): `PositionInt.DistanceTo` subtracts in `int16`.
With the stored target (32767, 0) and the new target (-32768, 0), 80 ms apart,
a new unit ID and the units in one place, the difference 65535 wraps to -1 and
the distance is computed as 1: `isSuspiciousMovement` returns true and the
handler counts the message, although the two targets are 65535 units apart,
not below 50. -/
theorem C12_distance_wraps :
    farPlayer.LastMovementPackage.TargetPosition = ⟨32767, 0⟩ ∧
    movementOf [1, 128, 0, 0, 0, 2] [⟨0, 0⟩] 1080000000 =
      { Timestamp := 1080000000, TargetPosition := ⟨-32768, 0⟩, UnitPositions := [⟨0, 0⟩],
        UnitIds := [2] } ∧
    isSuspiciousMovement farPlayer (movementOf [1, 128, 0, 0, 0, 2] [⟨0, 0⟩] 1080000000)
      1080000000 = true ∧
    ((⟨32767, 0⟩ : PositionInt).DistanceTo ⟨-32768, 0⟩).Radicand = 1 ∧
    ¬ ((32767 - (-32768) : Int) ^ 2 + (0 - 0) ^ 2 < 50 ^ 2) ∧
    (handleMoveUnitsMessage farPlayer [1, 128, 0, 0, 0, 2] [⟨0, 0⟩] 1080000000
      1080000000).1.SuspiciousCounter = 1 := by
  decide

set_option maxRecDepth 100000 in
/-- Claim C13 fails as stated: a move message whose unit IDs all occur in the
stored package is never counted.  Eight identical messages at 80 ms intervals
leave the suspicion counter at 0 and none of them emits a kick. -/
theorem C13_identical_moves_not_counted :
    (moveRun (newPlayer 1 0 0) identicalMoves).2 = List.replicate 8 false ∧
    (moveRun (newPlayer 1 0 0) identicalMoves).1.SuspiciousCounter = 0 := by
  decide

/-- The test of `isSuspiciousMovement` spelled out: the message names a unit ID
that the stored package lacks, less than 250 ms have passed since the stored
package, the square of the distance between the two targets is below 50 * 50,
and for every pair of a stored and a new unit position it is at most
100 * 100. -/
theorem isSuspiciousMovement_iff (p : Player) (m : MovementPackage) (now : Int) :
    isSuspiciousMovement p m now = true ↔
      (∃ id ∈ m.UnitIds, id ∉ p.LastMovementPackage.UnitIds) ∧
      now - p.LastMovementPackage.Timestamp < 250000000 ∧
      (p.LastMovementPackage.TargetPosition.DistanceTo m.TargetPosition).Radicand < 2500 ∧
      ∀ newPos ∈ m.UnitPositions, ∀ lastPos ∈ p.LastMovementPackage.UnitPositions,
        (lastPos.DistanceTo newPos).Radicand ≤ 10000 := by
  have hall : (m.UnitIds.all fun newUnitId =>
      p.LastMovementPackage.UnitIds.any fun lastUnitId => newUnitId == lastUnitId) = true ↔
      ¬ ∃ id ∈ m.UnitIds, id ∉ p.LastMovementPackage.UnitIds := by
    simp only [List.all_eq_true, List.any_eq_true, beq_iff_eq, not_exists, not_and, not_not]
    constructor
    · intro h id hid
      obtain ⟨x, hx, rfl⟩ := h id hid
      exact hx
    · intro h id hid
      exact ⟨id, h id hid, rfl⟩
  have htime : Time.Sub now p.LastMovementPackage.Timestamp < Millisecond * 250 ↔
      now - p.LastMovementPackage.Timestamp < 250000000 := by
    unfold Time.Sub Millisecond
    omega
  have hgroup : areUnitsGrouped p.LastMovementPackage.UnitPositions m.UnitPositions 100 = true ↔
      ∀ newPos ∈ m.UnitPositions, ∀ lastPos ∈ p.LastMovementPackage.UnitPositions,
        (lastPos.DistanceTo newPos).Radicand ≤ 10000 := by
    unfold areUnitsGrouped Root.gt
    simp only [List.all_eq_true, Bool.not_eq_true', decide_eq_false_iff_not, not_lt, gt_iff_lt]
  have htarget : (p.LastMovementPackage.TargetPosition.DistanceTo m.TargetPosition).lt 50 = true ↔
      (p.LastMovementPackage.TargetPosition.DistanceTo m.TargetPosition).Radicand < 2500 := by
    unfold Root.lt
    simp only [decide_eq_true_eq]
  unfold isSuspiciousMovement
  dsimp only
  by_cases h1 : (m.UnitIds.all fun newUnitId =>
      p.LastMovementPackage.UnitIds.any fun lastUnitId => newUnitId == lastUnitId) = true
  · rw [if_pos h1]
    constructor
    · intro h; cases h
    · intro h; exact absurd h.1 (hall.mp h1)
  · rw [if_neg h1]
    have hex : ∃ id ∈ m.UnitIds, id ∉ p.LastMovementPackage.UnitIds := by
      by_contra hne
      exact h1 (hall.mpr hne)
    rw [← htime, ← htarget, ← hgroup]
    by_cases h2 : (decide (Time.Sub now p.LastMovementPackage.Timestamp < Millisecond * 250) &&
        (p.LastMovementPackage.TargetPosition.DistanceTo m.TargetPosition).lt 50 &&
        areUnitsGrouped p.LastMovementPackage.UnitPositions m.UnitPositions 100) = true
    · rw [if_pos h2]
      simp only [Bool.and_eq_true, decide_eq_true_eq] at h2
      exact ⟨fun _ => ⟨hex, h2.1.1, h2.1.2, h2.2⟩, fun _ => rfl⟩
    · rw [if_neg h2]
      constructor
      · intro h; cases h
      · intro h
        exfalso
        apply h2
        simp only [Bool.and_eq_true, decide_eq_true_eq]
        exact ⟨⟨h.2.1, h.2.2.1⟩, h.2.2.2⟩

/-- The radicand of `DistanceTo` is the square of the distance when the
coordinate differences are in the range of `int16`. -/
theorem DistanceTo_radicand (a b : PositionInt)
    (hx : -32768 ≤ a.X - b.X ∧ a.X - b.X ≤ 32767)
    (hy : -32768 ≤ a.Y - b.Y ∧ a.Y - b.Y ≤ 32767) :
    ((a.DistanceTo b).Radicand : Int) = (a.X - b.X) ^ 2 + (a.Y - b.Y) ^ 2 := by
  unfold PositionInt.DistanceTo
  have h1 : wrapInt16 (a.X - b.X) = a.X - b.X := by unfold wrapInt16; omega
  have h2 : wrapInt16 (a.Y - b.Y) = a.Y - b.Y := by unfold wrapInt16; omega
  simp only [h1, h2]
  have hnn : 0 ≤ (a.X - b.X) * (a.X - b.X) + (a.Y - b.Y) * (a.Y - b.Y) :=
    add_nonneg (mul_self_nonneg _) (mul_self_nonneg _)
  rw [Int.toNat_of_nonneg hnn]
  ring

/-- Claim C13 (amended): for a well-formed move message, (1) the message is
counted exactly when it names a unit ID that is absent from the stored
package, arrives less than 250 ms after it, has its target less than 50 units
from the stored target and every unit position at most 100 units from every
stored unit position (the distances as `DistanceTo` computes them, which is
the distance when the coordinate differences fit `int16`); so a message whose
unit IDs all occur in the stored package is not counted; (2) a counted message
increments the suspicion counter by one, emits no kick and leaves the stored
package as it was; (3) a message that is not counted emits the kick exactly
when the counter has reached the threshold, which is 5 for every player from
`AddPlayer`; it becomes the stored package, and without a kick the counter
drops by the decay rate. -/
theorem C13_counted_moves (p : Player) (payload : List Nat) (positions : List PositionInt)
    (stamp now : Int) (hvalid : validMovePayload payload = true) :
    (isSuspiciousMovement p (movementOf payload positions stamp) now = true ↔
      (∃ id ∈ payload.drop 5, id ∉ p.LastMovementPackage.UnitIds) ∧
      now - p.LastMovementPackage.Timestamp < 250000000 ∧
      (p.LastMovementPackage.TargetPosition.DistanceTo
        (getPositionIntFromPayload (payload.drop 1))).Radicand < 50 * 50 ∧
      ∀ newPos ∈ positions, ∀ lastPos ∈ p.LastMovementPackage.UnitPositions,
        (lastPos.DistanceTo newPos).Radicand ≤ 100 * 100) ∧
    (∀ a b : PositionInt, -32768 ≤ a.X - b.X ∧ a.X - b.X ≤ 32767 →
      -32768 ≤ a.Y - b.Y ∧ a.Y - b.Y ≤ 32767 →
      ((a.DistanceTo b).Radicand : Int) = (a.X - b.X) ^ 2 + (a.Y - b.Y) ^ 2) ∧
    ((∀ id ∈ payload.drop 5, id ∈ p.LastMovementPackage.UnitIds) →
      isSuspiciousMovement p (movementOf payload positions stamp) now = false) ∧
    (isSuspiciousMovement p (movementOf payload positions stamp) now = true →
      handleMoveUnitsMessage p payload positions stamp now =
        (p.HandleSuspiciousBehavior, false) ∧
      p.HandleSuspiciousBehavior.LastMovementPackage = p.LastMovementPackage ∧
      (p.SuspiciousCounter < 16777216 →
        p.HandleSuspiciousBehavior.SuspiciousCounter = p.SuspiciousCounter + 1)) ∧
    (isSuspiciousMovement p (movementOf payload positions stamp) now = false →
      (handleMoveUnitsMessage p payload positions stamp now).2 =
        decide (p.SuspicionThreshold ≤ p.SuspiciousCounter) ∧
      (handleMoveUnitsMessage p payload positions stamp now).1.LastMovementPackage =
        movementOf payload positions stamp ∧
      (handleMoveUnitsMessage p payload positions stamp now).1.SuspiciousCounter =
        if p.SuspicionThreshold ≤ p.SuspiciousCounter then p.SuspiciousCounter
        else p.SuspiciousCounter - p.SuspicionDecayRate) ∧
    (∀ ptr permission id, (newPlayer ptr permission id).SuspicionThreshold = 5 ∧
      (newPlayer ptr permission id).SuspicionDecayRate = 1 ∧
      (newPlayer ptr permission id).SuspiciousCounter = 0) := by
  have hiff := isSuspiciousMovement_iff p (movementOf payload positions stamp) now
  refine ⟨hiff, DistanceTo_radicand, ?_, ?_, ?_, fun _ _ _ => ⟨rfl, rfl, rfl⟩⟩
  · intro hall
    cases hsusp : isSuspiciousMovement p (movementOf payload positions stamp) now with
    | false => rfl
    | true =>
      obtain ⟨⟨id, hid, hnot⟩, _⟩ := hiff.mp hsusp
      exact absurd (hall id hid) hnot
  · intro hs
    refine ⟨?_, rfl, ?_⟩
    · rw [handleMove_valid p payload positions stamp now hvalid, if_pos hs]
    · intro hlt
      simp [Player.HandleSuspiciousBehavior, hlt]
  · intro hs
    rw [handleMove_valid p payload positions stamp now hvalid, hs]
    simp only [Bool.false_eq_true, if_false, true_and]
    unfold Player.UpdateSuspicion
    by_cases h : p.SuspiciousCounter ≥ p.SuspicionThreshold
    · simp [h]
    · simp [h]

set_option maxRecDepth 100000 in
/-- Witness of C13 (amended): one message for unit 1, five messages for the
units 2 to 6 at 40 ms intervals (each counted: the counter is 5), and a
message for unit 1 again, which is not counted and emits the kick.  The
message for unit 2 is counted: unit 2 is absent from the stored package, 40 ms
have passed, and the targets and the unit positions coincide. -/
theorem C13_counted_moves_witness :
    validMovePayload [1, 0, 100, 0, 100, 2] = true ∧
    (moveRun (newPlayer 1 0 0) (splitMoves.take 1)).1.LastMovementPackage =
      { Timestamp := 1000000000, TargetPosition := ⟨100, 100⟩, UnitPositions := [⟨0, 0⟩],
        UnitIds := [1] } ∧
    isSuspiciousMovement (moveRun (newPlayer 1 0 0) (splitMoves.take 1)).1
      (movementOf [1, 0, 100, 0, 100, 2] [⟨0, 0⟩] 1040000000) 1040000000 = true ∧
    (moveRun (newPlayer 1 0 0) (splitMoves.take 6)).1.SuspiciousCounter = 5 ∧
    (moveRun (newPlayer 1 0 0) splitMoves).2 = [false, false, false, false, false, false, true] :=
  ⟨by decide, by decide,
    (C13_counted_moves (moveRun (newPlayer 1 0 0) (splitMoves.take 1)).1
      [1, 0, 100, 0, 100, 2] [⟨0, 0⟩] 1040000000 1040000000 (by decide)).1.mpr
      ⟨⟨2, by decide, by decide⟩, by decide, by decide, by decide⟩,
    by decide, by decide⟩

end Network

namespace Game

set_option maxRecDepth 100000 in
/-- Claim C14 (code defect): the damage multiplier is converted with
`uint16(bullet.DamageMultiplier)`, which truncates 1.5 to 1.  A full-health
ANTI_TANK_GUN bullet (health 60, multiplier 1.5) takes 120 from a TANK of
health 800, the same 120 that it takes from a SOLDIER, not 180. -/
theorem C14_anti_tank_multiplier_truncated :
    (freshBase.AddBullet antiTankSpawner false).2 = some antiTankBullet ∧
    antiTankBullet.DamageMultiplier.toUint16 = 1 ∧
    (freshUnit TANK).Health = ⟨800, 800⟩ ∧
    (freshUnit SOLDIER).Health = ⟨180, 180⟩ ∧
    (playerBulletUnitBody (freshBase.AddBullet antiTankSpawner false).1 antiTankBullet
      (freshUnit TANK)).unit.Health.Current = 800 - 120 ∧
    (playerBulletUnitBody (freshBase.AddBullet antiTankSpawner false).1 antiTankBullet
      (freshUnit SOLDIER)).unit.Health.Current = 180 - 120 ∧
    (playerBulletUnitBody (freshBase.AddBullet antiTankSpawner false).1 antiTankBullet
      (freshUnit TANK)).unit.Health.Current ≠ 800 - 180 := by
  decide

set_option maxRecDepth 100000 in
/-- Claim C15 (code defect): the hit of a neutral-base bullet is not settled
like the hit of a player-base bullet.  A SIMPLE_TURRET bullet of health 15 that
hits a SOLDIER of health 180 whose player has not captured the base takes
15 from the unit on the neutral path and 30 on the player path; in both the
bullet takes the 180 of the unit and is destroyed. -/
theorem C15_neutral_bullet_half_damage :
    ((newNeutralBase 2 0 100).Base.AddBullet turretSpawner false).2 = some neutralTurretBullet ∧
    (freshBase.AddBullet turretSpawner false).2 = some turretBullet ∧
    hasCaptured 2 (newPlayer 2 0 1).CapturedNeutralBases = false ∧
    (neutralBulletUnitBody neutralFiringBase neutralTurretBullet
      (freshUnit SOLDIER)).unit.Health.Current = 180 - 15 ∧
    (playerBulletUnitBody (freshBase.AddBullet turretSpawner false).1 turretBullet
      (freshUnit SOLDIER)).unit.Health.Current = 180 - 2 * 15 ∧
    (neutralBulletUnitBody neutralFiringBase neutralTurretBullet
      (freshUnit SOLDIER)).bullet.Health.Current = 0 ∧
    (playerBulletUnitBody (freshBase.AddBullet turretSpawner false).1 turretBullet
      (freshUnit SOLDIER)).bullet.Health.Current = 0 := by
  decide

end Game

namespace Network

open Game

theorem pack_unpack (i f k : Nat) (hf : f < 2 ^ k) (hi : i * 2 ^ k < 65536) :
    (((i <<< k) % 65536) ||| f) = i * 2 ^ k + f ∧
    (i * 2 ^ k + f) >>> k = i ∧ (i * 2 ^ k + f) &&& (2 ^ k - 1) = f := by
  refine ⟨?_, ?_, ?_⟩
  · rw [Nat.shiftLeft_eq, Nat.mod_eq_of_lt hi, Nat.mul_comm, ← Nat.mul_add_lt_is_or hf]
  · rw [Nat.shiftRight_eq_div_pow, Nat.mul_comm, Nat.mul_add_div (Nat.two_pow_pos k),
      Nat.div_eq_of_lt hf, Nat.add_zero]
  · rw [Nat.and_pow_two_sub_one_eq_mod, Nat.mul_comm, Nat.mul_add_mod, Nat.mod_eq_of_lt hf]

theorem writeUint16_read (u v : Nat) (hv : v < 65536) :
    writeUint16BigEndian [u] v = [u, v / 256, v % 256] ∧
    readUint16BigEndian (writeUint16BigEndian [u] v) 1 = v ∧
    v / 256 < 256 ∧ v % 256 < 256 := by
  have h1 : writeUint16BigEndian [u] v = [u, v / 256, v % 256] := by
    unfold writeUint16BigEndian
    have : v / 256 % 256 = v / 256 := by omega
    simp [this]
  refine ⟨h1, ?_, by omega, by omega⟩
  rw [h1]
  simp only [readUint16BigEndian, List.getD_cons_succ, List.getD_cons_zero]
  omega

/-- The packed value that `EncodeScore` writes after the unit byte. -/
theorem EncodeScore_packed (s : Nat) (hs : s < 4294967296) :
    ∃ v, v < 65536 ∧
      EncodeScore [] (ConvertToLeaderboardScore s) =
        writeUint16BigEndian [(ConvertToLeaderboardScore s).Unit] v ∧
      (s < 1000 → v = s) ∧
      (1000 ≤ s → s < 1000000 → v = (s / 1000) * 2 ^ 6 + (s % 1000) / 100) ∧
      (1000000 ≤ s → v = min (s / 1000000) 511 * 2 ^ 7 + (s % 1000000) / 10000) := by
  by_cases h1 : 1000000 ≤ s
  · refine ⟨min (s / 1000000) 511 * 2 ^ 7 + (s % 1000000) / 10000, ?_, ?_, ?_, ?_, ?_⟩
    · have : min (s / 1000000) 511 ≤ 511 := Nat.min_le_right _ _
      omega
    · unfold EncodeScore ConvertToLeaderboardScore
      rw [if_pos h1]
      dsimp only
      rw [if_pos h1]
      have e1 : (s / 1000000) % 65536 = s / 1000000 := by omega
      have e2 : s % 1000000 / 10000 % 256 = s % 1000000 / 10000 := by omega
      rw [e1, e2, if_neg (by omega : ¬ s % 1000000 / 10000 > 99)]
      have e3 : (if s / 1000000 > 511 then 511 else s / 1000000) = min (s / 1000000) 511 := by
        split <;> omega
      rw [e3]
      have hm : min (s / 1000000) 511 ≤ 511 := Nat.min_le_right _ _
      rw [(pack_unpack (min (s / 1000000) 511) (s % 1000000 / 10000) 7 (by omega) (by omega)).1]
      rfl
    · intro h; omega
    · intro h h'; omega
    · intro _; rfl
  · by_cases h2 : 1000 ≤ s
    · refine ⟨(s / 1000) * 2 ^ 6 + (s % 1000) / 100, by omega, ?_, ?_, ?_, ?_⟩
      · unfold EncodeScore ConvertToLeaderboardScore
        rw [if_neg h1, if_pos h2]
        dsimp only
        rw [if_neg h1, if_pos h2]
        have e1 : (s / 1000) % 65536 = s / 1000 := by omega
        have e2 : s % 1000 / 100 % 256 = s % 1000 / 100 := by omega
        rw [e1, e2, if_neg (by omega : ¬ s % 1000 / 100 > 63),
          if_neg (by omega : ¬ s / 1000 > 1023)]
        rw [(pack_unpack (s / 1000) (s % 1000 / 100) 6 (by omega) (by omega)).1]
        rfl
      · intro h; omega
      · intro _ _; rfl
      · intro h; omega
    · refine ⟨s, by omega, ?_, ?_, ?_, ?_⟩
      · unfold EncodeScore ConvertToLeaderboardScore
        rw [if_neg h1, if_neg h2]
        dsimp only
        rw [if_neg h1, if_neg h2]
        have e1 : s % 65536 = s := by omega
        rw [e1]
        rfl
      · intro _; rfl
      · intro h; omega
      · intro h; omega

/-- Claim C20: for every `uint32` score `s`, `EncodeScore` of the converted
score writes three bytes, the unit and a big-endian `uint16`.  For unit 0 the
`uint16` is `s`; for unit `'k'` its upper 10 bits are the integer part and its
lower 6 bits the fractional part, and the clamps 1023 and 63 are not reached;
for unit `'M'` its lower 7 bits are the fractional part (at most 99) and its
upper 9 bits are the integer part when `s < 512000000` and the clamp 511
otherwise. -/
theorem C20_encode_roundtrip (s : Nat) (hs : s < 4294967296) :
    (EncodeScore [] (ConvertToLeaderboardScore s)).length = 3 ∧
    (∀ b ∈ EncodeScore [] (ConvertToLeaderboardScore s), b < 256) ∧
    (EncodeScore [] (ConvertToLeaderboardScore s)).headD 0 = (ConvertToLeaderboardScore s).Unit ∧
    (s < 1000 →
      (ConvertToLeaderboardScore s).Unit = 0 ∧
      readUint16BigEndian (EncodeScore [] (ConvertToLeaderboardScore s)) 1 = s) ∧
    (1000 ≤ s → s < 1000000 →
      (ConvertToLeaderboardScore s).Unit = 107 ∧
      readUint16BigEndian (EncodeScore [] (ConvertToLeaderboardScore s)) 1 >>> 6 =
        (ConvertToLeaderboardScore s).IntegerPart ∧
      readUint16BigEndian (EncodeScore [] (ConvertToLeaderboardScore s)) 1 &&& 63 =
        (ConvertToLeaderboardScore s).FractionalPart ∧
      (ConvertToLeaderboardScore s).IntegerPart ≤ 1023 ∧
      (ConvertToLeaderboardScore s).FractionalPart ≤ 63) ∧
    (1000000 ≤ s →
      (ConvertToLeaderboardScore s).Unit = 77 ∧
      readUint16BigEndian (EncodeScore [] (ConvertToLeaderboardScore s)) 1 &&& 127 =
        (ConvertToLeaderboardScore s).FractionalPart ∧
      (ConvertToLeaderboardScore s).FractionalPart ≤ 99 ∧
      (s < 512000000 →
        readUint16BigEndian (EncodeScore [] (ConvertToLeaderboardScore s)) 1 >>> 7 =
          (ConvertToLeaderboardScore s).IntegerPart) ∧
      (512000000 ≤ s →
        readUint16BigEndian (EncodeScore [] (ConvertToLeaderboardScore s)) 1 >>> 7 = 511)) := by
  obtain ⟨v, hv, he, c0, ck, cm⟩ := EncodeScore_packed s hs
  obtain ⟨w1, w2, w3, w4⟩ := writeUint16_read (ConvertToLeaderboardScore s).Unit v hv
  have hu : (ConvertToLeaderboardScore s).Unit < 256 := by
    unfold ConvertToLeaderboardScore
    split
    · show 77 < 256; omega
    · split
      · show 107 < 256; omega
      · show 0 < 256; omega
  rw [he, w2, w1]
  refine ⟨rfl, ?_, rfl, ?_, ?_, ?_⟩
  · intro b hb
    simp only [List.mem_cons, List.mem_singleton, List.not_mem_nil, or_false] at hb
    rcases hb with rfl | rfl | rfl
    · exact hu
    · exact w3
    · exact w4
  · intro h
    refine ⟨?_, c0 h⟩
    unfold ConvertToLeaderboardScore
    rw [if_neg (by omega), if_neg (by omega)]
  · intro h h'
    have hc : (ConvertToLeaderboardScore s).IntegerPart = s / 1000 ∧
        (ConvertToLeaderboardScore s).FractionalPart = s % 1000 / 100 ∧
        (ConvertToLeaderboardScore s).Unit = 107 := by
      unfold ConvertToLeaderboardScore
      rw [if_neg (by omega), if_pos h]
      dsimp only
      refine ⟨by omega, by omega, rfl⟩
    rw [hc.1, hc.2.1, hc.2.2, ck h h']
    have := pack_unpack (s / 1000) (s % 1000 / 100) 6 (by omega) (by omega)
    refine ⟨rfl, this.2.1, this.2.2, by omega, by omega⟩
  · intro h
    have hc : (ConvertToLeaderboardScore s).IntegerPart = s / 1000000 ∧
        (ConvertToLeaderboardScore s).FractionalPart = s % 1000000 / 10000 ∧
        (ConvertToLeaderboardScore s).Unit = 77 := by
      unfold ConvertToLeaderboardScore
      rw [if_pos h]
      dsimp only
      refine ⟨by omega, by omega, rfl⟩
    rw [hc.1, hc.2.1, hc.2.2, cm h]
    have hm : min (s / 1000000) 511 ≤ 511 := Nat.min_le_right _ _
    have := pack_unpack (min (s / 1000000) 511) (s % 1000000 / 10000) 7 (by omega) (by omega)
    refine ⟨rfl, this.2.2, by omega, ?_, ?_⟩
    · intro hlt
      rw [this.2.1]; omega
    · intro hge
      rw [this.2.1]; omega

set_option maxRecDepth 100000 in
/-- Witness of C20: the score 123456 is written as `'k'`, 30, 196, that is
123 and 4 packed as `123 * 64 + 4 = 7876`. -/
theorem C20_encode_roundtrip_witness :
    (123456 : Nat) < 4294967296 ∧
    EncodeScore [] (ConvertToLeaderboardScore 123456) = [107, 30, 196] ∧
    readUint16BigEndian (EncodeScore [] (ConvertToLeaderboardScore 123456)) 1 >>> 6 =
      (ConvertToLeaderboardScore 123456).IntegerPart :=
  ⟨by decide, by decide,
    ((C20_encode_roundtrip 123456 (by decide)).2.2.2.2.1 (by decide) (by decide)).2.1⟩

end Network

namespace Game

/-- Claim C21: for every `uint32` score `s`, `ConvertToLeaderboardScore` keeps
`s` as `FullValue`; below 1000 it returns `(s, 0, 0)`; from 1000 and below
1000000 it returns `(s / 1000, (s % 1000) / 100, 'k')` with a fractional part
of at most 9; from 1000000 on it returns
`(s / 1000000, (s % 1000000) / 10000, 'M')` with a fractional part of at most
99. -/
theorem C21_convert_score (s : Nat) (hs : s < 4294967296) :
    (ConvertToLeaderboardScore s).FullValue = s ∧
    (s < 1000 →
      (ConvertToLeaderboardScore s).IntegerPart = s ∧
      (ConvertToLeaderboardScore s).FractionalPart = 0 ∧
      (ConvertToLeaderboardScore s).Unit = 0) ∧
    (1000 ≤ s → s < 1000000 →
      (ConvertToLeaderboardScore s).IntegerPart = s / 1000 ∧
      (ConvertToLeaderboardScore s).FractionalPart = (s % 1000) / 100 ∧
      (ConvertToLeaderboardScore s).Unit = 107 ∧
      (ConvertToLeaderboardScore s).FractionalPart ≤ 9) ∧
    (1000000 ≤ s →
      (ConvertToLeaderboardScore s).IntegerPart = s / 1000000 ∧
      (ConvertToLeaderboardScore s).FractionalPart = (s % 1000000) / 10000 ∧
      (ConvertToLeaderboardScore s).Unit = 77 ∧
      (ConvertToLeaderboardScore s).FractionalPart ≤ 99) := by
  unfold ConvertToLeaderboardScore
  refine ⟨?_, ?_, ?_, ?_⟩
  · split
    · rfl
    · split <;> rfl
  · intro h
    rw [if_neg (by omega), if_neg (by omega)]
    dsimp only
    refine ⟨by omega, rfl, rfl⟩
  · intro h1 h2
    rw [if_neg (by omega), if_pos (by omega)]
    dsimp only
    refine ⟨by omega, by omega, rfl, by omega⟩
  · intro h
    rw [if_pos (by omega)]
    dsimp only
    refine ⟨by omega, by omega, rfl, by omega⟩

/-- Witness of C21: the score 2100. -/
theorem C21_convert_score_witness :
    (2100 : Nat) < 4294967296 ∧ (ConvertToLeaderboardScore 2100).FullValue = 2100 :=
  ⟨by decide, (C21_convert_score 2100 (by decide)).1⟩

end Game

/-! ## Lemmas: leaderboard -/

namespace Game

theorem scoreSort_sortsBy : SortsBy scoreLess scoreSort := by
  intro xs
  refine ⟨List.perm_insertionSort _ xs, ?_⟩
  have h := List.sorted_insertionSort scoreGe xs
  refine List.Pairwise.imp ?_ h
  intro a b hab
  unfold scoreGe at hab
  simp only [scoreLess, decide_eq_false_iff_not]
  omega

theorem Update_entries (l : Leaderboard) (players : List (ID × Player))
    (sortSlice : List LeaderboardEntry → List LeaderboardEntry) :
    (l.Update players sortSlice).1.Entries = (sortSlice (players.map entryOf)).take 10 := by
  unfold Leaderboard.Update
  dsimp only
  split
  · rfl
  · rename_i h
    exact (List.take_of_length_le (Nat.le_of_not_lt h)).symm

theorem updateChangesLoop_eq (m : List (ID × LeaderboardEntry)) (es : List LeaderboardEntry) :
    ∀ (acc : List LeaderboardEntry) (ch : Bool),
      updateChangesLoop m es acc ch =
        (acc ++ es.filter (entryChanged m), ch || es.any (entryChanged m)) := by
  induction es with
  | nil => intro acc ch; simp [updateChangesLoop]
  | cons e rest ih =>
    intro acc ch
    unfold updateChangesLoop
    by_cases h : entryChanged m e = true
    · rw [if_pos h, ih]
      simp [List.filter_cons, h]
    · rw [if_neg h, ih]
      simp [List.filter_cons, h]

theorem Update_changes (l : Leaderboard) (players : List (ID × Player))
    (sortSlice : List LeaderboardEntry → List LeaderboardEntry) :
    (l.Update players sortSlice).2.1 =
      (l.Update players sortSlice).1.Entries.filter
        (entryChanged (l.Entries.foldl (fun m entry => mapSet m entry.Player.ID entry) [])) ∧
    (l.Update players sortSlice).2.2 =
      (l.Update players sortSlice).1.Entries.any
        (entryChanged (l.Entries.foldl (fun m entry => mapSet m entry.Player.ID entry) [])) := by
  unfold Leaderboard.Update
  dsimp only
  rw [updateChangesLoop_eq]
  simp

theorem mapGet_previousMap (prev : List LeaderboardEntry) (id : ID) :
    ∀ (m : List (ID × LeaderboardEntry)),
      (prev.map (fun e => e.Player.ID)).Nodup →
      mapGet (prev.foldl (fun m entry => mapSet m entry.Player.ID entry) m) id =
        match prev.find? (fun e => e.Player.ID == id) with
        | some e => some e
        | none => mapGet m id := by
  induction prev with
  | nil => intro m _; rfl
  | cons p rest ih =>
    intro m hnd
    rw [List.map_cons, List.nodup_cons] at hnd
    rw [List.foldl_cons, ih _ hnd.2, List.find?_cons]
    by_cases hp : p.Player.ID = id
    · have hnone : rest.find? (fun e => e.Player.ID == id) = none := by
        rw [List.find?_eq_none]
        intro e he hcontra
        apply hnd.1
        rw [List.mem_map]
        refine ⟨e, he, ?_⟩
        have : e.Player.ID = id := by simpa using hcontra
        rw [this, hp]
      have hb : (p.Player.ID == id) = true := by simpa using hp
      simp only [hnone, hb]
      rw [mapGet_mapSet, if_pos hp.symm]
    · have hb : (p.Player.ID == id) = false := by simpa using hp
      simp only [hb]
      cases hf : rest.find? (fun e => e.Player.ID == id) with
      | some e => rfl
      | none =>
        simp only
        rw [mapGet_mapSet, if_neg (Ne.symm hp)]

/-- Under pairwise distinct previous IDs, the test of the comparison loop is:
no previous entry has the same player ID and the same displayed score. -/
theorem entryChanged_iff (prev : List LeaderboardEntry) (e : LeaderboardEntry)
    (hnd : (prev.map (fun e => e.Player.ID)).Nodup) :
    entryChanged (prev.foldl (fun m entry => mapSet m entry.Player.ID entry) []) e =
      prev.all (fun p => p.Player.ID != e.Player.ID || displayed p != displayed e) := by
  unfold entryChanged
  rw [mapGet_previousMap prev e.Player.ID [] hnd]
  cases hf : prev.find? (fun x => x.Player.ID == e.Player.ID) with
  | none =>
    rw [List.find?_eq_none] at hf
    have hg : mapGet ([] : List (ID × LeaderboardEntry)) e.Player.ID = none := rfl
    simp only [hg]
    symm
    rw [List.all_eq_true]
    intro p hp
    have := hf p hp
    simp only [Bool.or_eq_true, bne_iff_ne, ne_eq]
    left
    simpa using this
  | some q =>
    simp only
    have hq := List.find?_some hf
    have hmem := List.mem_of_find?_eq_some hf
    have hid : q.Player.ID = e.Player.ID := by simpa using hq
    -- every other previous entry has another ID
    have hother : ∀ p ∈ prev, p.Player.ID = e.Player.ID → p = q := by
      intro p hp hpe
      exact List.inj_on_of_nodup_map hnd hp hmem (by rw [hpe, hid])
    by_cases hd : displayed q = displayed e
    · have h1 : prev.all (fun p => p.Player.ID != e.Player.ID || displayed p != displayed e)
          = false := by
        rw [List.all_eq_false]
        exact ⟨q, hmem, by simp [hid, hd]⟩
      rw [h1]
      unfold displayed at hd
      simp only [Prod.mk.injEq] at hd
      simp [hd.1, hd.2.1, hd.2.2]
    · have h1 : prev.all (fun p => p.Player.ID != e.Player.ID || displayed p != displayed e)
          = true := by
        rw [List.all_eq_true]
        intro p hp
        by_cases hpe : p.Player.ID = e.Player.ID
        · rw [hother p hp hpe]
          simp [hd]
        · simp [hpe]
      rw [h1]
      unfold displayed at hd
      simp only [Prod.mk.injEq, not_and] at hd
      by_cases a : e.Score.IntegerPart = q.Score.IntegerPart
      · by_cases b : e.Score.FractionalPart = q.Score.FractionalPart
        · have c : ¬ q.Score.Unit = e.Score.Unit := hd a.symm b.symm
          have c' : ¬ e.Score.Unit = q.Score.Unit := fun h => c h.symm
          simp [c']
        · simp [b]
      · simp [a]

theorem Update_sorted (players : List (ID × Player))
    (sortSlice : List LeaderboardEntry → List LeaderboardEntry)
    (hs : SortsBy scoreLess sortSlice) :
    (sortSlice (players.map entryOf)).Pairwise
      (fun a b => a.Score.FullValue ≥ b.Score.FullValue) := by
  refine List.Pairwise.imp ?_ (hs (players.map entryOf)).2
  intro a b hab
  simp only [scoreLess, decide_eq_false_iff_not] at hab
  omega

theorem map_injOn_eq {α β : Type} (f : α → β) :
    ∀ (xs ys : List α), xs.map f = ys.map f →
      (∀ x ∈ xs, ∀ y ∈ ys, f x = f y → x = y) → xs = ys := by
  intro xs
  induction xs with
  | nil =>
    intro ys h _
    cases ys with
    | nil => rfl
    | cons y ys => simp at h
  | cons x xs ih =>
    intro ys h hinj
    cases ys with
    | nil => simp at h
    | cons y ys =>
      simp only [List.map_cons, List.cons.injEq] at h
      have hxy : x = y := hinj x (List.mem_cons_self _ _) y (List.mem_cons_self _ _) h.1
      rw [hxy, ih ys h.2 (fun a ha b hb => hinj a (List.mem_cons_of_mem _ ha) b
        (List.mem_cons_of_mem _ hb))]

/-- A list sorted by descending `FullValue` with pairwise distinct values is
the only such rearrangement of its entries. -/
theorem sorted_unique (xs ys : List LeaderboardEntry) (hp : xs.Perm ys)
    (hx : xs.Pairwise (fun a b => a.Score.FullValue ≥ b.Score.FullValue))
    (hy : ys.Pairwise (fun a b => a.Score.FullValue ≥ b.Score.FullValue))
    (hnd : (ys.map (fun e => e.Score.FullValue)).Nodup) : xs = ys := by
  have hmap : xs.map (fun e => e.Score.FullValue) = ys.map (fun e => e.Score.FullValue) := by
    apply List.eq_of_perm_of_sorted (r := fun a b : Nat => a ≥ b) (hp.map _)
    · exact List.pairwise_map.mpr hx
    · exact List.pairwise_map.mpr hy
  apply map_injOn_eq _ xs ys hmap
  intro x hx' y hy' hxy
  exact List.inj_on_of_nodup_map hnd (hp.subset hx') hy' hxy

/-- `Update` depends on the players and on the sorting function only through
the sorted slice. -/
theorem Update_of_sorted (l : Leaderboard) (players : List (ID × Player))
    (sortSlice : List LeaderboardEntry → List LeaderboardEntry) (sorted : List LeaderboardEntry)
    (h : sortSlice (players.map entryOf) = sorted) :
    l.Update players sortSlice = l.Update [] (fun _ => sorted) := by
  subst h
  rfl

/-- The sorted slice of a map of players with pairwise distinct scores. -/
theorem sortSlice_unique (players reference : List (ID × Player))
    (sortSlice : List LeaderboardEntry → List LeaderboardEntry) (sorted : List LeaderboardEntry)
    (hs : SortsBy scoreLess sortSlice) (hperm : players.Perm reference)
    (href : sorted.Perm (reference.map entryOf))
    (hsorted : sorted.Pairwise (fun a b => a.Score.FullValue ≥ b.Score.FullValue))
    (hnd : (sorted.map (fun e => e.Score.FullValue)).Nodup) :
    sortSlice (players.map entryOf) = sorted :=
  sorted_unique _ _ (((hs _).1.trans (hperm.map entryOf)).trans href.symm)
    (Update_sorted players sortSlice hs) hsorted hnd

set_option maxRecDepth 100000 in
theorem board0_eq (sortSlice : List LeaderboardEntry → List LeaderboardEntry)
    (players0 : List (ID × Player)) (hs : SortsBy scoreLess sortSlice)
    (h0 : players0.Perm scoreMap0) :
    (Leaderboard.Update ⟨[]⟩ players0 sortSlice).1 = board0 := by
  rw [Update_of_sorted ⟨[]⟩ players0 sortSlice board0.Entries
    (sortSlice_unique players0 scoreMap0 sortSlice board0.Entries hs h0
      (List.reverse_perm (scoreMap0.map entryOf)) (by decide) (by decide))]
  decide

end Game

/-! ## The claims C16 to C19 -/

namespace Game

set_option maxRecDepth 100000 in
/-- Claim C16 fails as stated: entries with equal scores are not in strictly
descending order.  Two players with score 0 give two entries with
`FullValue` 0 and 0. -/
theorem C16_ties_not_strict :
    (Leaderboard.Update ⟨[]⟩ tiedPlayers scoreSort).1.Entries.map
      (fun e => (e.Player.ID, e.Score.FullValue)) = [(1, 0), (2, 0)] ∧
    strictlyDescending ((Leaderboard.Update ⟨[]⟩ tiedPlayers scoreSort).1.Entries.map
      (fun e => e.Score.FullValue)) = false := by
  decide

/-- Claim C16 (amended): after every `Update`, for every sorting function
that meets the promise of `sort.Slice`, `Entries` holds at most 10 entries and
the `FullValue` of each entry is greater than or equal to the `FullValue` of
every entry after it. -/
theorem C16_sorted_descending (l : Leaderboard) (players : List (ID × Player))
    (sortSlice : List LeaderboardEntry → List LeaderboardEntry)
    (hs : SortsBy scoreLess sortSlice) :
    (l.Update players sortSlice).1.Entries.length ≤ 10 ∧
    (l.Update players sortSlice).1.Entries.Pairwise
      (fun a b => a.Score.FullValue ≥ b.Score.FullValue) := by
  rw [Update_entries]
  refine ⟨?_, ?_⟩
  · rw [List.length_take]; exact Nat.min_le_left _ _
  · exact (Update_sorted players sortSlice hs).sublist (List.take_sublist _ _)

set_option maxRecDepth 100000 in
/-- Witness of C16 (amended): the players at 100, 200, 300 sorted by
insertion sort. -/
theorem C16_sorted_descending_witness :
    ((Leaderboard.Update ⟨[]⟩ scoreMap0 scoreSort).1.Entries.map
      (fun e => e.Score.FullValue) = [300, 200, 100]) ∧
    (Leaderboard.Update ⟨[]⟩ scoreMap0 scoreSort).1.Entries.length ≤ 10 :=
  ⟨by decide, (C16_sorted_descending ⟨[]⟩ scoreMap0 scoreSort scoreSort_sortsBy).1⟩

/-- Claim C17: after `Update`, for every sorting function that meets the
promise of `sort.Slice`, `Entries` has `min |players| 10` entries, each with the
score of its player as `FullValue`; the entries together with the entries left
out are a rearrangement of the entries of the players (one per player of the
map), and no player left out has a greater score than a player in `Entries`. -/
theorem C17_top_ten (l : Leaderboard) (players : List (ID × Player))
    (sortSlice : List LeaderboardEntry → List LeaderboardEntry)
    (hs : SortsBy scoreLess sortSlice) :
    (l.Update players sortSlice).1.Entries.length = min players.length 10 ∧
    (∀ e ∈ (l.Update players sortSlice).1.Entries, e.Score.FullValue = e.Player.Score) ∧
    ∃ rest : List LeaderboardEntry,
      ((l.Update players sortSlice).1.Entries ++ rest).Perm (players.map entryOf) ∧
      (∀ e ∈ (l.Update players sortSlice).1.Entries, ∀ r ∈ rest,
        r.Player.Score ≤ e.Player.Score) ∧
      (∀ kv ∈ players, entryOf kv ∉ (l.Update players sortSlice).1.Entries →
        ∀ e ∈ (l.Update players sortSlice).1.Entries, kv.2.Score ≤ e.Player.Score) := by
  have hperm := (hs (players.map entryOf)).1
  have hsorted := Update_sorted players sortSlice hs
  have hfull : ∀ e ∈ sortSlice (players.map entryOf), e.Score.FullValue = e.Player.Score := by
    intro e he
    have := hperm.subset he
    rw [List.mem_map] at this
    obtain ⟨kv, _, rfl⟩ := this
    unfold entryOf ConvertToLeaderboardScore Player.GetScore
    dsimp only
    split
    · rfl
    · split <;> rfl
  rw [Update_entries]
  have hle : ∀ e ∈ (sortSlice (players.map entryOf)).take 10,
      ∀ r ∈ (sortSlice (players.map entryOf)).drop 10, r.Player.Score ≤ e.Player.Score := by
    intro e he r hr
    have hp : ((sortSlice (players.map entryOf)).take 10 ++
        (sortSlice (players.map entryOf)).drop 10).Pairwise
        (fun a b => a.Score.FullValue ≥ b.Score.FullValue) := by
      rw [List.take_append_drop]; exact hsorted
    rw [List.pairwise_append] at hp
    have := hp.2.2 e he r hr
    rw [hfull e (List.mem_of_mem_take he), hfull r (List.mem_of_mem_drop hr)] at this
    exact this
  refine ⟨?_, ?_, (sortSlice (players.map entryOf)).drop 10, ?_, hle, ?_⟩
  · rw [List.length_take, hperm.length_eq, List.length_map, Nat.min_comm]
  · intro e he
    exact hfull e (List.mem_of_mem_take he)
  · rw [List.take_append_drop]; exact hperm
  · intro kv hkv hnot e he
    have hmem : entryOf kv ∈ sortSlice (players.map entryOf) :=
      hperm.symm.subset (List.mem_map_of_mem _ hkv)
    rw [← List.take_append_drop 10 (sortSlice (players.map entryOf)), List.mem_append] at hmem
    rcases hmem with h | h
    · exact absurd h hnot
    · exact hle e he _ h

set_option maxRecDepth 100000 in
/-- Witness of C17: the players at 100, 200, 300 sorted by insertion sort. -/
theorem C17_top_ten_witness :
    (Leaderboard.Update ⟨[]⟩ scoreMap0 scoreSort).1.Entries.map (fun e => e.Player.ID) =
      [3, 2, 1] ∧
    (Leaderboard.Update ⟨[]⟩ scoreMap0 scoreSort).1.Entries.length = min scoreMap0.length 10 :=
  ⟨by decide, (C17_top_ten ⟨[]⟩ scoreMap0 scoreSort scoreSort_sortsBy).1⟩

/-- Claim C18: for every sorting function that meets the promise of
`sort.Slice`, and previous entries with pairwise distinct player IDs, the new
list of `Update` is the first ten of the sorted entries of the players, and
`Update` returns exactly those entries of the new list for which no previous
entry has the same player ID and the same displayed score (integer part,
fractional part, unit), in the order of the new list.  So every returned entry
is the entry of a player of the map, and in a map of at most ten players the
entry of every player that is new or whose displayed score has changed is
returned.  `changed` is true iff the returned list is not empty, and an entry
whose displayed score equals that of the previous entry of its player is not
returned. -/
theorem C18_changes (l : Leaderboard) (players : List (ID × Player))
    (sortSlice : List LeaderboardEntry → List LeaderboardEntry)
    (hs : SortsBy scoreLess sortSlice)
    (hnd : (l.Entries.map (fun e => e.Player.ID)).Nodup) :
    (l.Update players sortSlice).1.Entries = (sortSlice (players.map entryOf)).take 10 ∧
    (l.Update players sortSlice).2.1 =
      ((sortSlice (players.map entryOf)).take 10).filter (fun e =>
        l.Entries.all (fun p => p.Player.ID != e.Player.ID || displayed p != displayed e)) ∧
    (∀ e ∈ (l.Update players sortSlice).2.1, ∃ kv ∈ players, e = entryOf kv) ∧
    (players.length ≤ 10 → ∀ kv ∈ players,
      (∀ p ∈ l.Entries, p.Player.ID = kv.2.ID → displayed p ≠ displayed (entryOf kv)) →
      entryOf kv ∈ (l.Update players sortSlice).2.1) ∧
    (l.Update players sortSlice).2.2 = !(l.Update players sortSlice).2.1.isEmpty ∧
    (∀ e ∈ (sortSlice (players.map entryOf)).take 10, ∀ p ∈ l.Entries,
      p.Player.ID = e.Player.ID → displayed p = displayed e →
      e ∉ (l.Update players sortSlice).2.1) := by
  obtain ⟨h1, h2⟩ := Update_changes l players sortSlice
  have hfun : entryChanged (l.Entries.foldl (fun m entry => mapSet m entry.Player.ID entry) []) =
      (fun e => l.Entries.all
        (fun p => p.Player.ID != e.Player.ID || displayed p != displayed e)) := by
    funext e
    exact entryChanged_iff l.Entries e hnd
  rw [hfun, Update_entries] at h1 h2
  have hperm := (hs (players.map entryOf)).1
  refine ⟨Update_entries l players sortSlice, h1, ?_, ?_, ?_, ?_⟩
  · intro e he
    rw [h1] at he
    have hmem := hperm.subset (List.mem_of_mem_take (List.mem_filter.mp he).1)
    obtain ⟨kv, hkv, rfl⟩ := List.mem_map.mp hmem
    exact ⟨kv, hkv, rfl⟩
  · intro hlen kv hkv hnew
    rw [h1, List.mem_filter]
    constructor
    · rw [List.take_of_length_le (by rw [hperm.length_eq, List.length_map]; exact hlen)]
      exact hperm.symm.subset (List.mem_map_of_mem _ hkv)
    · rw [List.all_eq_true]
      intro p hp
      by_cases hid : p.Player.ID = (entryOf kv).Player.ID
      · have := hnew p hp hid
        simp [this]
      · simp [hid]
  · rw [h2, h1]
    generalize (sortSlice (players.map entryOf)).take 10 = es
    induction es with
    | nil => rfl
    | cons e rest ih =>
      by_cases h : (l.Entries.all
          (fun p => p.Player.ID != e.Player.ID || displayed p != displayed e)) = true
      · simp [List.filter_cons, h]
      · simp only [List.any_cons, List.filter_cons, h, Bool.false_or, if_false]
        simpa using ih
  · intro e _ p hp hid hdis hmem
    rw [h1, List.mem_filter, List.all_eq_true] at hmem
    have := hmem.2 p hp
    simp [hid, hdis] at this

set_option maxRecDepth 100000 in
/-- Witness of C18: the leaderboard of the players at 100, 200, 300, updated
after player 1 has gained 2000: the entry of player 1, now displayed as 2.1 k,
is returned, and it is the only one. -/
theorem C18_changes_witness :
    ((Leaderboard.Update ⟨[]⟩ scoreMap0 scoreSort).1.Entries.map
      (fun e => e.Player.ID)).Nodup ∧
    ((Leaderboard.Update ⟨[]⟩ scoreMap0 scoreSort).1.Update scoreMap1 scoreSort).2.1 =
      [entryOf (1, scorePlayer 1 2100)] ∧
    entryOf (1, scorePlayer 1 2100) ∈
      ((Leaderboard.Update ⟨[]⟩ scoreMap0 scoreSort).1.Update scoreMap1 scoreSort).2.1 :=
  ⟨by decide, by decide,
    (C18_changes (Leaderboard.Update ⟨[]⟩ scoreMap0 scoreSort).1 scoreMap1 scoreSort
      scoreSort_sortsBy (by decide)).2.2.2.1 (by decide) (1, scorePlayer 1 2100) (by decide)
      (by decide)⟩

set_option maxRecDepth 100000 in
/-- Claim C19 fails as stated: the entry of player 3 is not among the returned
changes.  With the players 1, 2, 3 at 100, 200, 300 on the leaderboard and
player 1 at 2100, the next `Update` orders the entries (1, 3, 2) and returns
the entry of player 1 only. -/
theorem C19_player_three_not_returned :
    ((Leaderboard.Update ⟨[]⟩ scoreMap0 scoreSort).1.Update scoreMap1 scoreSort).1.Entries.map
      (fun e => e.Player.ID) = [1, 3, 2] ∧
    ((Leaderboard.Update ⟨[]⟩ scoreMap0 scoreSort).1.Update scoreMap1 scoreSort).2.1.map
      (fun e => e.Player.ID) = [1] ∧
    3 ∉ ((Leaderboard.Update ⟨[]⟩ scoreMap0 scoreSort).1.Update scoreMap1 scoreSort).2.1.map
      (fun e => e.Player.ID) := by
  decide

set_option maxRecDepth 100000 in
/-- Claim C19 (amended): for every sorting function that meets the promise of
`sort.Slice` and every iteration order of the two maps, the first `Update`
orders the players at 100, 200, 300 as (3, 2, 1); after player 1 has gained
2000 the next `Update` orders the entries (1, 3, 2), returns as changes the
entry of player 1 only (displayed as 2.1 k), and reports `changed`. -/
theorem C19_only_player_one_changes
    (sortSlice : List LeaderboardEntry → List LeaderboardEntry)
    (players0 players1 : List (ID × Player)) (hs : SortsBy scoreLess sortSlice)
    (h0 : players0.Perm scoreMap0) (h1 : players1.Perm scoreMap1) :
    (Leaderboard.Update ⟨[]⟩ players0 sortSlice).1.Entries.map
      (fun e => (e.Player.ID, e.Score.FullValue)) = [(3, 300), (2, 200), (1, 100)] ∧
    ((Leaderboard.Update ⟨[]⟩ players0 sortSlice).1.Update players1 sortSlice).1.Entries.map
      (fun e => (e.Player.ID, e.Score.FullValue)) = [(1, 2100), (3, 300), (2, 200)] ∧
    ((Leaderboard.Update ⟨[]⟩ players0 sortSlice).1.Update players1 sortSlice).2.1.map
      (fun e => (e.Player.ID, displayed e)) = [(1, (2, 1, 107))] ∧
    ((Leaderboard.Update ⟨[]⟩ players0 sortSlice).1.Update players1 sortSlice).2.2 = true := by
  rw [board0_eq sortSlice players0 hs h0]
  rw [Update_of_sorted board0 players1 sortSlice
    [entryOf (1, scorePlayer 1 2100), entryOf (3, scorePlayer 3 300),
      entryOf (2, scorePlayer 2 200)]
    (sortSlice_unique players1 scoreMap1 sortSlice _ hs h1
      (List.Perm.cons _ (List.Perm.swap _ _ _)) (by decide) (by decide))]
  decide

set_option maxRecDepth 100000 in
/-- Witness of C19 (amended): insertion sort, the second map visited in
reverse order. -/
theorem C19_only_player_one_changes_witness :
    scoreMap0.Perm scoreMap0 ∧ scoreMap1.reverse.Perm scoreMap1 ∧
    ((Leaderboard.Update ⟨[]⟩ scoreMap0 scoreSort).1.Update scoreMap1.reverse scoreSort).2.1.map
      (fun e => (e.Player.ID, displayed e)) = [(1, (2, 1, 107))] :=
  ⟨List.Perm.refl _, List.reverse_perm _,
    (C19_only_player_one_changes scoreSort scoreMap0 scoreMap1.reverse scoreSort_sortsBy
      (List.Perm.refl _) (List.reverse_perm _)).2.2.1⟩

end Game

/-! ## The claims C22 and C25 -/

namespace Game

set_option maxRecDepth 100000 in
/-- Claim C22 fails as stated: `Captured(nil)` resets the health of the base.
A neutral base at 400 of 1000 health is at 1000 of 1000 after the call. -/
theorem C22_decapture_resets_health :
    damagedNeutralWorld.neutral.Base.Health = ⟨400, 1000⟩ ∧
    (NeutralBase.Captured damagedNeutralWorld false 0).neutral.Base.Health = ⟨1000, 1000⟩ ∧
    (NeutralBase.Captured damagedNeutralWorld false 0).neutral.Base.Health ≠
      damagedNeutralWorld.neutral.Base.Health := by
  decide

/-- Claim C22 (amended): `NeutralBase.Captured(nil)` sets `CapturedBy` to nil
and resets the health of the base to its maximum; the buildings, the bullets,
the two ID pools, the limits, the bullet spawners and the ID of the base, and
the player, are the same after the call as before it. -/
theorem C22_decapture_frame (w : World) (wallPtr : Nat) :
    (NeutralBase.Captured w false wallPtr).neutral.CapturedBy = false ∧
    (NeutralBase.Captured w false wallPtr).neutral.Base.Health =
      w.neutral.Base.Health.Reset ∧
    (NeutralBase.Captured w false wallPtr).neutral.Base.Buildings = w.neutral.Base.Buildings ∧
    (NeutralBase.Captured w false wallPtr).neutral.Base.Bullets = w.neutral.Base.Bullets ∧
    (NeutralBase.Captured w false wallPtr).neutral.Base.AvailableBuildingIDs =
      w.neutral.Base.AvailableBuildingIDs ∧
    (NeutralBase.Captured w false wallPtr).neutral.Base.AvailableBulletIDs =
      w.neutral.Base.AvailableBulletIDs ∧
    (NeutralBase.Captured w false wallPtr).neutral.Base.BuildingLimits =
      w.neutral.Base.BuildingLimits ∧
    (NeutralBase.Captured w false wallPtr).neutral.Base.BulletSpawning =
      w.neutral.Base.BulletSpawning ∧
    (NeutralBase.Captured w false wallPtr).neutral.ID = w.neutral.ID ∧
    (NeutralBase.Captured w false wallPtr).player = w.player := by
  refine ⟨rfl, rfl, rfl, rfl, rfl, rfl, rfl, rfl, rfl, rfl⟩

/-- Claim C25: `handleUnitCollision` reduces the health of each unit by the
health that the other unit had before the collision, saturating at 0, and
returns the two alive flags in the order of the arguments, whatever the order
of the unit IDs: the first unit survives iff its health exceeded the health of
the second, both die iff the healths were equal, and never do both survive. -/
theorem C25_unit_collision (u1 u2 : Game.Unit) (h1 : u1.Health.Current < 65536)
    (h2 : u2.Health.Current < 65536) :
    (handleUnitCollision u1 u2).1.1 = { u1 with Health := u1.Health.Decrement u2.Health.Current } ∧
    (handleUnitCollision u1 u2).1.2 = { u2 with Health := u2.Health.Decrement u1.Health.Current } ∧
    (handleUnitCollision u1 u2).1.1.Health.Current = u1.Health.Current - u2.Health.Current ∧
    (handleUnitCollision u1 u2).1.2.Health.Current = u2.Health.Current - u1.Health.Current ∧
    (handleUnitCollision u1 u2).2.1 = decide (u1.Health.Current > u2.Health.Current) ∧
    (handleUnitCollision u1 u2).2.2 = decide (u2.Health.Current > u1.Health.Current) ∧
    ((handleUnitCollision u1 u2).2.1 = false ∧ (handleUnitCollision u1 u2).2.2 = false ↔
      u1.Health.Current = u2.Health.Current) ∧
    ¬ ((handleUnitCollision u1 u2).2.1 = true ∧ (handleUnitCollision u1 u2).2.2 = true) := by
  have hd : ∀ (h : Health) (a : Nat), h.Current < 65536 →
      (h.Decrement a).Current = h.Current - a ∧
      (h.Decrement a).IsAlive = decide (h.Current > a) := by
    intro h a hh
    unfold Health.Decrement Health.IsAlive
    split
    · dsimp only
      refine ⟨by omega, ?_⟩
      simp; omega
    · dsimp only [sub16]
      refine ⟨by omega, ?_⟩
      simp; omega
  have key : (handleUnitCollision u1 u2) =
      (({ u1 with Health := u1.Health.Decrement u2.Health.Current },
        { u2 with Health := u2.Health.Decrement u1.Health.Current }),
        (u1.Health.Decrement u2.Health.Current).IsAlive,
        (u2.Health.Decrement u1.Health.Current).IsAlive) := by
    unfold handleUnitCollision Unit.TakeDamage
    by_cases hs : u1.ID > u2.ID
    · simp [hs]
    · simp [hs]
  rw [key]
  dsimp only
  rw [(hd u1.Health u2.Health.Current h1).1, (hd u1.Health u2.Health.Current h1).2,
    (hd u2.Health u1.Health.Current h2).1, (hd u2.Health u1.Health.Current h2).2]
  refine ⟨rfl, rfl, rfl, rfl, rfl, rfl, ?_, ?_⟩
  · simp only [decide_eq_false_iff_not]; omega
  · simp only [decide_eq_true_eq]; omega

set_option maxRecDepth 100000 in
/-- Witness of C25: a TANK of health 800 meets a SOLDIER of health 180. -/
theorem C25_unit_collision_witness :
    (handleUnitCollision (freshUnit TANK) (freshUnit SOLDIER)).2 = (true, false) ∧
    (handleUnitCollision (freshUnit TANK) (freshUnit SOLDIER)).1.1.Health.Current =
      (freshUnit TANK).Health.Current - (freshUnit SOLDIER).Health.Current :=
  ⟨by decide,
    (C25_unit_collision (freshUnit TANK) (freshUnit SOLDIER) (by decide) (by decide)).2.2.1⟩

end Game

/-! ## The claims C26 to C28 -/

namespace Network

open Game

theorem floor_gt_iff (m k c : Nat) : m / 2 ^ k > c ↔ (c + 1) * 2 ^ k ≤ m := by
  have hp : 0 < 2 ^ k := Nat.two_pow_pos _
  exact (Nat.le_div_iff_mul_le hp)

theorem ceil_lt_iff (m k c : Nat) : (m + 2 ^ k - 1) / 2 ^ k < c + 1 ↔ m ≤ c * 2 ^ k := by
  have hp : 0 < 2 ^ k := Nat.two_pow_pos _
  rw [Nat.div_lt_iff_lt_mul hp, Nat.add_mul]
  omega

/-- The radius test for the building types of the default branch, on a finite
distance below 65536: it fails exactly when the distance is at most
`120 + buildingSize - 3` or at least 358. -/
theorem isPlayerRadiusValid_circular (outOfRange : Option Nat → Nat) (t : BuildingType)
    (d : Dyadic) (ht : t = WALL ∨ t = SIMPLE_TURRET ∨ t = SNIPER_TURRET)
    (hd : d.Mantissa < 65536 * 2 ^ d.Shift) :
    isPlayerRadiusValid outOfRange t (some d) = false ↔
      (d.Mantissa ≤ (120 + GetBuildingSize t - 3) * 2 ^ d.Shift ∨
        358 * 2 ^ d.Shift ≤ d.Mantissa) := by
  have hp : 0 < 2 ^ d.Shift := Nat.two_pow_pos _
  have hmax : toUint16 (355 + 2) = 357 := by decide
  have hfloor : d.Mantissa / 2 ^ d.Shift < 65536 := (Nat.div_lt_iff_lt_mul hp).mpr hd
  have hfl : floatToUint16 outOfRange (floorFloat (some d)) = d.Mantissa / 2 ^ d.Shift := by
    simp only [floatToUint16, floorFloat, Option.map_some', hfloor, if_true]
  have hgt := floor_gt_iff d.Mantissa d.Shift 357
  have key : ∀ c : Nat, c ≤ 400 → toUint16 (playerMinRadius t - 2) = c + 1 →
      (isPlayerRadiusValid outOfRange t (some d) = false ↔
        (d.Mantissa ≤ c * 2 ^ d.Shift ∨ 358 * 2 ^ d.Shift ≤ d.Mantissa)) := by
    intro c hc hmin
    have hne : ¬ t = BARRACKS := by
      rcases ht with h | h | h <;> subst h <;> decide
    unfold isPlayerRadiusValid
    dsimp only
    rw [if_neg hne, hmax, hmin, hfl]
    by_cases hbig : d.Mantissa / 2 ^ d.Shift > 357
    · have h358 : 358 * 2 ^ d.Shift ≤ d.Mantissa := hgt.mp hbig
      simp only [hbig, decide_True, Bool.true_or, Bool.not_true, true_iff]
      exact Or.inr h358
    · have h358 : ¬ 358 * 2 ^ d.Shift ≤ d.Mantissa := fun h => hbig (hgt.mpr h)
      have hceil : (d.Mantissa + 2 ^ d.Shift - 1) / 2 ^ d.Shift < 65536 := by
        rw [Nat.div_lt_iff_lt_mul hp]
        omega
      have hcl : floatToUint16 outOfRange (ceilFloat (some d)) =
          (d.Mantissa + 2 ^ d.Shift - 1) / 2 ^ d.Shift := by
        simp only [floatToUint16, ceilFloat, Option.map_some', hceil, if_true]
      rw [hcl]
      have hlt := ceil_lt_iff d.Mantissa d.Shift c
      simp only [hbig, decide_False, Bool.false_or, Bool.not_eq_false', decide_eq_true_eq]
      constructor
      · intro h; exact Or.inl (hlt.mp h)
      · intro h
        rcases h with h | h
        · exact hlt.mpr h
        · exact absurd h h358
  rcases ht with h | h | h <;> subst h
  · exact key 147 (by decide) (by decide)
  · exact key 147 (by decide) (by decide)
  · exact key 150 (by decide) (by decide)

theorem Resource_decrement_increment (r : Resource) (c : Nat) (h : r.Current ≤ r.Capacity)
    (hc : r.Capacity < 65536) (hd : (r.Decrement c).2 = true) :
    (r.Decrement c).1.Increment c = r := by
  unfold Resource.Decrement at hd ⊢
  by_cases hge : r.Current ≥ c
  · rw [if_pos hge]
    unfold Resource.Increment sub16 add16
    dsimp only
    have e : ((r.Current % 65536 + 65536 - c % 65536) % 65536 + c) % 65536 = r.Current := by
      omega
    rw [e, if_neg (by omega)]
  · rw [if_neg hge] at hd
    cases hd

set_option maxRecDepth 100000 in
/-- Claim C26 fails as stated: the tolerance of 2 also widens the lower bound,
and the distance is rounded.  For a new player without a captured neutral
base, a WALL (minimum radius 150) at distance 149 is placed and paid for, and
so is a WALL at the distance 357.5. -/
theorem C26_tolerance_accepts :
    startWorld.player.CapturedNeutralBases = [] ∧
    120 + GetBuildingSize WALL = 150 ∧
    (handlePlacedBuildingMessage startWorld WALL
      (selectBase (fun _ => 0) startWorld WALL (some ⟨149, 0⟩) false)
      true false 300).2.isSome = true ∧
    (handlePlacedBuildingMessage startWorld WALL
      (selectBase (fun _ => 0) startWorld WALL (some ⟨149, 0⟩) false)
      true false 300).1.player.Resources.Power.Current = 6000 - 50 ∧
    (handlePlacedBuildingMessage startWorld WALL
      (selectBase (fun _ => 0) startWorld WALL (some ⟨715, 1⟩) false)
      true false 300).2.isSome = true := by
  decide

/-- Claim C26 (amended): for a player without a captured neutral base, a WALL,
SIMPLE_TURRET or SNIPER_TURRET and a distance `d = Mantissa / 2 ^ Shift` below
65536, whatever the platform converts larger values to, the radius check
selects no base exactly when `d ≤ 120 + buildingSize - 3` (147 for a WALL and a
SIMPLE_TURRET, 150 for a SNIPER_TURRET) or `d ≥ 358`; such a request is
rejected and leaves the world as it was (no power deducted, no building
added). -/
theorem C26_radius_rejected (outOfRange : Option Nat → Nat) (w : World) (t : BuildingType)
    (d : Dyadic) (neutralInRange collisionFree overlapsUnits : Bool) (ptr : Nat)
    (ht : t = WALL ∨ t = SIMPLE_TURRET ∨ t = SNIPER_TURRET)
    (hn : w.player.CapturedNeutralBases = [])
    (hd : d.Mantissa < 65536 * 2 ^ d.Shift) :
    (selectBase outOfRange w t (some d) neutralInRange = none ↔
      (d.Mantissa ≤ (120 + GetBuildingSize t - 3) * 2 ^ d.Shift ∨
        358 * 2 ^ d.Shift ≤ d.Mantissa)) ∧
    ((d.Mantissa ≤ (120 + GetBuildingSize t - 3) * 2 ^ d.Shift ∨
        358 * 2 ^ d.Shift ≤ d.Mantissa) →
      handlePlacedBuildingMessage w t (selectBase outOfRange w t (some d) neutralInRange)
        collisionFree overlapsUnits ptr = (w, none)) ∧
    120 + GetBuildingSize WALL - 3 = 147 ∧ 120 + GetBuildingSize SIMPLE_TURRET - 3 = 147 ∧
    120 + GetBuildingSize SNIPER_TURRET - 3 = 150 := by
  have hsel : selectBase outOfRange w t (some d) neutralInRange = none ↔
      (d.Mantissa ≤ (120 + GetBuildingSize t - 3) * 2 ^ d.Shift ∨
        358 * 2 ^ d.Shift ≤ d.Mantissa) := by
    rw [← isPlayerRadiusValid_circular outOfRange t d ht hd]
    unfold selectBase
    rw [hn]
    cases isPlayerRadiusValid outOfRange t (some d) <;> simp
  refine ⟨hsel, ?_, by decide, by decide, by decide⟩
  intro h
  rw [hsel.mpr h]
  unfold handlePlacedBuildingMessage
  split <;> rfl

set_option maxRecDepth 100000 in
/-- Witness of C26 (amended): a WALL at distance 147 from the base of a new
player. -/
theorem C26_radius_rejected_witness :
    startWorld.player.CapturedNeutralBases = [] ∧
    handlePlacedBuildingMessage startWorld WALL
      (selectBase (fun _ => 0) startWorld WALL (some ⟨147, 0⟩) false)
      true false 300 = (startWorld, none) :=
  ⟨by decide,
    (C26_radius_rejected (fun _ => 0) startWorld WALL ⟨147, 0⟩ false true false 300 (Or.inl rfl)
      (by decide) (by decide)).2.1 (Or.inl (by decide))⟩

/-- Claim C27: when `handlePlacedBuildingMessage` places no building, the power
of the player after the request is the power before it, also on the three
paths that fail after the cost has been deducted; for every `Resource` with
`Current ≤ Capacity`, a successful `Decrement c` followed by `Increment c`
restores the resource. -/
theorem C27_failed_placement_refunds (w : World) (t : BuildingType)
    (placement : Option BaseRef) (collisionFree overlapsUnits : Bool) (ptr : Nat)
    (r : Resource) (c : Nat)
    (h : w.player.Resources.Power.Current ≤ w.player.Resources.Power.Capacity)
    (hc : w.player.Resources.Power.Capacity < 65536)
    (hr : r.Current ≤ r.Capacity) (hrc : r.Capacity < 65536) :
    ((handlePlacedBuildingMessage w t placement collisionFree overlapsUnits ptr).2 = none →
      (handlePlacedBuildingMessage w t placement collisionFree overlapsUnits
        ptr).1.player.Resources.Power = w.player.Resources.Power) ∧
    ((r.Decrement c).2 = true → (r.Decrement c).1.Increment c = r) := by
  refine ⟨?_, Resource_decrement_increment r c hr hrc⟩
  intro hnone
  unfold handlePlacedBuildingMessage at hnone ⊢
  by_cases hv : ValidateBuildingType t = true
  swap
  · simp [hv]
  simp only [hv, Bool.not_true, Bool.false_eq_true, if_false] at hnone ⊢
  cases placement with
  | none => rfl
  | some base =>
    simp only at hnone ⊢
    cases hcost : GetBuildingCost t BASIC_BUILDING with
    | none => rfl
    | some costs =>
      simp only [hcost] at hnone ⊢
      cases hdec : w.player.Resources.Power.Decrement costs with
      | mk power ok =>
        cases ok with
        | false => rfl
        | true =>
          simp only [hdec] at hnone ⊢
          have hback : power.Increment costs = w.player.Resources.Power := by
            have := Resource_decrement_increment w.player.Resources.Power costs h hc
              (by rw [hdec])
            rw [hdec] at this
            exact this
          by_cases hcf : collisionFree = true
          swap
          · simp only [hcf, Bool.not_false, if_true]
            show (Resource.Increment power costs) = _
            exact hback
          simp only [hcf, Bool.not_true, Bool.false_eq_true, if_false] at hnone ⊢
          by_cases hov : overlapsUnits = true
          · simp only [hov, if_true]
            show (Resource.Increment power costs) = _
            exact hback
          simp only [hov, Bool.false_eq_true, if_false] at hnone ⊢
          cases hadd : Base.AddBuilding (w.modifyPlayer (fun p => p.setPower power)) base t ptr with
          | mk w2 res =>
            cases res with
            | some b => simp [hadd] at hnone
            | none =>
              simp only [hadd]
              have hw2 : w2.player.Resources.Power = power := by
                rcases AddBuilding_none _ _ _ _ _ hadd with h1 | ⟨id, rest, _, _, h1⟩
                · rw [h1]; rfl
                · rw [h1]; cases base <;> rfl
              show (Resource.Increment w2.player.Resources.Power costs) = _
              rw [hw2]
              exact hback

set_option maxRecDepth 100000 in
/-- Witness of C27: a WALL request of a new player that collides with an
existing building. -/
theorem C27_failed_placement_refunds_witness :
    (handlePlacedBuildingMessage startWorld WALL (some .playerBase) false false 300).2 = none ∧
    (handlePlacedBuildingMessage startWorld WALL (some .playerBase) false false
      300).1.player.Resources.Power = startWorld.player.Resources.Power :=
  ⟨by decide,
    (C27_failed_placement_refunds startWorld WALL (some .playerBase) false false 300
      ⟨6000, 8000⟩ 50 (by decide) (by decide) (by decide) (by decide)).1 (by decide)⟩

set_option maxRecDepth 100000 in
/-- Claim C28: a new player (power 6000, no buildings) places a SIMPLE_TURRET:
power 5850, limit counter 1.  The upgrade of that turret to RAPID_TURRET is
accepted: power 5650, variant RAPID_TURRET, health (100, 100).  Its removal
returns the limit counter to 0 and leaves no bullet spawner and no building. -/
theorem C28_build_upgrade_destroy :
    startWorld.player.Resources.Power.Current = 6000 ∧
    startWorld.player.Base.Buildings = [] ∧
    (handlePlacedBuildingMessage startWorld SIMPLE_TURRET (some .playerBase) true false
      300).2.isSome = true ∧
    turretWorld.player.Resources.Power.Current = 5850 ∧
    (turretWorld.player.Base.getLimit SIMPLE_TURRET).Current = 1 ∧
    (handleUpgradeBuildingsMessage turretWorld .playerBase RAPID_TURRET [0]).2 = true ∧
    rapidTurretWorld.player.Resources.Power.Current = 5650 ∧
    (mapGet rapidTurretWorld.player.Base.Buildings 0).map (fun b => (b.Variant, b.Health)) =
      some (RAPID_TURRET, ⟨100, 100⟩) ∧
    (Base.RemoveBuilding rapidTurretWorld .playerBase 0).2 = true ∧
    ((Base.RemoveBuilding rapidTurretWorld .playerBase 0).1.player.Base.getLimit
      SIMPLE_TURRET).Current = 0 ∧
    (Base.RemoveBuilding rapidTurretWorld .playerBase 0).1.player.Base.BulletSpawning = [] ∧
    (Base.RemoveBuilding rapidTurretWorld .playerBase 0).1.player.Base.Buildings = [] := by
  decide

end Network

/-! ## The claim C30 -/

namespace Game

set_option maxRecDepth 100000 in
/-- Claim C30 (code defect): `handleUnitDestroyed` removes the bullet spawner
only of a CANNON_TANK and of a CANNON_SIEGE_TANK.  After the commander of a
player has been destroyed, the player has no unit left but `UnitBulletSpawning`
still holds the entry whose shooter is the commander; the same happens for a
BOOSTER_ENGINE_CANNON_TANK, while the entry of a CANNON_TANK is removed. -/
theorem C30_commander_spawner_stays :
    ((newPlayer 1 0 0).AddCommander 60).2 = some theCommander ∧
    commanderPlayer.UnitBulletSpawning.map (fun s => s.Shooter) = [.unit theCommander] ∧
    mapGet commanderPlayer.Units 0 = some theCommander ∧
    (handleUnitDestroyed commanderPlayer theCommander).Units = [] ∧
    (handleUnitDestroyed commanderPlayer theCommander).UnitBulletSpawning.map
      (fun s => s.Shooter) = [.unit theCommander] ∧
    mapGet (tankPlayer BOOSTER_ENGINE_CANNON_TANK).Units 0 =
      some (theTank BOOSTER_ENGINE_CANNON_TANK) ∧
    (handleUnitDestroyed (tankPlayer BOOSTER_ENGINE_CANNON_TANK)
      (theTank BOOSTER_ENGINE_CANNON_TANK)).Units = [] ∧
    (handleUnitDestroyed (tankPlayer BOOSTER_ENGINE_CANNON_TANK)
      (theTank BOOSTER_ENGINE_CANNON_TANK)).UnitBulletSpawning.map (fun s => s.Shooter) =
      [.unit (theTank BOOSTER_ENGINE_CANNON_TANK)] ∧
    (tankPlayer CANNON_TANK).UnitBulletSpawning.map (fun s => s.Shooter) =
      [.unit (theTank CANNON_TANK)] ∧
    (handleUnitDestroyed (tankPlayer CANNON_TANK) (theTank CANNON_TANK)).UnitBulletSpawning
      = [] := by
  decide

end Game

/-! ## The claim C24 -/

namespace Game

theorem roundHalfEven_ge (n d : Nat) : n / d ≤ roundHalfEven n d := by
  unfold roundHalfEven
  dsimp only
  split
  · exact Nat.le_refl _
  · split
    · exact Nat.le_succ _
    · split
      · exact Nat.le_refl _
      · exact Nat.le_succ _

/-- Rounding does not go below a whole number that the rational has reached. -/
theorem ofRatio_ge (n d c : Nat) (hd : 0 < d) (h : c * d ≤ n) :
    c * 2 ^ (Float64.ofRatio n d).Shift ≤ (Float64.ofRatio n d).Mantissa := by
  unfold Float64.ofRatio
  split
  · rename_i h0
    subst h0
    have : c = 0 := by
      rcases Nat.eq_zero_or_pos c with h1 | h1
      · exact h1
      · have := Nat.mul_pos h1 hd; omega
    subst this
    simp
  · dsimp only
    refine Nat.le_trans ?_ (roundHalfEven_ge _ _)
    rw [Nat.le_div_iff_mul_le hd]
    calc c * 2 ^ normShift n d 1074 0 * d = c * d * 2 ^ normShift n d 1074 0 := by ring
      _ ≤ n * 2 ^ normShift n d 1074 0 := Nat.mul_le_mul_right _ h

theorem killPowerIncrement_le (score : Nat) : killPowerIncrement score ≤ 6000 := by
  unfold killPowerIncrement Float64.minNat Dyadic.toUint16
  split
  · rename_i h
    have : (Float64.mulNat (Float64.divNat score 100) 10).Mantissa /
        2 ^ (Float64.mulNat (Float64.divNat score 100) 10).Shift ≤ 6000 :=
      Nat.div_le_of_le_mul (by rw [Nat.mul_comm]; exact h)
    exact Nat.le_trans (Nat.mod_le _ _) this
  · simp

theorem killPowerIncrement_cap (score : Nat) (h : 60000 ≤ score) :
    killPowerIncrement score = 6000 := by
  have ha : 600 * 2 ^ (Float64.divNat score 100).Shift ≤ (Float64.divNat score 100).Mantissa :=
    ofRatio_ge score 100 600 (by omega) (by omega)
  have hb : 6000 * 2 ^ (Float64.mulNat (Float64.divNat score 100) 10).Shift ≤
      (Float64.mulNat (Float64.divNat score 100) 10).Mantissa := by
    unfold Float64.mulNat
    apply ofRatio_ge _ _ 6000 (Nat.two_pow_pos _)
    calc 6000 * 2 ^ (Float64.divNat score 100).Shift
        = 600 * 2 ^ (Float64.divNat score 100).Shift * 10 := by ring
      _ ≤ (Float64.divNat score 100).Mantissa * 10 := Nat.mul_le_mul_right _ ha
  unfold killPowerIncrement Float64.minNat Dyadic.toUint16
  split
  · rename_i h1
    have e : (Float64.mulNat (Float64.divNat score 100) 10).Mantissa =
        6000 * 2 ^ (Float64.mulNat (Float64.divNat score 100) 10).Shift := Nat.le_antisymm h1 hb
    rw [e, Nat.mul_div_cancel _ (Nat.two_pow_pos _)]
  · simp

set_option maxRecDepth 100000 in
/-- Claim C24 fails as stated: the power term uses the floating point
quotient.  A player of score 150 is killed: the killer gains the score
`(150 / 100) * 50 = 50` and the power 15, the whole part of
`(150.0 / 100) * 10`, not `(150 / 100) * 10 = 10`. -/
theorem C24_float_quotient :
    weakPlayer.Score = 150 ∧
    (coreHitBody (newPlayer 1 0 0) weakPlayer (freshUnit TANK)).2.2.2.1 = true ∧
    (coreHitBody (newPlayer 1 0 0) weakPlayer (freshUnit TANK)).1.Score = (150 / 100) * 50 ∧
    (coreHitBody (newPlayer 1 0 0) weakPlayer (freshUnit TANK)).1.Resources.Power.Current =
      6000 + 15 ∧
    killPowerIncrement 150 = 15 ∧
    min ((150 / 100) * 10) 6000 = 10 := by
  decide

/-- Claim C24 (amended): when the core hit of a unit of `player` takes the base
health of `otherPlayer` to 0, `otherPlayer` is marked for removal, the score of
`player` grows by `(otherPlayer.Score / 100) * 50` with the whole quotient, the
kills grow by 1, and the power is incremented (`Resource.Increment`) by the
whole part of `min ((float64(otherPlayer.Score) / 100) * 10) 6000`, computed
with the floating point quotient: an amount of at most 6000, and 6000 for every
score from 60000 on. -/
theorem C24_kill_rewards (player otherPlayer : Player) (unit : Game.Unit)
    (hkill : otherPlayer.Base.Health.Current ≤ unit.Health.Current) :
    (coreHitBody player otherPlayer unit).2.2.2.1 = true ∧
    (coreHitBody player otherPlayer unit).2.1.RemoveFlag = true ∧
    (coreHitBody player otherPlayer unit).1.Score =
      add32 player.Score (((otherPlayer.Score / 100) * 50) % 4294967296) ∧
    (coreHitBody player otherPlayer unit).1.Kills = add32 player.Kills 1 ∧
    (coreHitBody player otherPlayer unit).1.Resources.Power =
      player.Resources.Power.Increment (killPowerIncrement otherPlayer.Score) ∧
    killPowerIncrement otherPlayer.Score ≤ 6000 ∧
    (60000 ≤ otherPlayer.Score → killPowerIncrement otherPlayer.Score = 6000) := by
  have hdead : (otherPlayer.Base.TakeDamage unit.Health.Current).2 = false := by
    unfold Base.TakeDamage Health.Decrement Health.IsAlive
    simp [hkill]
  have key : coreHitBody player otherPlayer unit =
      ({ ((player.IncrementScore (((otherPlayer.Score / 100) * 50) % 4294967296)).IncrementKills 1)
          with Resources := ⟨((player.IncrementScore
            (((otherPlayer.Score / 100) * 50) % 4294967296)).IncrementKills
              1).Resources.Power.Increment (killPowerIncrement otherPlayer.Score)⟩ },
        ({ otherPlayer with
          Base := (otherPlayer.Base.TakeDamage unit.Health.Current).1 } : Player).MarkForRemoval,
        (if !(unit.TakeDamage otherPlayer.Base.Health.Current).2 then
          (unit.TakeDamage otherPlayer.Base.Health.Current).1.MarkForRemoval
         else (unit.TakeDamage otherPlayer.Base.Health.Current).1),
        true, !(unit.TakeDamage otherPlayer.Base.Health.Current).2) := by
    unfold coreHitBody
    simp only [hdead]
    rfl
  rw [key]
  exact ⟨rfl, rfl, rfl, rfl, rfl, killPowerIncrement_le _, killPowerIncrement_cap _⟩

set_option maxRecDepth 100000 in
/-- Witness of C24 (amended): a TANK of health 800 hits the core of a player of
score 150 whose base has 100 health left. -/
theorem C24_kill_rewards_witness :
    weakPlayer.Base.Health.Current ≤ (freshUnit TANK).Health.Current ∧
    (coreHitBody (newPlayer 1 0 0) weakPlayer (freshUnit TANK)).1.Kills =
      add32 (newPlayer 1 0 0).Kills 1 :=
  ⟨by decide,
    (C24_kill_rewards (newPlayer 1 0 0) weakPlayer (freshUnit TANK) (by decide)).2.2.2.1⟩

end Game

namespace Game

theorem lookup_isSome_mem {β : Type} (m : List (Nat × β)) (k : Nat)
    (h : (m.lookup k).isSome = true) : k ∈ mapKeys m := by
  induction m with
  | nil => simp at h
  | cons e rest ih =>
    obtain ⟨a, b⟩ := e
    by_cases hk : k = a
    · subst hk; simp [mapKeys]
    · have hb : (k == a) = false := by simpa using hk
      rw [List.lookup_cons, hb] at h
      have := ih h
      simp only [mapKeys, List.map_cons, List.mem_cons] at this ⊢
      exact Or.inr this

theorem tableGet_isSome_mem {β : Type} (table : List (Nat × List (Nat × β))) (t v : Nat)
    (h : (tableGet table t v).isSome = true) : (t, v) ∈ tableKeys table := by
  induction table with
  | nil => simp [tableGet] at h
  | cons e rest ih =>
    obtain ⟨a, inner⟩ := e
    by_cases hk : t = a
    · subst hk
      have h1 : (inner.lookup v).isSome = true := by
        simpa [tableGet, List.lookup_cons] using h
      have h2 := lookup_isSome_mem inner v h1
      simp only [tableKeys, List.flatMap_cons, List.mem_append, List.mem_map]
      exact Or.inl ⟨v, h2, rfl⟩
    · have hb : (t == a) = false := by simpa using hk
      have h1 : (tableGet rest t v).isSome = true := by
        simpa [tableGet, List.lookup_cons, hb] using h
      have := ih h1
      simp only [tableKeys, List.flatMap_cons, List.mem_append] at this ⊢
      exact Or.inr this

set_option maxRecDepth 100000 in
/-- Claim C40: the static catalogues are closed.  Every SIMPLE_TURRET and
SNIPER_TURRET variant of `buildingTypes` has a bullet-spawning config and
bullet stats; every BARRACKS variant has a unit-spawning config whose unit
has unit stats and a unit polygon; every unit `(type, variant)` with a
bullet-spawning config has bullet stats; and every variant listed in a
`Next` list is an entry of `buildingTypes` for the same building type. -/
theorem C40_catalogues_closed :
    (∀ t ∈ [SIMPLE_TURRET, SNIPER_TURRET], ∀ v ∈ variantsOf buildingTypes t,
      (GetBulletSpawning (.building t v)).isSome = true ∧
      (GetBulletStats (.building t v)).isSome = true) ∧
    (∀ v ∈ variantsOf buildingTypes BARRACKS, barracksUnitKnown v = true) ∧
    (∀ t v, (GetBulletSpawning (.unit t v)).isSome = true →
      (GetBulletStats (.unit t v)).isSome = true) ∧
    (∀ t v upgrade, tableGet buildingTypes t v = some upgrade →
      ∀ next ∈ upgrade.Next, (tableGet buildingTypes t next).isSome = true) := by
  refine ⟨by decide, by decide, ?_, ?_⟩
  · intro t v h
    have hm := tableGet_isSome_mem unitBulletSpawningConfig t v h
    have hall : ∀ k ∈ tableKeys unitBulletSpawningConfig,
        (GetBulletStats (.unit k.1 k.2)).isSome = true := by decide
    exact hall (t, v) hm
  · intro t v upgrade h next hn
    have hm := tableGet_isSome_mem buildingTypes t v (by rw [h]; rfl)
    have hall : ∀ k ∈ tableKeys buildingTypes,
        ∀ u, tableGet buildingTypes k.1 k.2 = some u →
          ∀ n ∈ u.Next, (tableGet buildingTypes k.1 n).isSome = true := by
      intro k hk
      have hd : ∀ k ∈ tableKeys buildingTypes,
          ((tableGet buildingTypes k.1 k.2).map
            (fun u => u.Next.all (fun n => (tableGet buildingTypes k.1 n).isSome))).getD true
            = true := by decide
      intro u hu n hn
      have := hd k hk
      rw [hu] at this
      simp only [Option.map_some', Option.getD_some, List.all_eq_true] at this
      exact this n hn
    exact hall (t, v) hm upgrade h next hn

end Game

/-! ## The claim C35 -/

namespace Game

theorem runPool_queue (calls : List PoolCall) : ∀ a : AvailableIDs,
    handedOut (runPool a calls).2 ++ (runPool a calls).1.IDs = a.IDs ++ released calls := by
  induction calls with
  | nil => intro a; simp [runPool, handedOut, released]
  | cons c calls ih =>
    intro a
    cases c with
    | acquire =>
      cases hl : a.IDs with
      | nil =>
        have hg : a.getNextAvailableID = (a, 0, false) := by
          simp [AvailableIDs.getNextAvailableID, hl]
        have := ih a
        simp only [runPool, hg, released, handedOut, List.filter_cons, Bool.false_eq_true,
          if_false] at this ⊢
        rw [hl] at this
        exact this
      | cons id rest =>
        have hg : a.getNextAvailableID = (⟨rest⟩, id, true) := by
          simp [AvailableIDs.getNextAvailableID, hl]
        have := ih ⟨rest⟩
        simp only [runPool, hg, released, handedOut, List.filter_cons, if_true, List.map_cons,
          List.cons_append] at this ⊢
        rw [this]
    | release id =>
      have := ih (a.returnID id)
      simp only [runPool, released, AvailableIDs.returnID, List.append_assoc,
        List.singleton_append] at this ⊢
      exact this

theorem runPool_head (calls : List PoolCall) : ∀ (a : AvailableIDs) (i : Nat) (id : ID),
    a.IDs[i]? = some id → i < (runPool a calls).2.length →
    (runPool a calls).2[i]? = some (id, true) := by
  induction calls with
  | nil => intro a i id _ h; simp [runPool] at h
  | cons c calls ih =>
    intro a i id hi hlen
    cases c with
    | acquire =>
      cases hl : a.IDs with
      | nil => rw [hl] at hi; simp at hi
      | cons x rest =>
        have hg : a.getNextAvailableID = (⟨rest⟩, x, true) := by
          simp [AvailableIDs.getNextAvailableID, hl]
        rw [hl] at hi
        simp only [runPool, hg, List.length_cons] at hlen ⊢
        cases i with
        | zero =>
          simp only [List.getElem?_cons_zero, Option.some.injEq] at hi ⊢
          rw [hi]
        | succ j =>
          simp only [List.getElem?_cons_succ] at hi ⊢
          exact ih ⟨rest⟩ j id hi (by omega)
    | release r =>
      simp only [runPool] at hlen ⊢
      refine ih (a.returnID r) i id ?_ hlen
      simp only [AvailableIDs.returnID]
      have hlt : i < a.IDs.length := by
        rcases Nat.lt_or_ge i a.IDs.length with h | h
        · exact h
        · rw [List.getElem?_eq_none h] at hi; cases hi
      rw [List.getElem?_append_left hlt]
      exact hi

theorem InitAvailableIDs_IDs (N : Nat) (hN : N ≤ 256) : (InitAvailableIDs N).IDs = List.range N := by
  unfold InitAvailableIDs
  simp only
  conv => rhs; rw [← List.map_id (List.range N)]
  apply List.map_congr_left
  intro i hi
  have := List.mem_range.mp hi
  show i % 256 = i
  exact Nat.mod_eq_of_lt (by omega)

/-- Claim C35: a pool created by `InitAvailableIDs N` with `N ≤ 256` is a FIFO
queue under every sequence of `getNextAvailableID` and `returnID` calls.  The
IDs handed out, followed by the IDs left in the pool, are `0, 1, …, N − 1`
followed by the returned IDs in the order of their return, so a returned ID is
handed out only after every ID queued before it; the `i`-th acquisition, for
`i < N`, succeeds with ID `i`; and an acquisition on an empty pool returns
`(0, false)` and leaves the pool empty. -/
theorem C35_pool_is_fifo (N : Nat) (hN : N ≤ 256) (calls : List PoolCall) :
    handedOut (runPool (InitAvailableIDs N) calls).2 ++ (runPool (InitAvailableIDs N) calls).1.IDs
      = List.range N ++ released calls ∧
    (∀ i, i < N → i < (runPool (InitAvailableIDs N) calls).2.length →
      (runPool (InitAvailableIDs N) calls).2[i]? = some (i, true)) ∧
    (∀ a : AvailableIDs, a.IDs = [] → a.getNextAvailableID = (a, 0, false)) := by
  refine ⟨?_, ?_, ?_⟩
  · rw [runPool_queue, InitAvailableIDs_IDs N hN]
  · intro i hi hlen
    refine runPool_head calls _ i i ?_ hlen
    rw [InitAvailableIDs_IDs N hN]
    simp [List.getElem?_range, hi]
  · intro a ha
    simp [AvailableIDs.getNextAvailableID, ha]

set_option maxRecDepth 100000 in
/-- Witness of C35: a pool of three IDs; ID 0 is acquired and returned, and
comes back only after 1 and 2; the fifth acquisition finds the pool empty. -/
theorem C35_pool_is_fifo_witness :
    3 ≤ 256 ∧
    (runPool (InitAvailableIDs 3) [.acquire, .release 0, .acquire, .acquire, .acquire, .acquire]).2
      = [(0, true), (1, true), (2, true), (0, true), (0, false)] ∧
    handedOut (runPool (InitAvailableIDs 3)
        [.acquire, .release 0, .acquire, .acquire, .acquire, .acquire]).2 ++
      (runPool (InitAvailableIDs 3)
        [.acquire, .release 0, .acquire, .acquire, .acquire, .acquire]).1.IDs
      = List.range 3 ++ released [.acquire, .release 0, .acquire, .acquire, .acquire, .acquire] :=
  ⟨by decide, by decide,
    (C35_pool_is_fifo 3 (by decide)
      [.acquire, .release 0, .acquire, .acquire, .acquire, .acquire]).1⟩

end Game

/-! ## The claim C36 -/

namespace Network

open Game

theorem wrapInt16_bytes (v : Int) (h1 : -32768 ≤ v) (h2 : v ≤ 32767) :
    wrapInt16 (((((v % 65536).toNat / 256) % 256 : Nat) : Int) * 256 +
      (((v % 65536).toNat % 256 : Nat) : Int)) = v := by
  have hn : ((v % 65536).toNat : Int) = v % 65536 :=
    Int.toNat_of_nonneg (Int.emod_nonneg v (by decide))
  have hlt : (v % 65536).toNat < 65536 := by
    have := Int.emod_lt_of_pos v (show (0 : Int) < 65536 by decide)
    omega
  have hdiv : (v % 65536).toNat / 256 % 256 = (v % 65536).toNat / 256 :=
    Nat.mod_eq_of_lt (by omega)
  rw [hdiv]
  have hsum : ((((v % 65536).toNat / 256 : Nat) : Int) * 256 +
      (((v % 65536).toNat % 256 : Nat) : Int)) = v % 65536 := by
    rw [← hn]
    have := Nat.div_add_mod (v % 65536).toNat 256
    omega
  rw [hsum]
  unfold wrapInt16
  omega

/-- Claim C36: for every `PositionInt` whose coordinates are `int16` values,
negative ones included, `getPositionIntFromPayload` applied to the four bytes
written by `writeBasePosition` returns the position: each coordinate travels
as a big-endian two's-complement `int16`. -/
theorem C36_position_roundtrip (p : PositionInt)
    (hx1 : -32768 ≤ p.X) (hx2 : p.X ≤ 32767) (hy1 : -32768 ≤ p.Y) (hy2 : p.Y ≤ 32767) :
    (writeBasePosition [] p).length = 4 ∧
    getPositionIntFromPayload (writeBasePosition [] p) = p := by
  obtain ⟨x, y⟩ := p
  simp only at hx1 hx2 hy1 hy2
  refine ⟨by simp [writeBasePosition, writeInt16BigEndian, writeUint16BigEndian], ?_⟩
  simp only [writeBasePosition, writeInt16BigEndian, writeUint16BigEndian, List.nil_append,
    List.cons_append, getPositionIntFromPayload]
  rw [wrapInt16_bytes x hx1 hx2, wrapInt16_bytes y hy1 hy2]

set_option maxRecDepth 100000 in
/-- Witness of C36: the position `(-5, -32768)` is written as `FF FB 80 00`
and read back. -/
theorem C36_position_roundtrip_witness :
    writeBasePosition [] ⟨-5, -32768⟩ = [255, 251, 128, 0] ∧
    getPositionIntFromPayload (writeBasePosition [] ⟨-5, -32768⟩) = ⟨-5, -32768⟩ :=
  ⟨by decide,
    (C36_position_roundtrip ⟨-5, -32768⟩ (by decide) (by decide) (by decide) (by decide)).2⟩

end Network

/-! ## The claim C34 -/

namespace Game

set_option maxRecDepth 100000 in
/-- Claim C34 (code defect): `PositionInt.DistanceTo` takes the coordinate
differences in `int16`.  For `p = (32767, 0)` and `q = (-32768, 0)` the
difference 65535 wraps to -1 and the result is the square root of 1, which is
below `|p.X - q.X| = 65535`; `Distance` also squares in `int16` and yields NaN
for `(200, 0)` and `(0, 0)`.  When both differences fit in `int16`,
`DistanceTo` is the square root of `dx² + dy²` for the exact differences. -/
theorem C34_distance_not_euclidean :
    ((⟨32767, 0⟩ : PositionInt).DistanceTo ⟨-32768, 0⟩).Radicand = 1 ∧
    ((32767 - (-32768) : Int) ^ 2 + (0 - 0) ^ 2).toNat = 4294836225 ∧
    ((⟨32767, 0⟩ : PositionInt).DistanceTo ⟨-32768, 0⟩).Radicand <
      ((32767 - (-32768) : Int) ^ 2).toNat ∧
    Distance ⟨200, 0⟩ ⟨0, 0⟩ = none ∧
    (∀ p q : PositionInt, -32768 ≤ p.X - q.X → p.X - q.X ≤ 32767 →
      -32768 ≤ p.Y - q.Y → p.Y - q.Y ≤ 32767 →
      (p.DistanceTo q).Radicand = ((p.X - q.X) ^ 2 + (p.Y - q.Y) ^ 2).toNat) := by
  refine ⟨by decide, by decide, by decide, by decide, ?_⟩
  intro p q h1 h2 h3 h4
  have hx : wrapInt16 (p.X - q.X) = p.X - q.X := by unfold wrapInt16; omega
  have hy : wrapInt16 (p.Y - q.Y) = p.Y - q.Y := by unfold wrapInt16; omega
  simp only [PositionInt.DistanceTo, hx, hy, pow_two]

end Game

/-! ## The claim C38 -/

namespace Network

open Game

set_option maxRecDepth 100000 in
/-- Claim C38 (code defect): `handleToggleUnitSpawning` rejects only payloads
longer than two bytes.  For the empty payload of a joined player it goes on to
read `payload[0]` and faults on the index.  A payload of three or more bytes
is dropped with no state change, and a payload of one or two bytes never
faults. -/
theorem C38_empty_payload_faults :
    handleToggleUnitSpawning startWorld [] = none ∧
    (∀ (w : World) (payload : List Nat), 2 < payload.length →
      handleToggleUnitSpawning w payload = some (w, false)) ∧
    (∀ (w : World) (payload : List Nat), payload.length = 1 ∨ payload.length = 2 →
      (handleToggleUnitSpawning w payload).isSome = true) := by
  refine ⟨by decide, ?_, ?_⟩
  · intro w payload h
    simp [handleToggleUnitSpawning, h]
  · intro w payload h
    match payload, h with
    | [b0], _ =>
      simp only [handleToggleUnitSpawning, List.length_singleton, gt_iff_lt,
        show ¬ (2 < 1) by decide, if_false, List.getElem?_cons_zero]
      simp only [show ((1 : Nat) == 2) = false by decide, Bool.false_eq_true, if_false]
      cases mapGet (w.getBase .playerBase).Buildings b0 with
      | none => rfl
      | some building =>
        simp only
        cases w.player.GetUnitSpawningForBarrack building with
        | none => rfl
        | some s => rfl
    | [b0, b1], _ =>
      simp only [handleToggleUnitSpawning, List.length_cons, List.length_nil, gt_iff_lt,
        show ¬ (2 < 0 + 1 + 1) by decide, if_false, List.getElem?_cons_zero]
      simp only [show ((0 + 1 + 1 : Nat) == 2) = true by decide, if_true,
        List.getElem?_cons_succ, List.getElem?_cons_zero]
      cases getCapturedNeutralBase w b1 with
      | false => rfl
      | true =>
        simp only [if_true]
        cases mapGet (w.getBase .neutralBase).Buildings b0 with
        | none => rfl
        | some building =>
          simp only
          cases w.player.GetUnitSpawningForBarrack building with
          | none => rfl
          | some s => rfl
    | [], h => simp at h
    | _ :: _ :: _ :: _, h => simp at h

end Network

/-! ## The claim C33 -/

namespace Game

theorem checkPolygonLoop_total {F : Type} (fl : Floats F) (va vb : List (PositionFloat F))
    (idx : List Nat) (h : ∀ i ∈ idx, i < va.length) :
    ∃ r, checkPolygonLoop fl va vb idx = some r := by
  induction idx with
  | nil => exact ⟨true, rfl⟩
  | cons i rest ih =>
    have hi : i < va.length := h i (List.mem_cons_self _ _)
    have hj : (i + 1) % va.length < va.length := Nat.mod_lt _ (by omega)
    have hrest := ih (fun j hj => h j (List.mem_cons_of_mem _ hj))
    unfold checkPolygonLoop
    simp only [List.getElem?_eq_getElem hi, List.getElem?_eq_getElem hj]
    split
    · exact hrest
    · split
      · exact ⟨false, rfl⟩
      · exact hrest

theorem checkPolygon_total {F : Type} (fl : Floats F) (va vb : List (PositionFloat F)) :
    ∃ r, checkPolygon fl va vb = some r :=
  checkPolygonLoop_total fl va vb _ (fun _ hi => List.mem_range.mp hi)

/-- Claim C33: for all polygons `A` and `B`, and for every interpretation of
the floating point operations as functions, `DoPolygonsIntersect A B` and
`DoPolygonsIntersect B A` return the same value, and the evaluation never
faults on an index. -/
theorem C33_intersect_symmetric {F : Type} (fl : Floats F) (A B : Polygon F) :
    DoPolygonsIntersect fl A B = DoPolygonsIntersect fl B A ∧
    (DoPolygonsIntersect fl A B).isSome = true := by
  obtain ⟨r1, h1⟩ := checkPolygon_total fl (A.GetGlobalVertices fl) (B.GetGlobalVertices fl)
  obtain ⟨r2, h2⟩ := checkPolygon_total fl (B.GetGlobalVertices fl) (A.GetGlobalVertices fl)
  unfold DoPolygonsIntersect
  simp only [h1, h2]
  cases r1 <;> cases r2 <;> simp

end Game

/-! ## The claim C37 -/

namespace Game

set_option maxRecDepth 100000 in
/-- Claim C37 (code defect): `Player.RemoveProtection` sends on `eventChan`
between `p.Lock()` and the deferred `p.Unlock()`.  For every player with spawn
protection the one event of the call is sent while the lock of that player is
held; in a tick of `startProtectionCheckLoop` that ends the protection of a
new player, the event is sent while the player lock and the read lock of the
world are held; a second call sends nothing. -/
theorem C37_send_while_locked :
    (∀ p : Player, p.HasSpawnProtection = true →
      heldAtSends p.RemoveProtection.2 [] = [(.RemoveSpawnProtection, [.player p.Ptr])]) ∧
    heldAtSends (startProtectionCheckLoop (fun _ => true) [newPlayer 1 0 0]).2 [] =
      [(.RemoveSpawnProtection, [.player 1, .world])] ∧
    heldAtSends (newPlayer 1 0 0).RemoveProtection.1.RemoveProtection.2 [] = [] := by
  refine ⟨?_, by decide, by decide⟩
  intro p hp
  simp [Player.RemoveProtection, hp, TriggerRemoveSpawnProtectionEvent, heldAtSends]

end Game

/-! ## The claim C32 -/

namespace Game

theorem lookup_map_keep {β : Type} (f : Nat × β → Nat × β) (hf : ∀ e, (f e).1 = e.1)
    (id : Nat) (l : List (Nat × β)) :
    (l.map f).lookup id = (l.lookup id).map (fun v => (f (id, v)).2) := by
  induction l with
  | nil => rfl
  | cons e rest ih =>
    obtain ⟨k, v⟩ := e
    have hk1 : f (k, v) = (k, (f (k, v)).2) := Prod.ext (hf (k, v)) rfl
    rw [List.map_cons, hk1, List.lookup_cons, List.lookup_cons]
    by_cases hk : id = k
    · subst hk
      simp
    · have hk' : (id == k) = false := by simpa using hk
      simp only [hk']
      exact ih

theorem mapGet_storeBullet (base : Base) (x : Bullet) (id : ID) :
    mapGet (base.storeBullet x).Bullets id =
      (mapGet base.Bullets id).map (fun v => if id = x.ID then x else v) := by
  unfold Base.storeBullet mapGet
  simp only
  rw [lookup_map_keep]
  · congr 1
    funext v
    by_cases h : id = x.ID <;> simp [h]
  · intro e
    by_cases h : (e.1 == x.ID) = true <;> simp [h]

theorem mapGet_storeBullet_ne (base : Base) (x : Bullet) (id : ID) (h : x.ID ≠ id) :
    mapGet (base.storeBullet x).Bullets id = mapGet base.Bullets id := by
  rw [mapGet_storeBullet]
  have : ¬ id = x.ID := fun h' => h h'.symm
  simp only [this, if_false]
  cases mapGet base.Bullets id <;> rfl

theorem mapGet_storeBullet_self (base : Base) (x b : Bullet)
    (h : mapGet base.Bullets x.ID = some b) :
    mapGet (base.storeBullet x).Bullets x.ID = some x := by
  rw [mapGet_storeBullet, h]
  simp

theorem mapGet_storeBullet_none (base : Base) (x : Bullet) (id : ID)
    (h : mapGet base.Bullets id = none) :
    mapGet (base.storeBullet x).Bullets id = none := by
  rw [mapGet_storeBullet, h]
  rfl

theorem mapKeys_storeBullet (base : Base) (x : Bullet) :
    mapKeys (base.storeBullet x).Bullets = mapKeys base.Bullets := by
  unfold Base.storeBullet mapKeys
  simp only [List.map_map]
  apply List.map_congr_left
  intro e _
  by_cases hx : (e.1 == x.ID) = true
  · simp only [Function.comp, hx, if_true]
  · simp only [Function.comp, hx, Bool.false_eq_true, if_false]

theorem BulletsWf_storeBullet (base : Base) (x : Bullet) (h : BulletsWf base) :
    BulletsWf (base.storeBullet x) := by
  refine ⟨by rw [mapKeys_storeBullet]; exact h.1, ?_⟩
  intro e he
  unfold Base.storeBullet at he
  simp only [List.mem_map] at he
  obtain ⟨e0, he0, rfl⟩ := he
  by_cases hx : (e0.1 == x.ID) = true
  · simp only [hx, if_true]
    exact (by simpa using hx : e0.1 = x.ID).symm
  · simp only [hx, if_false]
    exact h.2 e0 he0

theorem BulletsWf_RemoveBullet (base : Base) (id : ID) (h : BulletsWf base) :
    BulletsWf (base.RemoveBullet id).1 := by
  unfold Base.RemoveBullet
  cases mapGet base.Bullets id with
  | none => exact h
  | some _ =>
    refine ⟨?_, ?_⟩
    · show (mapKeys (mapDelete base.Bullets id)).Nodup
      unfold mapKeys mapDelete
      exact (h.1.sublist (List.Sublist.map _ (List.filter_sublist _)))
    · intro e he
      have : e ∈ mapDelete base.Bullets id := he
      unfold mapDelete at this
      exact h.2 e (List.mem_of_mem_filter this)

theorem mapGet_RemoveBullet_ne (base : Base) (k id : ID) (h : k ≠ id) :
    mapGet (base.RemoveBullet k).1.Bullets id = mapGet base.Bullets id := by
  unfold Base.RemoveBullet
  cases mapGet base.Bullets k with
  | none => rfl
  | some _ =>
    show mapGet (mapDelete base.Bullets k) id = _
    rw [mapGet_mapDelete]
    have : ¬ id = k := fun h' => h h'.symm
    simp only [this, if_false]

theorem mapGet_RemoveBullet_self (base : Base) (k : ID) :
    mapGet (base.RemoveBullet k).1.Bullets k = none := by
  unfold Base.RemoveBullet
  cases hk : mapGet base.Bullets k with
  | none => exact hk
  | some _ =>
    show mapGet (mapDelete base.Bullets k) k = _
    rw [mapGet_mapDelete]
    simp

theorem avail_storeBullet (base : Base) (x : Bullet) :
    (base.storeBullet x).AvailableBulletIDs = base.AvailableBulletIDs := rfl

theorem avail_RemoveBullet (base : Base) (k id : ID)
    (h : id ∈ base.AvailableBulletIDs.IDs) :
    id ∈ (base.RemoveBullet k).1.AvailableBulletIDs.IDs := by
  unfold Base.RemoveBullet
  cases mapGet base.Bullets k with
  | none => exact h
  | some _ =>
    show id ∈ base.AvailableBulletIDs.IDs ++ [k]
    exact List.mem_append_left _ h

end Game
namespace Game

theorem BulletFrame_refl (id : ID) (base : Base) : BulletFrame id base base [] :=
  ⟨rfl, rfl, rfl, fun h => h, fun h => h⟩

theorem BulletFrame_store (id : ID) (base : Base) (x : Bullet) (h : x.ID ≠ id) :
    BulletFrame id base (base.storeBullet x) [] :=
  ⟨mapGet_storeBullet_ne base x id h, rfl, rfl, fun h => h, BulletsWf_storeBullet base x⟩

theorem BulletFrame_update (id : ID) (base : Base) (x : Bullet) (h : x.ID ≠ id) :
    BulletFrame id base (base.storeBullet x) [.positionUpdate x.ID] := by
  refine ⟨mapGet_storeBullet_ne base x id h, ?_, ?_, fun h => h, BulletsWf_storeBullet base x⟩
  · simp
  · rw [List.count_singleton]
    have : ¬ (BulletEvent.positionUpdate x.ID = BulletEvent.positionUpdate id) := by
      intro h'; injection h' with h'; exact h h'
    simp [this]

theorem BulletFrame_remove (id : ID) (base : Base) (x : Bullet) (k : ID) (h : x.ID ≠ id)
    (hk : k = x.ID) :
    BulletFrame id base ((base.storeBullet x).RemoveBullet k).1 [.remove k] := by
  subst hk
  refine ⟨?_, ?_, ?_, ?_, ?_⟩
  · rw [mapGet_RemoveBullet_ne _ _ _ h, mapGet_storeBullet_ne base x id h]
  · rw [List.count_singleton]
    have : ¬ (BulletEvent.remove x.ID = BulletEvent.remove id) := by
      intro h'; injection h' with h'; exact h h'
    simp [this]
  · simp
  · intro hm
    exact avail_RemoveBullet _ _ _ hm
  · intro hw
    exact BulletsWf_RemoveBullet _ _ (BulletsWf_storeBullet base x hw)

theorem BulletFrame_expire (id : ID) (base : Base) (x : Bullet) (h : x.ID ≠ id) :
    BulletFrame id base
      (if x.StayDuration ≤ 0 then
        (((base.storeBullet x.MarkForRemoval).RemoveBullet x.ID).1, [BulletEvent.remove x.ID])
      else (base.storeBullet x, [])).1
      (if x.StayDuration ≤ 0 then
        (((base.storeBullet x.MarkForRemoval).RemoveBullet x.ID).1, [BulletEvent.remove x.ID])
      else (base.storeBullet x, [])).2 := by
  by_cases hs : x.StayDuration ≤ 0
  · simp only [hs, if_true]
    exact BulletFrame_remove id base x.MarkForRemoval x.ID h rfl
  · simp only [hs, if_false]
    exact BulletFrame_store id base x h

theorem updateBulletsBody_other (arrives : Bullet → Bool) (duration : Int) (base : Base)
    (x : Bullet) (id : ID) (h : x.ID ≠ id) :
    BulletFrame id base (updateBulletsBody arrives duration base x).1
      (updateBulletsBody arrives duration base x).2 := by
  unfold updateBulletsBody
  by_cases hm : x.isMarkedForRemoval = true
  · simp only [hm, if_true]
    exact BulletFrame_refl id base
  simp only [hm, Bool.false_eq_true, if_false]
  by_cases ht : (x.Behavior == BulletBehavior.TrapperBullet && x.ReachedTargetPosition) = true
  · simp only [ht, if_true]
    by_cases hs : x.StayDuration > 0
    · simp only [hs, if_true]
      exact BulletFrame_expire id base { x with StayDuration := x.StayDuration - duration } h
    · simp only [hs, if_false]
      exact BulletFrame_expire id base x h
  · simp only [ht, Bool.false_eq_true, if_false]
    unfold Bullet.UpdatePosition
    by_cases ha : arrives x = true
    · simp only [ha, if_true]
      by_cases hb : (x.Behavior != BulletBehavior.TrapperBullet) = true
      · simp only [hb, if_true]
        exact BulletFrame_remove id base
          ({ x with ReachedTargetPosition := true } : Bullet).MarkForRemoval x.ID h rfl
      · simp only [hb, Bool.false_eq_true, if_false]
        exact BulletFrame_store id base _ h
    · simp only [ha, Bool.false_eq_true, if_false]
      exact BulletFrame_update id base x h

theorem updateBulletsLoop_frame (arrives : Bullet → Bool) (duration : Int) (id : ID)
    (l : List Bullet) : ∀ (acc : Base × List BulletEvent), (∀ x ∈ l, x.ID ≠ id) →
    ∃ evs, (updateBulletsLoop arrives duration l acc).2 = acc.2 ++ evs ∧
      BulletFrame id acc.1 (updateBulletsLoop arrives duration l acc).1 evs := by
  induction l with
  | nil =>
    intro acc _
    exact ⟨[], by simp [updateBulletsLoop], BulletFrame_refl id acc.1⟩
  | cons x rest ih =>
    intro acc h
    have hx := updateBulletsBody_other arrives duration acc.1 x id (h x (List.mem_cons_self _ _))
    obtain ⟨evs, he, hf⟩ := ih
      ((updateBulletsBody arrives duration acc.1 x).1,
        acc.2 ++ (updateBulletsBody arrives duration acc.1 x).2)
      (fun y hy => h y (List.mem_cons_of_mem _ hy))
    refine ⟨(updateBulletsBody arrives duration acc.1 x).2 ++ evs, ?_, ?_⟩
    · simp only [updateBulletsLoop]
      rw [he, List.append_assoc]
    · simp only [updateBulletsLoop]
      obtain ⟨a1, a2, a3, a4, a5⟩ := hx
      obtain ⟨b1, b2, b3, b4, b5⟩ := hf
      refine ⟨?_, ?_, ?_, ?_, ?_⟩
      · rw [b1]; exact a1
      · rw [List.count_append, a2, b2]
      · rw [List.count_append, a3, b3]
      · exact fun hm => b4 (a4 hm)
      · exact fun hw => b5 (a5 hw)

/-- The body on a trapper bullet that has reached its target. -/
theorem updateBulletsBody_trapper (arrives : Bullet → Bool) (duration : Int) (base : Base)
    (b : Bullet) (hT : b.Behavior = .TrapperBullet) (hR : b.ReachedTargetPosition = true)
    (hM : b.RemoveFlag = false) (hs : 0 < b.StayDuration) :
    updateBulletsBody arrives duration base b =
      if b.StayDuration - duration ≤ 0 then
        (((base.storeBullet
            { b with StayDuration := b.StayDuration - duration, RemoveFlag := true }).RemoveBullet
              b.ID).1, [.remove b.ID])
      else
        (base.storeBullet { b with StayDuration := b.StayDuration - duration }, []) := by
  unfold updateBulletsBody
  simp only [Bullet.isMarkedForRemoval, hM, Bool.false_eq_true, if_false, hT, hR, beq_self_eq_true,
    Bool.and_self, if_true, gt_iff_lt, hs]
  split <;> rfl

end Game
namespace Game

theorem mapGet_of_mem_nodup {β : Type} (m : List (Nat × β)) (k : Nat) (v : β)
    (hn : (mapKeys m).Nodup) (h : (k, v) ∈ m) : mapGet m k = some v := by
  unfold mapGet
  induction m with
  | nil => simp at h
  | cons e rest ih =>
    obtain ⟨a, b⟩ := e
    simp only [mapKeys, List.map_cons, List.nodup_cons, List.mem_map, not_exists, not_and] at hn
    rcases List.mem_cons.mp h with h1 | h1
    · injection h1 with h2 h3
      subst h2; subst h3
      simp
    · have hk : k ≠ a := by
        intro hka
        exact hn.1 (k, v) h1 hka
      have hk' : (k == a) = false := by simpa using hk
      simp only [List.lookup_cons, hk']
      exact ih hn.2 h1

theorem ne_of_mapGet_none {β : Type} (m : List (Nat × β)) (k : Nat)
    (h : mapGet m k = none) : ∀ e ∈ m, e.1 ≠ k := by
  unfold mapGet at h
  induction m with
  | nil => intro e he; simp at he
  | cons e rest ih =>
    obtain ⟨a, b⟩ := e
    by_cases hk : k = a
    · have : (k == a) = true := by simpa using hk
      simp [List.lookup_cons, this] at h
    · have hk' : (k == a) = false := by simpa using hk
      simp only [List.lookup_cons, hk'] at h
      intro e he
      rcases List.mem_cons.mp he with h1 | h1
      · subst h1
        exact fun h' => hk h'.symm
      · exact ih h e h1

theorem avail_RemoveBullet_self (base : Base) (k : ID) (b : Bullet)
    (h : mapGet base.Bullets k = some b) :
    k ∈ (base.RemoveBullet k).1.AvailableBulletIDs.IDs := by
  unfold Base.RemoveBullet
  rw [h]
  show k ∈ base.AvailableBulletIDs.IDs ++ [k]
  simp

theorem updateBulletsLoop_target (arrives : Bullet → Bool) (duration : Int) (id : ID)
    (b : Bullet) (hT : b.Behavior = .TrapperBullet) (hR : b.ReachedTargetPosition = true)
    (hM : b.RemoveFlag = false) (hs : 0 < b.StayDuration) (hid : b.ID = id)
    (l : List Bullet) : ∀ (acc : Base × List BulletEvent),
    (l.map (fun x => x.ID)).Nodup → (∀ x ∈ l, x.ID = id → x = b) → b ∈ l →
    mapGet acc.1.Bullets id = some b →
    ∃ evs, (updateBulletsLoop arrives duration l acc).2 = acc.2 ++ evs ∧
      evs.count (.positionUpdate id) = 0 ∧
      (BulletsWf acc.1 → BulletsWf (updateBulletsLoop arrives duration l acc).1) ∧
      (b.StayDuration - duration ≤ 0 →
        evs.count (.remove id) = 1 ∧
        mapGet (updateBulletsLoop arrives duration l acc).1.Bullets id = none ∧
        id ∈ (updateBulletsLoop arrives duration l acc).1.AvailableBulletIDs.IDs) ∧
      (¬ b.StayDuration - duration ≤ 0 →
        evs.count (.remove id) = 0 ∧
        mapGet (updateBulletsLoop arrives duration l acc).1.Bullets id =
          some { b with StayDuration := b.StayDuration - duration }) := by
  induction l with
  | nil => intro acc _ _ hb; simp at hb
  | cons x rest ih =>
    intro acc hnd huniq hmem hget
    simp only [List.map_cons, List.nodup_cons] at hnd
    by_cases hx : x.ID = id
    · have hxb : x = b := huniq x (List.mem_cons_self _ _) hx
      subst hxb
      have hrest : ∀ y ∈ rest, y.ID ≠ id := by
        intro y hy hyid
        apply hnd.1
        rw [hx, ← hyid]
        exact List.mem_map_of_mem (fun x => x.ID) hy
      have hbody := updateBulletsBody_trapper arrives duration acc.1 x hT hR hM hs
      have hget' : mapGet acc.1.Bullets x.ID = some x := by rw [hx]; exact hget
      by_cases hexp : x.StayDuration - duration ≤ 0
      · rw [if_pos hexp] at hbody
        obtain ⟨evs, he, hf1, hf2, hf3, hf4, hf5⟩ :=
          updateBulletsLoop_frame arrives duration id rest
            (((acc.1.storeBullet
              { x with StayDuration := x.StayDuration - duration, RemoveFlag := true }).RemoveBullet
                x.ID).1, acc.2 ++ [.remove x.ID]) hrest
        have hstore := mapGet_storeBullet_self acc.1
          { x with StayDuration := x.StayDuration - duration, RemoveFlag := true } x hget'
        refine ⟨[.remove x.ID] ++ evs, ?_, ?_, ?_, ?_, ?_⟩
        · simp only [updateBulletsLoop, hbody]
          rw [he, List.append_assoc]
        · rw [List.count_append, hf3]
          simp
        · intro hw
          simp only [updateBulletsLoop, hbody]
          exact hf5 (BulletsWf_RemoveBullet _ _ (BulletsWf_storeBullet _ _ hw))
        · intro _
          simp only [updateBulletsLoop, hbody]
          refine ⟨?_, ?_, ?_⟩
          · rw [List.count_append, hf2, hx]
            simp
          · rw [hf1, ← hx]
            exact mapGet_RemoveBullet_self _ _
          · apply hf4
            rw [← hx]
            exact avail_RemoveBullet_self _ _ _ hstore
        · intro hne
          exact absurd hexp hne
      · rw [if_neg hexp] at hbody
        obtain ⟨evs, he, hf1, hf2, hf3, hf4, hf5⟩ :=
          updateBulletsLoop_frame arrives duration id rest
            (acc.1.storeBullet { x with StayDuration := x.StayDuration - duration },
              acc.2 ++ []) hrest
        refine ⟨[] ++ evs, ?_, ?_, ?_, ?_, ?_⟩
        · simp only [updateBulletsLoop, hbody]
          rw [he, List.append_assoc]
        · rw [List.count_append, hf3]
          simp
        · intro hw
          simp only [updateBulletsLoop, hbody]
          exact hf5 (BulletsWf_storeBullet _ _ hw)
        · intro he'
          exact absurd he' hexp
        · intro _
          simp only [updateBulletsLoop, hbody]
          refine ⟨?_, ?_⟩
          · rw [List.count_append, hf2]
            simp
          · rw [hf1, ← hx]
            exact mapGet_storeBullet_self acc.1
              { x with StayDuration := x.StayDuration - duration } x hget'
    · obtain ⟨a1, a2, a3, a4, a5⟩ := updateBulletsBody_other arrives duration acc.1 x id hx
      have hmem' : b ∈ rest := by
        rcases List.mem_cons.mp hmem with h1 | h1
        · exact absurd (h1 ▸ hid) hx
        · exact h1
      obtain ⟨evs, he, hp, hw, h1, h2⟩ := ih
        ((updateBulletsBody arrives duration acc.1 x).1,
          acc.2 ++ (updateBulletsBody arrives duration acc.1 x).2)
        hnd.2 (fun y hy => huniq y (List.mem_cons_of_mem _ hy)) hmem'
        (by rw [a1]; exact hget)
      refine ⟨(updateBulletsBody arrives duration acc.1 x).2 ++ evs, ?_, ?_, ?_, ?_, ?_⟩
      · simp only [updateBulletsLoop]
        rw [he, List.append_assoc]
      · rw [List.count_append, a3, hp]
      · intro hw0
        simp only [updateBulletsLoop]
        exact hw (a5 hw0)
      · intro hexp
        simp only [updateBulletsLoop]
        obtain ⟨c1, c2, c3⟩ := h1 hexp
        exact ⟨by rw [List.count_append, a2, c1], c2, c3⟩
      · intro hexp
        simp only [updateBulletsLoop]
        obtain ⟨c1, c2⟩ := h2 hexp
        exact ⟨by rw [List.count_append, a2, c1], c2⟩

end Game
namespace Game

theorem snapshot_ids (base : Base) (hw : BulletsWf base) :
    ((base.Bullets.map (fun e => e.2)).map (fun x => x.ID)) = mapKeys base.Bullets := by
  unfold mapKeys
  rw [List.map_map]
  apply List.map_congr_left
  intro e he
  exact hw.2 e he

theorem updateBullets_target (arrives : Bullet → Bool) (duration : Int) (base : Base) (id : ID)
    (b : Bullet) (hw : BulletsWf base) (hget : mapGet base.Bullets id = some b)
    (hT : b.Behavior = .TrapperBullet) (hR : b.ReachedTargetPosition = true)
    (hM : b.RemoveFlag = false) (hs : 0 < b.StayDuration) :
    (updateBullets arrives base duration).2.count (.positionUpdate id) = 0 ∧
    BulletsWf (updateBullets arrives base duration).1 ∧
    (b.StayDuration - duration ≤ 0 →
      (updateBullets arrives base duration).2.count (.remove id) = 1 ∧
      mapGet (updateBullets arrives base duration).1.Bullets id = none ∧
      id ∈ (updateBullets arrives base duration).1.AvailableBulletIDs.IDs) ∧
    (¬ b.StayDuration - duration ≤ 0 →
      (updateBullets arrives base duration).2.count (.remove id) = 0 ∧
      mapGet (updateBullets arrives base duration).1.Bullets id =
        some { b with StayDuration := b.StayDuration - duration }) := by
  have hmem : (id, b) ∈ base.Bullets := mem_of_mapGet _ _ _ hget
  have hid : b.ID = id := hw.2 (id, b) hmem
  have hnd : ((base.Bullets.map (fun e => e.2)).map (fun x => x.ID)).Nodup := by
    rw [snapshot_ids base hw]; exact hw.1
  have huniq : ∀ x ∈ base.Bullets.map (fun e => e.2), x.ID = id → x = b := by
    intro x hx hxid
    obtain ⟨e, he, rfl⟩ := List.mem_map.mp hx
    have hk : e.1 = id := by rw [← hw.2 e he]; exact hxid
    have := mapGet_of_mem_nodup base.Bullets e.1 e.2 hw.1 he
    rw [hk, hget] at this
    exact (Option.some.inj this).symm
  have hbm : b ∈ base.Bullets.map (fun e => e.2) := List.mem_map.mpr ⟨(id, b), hmem, rfl⟩
  obtain ⟨evs, he, hp, hwf, h1, h2⟩ := updateBulletsLoop_target arrives duration id b hT hR hM hs
    hid (base.Bullets.map (fun e => e.2)) (base, []) hnd huniq hbm hget
  have hevs : (updateBullets arrives base duration).2 = evs := by
    unfold updateBullets; rw [he]; rfl
  unfold updateBullets at hevs ⊢
  rw [hevs]
  exact ⟨hp, hwf hw, h1, h2⟩

theorem updateBullets_absent (arrives : Bullet → Bool) (duration : Int) (base : Base) (id : ID)
    (hw : BulletsWf base) (hget : mapGet base.Bullets id = none) :
    BulletFrame id base (updateBullets arrives base duration).1
      (updateBullets arrives base duration).2 := by
  have hne : ∀ x ∈ base.Bullets.map (fun e => e.2), x.ID ≠ id := by
    intro x hx
    obtain ⟨e, he, rfl⟩ := List.mem_map.mp hx
    rw [hw.2 e he]
    exact ne_of_mapGet_none _ _ hget e he
  obtain ⟨evs, he, hf⟩ := updateBulletsLoop_frame arrives duration id
    (base.Bullets.map (fun e => e.2)) (base, []) hne
  have hevs : (updateBullets arrives base duration).2 = evs := by
    unfold updateBullets; rw [he]; rfl
  unfold updateBullets at hevs ⊢
  rw [hevs]
  exact hf

theorem bulletTicks_absent (duration : Int) (id : ID) (oracles : List (Bullet → Bool)) :
    ∀ base : Base, BulletsWf base → mapGet base.Bullets id = none →
    (∀ evs ∈ (bulletTicks duration oracles base).2,
      evs.count (.remove id) = 0 ∧ evs.count (.positionUpdate id) = 0) ∧
    mapGet (bulletTicks duration oracles base).1.Bullets id = none ∧
    (id ∈ base.AvailableBulletIDs.IDs →
      id ∈ (bulletTicks duration oracles base).1.AvailableBulletIDs.IDs) := by
  induction oracles with
  | nil =>
    intro base _ hget
    exact ⟨by simp [bulletTicks], hget, fun h => h⟩
  | cons a rest ih =>
    intro base hw hget
    obtain ⟨f1, f2, f3, f4, f5⟩ := updateBullets_absent a duration base id hw hget
    obtain ⟨i1, i2, i3⟩ := ih (updateBullets a base duration).1 (f5 hw) (by rw [f1]; exact hget)
    refine ⟨?_, ?_, ?_⟩
    · intro evs hevs
      simp only [bulletTicks, List.mem_cons] at hevs
      rcases hevs with h | h
      · rw [h]; exact ⟨f2, f3⟩
      · exact i1 evs h
    · simp only [bulletTicks]; exact i2
    · intro hm
      simp only [bulletTicks]
      exact i3 (f4 hm)

theorem getD_counts (l : List (List BulletEvent)) (j : Nat) (e : BulletEvent)
    (h : ∀ evs ∈ l, evs.count e = 0) : (l.getD j []).count e = 0 := by
  rcases Nat.lt_or_ge j l.length with hj | hj
  · rw [List.getD_eq_getElem _ _ hj]
    exact h _ (List.getElem_mem _)
  · rw [List.getD_eq_default _ _ hj]
    rfl

theorem bulletTicks_trapper (duration : Int) (hd : 0 < duration) (id : ID)
    (oracles : List (Bullet → Bool)) :
    ∀ (base : Base) (b : Bullet) (n : Nat), BulletsWf base → mapGet base.Bullets id = some b →
    b.Behavior = .TrapperBullet → b.ReachedTargetPosition = true → b.RemoveFlag = false →
    0 < b.StayDuration → (n : Int) * duration - duration < b.StayDuration →
    b.StayDuration ≤ (n : Int) * duration →
    (∀ j, j < oracles.length →
      ((bulletTicks duration oracles base).2.getD j []).count (.positionUpdate id) = 0 ∧
      ((bulletTicks duration oracles base).2.getD j []).count (.remove id) =
        if j + 1 = n then 1 else 0) ∧
    (∀ k, k ≤ oracles.length →
      mapGet (bulletTicks duration (oracles.take k) base).1.Bullets id =
        if k < n then some { b with StayDuration := b.StayDuration - (k : Int) * duration }
        else none) ∧
    (n ≤ oracles.length →
      id ∈ (bulletTicks duration (oracles.take n) base).1.AvailableBulletIDs.IDs) := by
  induction oracles with
  | nil =>
    intro base b n _ hget _ _ _ hs _ hn2
    have hn : 0 < n := by
      rcases Nat.eq_zero_or_pos n with h | h
      · subst h; simp at hn2; omega
      · exact h
    refine ⟨fun j hj => absurd hj (Nat.not_lt_zero _), ?_, ?_⟩
    · intro k hk
      have hk0 : k = 0 := by simpa using hk
      subst hk0
      simp only [List.take_nil, bulletTicks, hn, if_true, Nat.cast_zero, zero_mul, sub_zero]
      exact hget
    · intro h
      simp at h
      omega
  | cons a rest ih =>
    intro base b n hw hget hT hR hM hs hn1 hn2
    obtain ⟨t1, t2, t3, t4⟩ := updateBullets_target a duration base id b hw hget hT hR hM hs
    obtain ⟨m, rfl⟩ : ∃ m, n = m + 1 := by
      rcases Nat.eq_zero_or_pos n with h | h
      · subst h; simp at hn2; omega
      · exact ⟨n - 1, by omega⟩
    have hcast : ((m + 1 : Nat) : Int) * duration = (m : Int) * duration + duration := by
      push_cast; ring
    rw [hcast] at hn1 hn2
    by_cases hexp : b.StayDuration - duration ≤ 0
    · obtain ⟨c1, c2, c3⟩ := t3 hexp
      have hm : m = 0 := by
        rcases Nat.eq_zero_or_pos m with h | h
        · exact h
        · exfalso
          obtain ⟨m', rfl⟩ : ∃ m', m = m' + 1 := ⟨m - 1, by omega⟩
          have h0 : 0 ≤ (m' : Int) * duration := mul_nonneg (Int.natCast_nonneg _) hd.le
          have h1 : ((m' + 1 : Nat) : Int) * duration = (m' : Int) * duration + duration := by
            push_cast; ring
          rw [h1] at hn1
          omega
      subst hm
      refine ⟨?_, ?_, ?_⟩
      · intro j hj
        cases j with
        | zero =>
          simp only [bulletTicks, List.getD_cons_zero]
          exact ⟨t1, by simpa using c1⟩
        | succ j =>
          simp only [bulletTicks, List.getD_cons_succ]
          have habs := (bulletTicks_absent duration id rest (updateBullets a base duration).1 t2 c2).1
          refine ⟨getD_counts _ _ _ (fun evs he => (habs evs he).2), ?_⟩
          rw [getD_counts _ _ _ (fun evs he => (habs evs he).1)]
          simp
      · intro k hk
        cases k with
        | zero =>
          simp only [List.take_zero, bulletTicks, Nat.cast_zero, zero_mul, sub_zero]
          simpa using hget
        | succ k =>
          simp only [List.take_succ_cons, bulletTicks]
          rw [(bulletTicks_absent duration id (rest.take k) (updateBullets a base duration).1 t2
            c2).2.1]
          simp
      · intro _
        simp only [List.take_succ_cons, List.take_zero, bulletTicks]
        exact c3
    · obtain ⟨c1, c2⟩ := t4 hexp
      obtain ⟨m', rfl⟩ : ∃ m', m = m' + 1 := by
        rcases Nat.eq_zero_or_pos m with h | h
        · subst h; simp at hn2; omega
        · exact ⟨m - 1, by omega⟩
      have h1 : ((m' + 1 : Nat) : Int) * duration = (m' : Int) * duration + duration := by
        push_cast; ring
      rw [h1] at hn1 hn2
      obtain ⟨i1, i2, i3⟩ := ih (updateBullets a base duration).1
        { b with StayDuration := b.StayDuration - duration } (m' + 1) t2 c2 hT hR hM
        (by show 0 < b.StayDuration - duration; omega)
        (by show ((m' + 1 : Nat) : Int) * duration - duration < b.StayDuration - duration
            rw [h1]; omega)
        (by show b.StayDuration - duration ≤ ((m' + 1 : Nat) : Int) * duration
            rw [h1]; omega)
      refine ⟨?_, ?_, ?_⟩
      · intro j hj
        cases j with
        | zero =>
          simp only [bulletTicks, List.getD_cons_zero]
          exact ⟨t1, by simpa using c1⟩
        | succ j =>
          simp only [bulletTicks, List.getD_cons_succ]
          have := i1 j (by simpa using hj)
          refine ⟨this.1, ?_⟩
          rw [this.2]
          by_cases hj' : j + 1 = m' + 1 <;> simp [hj']
      · intro k hk
        cases k with
        | zero =>
          simp only [List.take_zero, bulletTicks, Nat.cast_zero, zero_mul, sub_zero]
          simpa using hget
        | succ k =>
          simp only [List.take_succ_cons, bulletTicks]
          rw [i2 k (by simpa using hk)]
          by_cases hk' : k < m' + 1
          · have hk2 : k + 1 < m' + 1 + 1 := by omega
            simp only [hk', hk2, if_true]
            have harith : b.StayDuration - duration - (k : Int) * duration =
                b.StayDuration - ((k + 1 : Nat) : Int) * duration := by
              push_cast; ring
            rw [harith]
          · have hk2 : ¬ k + 1 < m' + 1 + 1 := by omega
            simp only [hk', hk2, if_false]
      · intro hlen
        simp only [List.take_succ_cons, bulletTicks]
        exact i3 (by simpa using hlen)

end Game
namespace Game

/-- Claim C32: a Trapper bullet `b` of a base has reached its target, is not
marked for removal and has `StayDuration > 0`; `n` is the number of ticks of
length `duration` that use the stay duration up.  Over every sequence of
`updateBullets` ticks, whatever the other bullets of the base do: no tick emits
a position update for `b`; the `n`-th tick emits exactly one `BulletRemove` for
`b` and no other tick emits one; after `k < n` ticks the bullet is in
`Base.Bullets` with `StayDuration` lowered by `k * duration`, hence strictly
lower after each tick; after `n` or more ticks it is not in `Base.Bullets`;
and after the `n`-th tick its ID is in the pool of available bullet IDs. -/
theorem C32_trapper_expiry (duration : Int) (base : Base) (b : Bullet) (n : Nat)
    (oracles : List (Bullet → Bool)) (hd : 0 < duration) (hw : BulletsWf base)
    (hget : mapGet base.Bullets b.ID = some b) (hT : b.Behavior = .TrapperBullet)
    (hR : b.ReachedTargetPosition = true) (hM : b.RemoveFlag = false)
    (hs : 0 < b.StayDuration) (hn1 : (n : Int) * duration - duration < b.StayDuration)
    (hn2 : b.StayDuration ≤ (n : Int) * duration) :
    (∀ j, j < oracles.length →
      ((bulletTicks duration oracles base).2.getD j []).count (.positionUpdate b.ID) = 0 ∧
      ((bulletTicks duration oracles base).2.getD j []).count (.remove b.ID) =
        if j + 1 = n then 1 else 0) ∧
    (∀ k, k ≤ oracles.length →
      mapGet (bulletTicks duration (oracles.take k) base).1.Bullets b.ID =
        if k < n then some { b with StayDuration := b.StayDuration - (k : Int) * duration }
        else none) ∧
    (n ≤ oracles.length →
      b.ID ∈ (bulletTicks duration (oracles.take n) base).1.AvailableBulletIDs.IDs) :=
  bulletTicks_trapper duration hd b.ID oracles base b n hw hget hT hR hM hs hn1 hn2

set_option maxRecDepth 100000 in
/-- Witness of C32: the TRAPPER bullet (5 s) with ticks of 50 ms.  The 100th
tick emits the one `BulletRemove`, the 99th and the 101st emit none, the
bullet has 50 ms left after 99 ticks and is gone after 100. -/
theorem C32_trapper_expiry_witness :
    trapperBullet.StayDuration = 5 * Second ∧ entityTickDuration = 50 * Millisecond ∧
    ((bulletTicks entityTickDuration (List.replicate 120 (fun _ => false)) trapperBase).2.getD
      99 []).count (.remove 0) = 1 ∧
    ((bulletTicks entityTickDuration (List.replicate 120 (fun _ => false)) trapperBase).2.getD
      98 []).count (.remove 0) = 0 ∧
    ((bulletTicks entityTickDuration (List.replicate 120 (fun _ => false)) trapperBase).2.getD
      100 []).count (.remove 0) = 0 ∧
    mapGet (bulletTicks entityTickDuration ((List.replicate 120 (fun _ => false)).take 99)
      trapperBase).1.Bullets 0 = some { trapperBullet with StayDuration := 50 * Millisecond } ∧
    mapGet (bulletTicks entityTickDuration ((List.replicate 120 (fun _ => false)).take 100)
      trapperBase).1.Bullets 0 = none :=
  have h := C32_trapper_expiry entityTickDuration trapperBase trapperBullet 100
    (List.replicate 120 (fun _ => false)) (by decide)
    ⟨by decide, by decide⟩ (by decide) (by decide) (by decide) (by decide) (by decide)
    (by decide) (by decide)
  ⟨by decide, by decide, (h.1 99 (by decide)).2, (h.1 98 (by decide)).2,
    (h.1 100 (by decide)).2, h.2.1 99 (by decide), h.2.1 100 (by decide)⟩

end Game

/-! ## The claim C31 -/

namespace Game

theorem removeUnitSpawningLoop_eq (barracks : Building) (l : List UnitSpawning) :
    ∀ (wasActive : Bool) (acc : List UnitSpawning),
      removeUnitSpawningLoop barracks l wasActive acc =
        ((l.filter (fun s => samePtr s.Barracks barracks)).foldl (fun _ s => s.Activated) wasActive,
          acc ++ l.filter (fun s => !samePtr s.Barracks barracks)) := by
  induction l with
  | nil => intro wasActive acc; simp [removeUnitSpawningLoop]
  | cons s rest ih =>
    intro wasActive acc
    unfold removeUnitSpawningLoop
    by_cases hm : samePtr s.Barracks barracks = true
    · simp only [hm, if_true, List.filter_cons, Bool.not_true, Bool.false_eq_true, if_false,
        List.foldl_cons]
      exact ih s.Activated acc
    · have hm' : samePtr s.Barracks barracks = false := by simpa using hm
      simp only [hm', Bool.false_eq_true, if_false, List.filter_cons, Bool.not_false, if_true]
      rw [ih wasActive (acc ++ [s])]
      simp

theorem find_eq_head_filter {α : Type} (p : α → Bool) (l : List α) :
    l.find? p = (l.filter p).head? := by
  induction l with
  | nil => rfl
  | cons a rest ih =>
    by_cases h : p a = true
    · rw [List.find?_cons_of_pos _ h, List.filter_cons_of_pos h]
      rfl
    · rw [List.find?_cons_of_neg _ h, List.filter_cons_of_neg h]
      exact ih

theorem refreshUnitSpawning_none (building : Building) (l : List UnitSpawning)
    (h : ∀ s ∈ l, samePtr s.Barracks building = false) :
    refreshUnitSpawning building l = l := by
  unfold refreshUnitSpawning
  conv => rhs; rw [← List.map_id l]
  apply List.map_congr_left
  intro s hs
  simp [h s hs]

theorem samePtr_congr (stored : Option Building) (b b' : Building) (h : b'.Ptr = b.Ptr) :
    samePtr stored b' = samePtr stored b := by
  unfold samePtr
  cases stored with
  | none => rfl
  | some x => simp only [h]

theorem tableGet_mem_variantsOf {β : Type} (table : List (Nat × List (Nat × β))) (t v : Nat)
    (h : (tableGet table t v).isSome = true) : v ∈ variantsOf table t := by
  unfold tableGet at h
  unfold variantsOf
  cases hl : table.lookup t with
  | none => rw [hl] at h; simp at h
  | some inner =>
    rw [hl] at h
    exact lookup_isSome_mem inner v h

set_option maxRecDepth 100000 in
theorem barracks_next_known :
    (variantsOf buildingTypes BARRACKS).all nextSpawningKnown = true := by
  decide

theorem barracks_path_spawning (v v' : BuildingVariant)
    (h : ValidateUpgradePath BARRACKS v v' = true) : ∃ s, GetUnitSpawning v' = some s := by
  obtain ⟨u, hu, hn⟩ := (ValidateUpgradePath_iff BARRACKS v v').mp h
  have hm := tableGet_mem_variantsOf buildingTypes BARRACKS v (by rw [hu]; rfl)
  have h1 : nextSpawningKnown v = true := List.all_eq_true.mp barracks_next_known v hm
  unfold nextSpawningKnown at h1
  rw [hu] at h1
  exact Option.isSome_iff_exists.mp (List.all_eq_true.mp h1 v' hn)

end Game

namespace Network

open Game

theorem subGenerating_spawning (p : Player) (g : Option Generating) :
    (p.subGenerating g).UnitSpawning = p.UnitSpawning ∧
    (p.subGenerating g).UnitSpawningLimit = p.UnitSpawningLimit := by
  cases g <;> exact ⟨rfl, rfl⟩

theorem addGenerating_spawning (p : Player) (g : Option Generating) :
    (p.addGenerating g).UnitSpawning = p.UnitSpawning ∧
    (p.addGenerating g).UnitSpawningLimit = p.UnitSpawningLimit := by
  cases g <;> exact ⟨rfl, rfl⟩

theorem decrementCapacity_spawning (p : Player) (c : Option Nat) :
    (p.decrementCapacity c).UnitSpawning = p.UnitSpawning ∧
    (p.decrementCapacity c).UnitSpawningLimit = p.UnitSpawningLimit := by
  cases c <;> exact ⟨rfl, rfl⟩

theorem incrementCapacity_spawning (p : Player) (c : Option Nat) :
    (p.incrementCapacity c).UnitSpawning = p.UnitSpawning ∧
    (p.incrementCapacity c).UnitSpawningLimit = p.UnitSpawningLimit := by
  cases c <;> exact ⟨rfl, rfl⟩

theorem upgradeAccounts_spawning (p : Player) (power : Resource) (b : Building)
    (v : BuildingVariant) :
    (upgradeAccounts p power b v).UnitSpawning = p.UnitSpawning ∧
    (upgradeAccounts p power b v).UnitSpawningLimit = p.UnitSpawningLimit := by
  unfold upgradeAccounts
  rw [(incrementCapacity_spawning _ _).1, (incrementCapacity_spawning _ _).2,
    (decrementCapacity_spawning _ _).1, (decrementCapacity_spawning _ _).2,
    (addGenerating_spawning _ _).1, (addGenerating_spawning _ _).2,
    (subGenerating_spawning _ _).1, (subGenerating_spawning _ _).2]
  exact ⟨rfl, rfl⟩

theorem UpgradeBuilding_player (w : World) (r : BaseRef) (id : ID) (v : BuildingVariant)
    (b : Building) (hp : w.hasPlayer r = true)
    (hb : mapGet (w.getBase r).Buildings id = some b) :
    (Base.UpgradeBuilding w r id v).2 = true ∧
    (Base.UpgradeBuilding w r id v).1.player.UnitSpawning =
      refreshUnitSpawning { b with Variant := v, Health := GetInitialHealth b.Typ v }
        w.player.UnitSpawning ∧
    (Base.UpgradeBuilding w r id v).1.player.UnitSpawningLimit = w.player.UnitSpawningLimit ∧
    mapGet ((Base.UpgradeBuilding w r id v).1.getBase r).Buildings id =
      some { b with Variant := v, Health := GetInitialHealth b.Typ v } := by
  unfold Base.UpgradeBuilding
  simp only [hp, Bool.not_true, Bool.false_eq_true, if_false, hb]
  refine ⟨trivial, ?_, ?_, ?_⟩
  · cases r <;> rfl
  · cases r <;> rfl
  · rw [buildings_refreshBuilding, getBase_modifyBase]
    simp only [if_true]
    rw [mapGet_mapSet]
    simp

theorem UpgradeBuilding_noPlayer (w : World) (r : BaseRef) (id : ID) (v : BuildingVariant)
    (hp : w.hasPlayer r = false) : (Base.UpgradeBuilding w r id v).2 = false := by
  unfold Base.UpgradeBuilding
  simp [hp]

/-- Claim C31: a BARRACKS with exactly one `UnitSpawning` entry is upgraded by
`handleUpgradeBuildingsMessage`, in a player state in which the activated
spawners are counted by `UnitSpawningLimit`.  After the upgrade the barracks
has exactly one entry, with the `Activated` flag of the entry before;
`UnitSpawningLimit.Current` is as before; and the entries of the other
barracks are as before, in the same order. -/
theorem C31_barracks_upgrade_keeps_activation (w : World) (base : BaseRef)
    (buildingVariant : BuildingVariant) (buildingID : ID) (building : Building)
    (entry : UnitSpawning)
    (hb : mapGet (w.getBase base).Buildings buildingID = some building)
    (ht : building.Typ = BARRACKS)
    (hinv : SpawnerInv w.player)
    (hone : w.player.UnitSpawning.filter (fun s => samePtr s.Barracks building) = [entry])
    (hok : (handleUpgradeBuildingsMessage w base buildingVariant [buildingID]).2 = true) :
    (∃ entry', (handleUpgradeBuildingsMessage w base buildingVariant
          [buildingID]).1.player.UnitSpawning.filter
          (fun s => samePtr s.Barracks building) = [entry'] ∧
        entry'.Activated = entry.Activated) ∧
    (handleUpgradeBuildingsMessage w base buildingVariant
      [buildingID]).1.player.UnitSpawningLimit.Current = w.player.UnitSpawningLimit.Current ∧
    (handleUpgradeBuildingsMessage w base buildingVariant
      [buildingID]).1.player.UnitSpawning.filter (fun s => !samePtr s.Barracks building) =
      w.player.UnitSpawning.filter (fun s => !samePtr s.Barracks building) := by
  simp only [handleUpgradeBuildingsMessage, upgradeBuildingsLoop, upgradeBuildingsBody, hb]
    at hok ⊢
  by_cases hv : ValidateUpgradePath building.Typ building.Variant buildingVariant = true
  swap
  · simp [hv] at hok
  simp only [hv, Bool.not_true, Bool.false_eq_true, if_false] at hok ⊢
  cases hc : GetBuildingCost building.Typ buildingVariant with
  | none => simp [hc] at hok
  | some costs =>
    simp only [hc] at hok ⊢
    cases hd : w.player.Resources.Power.Decrement costs with
    | mk power ok =>
      cases ok with
      | false => simp [hd] at hok
      | true =>
        simp only [hd] at hok ⊢
        obtain ⟨ha1, ha2⟩ := upgradeAccounts_spawning w.player power building buildingVariant
        have hfind : (w.modifyPlayer
            (fun p => upgradeAccounts p power building buildingVariant)).player.GetUnitSpawningForBarrack
              building = some entry := by
          unfold Player.GetUnitSpawningForBarrack
          show List.find? _ (upgradeAccounts w.player power building buildingVariant).UnitSpawning = _
          rw [ha1, find_eq_head_filter, hone]
          rfl
        have hrem : upgradeRemoveSpawner
            (w.modifyPlayer (fun p => upgradeAccounts p power building buildingVariant))
            base building =
            ((w.modifyPlayer (fun p => upgradeAccounts p power building buildingVariant)).modifyPlayer
              (fun p => p.RemoveUnitSpawning building), entry.Activated) := by
          unfold upgradeRemoveSpawner
          simp only [ht, beq_self_eq_true, if_true, hfind]
        rw [hrem] at hok ⊢
        simp only at hok ⊢
        have hb1 : mapGet (((w.modifyPlayer
            (fun p => upgradeAccounts p power building buildingVariant)).modifyPlayer
              (fun p => p.RemoveUnitSpawning building)).getBase base).Buildings buildingID =
            some building := by
          rw [buildings_modifyPlayer _ _ (by rw [RemoveUnitSpawning_Base]),
            buildings_modifyPlayer _ _ (by rw [upgradeAccounts_Base])]
          exact hb
        generalize hw1 : ((w.modifyPlayer
            (fun p => upgradeAccounts p power building buildingVariant)).modifyPlayer
              (fun p => p.RemoveUnitSpawning building)) = w1 at hok hb1 ⊢
        have hp1 : w1.player = (upgradeAccounts w.player power building
            buildingVariant).RemoveUnitSpawning building := by
          rw [← hw1]; rfl
        by_cases hhp : w1.hasPlayer base = true
        swap
        · have hhp' : w1.hasPlayer base = false := by simpa using hhp
          have hno := UpgradeBuilding_noPlayer w1 base buildingID buildingVariant hhp'
          revert hok
          generalize Base.UpgradeBuilding w1 base buildingID buildingVariant = up at hno
          obtain ⟨w2, ok2⟩ := up
          simp only at hno
          subst hno
          simp
        obtain ⟨u1, u2, u3, u4⟩ :=
          UpgradeBuilding_player w1 base buildingID buildingVariant building hhp hb1
        generalize Base.UpgradeBuilding w1 base buildingID buildingVariant = up at u1 u2 u3 u4 hok ⊢
        obtain ⟨w2, ok2⟩ := up
        simp only at u1 u2 u3 u4
        subst u1
        simp only [u4, Option.getD_some]
        have hv' : ValidateUpgradePath BARRACKS building.Variant buildingVariant = true := by
          rw [← ht]; exact hv
        obtain ⟨cfg, hcfg⟩ := barracks_path_spawning _ _ hv'
        have hl1 : w1.player.UnitSpawning =
              w.player.UnitSpawning.filter (fun s => !samePtr s.Barracks building) ∧
            w1.player.UnitSpawningLimit =
              if entry.Activated then w.player.UnitSpawningLimit.Decrement 1
              else w.player.UnitSpawningLimit := by
          rw [hp1]
          unfold Player.RemoveUnitSpawning
          rw [removeUnitSpawningLoop_eq, ha1, hone]
          simp only [List.foldl_cons, List.foldl_nil, List.nil_append]
          cases entry.Activated with
          | true => exact ⟨rfl, by simp only [if_true]; rw [ha2]⟩
          | false => exact ⟨rfl, by simp only [Bool.false_eq_true, if_false]; rw [ha2]⟩
        have hl2 : w2.player.UnitSpawning =
            w.player.UnitSpawning.filter (fun s => !samePtr s.Barracks building) := by
          rw [u2, hl1.1]
          apply refreshUnitSpawning_none
          intro s hs
          have := (List.mem_filter.mp hs).2
          have h := samePtr_congr s.Barracks building
            { building with Variant := buildingVariant,
                            Health := GetInitialHealth building.Typ buildingVariant } rfl
          rw [h]
          simpa using this
        have hadd : ∀ b1 : Building, b1.Typ = BARRACKS →
            (upgradeAddSpawner w2 base b1 entry.Activated).player =
              (w2.player.AddUnitSpawning b1 entry.Activated).1 := by
          intro b1 hb1t
          unfold upgradeAddSpawner
          simp only [hb1t, beq_self_eq_true, if_true]
          rfl
        rw [hadd { building with Variant := buildingVariant,
                                 Health := GetInitialHealth building.Typ buildingVariant } ht]
        unfold Player.AddUnitSpawning
        simp only [hcfg]
        have hent : entry ∈ w.player.UnitSpawning := by
          have : entry ∈ w.player.UnitSpawning.filter (fun s => samePtr s.Barracks building) := by
            rw [hone]; exact List.mem_singleton_self _
          exact List.mem_of_mem_filter this
        obtain ⟨i1, i2, i3⟩ := hinv
        have hff : (w.player.UnitSpawning.filter (fun s => !samePtr s.Barracks building)).filter
            (fun s => samePtr s.Barracks building) = [] := by
          rw [List.filter_filter]
          apply List.filter_eq_nil_iff.mpr
          intro s _
          cases samePtr s.Barracks building <;> simp
        have hfn : (w.player.UnitSpawning.filter (fun s => !samePtr s.Barracks building)).filter
            (fun s => !samePtr s.Barracks building) =
            w.player.UnitSpawning.filter (fun s => !samePtr s.Barracks building) := by
          rw [List.filter_filter]
          congr 1
          funext s
          cases samePtr s.Barracks building <;> rfl
        have hself : ∀ variant health, samePtr (some
            ({ building with Variant := variant, Health := health } : Building)) building = true := by
          intro variant health
          simp [samePtr]
        cases hact : entry.Activated with
        | false =>
          simp only [Bool.false_eq_true, if_false, ite_self, hact] at hl1 ⊢
          refine ⟨⟨UnitSpawning.mk (some (Building.mk building.Ptr building.Owner building.ID
            building.Typ buildingVariant (GetInitialHealth building.Typ buildingVariant)
            building.RemoveFlag)) cfg.UnitType cfg.UnitVariant cfg.Frequency false, ?_, rfl⟩, ?_, ?_⟩
          · show List.filter _ (w2.player.UnitSpawning ++ [_]) = _
            rw [hl2, List.filter_append, hff]
            simp [hself]
          · show w2.player.UnitSpawningLimit.Current = _
            rw [u3, hl1.2]
          · show List.filter _ (w2.player.UnitSpawning ++ [_]) = _
            rw [hl2, List.filter_append, hfn]
            simp [hself]
        | true =>
          simp only [if_true, hact] at hl1 ⊢
          have hpos : 0 < activeSpawners w.player := by
            unfold activeSpawners
            exact List.countP_pos_iff.mpr ⟨entry, hent, hact⟩
          have hcur : 1 ≤ w.player.UnitSpawningLimit.Current := by omega
          have hlim : w2.player.UnitSpawningLimit =
              { w.player.UnitSpawningLimit with Current := w.player.UnitSpawningLimit.Current - 1 } := by
            rw [u3, hl1.2]
            unfold Capacity.Decrement
            by_cases h1 : w.player.UnitSpawningLimit.Current ≤ 1
            · have : w.player.UnitSpawningLimit.Current = 1 := by omega
              simp only [h1, if_true]
              congr 1
              omega
            · simp only [h1, if_false, sub16]
              have h6 : (w.player.UnitSpawningLimit.Current % 65536 + 65536 - 1 % 65536) % 65536 =
                  w.player.UnitSpawningLimit.Current - 1 := by omega
              rw [h6]
          have hmax : w2.player.UnitSpawningLimit.HasMaxCapacity = false := by
            rw [hlim]
            unfold Capacity.HasMaxCapacity
            simp only [beq_eq_false_iff_ne, ne_eq]
            omega
          simp only [hmax, Bool.false_eq_true, if_false, if_true]
          refine ⟨⟨UnitSpawning.mk (some (Building.mk building.Ptr building.Owner building.ID
            building.Typ buildingVariant (GetInitialHealth building.Typ buildingVariant)
            building.RemoveFlag)) cfg.UnitType cfg.UnitVariant cfg.Frequency true, ?_, rfl⟩, ?_, ?_⟩
          · show List.filter _ (w2.player.UnitSpawning ++ [_]) = _
            rw [hl2, List.filter_append, hff]
            simp [hself]
          · show (w2.player.UnitSpawningLimit.Increment 1).Current = _
            rw [hlim]
            unfold Capacity.Increment
            simp only [add16]
            have h5 : (w.player.UnitSpawningLimit.Current - 1 + 1) % 65536 =
                w.player.UnitSpawningLimit.Current := by omega
            rw [h5]
            have : ¬ (w.player.UnitSpawningLimit.Current > w.player.UnitSpawningLimit.Max) := by
              omega
            simp only [this, if_false]
          · show List.filter _ (w2.player.UnitSpawning ++ [_]) = _
            rw [hl2, List.filter_append, hfn]
            simp [hself]

end Network

namespace Network

open Game

set_option maxRecDepth 100000 in
/-- Witness of C31: the BARRACKS of a new player, active since its placement,
is upgraded to GREATER_BARRACKS; the limit counter stays at 1. -/
theorem C31_barracks_upgrade_keeps_activation_witness :
    mapGet (barracksWorld.getBase .playerBase).Buildings 0 = some theBarracks ∧
    barracksWorld.player.UnitSpawningLimit.Current = 1 ∧
    (handleUpgradeBuildingsMessage barracksWorld .playerBase GREATER_BARRACKS [0]).2 = true ∧
    (handleUpgradeBuildingsMessage barracksWorld .playerBase GREATER_BARRACKS
      [0]).1.player.UnitSpawningLimit.Current = barracksWorld.player.UnitSpawningLimit.Current :=
  ⟨by decide, by decide, by decide,
    (C31_barracks_upgrade_keeps_activation barracksWorld .playerBase GREATER_BARRACKS 0
      theBarracks
      { Barracks := some theBarracks, UnitType := SOLDIER, UnitVariant := BASIC_UNIT,
        Frequency := ⟨0, 4⟩, Activated := true }
      (by decide) (by decide) ⟨by decide, by decide, by decide⟩ (by decide) (by decide)).2.1⟩

end Network

/-! ## Lemmas on the game state -/

namespace Game

theorem PlayerSame_refl (p : Player) : PlayerSame p p := ⟨rfl, rfl, rfl⟩

theorem PlayerSame_trans {p q r : Player} (h1 : PlayerSame p q) (h2 : PlayerSame q r) :
    PlayerSame p r :=
  ⟨h2.1.trans h1.1, h2.2.1.trans h1.2.1, h2.2.2.trans h1.2.2⟩

theorem WorldSame_refl (w : World) : WorldSame w w := ⟨PlayerSame_refl _, rfl, rfl⟩

theorem WorldSame_trans {u v w : World} (h1 : WorldSame u v) (h2 : WorldSame v w) :
    WorldSame u w :=
  ⟨PlayerSame_trans h1.1 h2.1, h2.2.1.trans h1.2.1, h2.2.2.trans h1.2.2⟩

theorem decrementBuildingLimit_position (x : Base) (t : BuildingType) :
    (x.decrementBuildingLimit t).1.Position = x.Position := by
  unfold Base.decrementBuildingLimit
  dsimp only
  split <;> rfl

theorem WorldSame_modifyPlayer (w : World) (f : Player → Player)
    (h : PlayerSame w.player (f w.player) ∧
      (f w.player).CapturedNeutralBases = w.player.CapturedNeutralBases) :
    WorldSame w (w.modifyPlayer f) :=
  ⟨h.1, h.2, rfl⟩

theorem WorldSame_modifyNeutralBase (w : World) (f : Base → Base) :
    WorldSame w (w.modifyBase .neutralBase f) :=
  ⟨PlayerSame_refl _, rfl, rfl⟩

theorem RemoveUnitSpawning_same (p : Player) (b : Building) :
    PlayerSame p (p.RemoveUnitSpawning b) ∧
    (p.RemoveUnitSpawning b).CapturedNeutralBases = p.CapturedNeutralBases := by
  unfold Player.RemoveUnitSpawning
  split
  split <;> exact ⟨⟨rfl, rfl, rfl⟩, rfl⟩

theorem subGenerating_same (p : Player) (g : Option Generating) :
    PlayerSame p (p.subGenerating g) ∧
    (p.subGenerating g).CapturedNeutralBases = p.CapturedNeutralBases := by
  cases g <;> exact ⟨⟨rfl, rfl, rfl⟩, rfl⟩

theorem decrementCapacity_same (p : Player) (c : Option Nat) :
    PlayerSame p (p.decrementCapacity c) ∧
    (p.decrementCapacity c).CapturedNeutralBases = p.CapturedNeutralBases := by
  cases c <;> exact ⟨⟨rfl, rfl, rfl⟩, rfl⟩

theorem decrementLimit_same (p : Player) (t : BuildingType) :
    PlayerSame p (p.decrementLimit t) ∧
    (p.decrementLimit t).CapturedNeutralBases = p.CapturedNeutralBases :=
  ⟨⟨rfl, rfl, decrementBuildingLimit_position _ _⟩, rfl⟩

theorem removeBuildingEffects_neutral_same (w : World) (hp : Bool) (b : Building) :
    WorldSame w (removeBuildingEffects w .neutralBase hp b) := by
  unfold removeBuildingEffects
  split
  · split
    · exact WorldSame_modifyPlayer _ _ (RemoveUnitSpawning_same _ _)
    · exact WorldSame_refl _
  · split
    · split
      · split
        · exact WorldSame_modifyPlayer _ _ (subGenerating_same _ _)
        · exact WorldSame_refl _
      · exact WorldSame_refl _
    · split
      · split
        · exact WorldSame_modifyPlayer _ _ (decrementCapacity_same _ _)
        · exact WorldSame_refl _
      · split
        · exact WorldSame_modifyNeutralBase _ _
        · exact WorldSame_refl _

theorem RemoveBuilding_neutral_same (w : World) (id : ID) :
    WorldSame w (Base.RemoveBuilding w .neutralBase id).1 := by
  unfold Base.RemoveBuilding
  split
  · exact WorldSame_refl _
  · rename_i found _
    have h0 : WorldSame w (w.refreshBuilding found.MarkForRemoval) := ⟨⟨rfl, rfl, rfl⟩, rfl, rfl⟩
    have h1 := removeBuildingEffects_neutral_same (w.refreshBuilding found.MarkForRemoval)
      (w.hasPlayer .neutralBase) found.MarkForRemoval
    simp only
    refine WorldSame_trans ?_ (WorldSame_modifyNeutralBase _ _)
    by_cases hp : w.hasPlayer .neutralBase = true
    · simp only [hp, if_true] at h1 ⊢
      refine WorldSame_trans ?_ (WorldSame_modifyPlayer _ _ (decrementLimit_same _ _))
      exact WorldSame_trans (WorldSame_trans h0 h1) (WorldSame_modifyNeutralBase _ _)
    · simp only [hp, Bool.false_eq_true, if_false] at h1 ⊢
      exact WorldSame_trans (WorldSame_trans h0 h1) (WorldSame_modifyNeutralBase _ _)

theorem Clear_same (w : World) : WorldSame w (NeutralBase.Clear w) := by
  unfold NeutralBase.Clear
  have hfold : ∀ (ids : List ID) (v : World),
      WorldSame v (ids.foldl (fun acc id => (Base.RemoveBuilding acc .neutralBase id).1) v) := by
    intro ids
    induction ids with
    | nil => intro v; exact WorldSame_refl _
    | cons id rest ih =>
      intro v
      exact WorldSame_trans (RemoveBuilding_neutral_same v id)
        (ih (Base.RemoveBuilding v .neutralBase id).1)
  exact WorldSame_trans (WorldSame_trans (hfold _ w) (WorldSame_modifyNeutralBase _ _))
    (WorldSame_modifyNeutralBase _ _)

theorem Captured_same (w : World) (byPlayer : Bool) (wallPtr : Nat) :
    WorldSame w (NeutralBase.Captured w byPlayer wallPtr) := by
  unfold NeutralBase.Captured
  cases byPlayer with
  | false => exact ⟨PlayerSame_refl _, rfl, rfl⟩
  | true =>
    simp only [if_true]
    have h1 := Clear_same (w.modifyBase .neutralBase (fun b => { b with Health := b.Health.Reset }))
    exact ⟨h1.1, h1.2.1, h1.2.2⟩

theorem RemoveCapturedNeutralBase_same (p : Player) (neutralBase : Nat)
    (buildings : List (ID × Building)) :
    PlayerSame p (p.RemoveCapturedNeutralBase neutralBase buildings) ∧
    (p.RemoveCapturedNeutralBase neutralBase buildings).CapturedNeutralBases =
      p.CapturedNeutralBases.erase neutralBase := by
  unfold Player.RemoveCapturedNeutralBase
  have hfold : ∀ (bs : List (ID × Building)) (b : Base),
      (bs.foldl (fun b e => (b.decrementBuildingLimit e.2.Typ).1) b).Position = b.Position := by
    intro bs
    induction bs with
    | nil => intro b; rfl
    | cons e rest ih =>
      intro b
      simp only [List.foldl_cons]
      rw [ih, decrementBuildingLimit_position]
  by_cases hc : p.CapturedNeutralBases.contains neutralBase = true
  · have hc' : ({ p with Population :=
        (p.Population.DecrementCapacity NEUTRAL_BASE_POPULATION).1 } :
          Player).CapturedNeutralBases.contains neutralBase = true := hc
    simp only
    rw [if_pos hc']
    exact ⟨⟨rfl, rfl, hfold _ _⟩, rfl⟩
  · have hc' : ¬ ({ p with Population :=
        (p.Population.DecrementCapacity NEUTRAL_BASE_POPULATION).1 } :
          Player).CapturedNeutralBases.contains neutralBase = true := hc
    simp only
    rw [if_neg hc']
    refine ⟨⟨rfl, rfl, rfl⟩, ?_⟩
    have : neutralBase ∉ p.CapturedNeutralBases := by simpa using hc
    exact (List.erase_of_not_mem this).symm

theorem handleNeutralBaseCaptured_same (w : World) (wallPtr : Nat)
    (h : w.neutral.CapturedBy = false) :
    PlayerSame w.player (handleNeutralBaseCaptured w wallPtr).player ∧
    (handleNeutralBaseCaptured w wallPtr).player.CapturedNeutralBases =
      w.player.CapturedNeutralBases ++ [w.neutral.Ptr] := by
  unfold handleNeutralBaseCaptured
  simp only [h, Bool.false_eq_true, if_false]
  have h1 := Captured_same w true wallPtr
  refine ⟨?_, ?_⟩
  · exact PlayerSame_trans h1.1 ⟨rfl, rfl, rfl⟩
  · show (NeutralBase.Captured w true wallPtr).player.CapturedNeutralBases ++
      [(NeutralBase.Captured w true wallPtr).neutral.Ptr] = _
    rw [h1.2.1, h1.2.2]

theorem coreHitBody_same (player otherPlayer : Player) (unit : Game.Unit) :
    (PlayerSame player (coreHitBody player otherPlayer unit).1 ∧
      (coreHitBody player otherPlayer unit).1.CapturedNeutralBases =
        player.CapturedNeutralBases) ∧
    (PlayerSame otherPlayer (coreHitBody player otherPlayer unit).2.1 ∧
      (coreHitBody player otherPlayer unit).2.1.CapturedNeutralBases =
        otherPlayer.CapturedNeutralBases) := by
  unfold coreHitBody Base.TakeDamage
  simp only
  split <;> exact ⟨⟨⟨rfl, rfl, rfl⟩, rfl⟩, ⟨⟨rfl, rfl, rfl⟩, rfl⟩⟩

end Game

namespace Game

theorem nodup_mapKeys_mapDelete {β : Type} (m : List (Nat × β)) (k : Nat)
    (h : (mapKeys m).Nodup) : (mapKeys (mapDelete m k)).Nodup := by
  rw [mapKeys_mapDelete]
  exact h.filter _

theorem not_mem_mapKeys_mapDelete {β : Type} (m : List (Nat × β)) (k : Nat) :
    k ∉ mapKeys (mapDelete m k) := by
  rw [mapKeys_mapDelete]
  simp

theorem nodup_mapKeys_mapSet {β : Type} (m : List (Nat × β)) (k : Nat) (v : β)
    (h : (mapKeys m).Nodup) : (mapKeys (mapSet m k v)).Nodup := by
  unfold mapSet
  show (k :: mapKeys (mapDelete m k)).Nodup
  exact List.nodup_cons.mpr ⟨not_mem_mapKeys_mapDelete m k, nodup_mapKeys_mapDelete m k h⟩

theorem mapGet_of_find {β : Type} (m : List (Nat × β)) (pred : Nat × β → Bool) (k : Nat) (v : β)
    (hn : (mapKeys m).Nodup) (h : m.find? pred = some (k, v)) :
    mapGet m k = some v ∧ pred (k, v) = true :=
  ⟨mapGet_of_mem_nodup m k v hn (List.mem_of_find?_eq_some h), List.find?_some h⟩

theorem find_isSome_of_mapGet {β : Type} (m : List (Nat × β)) (pred : Nat × β → Bool) (k : Nat)
    (v : β) (h : mapGet m k = some v) (hp : pred (k, v) = true) :
    ∃ e, m.find? pred = some e := by
  have hm := mem_of_mapGet m k v h
  cases hf : m.find? pred with
  | some e => exact ⟨e, rfl⟩
  | none =>
    have := List.find?_eq_none.mp hf (k, v) hm
    exact absurd hp this

theorem positionGet_positionSet (m : List (PositionInt × Bool)) (pos pos' : PositionInt)
    (v : Bool) :
    positionGet (positionSet m pos v) pos' = if pos' = pos then v else positionGet m pos' := by
  unfold positionGet positionSet
  by_cases h : pos' = pos
  · subst h
    simp [List.lookup_cons]
  · have h1 : (pos' == pos) = false := by simpa using h
    simp only [List.lookup_cons, h1, h, if_false]
    congr 1
    induction m with
    | nil => rfl
    | cons e rest ih =>
      obtain ⟨a, b⟩ := e
      by_cases ha : a = pos
      · subst ha
        simp only [List.filter_cons, bne_self_eq_false, Bool.false_eq_true, if_false,
          List.lookup_cons, h1]
        exact ih
      · have ha' : (a != pos) = true := by simpa using ha
        simp only [List.filter_cons, ha', if_true, List.lookup_cons]
        cases pos' == a
        · exact ih
        · rfl

theorem find_map_keep (f : StateNeutralBase → StateNeutralBase) (hf : ∀ n, (f n).Ptr = n.Ptr)
    (neutralPtr : Nat) (l : List StateNeutralBase) :
    (l.map f).find? (fun n => n.Ptr == neutralPtr) =
      (l.find? (fun n => n.Ptr == neutralPtr)).map f := by
  induction l with
  | nil => rfl
  | cons a rest ih =>
    simp only [List.map_cons, List.find?_cons, hf]
    cases a.Ptr == neutralPtr
    · exact ih
    · rfl

theorem capturedByOf_map (s : GameState) (f : StateNeutralBase → StateNeutralBase)
    (hf : ∀ n, (f n).Ptr = n.Ptr) (players : List (ID × Player)) (positions : List (PositionInt × Bool))
    (ids : AvailableIDs) (neutralPtr : Nat) :
    capturedByOf { Players := players, NeutralBases := s.NeutralBases.map f,
                   AvailablePositions := positions, availablePlayerIDs := ids } neutralPtr =
      (s.NeutralBases.find? (fun n => n.Ptr == neutralPtr)).map (fun n => (f n).CapturedBy) := by
  unfold capturedByOf
  simp only
  rw [find_map_keep f hf, Option.map_map]
  rfl

theorem capturedByOf_players (s : GameState) (players : List (ID × Player))
    (neutralPtr : Nat) :
    capturedByOf { s with Players := players } neutralPtr = capturedByOf s neutralPtr := rfl

theorem capturedByOf_of_find (s : GameState) (neutralPtr : Nat) (n : StateNeutralBase)
    (h : s.NeutralBases.find? (fun n => n.Ptr == neutralPtr) = some n) :
    n.Ptr = neutralPtr ∧ capturedByOf s neutralPtr = some n.CapturedBy := by
  refine ⟨by simpa using List.find?_some h, ?_⟩
  unfold capturedByOf
  rw [h]
  rfl

theorem capturedByOf_setNeutral (s : GameState) (n n' : StateNeutralBase)
    (hfind : s.NeutralBases.find? (fun x => x.Ptr == n.Ptr) = some n) (hptr : n'.Ptr = n.Ptr)
    (neutralPtr : Nat) :
    capturedByOf (setNeutral s n') neutralPtr =
      if neutralPtr = n.Ptr then some n'.CapturedBy else capturedByOf s neutralPtr := by
  unfold setNeutral capturedByOf
  simp only
  have hkeep : ∀ x : StateNeutralBase, (if (x.Ptr == n'.Ptr) = true then n' else x).Ptr = x.Ptr := by
    intro x
    by_cases hx : (x.Ptr == n'.Ptr) = true
    · simp only [hx, if_true]
      exact (by simpa using hx : x.Ptr = n'.Ptr).symm
    · simp only [hx, Bool.false_eq_true, if_false]
  rw [find_map_keep _ hkeep]
  by_cases h : neutralPtr = n.Ptr
  · subst h
    rw [hfind]
    simp [hptr]
  · simp only [h, if_false]
    cases hx : s.NeutralBases.find? (fun x => x.Ptr == neutralPtr) with
    | none => rfl
    | some x =>
      have hxp : x.Ptr = neutralPtr := by simpa using List.find?_some hx
      have : ¬ x.Ptr = n'.Ptr := by
        rw [hptr, hxp]; exact h
      simp [this]

end Game

namespace Game

theorem setPlayer_get (s : GameState) (id : ID) (p p' : Player)
    (hget : mapGet s.Players id = some p) (hsame : PlayerSame p p')
    (hlist : p'.CapturedNeutralBases = p.CapturedNeutralBases) (k : ID) (q' : Player)
    (h : mapGet (mapSet s.Players id p') k = some q') :
    ∃ q, mapGet s.Players k = some q ∧ PlayerSame q q' ∧
      q'.CapturedNeutralBases = q.CapturedNeutralBases := by
  rw [mapGet_mapSet] at h
  by_cases hk : k = id
  · subst hk
    simp only [if_true, Option.some.injEq] at h
    subst h
    exact ⟨p, hget, hsame, hlist⟩
  · simp only [hk, if_false] at h
    exact ⟨q', h, PlayerSame_refl _, rfl⟩

theorem StateInv_setPlayer (s : GameState) (id : ID) (p p' : Player) (hs : StateInv s)
    (hget : mapGet s.Players id = some p) (hsame : PlayerSame p p')
    (hlist : p'.CapturedNeutralBases = p.CapturedNeutralBases) :
    StateInv { s with Players := mapSet s.Players id p' } := by
  have hg := setPlayer_get s id p p' hget hsame hlist
  refine ⟨nodup_mapKeys_mapSet _ _ _ hs.keys, hs.pool, ?_, ?_, ?_, ?_, hs.neutrals, ?_, ?_⟩
  · intro k hk
    show mapGet (mapSet s.Players id p') k = none
    rw [mapGet_mapSet]
    have hne : k ≠ id := by
      intro h; subst h
      rw [hs.poolFree k hk] at hget; cases hget
    simp only [hne, if_false]
    exact hs.poolFree k hk
  · intro k q' hq'
    obtain ⟨q, h1, h2, _⟩ := hg k q' hq'
    show positionGet s.AvailablePositions q'.Base.Position = false
    rw [h2.2.2]
    exact hs.taken k q h1
  · intro k k' q' r' hq' hr' hpos
    obtain ⟨q, h1, h2, _⟩ := hg k q' hq'
    obtain ⟨r, h3, h4, _⟩ := hg k' r' hr'
    rw [h2.2.2, h4.2.2] at hpos
    exact hs.positions k k' q r h1 h3 hpos
  · intro k k' q' r' hq' hr' hptr
    obtain ⟨q, h1, h2, _⟩ := hg k q' hq'
    obtain ⟨r, h3, h4, _⟩ := hg k' r' hr'
    rw [h2.1, h4.1] at hptr
    exact hs.addresses k k' q r h1 h3 hptr
  · intro neutralPtr q hq
    obtain ⟨k, r, h1, h2⟩ := hs.owner neutralPtr q hq
    by_cases hk : k = id
    · subst hk
      rw [hget] at h1
      cases h1
      exact ⟨k, p', by show mapGet (mapSet s.Players k p') k = _; rw [mapGet_mapSet]; simp,
        hsame.1.trans h2⟩
    · exact ⟨k, r, by show mapGet (mapSet s.Players id p') k = _; rw [mapGet_mapSet]; simp [hk, h1],
        h2⟩
  · intro k q' hq'
    obtain ⟨q, h1, h2, h3⟩ := hg k q' hq'
    have := hs.lists k q h1
    rw [h3, h2.1]
    exact this

theorem StateInv_coreHit (closer : Root → Root → Bool) (s s' : GameState) (playerID otherID : ID)
    (unit : Game.Unit) (hs : StateInv s)
    (h : (StateCall.coreHit playerID otherID unit).run closer s = some s') : StateInv s' := by
  unfold StateCall.run at h
  cases hp : mapGet s.Players playerID with
  | none => simp only [hp] at h; cases h; exact hs
  | some player =>
    cases ho : mapGet s.Players otherID with
    | none => simp only [hp, ho] at h; cases h; exact hs
    | some otherPlayer =>
      simp only [hp, ho] at h
      by_cases hid : (playerID == otherID) = true
      · simp only [hid, if_true] at h; cases h; exact hs
      · simp only [hid, Bool.false_eq_true, if_false, Option.some.injEq] at h
        subst h
        have hne : otherID ≠ playerID := by
          intro h'; apply hid; simp [h']
        obtain ⟨⟨a1, a2⟩, ⟨b1, b2⟩⟩ := coreHitBody_same player otherPlayer unit
        have h1 := StateInv_setPlayer s playerID player _ hs hp a1 a2
        have ho' : mapGet (mapSet s.Players playerID (coreHitBody player otherPlayer unit).1)
            otherID = some otherPlayer := by
          rw [mapGet_mapSet]
          simp only [hne, if_false]
          exact ho
        exact StateInv_setPlayer _ otherID otherPlayer _ h1 ho' b1 b2

end Game

namespace Game

theorem findFirstAvailable_available (m : List (PositionInt × Bool)) (order : List PositionInt)
    (pos : PositionInt) (h : findFirstAvailable m order = some pos) : positionGet m pos = true := by
  induction order with
  | nil => simp [findFirstAvailable] at h
  | cons a rest ih =>
    unfold findFirstAvailable at h
    by_cases ha : positionGet m a = true
    · simp only [ha, if_true, Option.some.injEq] at h
      subst h
      exact ha
    · simp only [ha, Bool.false_eq_true, if_false] at h
      exact ih h

theorem nearestPlayerLoop_available (closer : Root → Root → Bool) (m : List (PositionInt × Bool))
    (pos : PositionInt) (hpos : positionGet m pos = true) (players : List (ID × Player)) :
    ∀ acc : Option Root × PositionInt, (acc.1.isSome = true → positionGet m acc.2 = true) →
      ((nearestPlayerLoop closer pos players acc).1.isSome = true →
        positionGet m (nearestPlayerLoop closer pos players acc).2 = true) := by
  induction players with
  | nil => intro acc h; exact h
  | cons e rest ih =>
    intro acc h
    unfold nearestPlayerLoop
    simp only
    apply ih
    split
    · intro _; exact hpos
    · exact h

theorem nearestPositionLoop_available (closer : Root → Root → Bool) (s : GameState)
    (order : List PositionInt) :
    ∀ acc : Option Root × PositionInt,
      (acc.1.isSome = true → positionGet s.AvailablePositions acc.2 = true) →
      ((nearestPositionLoop closer s order acc).1.isSome = true →
        positionGet s.AvailablePositions (nearestPositionLoop closer s order acc).2 = true) := by
  induction order with
  | nil => intro acc h; exact h
  | cons pos rest ih =>
    intro acc h
    unfold nearestPositionLoop
    by_cases hp : positionGet s.AvailablePositions pos = true
    · simp only [hp, if_true]
      exact ih _ (nearestPlayerLoop_available closer _ pos hp s.Players acc h)
    · simp only [hp, Bool.false_eq_true, if_false]
      exact ih _ h

/-- `FindFreePosition` either finds no position, returns the zero position and
leaves the state as it is, or returns a position that is marked available and
marks it unavailable. -/
theorem FindFreePosition_spec (closer : Root → Root → Bool) (order : List PositionInt)
    (s : GameState) :
    ((FindFreePosition closer order s).2 = ⟨0, 0⟩ ∧ (FindFreePosition closer order s).1 = s) ∨
    (positionGet s.AvailablePositions (FindFreePosition closer order s).2 = true ∧
      (FindFreePosition closer order s).1 =
        { s with AvailablePositions :=
            positionSet s.AvailablePositions (FindFreePosition closer order s).2 false }) := by
  unfold FindFreePosition
  by_cases hl : (s.Players.length == 0) = true
  · simp only [hl, if_true]
    cases hf : findFirstAvailable s.AvailablePositions order with
    | none => exact Or.inl ⟨rfl, rfl⟩
    | some pos => exact Or.inr ⟨findFirstAvailable_available _ _ _ hf, rfl⟩
  · simp only [hl, Bool.false_eq_true, if_false]
    have h := nearestPositionLoop_available closer s order (none, ⟨0, 0⟩) (by intro h; cases h)
    cases hn : nearestPositionLoop closer s order (none, ⟨0, 0⟩) with
    | mk minDistance nearestPosition =>
      rw [hn] at h
      cases minDistance with
      | none => exact Or.inl ⟨rfl, rfl⟩
      | some d => exact Or.inr ⟨h rfl, rfl⟩

theorem StateInv_markTaken (s : GameState) (pos : PositionInt) (hs : StateInv s) :
    StateInv { s with AvailablePositions := positionSet s.AvailablePositions pos false } := by
  refine ⟨hs.keys, hs.pool, hs.poolFree, ?_, hs.positions, hs.addresses, hs.neutrals, hs.owner,
    hs.lists⟩
  intro id p hp
  show positionGet (positionSet s.AvailablePositions pos false) p.Base.Position = false
  rw [positionGet_positionSet]
  by_cases h : p.Base.Position = pos
  · simp [h]
  · simp only [h, if_false]
    exact hs.taken id p hp

theorem StateInv_FindFreePosition (closer : Root → Root → Bool) (order : List PositionInt)
    (s : GameState) (hs : StateInv s) : StateInv (FindFreePosition closer order s).1 := by
  rcases FindFreePosition_spec closer order s with ⟨_, h⟩ | ⟨_, h⟩
  · rw [h]; exact hs
  · rw [h]; exact StateInv_markTaken s _ hs

theorem StateInv_AddPlayer (closer : Root → Root → Bool) (s : GameState)
    (conn permission ptr : Nat) (order : List PositionInt) (hs : StateInv s)
    (hfresh : ∀ id p, mapGet s.Players id = some p → p.Ptr ≠ ptr) :
    StateInv (AddPlayer closer s conn permission ptr order).1 ∧
    ∀ id p, mapGet (AddPlayer closer s conn permission ptr order).1.Players id = some p →
      p.Ptr = ptr ∨ mapGet s.Players id = some p := by
  unfold AddPlayer
  by_cases hc : s.Players.any (fun e => e.2.Conn == conn) = true
  · simp only [hc, if_true]
    exact ⟨hs, fun id p h => Or.inr h⟩
  simp only [hc, Bool.false_eq_true, if_false]
  have hspec := FindFreePosition_spec closer order s
  have hinv1 := StateInv_FindFreePosition closer order s hs
  have hplayers : (FindFreePosition closer order s).1.Players = s.Players := by
    rcases hspec with ⟨_, h⟩ | ⟨_, h⟩ <;> rw [h]
  have hneutrals : ∀ x, capturedByOf (FindFreePosition closer order s).1 x = capturedByOf s x := by
    intro x
    rcases hspec with ⟨_, h⟩ | ⟨_, h⟩ <;> rw [h]
    rfl
  generalize FindFreePosition closer order s = r at hspec hinv1 hplayers hneutrals
  obtain ⟨s1, position⟩ := r
  simp only at hspec hinv1 hplayers hneutrals ⊢
  by_cases hz : (position == (⟨0, 0⟩ : PositionInt)) = true
  · simp only [hz, if_true]
    exact ⟨hinv1, fun id p h => Or.inr (by rw [← hplayers]; exact h)⟩
  simp only [hz, Bool.false_eq_true, if_false]
  have hfound : positionGet s.AvailablePositions position = true ∧
      s1 = { s with AvailablePositions := positionSet s.AvailablePositions position false } := by
    rcases hspec with ⟨h0, _⟩ | h
    · exfalso; apply hz; rw [h0]; rfl
    · exact h
  cases hl : s1.availablePlayerIDs.IDs with
  | nil =>
    have : s1.availablePlayerIDs.getNextAvailableID = (s1.availablePlayerIDs, 0, false) := by
      simp [AvailableIDs.getNextAvailableID, hl]
    simp only [this]
    exact ⟨hinv1, fun id p h => Or.inr (by rw [← hplayers]; exact h)⟩
  | cons playerID rest =>
    have : s1.availablePlayerIDs.getNextAvailableID = (⟨rest⟩, playerID, true) := by
      simp [AvailableIDs.getNextAvailableID, hl]
    simp only [this]
    have hpool := hinv1.pool
    rw [hl] at hpool
    have hnone : mapGet s1.Players playerID = none :=
      hinv1.poolFree playerID (by rw [hl]; exact List.mem_cons_self _ _)
    have hget : ∀ (k : ID) (q : Player), mapGet (mapSet s1.Players playerID
        { newPlayer ptr permission playerID with
          Conn := conn
          Base := { (newPlayer ptr permission playerID).Base with Position := position } }) k
          = some q →
        (k = playerID ∧ q.Ptr = ptr ∧ q.Base.Position = position ∧ q.CapturedNeutralBases = []) ∨
        (k ≠ playerID ∧ mapGet s1.Players k = some q) := by
      intro k q h
      rw [mapGet_mapSet] at h
      by_cases hk : k = playerID
      · simp only [hk, if_true, Option.some.injEq] at h
        subst h
        exact Or.inl ⟨hk, rfl, rfl, rfl⟩
      · simp only [hk, if_false] at h
        exact Or.inr ⟨hk, h⟩
    have hold : ∀ k q, mapGet s1.Players k = some q →
        positionGet s.AvailablePositions q.Base.Position = false ∧ q.Ptr ≠ ptr := by
      intro k q h
      rw [hplayers] at h
      exact ⟨hs.taken k q h, hfresh k q h⟩
    refine ⟨⟨nodup_mapKeys_mapSet _ _ _ hinv1.keys, (List.nodup_cons.mp hpool).2, ?_, ?_, ?_, ?_,
      hinv1.neutrals, ?_, ?_⟩, ?_⟩
    · intro k hk
      show mapGet (mapSet s1.Players playerID _) k = none
      rw [mapGet_mapSet]
      have hne : k ≠ playerID := by
        intro h; subst h; exact (List.nodup_cons.mp hpool).1 hk
      simp only [hne, if_false]
      exact hinv1.poolFree k (by rw [hl]; exact List.mem_cons_of_mem _ hk)
    · intro k q hq
      rcases hget k q hq with ⟨_, _, h3, _⟩ | ⟨_, h2⟩
      · show positionGet s1.AvailablePositions q.Base.Position = false
        rw [h3, hfound.2]
        show positionGet (positionSet s.AvailablePositions position false) position = false
        rw [positionGet_positionSet]; simp
      · exact hinv1.taken k q h2
    · intro k k' q q' hq hq' hpos
      rcases hget k q hq with ⟨h1, _, h3, _⟩ | ⟨h1, h2⟩ <;>
        rcases hget k' q' hq' with ⟨h1', _, h3', _⟩ | ⟨h1', h2'⟩
      · rw [h1, h1']
      · exfalso
        have := (hold k' q' h2').1
        rw [← hpos, h3, hfound.1] at this
        cases this
      · exfalso
        have := (hold k q h2).1
        rw [hpos, h3', hfound.1] at this
        cases this
      · exact hinv1.positions k k' q q' h2 h2' hpos
    · intro k k' q q' hq hq' hptr
      rcases hget k q hq with ⟨h1, h3, _, _⟩ | ⟨h1, h2⟩ <;>
        rcases hget k' q' hq' with ⟨h1', h3', _, _⟩ | ⟨h1', h2'⟩
      · rw [h1, h1']
      · exact absurd (hptr.symm.trans h3) (hold k' q' h2').2
      · exact absurd (hptr.trans h3') (hold k q h2).2
      · exact hinv1.addresses k k' q q' h2 h2' hptr
    · intro neutralPtr q hq
      obtain ⟨k, r, h1, h2⟩ := hinv1.owner neutralPtr q hq
      refine ⟨k, r, ?_, h2⟩
      show mapGet (mapSet s1.Players playerID _) k = some r
      rw [mapGet_mapSet]
      have hne : k ≠ playerID := by
        intro h; subst h; rw [hnone] at h1; cases h1
      simp only [hne, if_false]
      exact h1
    · intro k q hq
      rcases hget k q hq with ⟨_, h2, _, h4⟩ | ⟨_, h2⟩
      · rw [h4, h2]
        refine ⟨List.nodup_nil, ?_⟩
        intro neutralPtr
        constructor
        · intro h; cases h
        · intro h
          exfalso
          obtain ⟨k', r, h5, h6⟩ := hinv1.owner neutralPtr ptr h
          exact (hold k' r h5).2 h6
      · exact hinv1.lists k q h2
    · intro k q hq
      rcases hget k q hq with ⟨_, h2, _, _⟩ | ⟨_, h2⟩
      · exact Or.inl h2
      · exact Or.inr (by rw [← hplayers]; exact h2)

end Game

namespace Game

/-- The state after the player `p` with the ID `id` has been removed. -/
theorem RemovePlayer_cases (s : GameState) (conn : Nat) (hs : StateInv s) :
    RemovePlayer s conn = (s, none) ∨
    ∃ id p, mapGet s.Players id = some p ∧ p.Conn = conn ∧
      RemovePlayer s conn =
        ({ Players := mapDelete s.Players id
           NeutralBases := s.NeutralBases.map
             (fun n => if p.CapturedNeutralBases.contains n.Ptr then
               decapture p.MarkForRemoval n else n)
           AvailablePositions := positionSet s.AvailablePositions p.Base.Position true
           availablePlayerIDs := s.availablePlayerIDs.returnID id }, some id) := by
  unfold RemovePlayer
  by_cases hc : (conn == 0) = true
  · simp only [hc, if_true]; exact Or.inl trivial
  simp only [hc, Bool.false_eq_true, if_false]
  cases hf : s.Players.find? (fun e => e.2.Conn == conn) with
  | none => exact Or.inl rfl
  | some e =>
    obtain ⟨id, p⟩ := e
    obtain ⟨h1, h2⟩ := mapGet_of_find s.Players _ id p hs.keys hf
    exact Or.inr ⟨id, p, h1, by simpa using h2, rfl⟩

theorem StateInv_removed (s : GameState) (id : ID) (p player : Player) (hs : StateInv s)
    (hget : mapGet s.Players id = some p) :
    StateInv
      { Players := mapDelete s.Players id
        NeutralBases := s.NeutralBases.map
          (fun n => if p.CapturedNeutralBases.contains n.Ptr then decapture player n else n)
        AvailablePositions := positionSet s.AvailablePositions p.Base.Position true
        availablePlayerIDs := s.availablePlayerIDs.returnID id } ∧
    ∀ neutralPtr q,
      capturedByOf
        { Players := mapDelete s.Players id
          NeutralBases := s.NeutralBases.map
            (fun n => if p.CapturedNeutralBases.contains n.Ptr then decapture player n else n)
          AvailablePositions := positionSet s.AvailablePositions p.Base.Position true
          availablePlayerIDs := s.availablePlayerIDs.returnID id } neutralPtr = some (some q) ↔
      (capturedByOf s neutralPtr = some (some q) ∧ q ≠ p.Ptr) := by
  have hkeep : ∀ n : StateNeutralBase,
      (if p.CapturedNeutralBases.contains n.Ptr then decapture player n else n).Ptr = n.Ptr := by
    intro n
    split <;> rfl
  have hcap : ∀ neutralPtr q,
      capturedByOf
        { Players := mapDelete s.Players id
          NeutralBases := s.NeutralBases.map
            (fun n => if p.CapturedNeutralBases.contains n.Ptr then decapture player n else n)
          AvailablePositions := positionSet s.AvailablePositions p.Base.Position true
          availablePlayerIDs := s.availablePlayerIDs.returnID id } neutralPtr = some (some q) ↔
      (capturedByOf s neutralPtr = some (some q) ∧ q ≠ p.Ptr) := by
    intro neutralPtr q
    rw [capturedByOf_map s _ hkeep]
    have hl := (hs.lists id p hget).2 neutralPtr
    unfold capturedByOf at hl ⊢
    cases hf : s.NeutralBases.find? (fun n => n.Ptr == neutralPtr) with
    | none => simp
    | some n =>
      have hn : n.Ptr = neutralPtr := by simpa using List.find?_some hf
      rw [hf] at hl
      simp only [Option.map_some', Option.some.injEq] at hl ⊢
      by_cases hm : neutralPtr ∈ p.CapturedNeutralBases
      · have hc : p.CapturedNeutralBases.contains n.Ptr = true := by rw [hn]; simpa using hm
        have hcb := hl.mp hm
        simp only [hc, if_true, decapture]
        constructor
        · intro h; cases h
        · intro ⟨h1, h2⟩
          rw [hcb] at h1
          exact absurd (Option.some.inj h1).symm h2
      · have hc : ¬ p.CapturedNeutralBases.contains n.Ptr = true := by rw [hn]; simpa using hm
        simp only [hc, if_false]
        constructor
        · intro h
          refine ⟨h, ?_⟩
          intro hq
          subst hq
          exact hm (hl.mpr h)
        · intro ⟨h1, _⟩; exact h1
  refine ⟨⟨nodup_mapKeys_mapDelete _ _ hs.keys, ?_, ?_, ?_, ?_, ?_, ?_, ?_, ?_⟩, hcap⟩
  · show (s.availablePlayerIDs.IDs ++ [id]).Nodup
    refine List.Nodup.append hs.pool (List.nodup_singleton _) ?_
    intro k hk hk'
    have : k = id := by simpa using hk'
    subst this
    rw [hs.poolFree k hk] at hget
    cases hget
  · intro k hk
    show mapGet (mapDelete s.Players id) k = none
    rw [mapGet_mapDelete]
    by_cases h : k = id
    · simp [h]
    · simp only [h, if_false]
      have : k ∈ s.availablePlayerIDs.IDs ++ [id] := hk
      rcases List.mem_append.mp this with h1 | h1
      · exact hs.poolFree k h1
      · exact absurd (by simpa using h1) h
  · intro k q hq
    have hq' : mapGet (mapDelete s.Players id) k = some q := hq
    rw [mapGet_mapDelete] at hq'
    by_cases h : k = id
    · simp [h] at hq'
    · simp only [h, if_false] at hq'
      show positionGet (positionSet s.AvailablePositions p.Base.Position true) q.Base.Position
        = false
      rw [positionGet_positionSet]
      have hne : q.Base.Position ≠ p.Base.Position := by
        intro hp
        exact h (hs.positions k id q p hq' hget hp)
      simp only [hne, if_false]
      exact hs.taken k q hq'
  · intro k k' q q' hq hq' hpos
    have h1 : mapGet (mapDelete s.Players id) k = some q := hq
    have h2 : mapGet (mapDelete s.Players id) k' = some q' := hq'
    rw [mapGet_mapDelete] at h1 h2
    by_cases h : k = id
    · simp [h] at h1
    by_cases h' : k' = id
    · simp [h'] at h2
    simp only [h, h', if_false] at h1 h2
    exact hs.positions k k' q q' h1 h2 hpos
  · intro k k' q q' hq hq' hptr
    have h1 : mapGet (mapDelete s.Players id) k = some q := hq
    have h2 : mapGet (mapDelete s.Players id) k' = some q' := hq'
    rw [mapGet_mapDelete] at h1 h2
    by_cases h : k = id
    · simp [h] at h1
    by_cases h' : k' = id
    · simp [h'] at h2
    simp only [h, h', if_false] at h1 h2
    exact hs.addresses k k' q q' h1 h2 hptr
  · show ((s.NeutralBases.map _).map (fun n : StateNeutralBase => n.Ptr)).Nodup
    rw [List.map_map]
    have : ((fun n : StateNeutralBase => n.Ptr) ∘
        (fun n : StateNeutralBase =>
          if p.CapturedNeutralBases.contains n.Ptr then decapture player n else n)) =
        (fun n : StateNeutralBase => n.Ptr) := by
      funext n
      exact hkeep n
    rw [this]
    exact hs.neutrals
  · intro neutralPtr q hq
    obtain ⟨h1, h2⟩ := (hcap neutralPtr q).mp hq
    obtain ⟨k, r, h3, h4⟩ := hs.owner neutralPtr q h1
    refine ⟨k, r, ?_, h4⟩
    show mapGet (mapDelete s.Players id) k = some r
    rw [mapGet_mapDelete]
    have hne : k ≠ id := by
      intro h
      subst h
      rw [hget] at h3
      cases h3
      exact h2 h4.symm
    simp only [hne, if_false]
    exact h3
  · intro k q hq
    have h1 : mapGet (mapDelete s.Players id) k = some q := hq
    rw [mapGet_mapDelete] at h1
    by_cases h : k = id
    · simp [h] at h1
    simp only [h, if_false] at h1
    refine ⟨(hs.lists k q h1).1, ?_⟩
    intro neutralPtr
    rw [(hs.lists k q h1).2 neutralPtr, hcap neutralPtr q.Ptr]
    constructor
    · intro hh
      refine ⟨hh, ?_⟩
      intro hp
      exact h (hs.addresses k id q p h1 hget hp)
    · intro hh; exact hh.1

theorem StateInv_RemovePlayer (s : GameState) (conn : Nat) (hs : StateInv s) :
    StateInv (RemovePlayer s conn).1 ∧
    (∀ id p, mapGet (RemovePlayer s conn).1.Players id = some p → mapGet s.Players id = some p) := by
  rcases RemovePlayer_cases s conn hs with h | ⟨id, p, hget, _, h⟩
  · rw [h]; exact ⟨hs, fun _ _ h => h⟩
  · rw [h]
    refine ⟨(StateInv_removed s id p p.MarkForRemoval hs hget).1, ?_⟩
    intro k q hq
    have h1 : mapGet (mapDelete s.Players id) k = some q := hq
    rw [mapGet_mapDelete] at h1
    by_cases hk : k = id
    · simp [hk] at h1
    · simpa [hk] using h1

end Game

namespace Game

/-- The invariant after a capture, from what the capture does to the players
and to the neutral base. -/
theorem StateInv_captured (s : GameState) (playerID : ID) (p : Player) (n n' : StateNeutralBase)
    (players : List (ID × Player)) (hs : StateInv s)
    (hp : mapGet s.Players playerID = some p)
    (hn : s.NeutralBases.find? (fun x => x.Ptr == n.Ptr) = some n)
    (hnot : n.CapturedBy ≠ some p.Ptr)
    (hptr : n'.Ptr = n.Ptr) (hby : n'.CapturedBy = some p.Ptr)
    (hkeys : (mapKeys players).Nodup)
    (h1 : ∀ k r', mapGet players k = some r' →
      ∃ r, mapGet s.Players k = some r ∧ PlayerSame r r' ∧
        r'.CapturedNeutralBases =
          if k = playerID then r.CapturedNeutralBases ++ [n.Ptr]
          else r.CapturedNeutralBases.erase n.Ptr)
    (h2 : ∀ k r, mapGet s.Players k = some r → ∃ r', mapGet players k = some r') :
    StateInv (setNeutral { s with Players := players } n') := by
  have hcap : ∀ x, capturedByOf (setNeutral { s with Players := players } n') x =
      if x = n.Ptr then some (some p.Ptr) else capturedByOf s x := by
    intro x
    rw [capturedByOf_setNeutral { s with Players := players } n n' hn hptr x, hby]
    rfl
  have hold : capturedByOf s n.Ptr = some n.CapturedBy := (capturedByOf_of_find s n.Ptr n hn).2
  have hnone : ∀ k, mapGet s.Players k = none → mapGet players k = none := by
    intro k hk
    cases hg : mapGet players k with
    | none => rfl
    | some r' =>
      obtain ⟨r, hr, _⟩ := h1 k r' hg
      rw [hk] at hr
      cases hr
  refine ⟨hkeys, hs.pool, fun k hk => hnone k (hs.poolFree k hk), ?_, ?_, ?_, ?_, ?_, ?_⟩
  · intro k r' hr'
    obtain ⟨r, hr, hsame, _⟩ := h1 k r' hr'
    show positionGet s.AvailablePositions r'.Base.Position = false
    rw [hsame.2.2]
    exact hs.taken k r hr
  · intro k k' q' r' hq' hr' hpos
    obtain ⟨q, hq, hsq, _⟩ := h1 k q' hq'
    obtain ⟨r, hr, hsr, _⟩ := h1 k' r' hr'
    rw [hsq.2.2, hsr.2.2] at hpos
    exact hs.positions k k' q r hq hr hpos
  · intro k k' q' r' hq' hr' hpt
    obtain ⟨q, hq, hsq, _⟩ := h1 k q' hq'
    obtain ⟨r, hr, hsr, _⟩ := h1 k' r' hr'
    rw [hsq.1, hsr.1] at hpt
    exact hs.addresses k k' q r hq hr hpt
  · show ((s.NeutralBases.map _).map (fun x : StateNeutralBase => x.Ptr)).Nodup
    rw [List.map_map]
    have : ((fun x : StateNeutralBase => x.Ptr) ∘
        (fun x : StateNeutralBase => if (x.Ptr == n'.Ptr) = true then n' else x)) =
        (fun x : StateNeutralBase => x.Ptr) := by
      funext x
      show (if (x.Ptr == n'.Ptr) = true then n' else x).Ptr = x.Ptr
      by_cases hx : (x.Ptr == n'.Ptr) = true
      · simp only [hx, if_true]
        exact (by simpa using hx : x.Ptr = n'.Ptr).symm
      · simp only [hx, Bool.false_eq_true, if_false]
    rw [this]
    exact hs.neutrals
  · intro x q hq
    rw [hcap] at hq
    by_cases hx : x = n.Ptr
    · simp only [hx, if_true, Option.some.injEq] at hq
      obtain ⟨p', hp'⟩ := h2 playerID p hp
      obtain ⟨r, hr, hsame, _⟩ := h1 playerID p' hp'
      rw [hp] at hr
      cases hr
      exact ⟨playerID, p', hp', hsame.1.trans hq⟩
    · simp only [hx, if_false] at hq
      obtain ⟨k, r, hr, hrq⟩ := hs.owner x q hq
      obtain ⟨r', hr'⟩ := h2 k r hr
      obtain ⟨r0, hr0, hsame, _⟩ := h1 k r' hr'
      rw [hr] at hr0
      cases hr0
      exact ⟨k, r', hr', hsame.1.trans hrq⟩
  · intro k r' hr'
    obtain ⟨r, hr, hsame, hlist⟩ := h1 k r' hr'
    obtain ⟨hnd, hmem⟩ := hs.lists k r hr
    rw [hlist, hsame.1]
    by_cases hk : k = playerID
    · subst hk
      rw [hp] at hr
      cases hr
      simp only [if_true]
      have hnotin : n.Ptr ∉ p.CapturedNeutralBases := by
        intro hin
        have := (hmem n.Ptr).mp hin
        rw [hold] at this
        exact hnot (Option.some.inj this)
      refine ⟨?_, ?_⟩
      · exact List.Nodup.append hnd (List.nodup_singleton _)
          (by intro a ha ha'; have : a = n.Ptr := by simpa using ha'
              subst this; exact hnotin ha)
      · intro x
        rw [hcap, List.mem_append, hmem x]
        by_cases hx : x = n.Ptr
        · simp [hx]
        · simp [hx]
    · simp only [hk, if_false]
      refine ⟨hnd.erase _, ?_⟩
      intro x
      rw [hnd.mem_erase_iff, hcap, hmem x]
      by_cases hx : x = n.Ptr
      · simp only [hx, ne_eq, not_true_eq_false, false_and, if_true, Option.some.injEq, false_iff]
        intro hpr
        exact hk (hs.addresses k playerID r p hr hp hpr.symm)
      · simp [hx]

end Game

namespace Game

theorem StateInv_capture (closer : Root → Root → Bool) (s : GameState) (playerID : ID)
    (neutralPtr wallPtr : Nat) (hs : StateInv s) :
    ∃ s', (StateCall.capture playerID neutralPtr wallPtr).run closer s = some s' ∧ StateInv s' ∧
      (∀ id q', mapGet s'.Players id = some q' →
        ∃ q, mapGet s.Players id = some q ∧ q.Ptr = q'.Ptr) ∧
      s'.AvailablePositions = s.AvailablePositions := by
  have hself : ∀ id q', mapGet s.Players id = some q' →
      ∃ q, mapGet s.Players id = some q ∧ q.Ptr = q'.Ptr := fun id q' h => ⟨q', h, rfl⟩
  cases hp : mapGet s.Players playerID with
  | none => exact ⟨s, by simp only [StateCall.run, hp], hs, hself, rfl⟩
  | some p =>
    cases hn : s.NeutralBases.find? (fun n => n.Ptr == neutralPtr) with
    | none => exact ⟨s, by simp only [StateCall.run, hp, hn], hs, hself, rfl⟩
    | some n =>
      simp only [StateCall.run, hp, hn]
      by_cases hg : (n.CapturedBy == some p.Ptr) = true
      · simp only [hg, if_true]
        exact ⟨s, rfl, hs, hself, rfl⟩
      simp only [hg, Bool.false_eq_true, if_false]
      have hnot : n.CapturedBy ≠ some p.Ptr := by simpa using hg
      have hnp : n.Ptr = neutralPtr := by simpa using List.find?_some hn
      have hn' : s.NeutralBases.find? (fun x => x.Ptr == n.Ptr) = some n := by rw [hnp]; exact hn
      have hold : capturedByOf s n.Ptr = some n.CapturedBy := (capturedByOf_of_find s n.Ptr n hn').2
      unfold handleNeutralBaseCapturedIn
      simp only [hp, hn]
      by_cases hb : (n.CapturedBy == none || n.CapturedBy == some p.Ptr) = true
      · simp only [hb, if_true]
        have hnone : n.CapturedBy = none := by
          simp only [Bool.or_eq_true, beq_iff_eq] at hb
          rcases hb with h | h
          · exact h
          · exact absurd h hnot
        have hw := handleNeutralBaseCaptured_same { player := p, neutral := n.inWorld } wallPtr
          (by show n.CapturedBy.isSome = false; rw [hnone]; rfl)
        have hget : ∀ k r', mapGet (mapSet s.Players playerID
            (handleNeutralBaseCaptured { player := p, neutral := n.inWorld } wallPtr).player) k
              = some r' →
            ∃ r, mapGet s.Players k = some r ∧ PlayerSame r r' ∧
              r'.CapturedNeutralBases =
                if k = playerID then r.CapturedNeutralBases ++ [n.Ptr]
                else r.CapturedNeutralBases.erase n.Ptr := by
          intro k r' hr'
          rw [mapGet_mapSet] at hr'
          by_cases hk : k = playerID
          · simp only [hk, if_true, Option.some.injEq] at hr' ⊢
            subst hr'
            exact ⟨p, hp, hw.1, hw.2⟩
          · simp only [hk, if_false] at hr' ⊢
            refine ⟨r', hr', PlayerSame_refl _, ?_⟩
            have : n.Ptr ∉ r'.CapturedNeutralBases := by
              intro hin
              have := ((hs.lists k r' hr').2 n.Ptr).mp hin
              rw [hold, hnone] at this
              cases this
            exact (List.erase_of_not_mem this).symm
        refine ⟨_, rfl, ?_, ?_, rfl⟩
        · exact StateInv_captured s playerID p n _ _ hs hp hn' hnot rfl rfl
            (nodup_mapKeys_mapSet _ _ _ hs.keys) hget
            (by intro k r hr
                rw [mapGet_mapSet]
                by_cases hk : k = playerID
                · exact ⟨_, by rw [if_pos hk]⟩
                · exact ⟨r, by rw [if_neg hk]; exact hr⟩)
        · intro k r' hr'
          obtain ⟨r, h1, h2, _⟩ := hget k r' hr'
          exact ⟨r, h1, h2.1.symm⟩
      · simp only [hb, Bool.false_eq_true, if_false]
        obtain ⟨q0, hq0⟩ : ∃ q0, n.CapturedBy = some q0 := by
          cases hc : n.CapturedBy with
          | none => rw [hc] at hb; simp at hb
          | some q0 => exact ⟨q0, rfl⟩
        obtain ⟨ko, ro, hro, hroq⟩ := hs.owner n.Ptr q0 (by rw [hold, hq0])
        obtain ⟨e, he⟩ := find_isSome_of_mapGet s.Players
          (fun e => some e.2.Ptr == n.CapturedBy) ko ro hro (by simp [hroq, hq0])
        obtain ⟨ownerID, q⟩ := e
        obtain ⟨hq, hqp⟩ := mapGet_of_find s.Players _ ownerID q hs.keys he
        have hqptr : q.Ptr = q0 := by
          rw [hq0] at hqp
          simpa using hqp
        simp only [he]
        have hne : ownerID ≠ playerID := by
          intro h
          subst h
          rw [hp] at hq
          cases hq
          exact hnot (by rw [hq0, hqptr])
        have hrem := RemoveCapturedNeutralBase_same q n.Ptr n.Base.Buildings
        have hcapt := Captured_same
          (({ player := q, neutral := n.inWorld } : World).modifyPlayer
            (fun p => p.RemoveCapturedNeutralBase n.Ptr n.Base.Buildings)) true wallPtr
        have hget : ∀ k r', mapGet (mapSet (mapSet s.Players ownerID
            (NeutralBase.Captured
              (({ player := q, neutral := n.inWorld } : World).modifyPlayer
                (fun p => p.RemoveCapturedNeutralBase n.Ptr n.Base.Buildings)) true
              wallPtr).player) playerID (p.AddCapturedNeutralBase n.Ptr)) k = some r' →
            ∃ r, mapGet s.Players k = some r ∧ PlayerSame r r' ∧
              r'.CapturedNeutralBases =
                if k = playerID then r.CapturedNeutralBases ++ [n.Ptr]
                else r.CapturedNeutralBases.erase n.Ptr := by
          intro k r' hr'
          rw [mapGet_mapSet, mapGet_mapSet] at hr'
          by_cases hk : k = playerID
          · simp only [hk, if_true, Option.some.injEq] at hr' ⊢
            subst hr'
            exact ⟨p, hp, ⟨rfl, rfl, rfl⟩, rfl⟩
          · simp only [hk, if_false] at hr' ⊢
            by_cases hko : k = ownerID
            · simp only [hko, if_true, Option.some.injEq] at hr'
              subst hr'
              refine ⟨q, by rw [hko]; exact hq, PlayerSame_trans hrem.1 hcapt.1, ?_⟩
              rw [hcapt.2.1]
              exact hrem.2
            · simp only [hko, if_false] at hr'
              refine ⟨r', hr', PlayerSame_refl _, ?_⟩
              have : n.Ptr ∉ r'.CapturedNeutralBases := by
                intro hin
                have := ((hs.lists k r' hr').2 n.Ptr).mp hin
                rw [hold, hq0, ← hqptr] at this
                have hpp : q.Ptr = r'.Ptr := Option.some.inj (Option.some.inj this)
                exact hko (hs.addresses k ownerID r' q hr' hq hpp.symm)
              exact (List.erase_of_not_mem this).symm
        refine ⟨_, rfl, ?_, ?_, rfl⟩
        · exact StateInv_captured s playerID p n _ _ hs hp hn' hnot rfl rfl
            (nodup_mapKeys_mapSet _ _ _ (nodup_mapKeys_mapSet _ _ _ hs.keys)) hget
            (by intro k r hr
                show ∃ r', mapGet (mapSet (mapSet s.Players ownerID _) playerID _) k = some r'
                rw [mapGet_mapSet, mapGet_mapSet]
                by_cases hk : k = playerID
                · exact ⟨_, by rw [if_pos hk]⟩
                · by_cases hko : k = ownerID
                  · exact ⟨_, by rw [if_neg hk, if_pos hko]⟩
                  · exact ⟨r, by rw [if_neg hk, if_neg hko]; exact hr⟩)
        · intro k r' hr'
          obtain ⟨r, h1, h2, _⟩ := hget k r' hr'
          exact ⟨r, h1, h2.1.symm⟩

end Game

namespace Game

theorem coreHit_players (closer : Root → Root → Bool) (s s' : GameState) (playerID otherID : ID)
    (unit : Game.Unit)
    (h : (StateCall.coreHit playerID otherID unit).run closer s = some s') :
    (∀ id q', mapGet s'.Players id = some q' →
      ∃ q, mapGet s.Players id = some q ∧ q.Ptr = q'.Ptr) ∧
    s'.AvailablePositions = s.AvailablePositions := by
  have hself : ∀ id q', mapGet s.Players id = some q' →
      ∃ q, mapGet s.Players id = some q ∧ q.Ptr = q'.Ptr := fun id q' h => ⟨q', h, rfl⟩
  cases hp : mapGet s.Players playerID with
  | none => simp only [StateCall.run, hp] at h; cases h; exact ⟨hself, rfl⟩
  | some player =>
    cases ho : mapGet s.Players otherID with
    | none => simp only [StateCall.run, hp, ho] at h; cases h; exact ⟨hself, rfl⟩
    | some otherPlayer =>
      simp only [StateCall.run, hp, ho] at h
      by_cases hid : (playerID == otherID) = true
      · simp only [hid, if_true] at h; cases h; exact ⟨hself, rfl⟩
      · simp only [hid, Bool.false_eq_true, if_false, Option.some.injEq] at h
        subst h
        refine ⟨?_, rfl⟩
        intro k q' hq'
        have hq2 : mapGet (mapSet (mapSet s.Players playerID
            (coreHitBody player otherPlayer unit).1) otherID
            (coreHitBody player otherPlayer unit).2.1) k = some q' := hq'
        obtain ⟨⟨a1, _⟩, ⟨b1, _⟩⟩ := coreHitBody_same player otherPlayer unit
        rw [mapGet_mapSet, mapGet_mapSet] at hq2
        by_cases hk : k = otherID
        · simp only [hk, if_true, Option.some.injEq] at hq2
          subst hq2
          exact ⟨otherPlayer, by rw [hk]; exact ho, b1.1.symm⟩
        · simp only [hk, if_false] at hq2
          by_cases hk' : k = playerID
          · simp only [hk', if_true, Option.some.injEq] at hq2
            subst hq2
            exact ⟨player, by rw [hk']; exact hp, a1.1.symm⟩
          · simp only [hk', if_false] at hq2
            exact ⟨q', hq2, rfl⟩

/-- Every step from a state that satisfies the invariant yields a state that
satisfies it, and every player of the new state is a player of the old state
or the player allocated by the step. -/
theorem StateCall_run_inv (closer : Root → Root → Bool) (s : GameState) (call : StateCall)
    (hs : StateInv s)
    (hfresh : ∀ ptr ∈ newPlayerPtrs [call], ∀ id p, mapGet s.Players id = some p → p.Ptr ≠ ptr) :
    ∃ s', call.run closer s = some s' ∧ StateInv s' ∧
      ∀ id q', mapGet s'.Players id = some q' →
        q'.Ptr ∈ newPlayerPtrs [call] ∨ ∃ q, mapGet s.Players id = some q ∧ q.Ptr = q'.Ptr := by
  cases call with
  | add conn permission ptr order =>
    obtain ⟨h1, h2⟩ := StateInv_AddPlayer closer s conn permission ptr order hs
      (hfresh ptr (by simp [newPlayerPtrs]))
    refine ⟨_, rfl, h1, ?_⟩
    intro id q' hq'
    rcases h2 id q' hq' with h | h
    · exact Or.inl (by simp [newPlayerPtrs, h])
    · exact Or.inr ⟨q', h, rfl⟩
  | remove conn =>
    obtain ⟨h1, h2⟩ := StateInv_RemovePlayer s conn hs
    exact ⟨_, rfl, h1, fun id q' hq' => Or.inr ⟨q', h2 id q' hq', rfl⟩⟩
  | capture playerID neutralPtr wallPtr =>
    obtain ⟨s', h1, h2, h3, _⟩ := StateInv_capture closer s playerID neutralPtr wallPtr hs
    exact ⟨s', h1, h2, fun id q' hq' => Or.inr (h3 id q' hq')⟩
  | coreHit playerID otherID unit =>
    cases hr : (StateCall.coreHit playerID otherID unit).run closer s with
    | none =>
      exfalso
      simp only [StateCall.run] at hr
      split at hr
      · split at hr <;> cases hr
      · cases hr
    | some s' =>
      exact ⟨s', rfl, StateInv_coreHit closer s s' playerID otherID unit hs hr,
        fun id q' hq' => Or.inr ((coreHit_players closer s s' playerID otherID unit hr).1 id q' hq')⟩

theorem newPlayerPtrs_cons (call : StateCall) (rest : List StateCall) :
    newPlayerPtrs (call :: rest) = newPlayerPtrs [call] ++ newPlayerPtrs rest := by
  cases call <;> simp [newPlayerPtrs]

theorem runStateCalls_inv (closer : Root → Root → Bool) (calls : List StateCall) :
    ∀ s : GameState, StateInv s → (newPlayerPtrs calls).Nodup →
      (∀ ptr ∈ newPlayerPtrs calls, ∀ id p, mapGet s.Players id = some p → p.Ptr ≠ ptr) →
      ∃ s', runStateCalls closer s calls = some s' ∧ StateInv s' := by
  induction calls with
  | nil => intro s hs _ _; exact ⟨s, rfl, hs⟩
  | cons call rest ih =>
    intro s hs hnd hfresh
    rw [newPlayerPtrs_cons] at hnd hfresh
    obtain ⟨s1, h1, h2, h3⟩ := StateCall_run_inv closer s call hs
      (fun ptr hptr => hfresh ptr (List.mem_append_left _ hptr))
    obtain ⟨s', h4, h5⟩ := ih s1 h2 (List.Nodup.of_append_right hnd) (by
      intro ptr hptr id q' hq'
      rcases h3 id q' hq' with h | ⟨q, hq, hqp⟩
      · intro heq
        rw [heq] at h
        exact (List.nodup_append.mp hnd).2.2 h hptr
      · rw [← hqp]
        exact hfresh ptr (List.mem_append_right _ hptr) id q hq)
    refine ⟨s', ?_, h5⟩
    simp only [runStateCalls, h1]
    exact h4

set_option maxRecDepth 100000 in
theorem InitAvailableIDs_64_nodup : (InitAvailableIDs 64).IDs.Nodup := by
  decide

theorem StateInv_startState (positions : List PositionInt) (neutrals : List (Nat × ID))
    (hn : (neutrals.map (fun n => n.1)).Nodup) : StateInv (startState positions neutrals) := by
  have hall : ∀ n ∈ (startState positions neutrals).NeutralBases, n.CapturedBy = none := by
    intro n hm
    obtain ⟨e, _, rfl⟩ := List.mem_map.mp hm
    rfl
  have hcap : ∀ x q, capturedByOf (startState positions neutrals) x ≠ some (some q) := by
    intro x q h
    unfold capturedByOf at h
    cases hf : List.find? (fun n : StateNeutralBase => n.Ptr == x)
        (startState positions neutrals).NeutralBases with
    | none => rw [hf] at h; cases h
    | some n =>
      rw [hf] at h
      have hm := hall n (List.mem_of_find?_eq_some hf)
      simp only [Option.map_some', Option.some.injEq] at h
      rw [hm] at h
      cases h
  refine ⟨List.nodup_nil, InitAvailableIDs_64_nodup, fun _ _ => rfl, ?_, ?_, ?_, ?_, ?_, ?_⟩
  · intro id p h; cases h
  · intro id id' p p' h; cases h
  · intro id id' p p' h; cases h
  · show ((neutrals.map _).map (fun n : StateNeutralBase => n.Ptr)).Nodup
    rw [List.map_map]
    exact hn
  · intro x q h; exact absurd h (hcap x q)
  · intro id p h; cases h

theorem capturedByOf_of_mem (s : GameState) (hn : (s.NeutralBases.map (fun n => n.Ptr)).Nodup)
    (n : StateNeutralBase) (h : n ∈ s.NeutralBases) :
    capturedByOf s n.Ptr = some n.CapturedBy := by
  unfold capturedByOf
  generalize s.NeutralBases = l at hn h
  induction l with
  | nil => cases h
  | cons a rest ih =>
    simp only [List.map_cons, List.nodup_cons] at hn
    rcases List.mem_cons.mp h with h1 | h1
    · subst h1
      simp [List.find?_cons]
    · have hne : a.Ptr ≠ n.Ptr := by
        intro heq
        apply hn.1
        rw [heq]
        exact List.mem_map_of_mem (fun n => n.Ptr) h1
      have : (a.Ptr == n.Ptr) = false := by simpa using hne
      simp only [List.find?_cons, this]
      exact ih hn.2 h1

end Game

namespace Game

theorem capturedByOf_iff_mem (s : GameState)
    (hn : (s.NeutralBases.map (fun n => n.Ptr)).Nodup) (x : Nat) (c : Option Nat) :
    capturedByOf s x = some c ↔ ∃ n ∈ s.NeutralBases, n.Ptr = x ∧ n.CapturedBy = c := by
  constructor
  · intro h
    unfold capturedByOf at h
    cases hf : List.find? (fun n : StateNeutralBase => n.Ptr == x) s.NeutralBases with
    | none => rw [hf] at h; cases h
    | some n =>
      rw [hf] at h
      simp only [Option.map_some', Option.some.injEq] at h
      have hx := List.find?_some hf
      exact ⟨n, List.mem_of_find?_eq_some hf, by simpa using hx, h⟩
  · rintro ⟨n, hm, rfl, rfl⟩
    exact capturedByOf_of_mem s hn n hm

theorem AddPlayer_positions (closer : Root → Root → Bool) (s : GameState)
    (conn permission ptr : Nat) (order : List PositionInt) :
    (AddPlayer closer s conn permission ptr order).1.AvailablePositions = s.AvailablePositions ∨
    ∃ pos, (AddPlayer closer s conn permission ptr order).1.AvailablePositions =
      positionSet s.AvailablePositions pos false := by
  unfold AddPlayer
  by_cases hc : s.Players.any (fun e => e.2.Conn == conn) = true
  · simp only [hc, if_true]
    exact Or.inl trivial
  simp only [hc, Bool.false_eq_true, if_false]
  have hspec := FindFreePosition_spec closer order s
  have hpos : (FindFreePosition closer order s).1.AvailablePositions = s.AvailablePositions ∨
      ∃ pos, (FindFreePosition closer order s).1.AvailablePositions =
        positionSet s.AvailablePositions pos false := by
    rcases hspec with ⟨_, h⟩ | ⟨_, h⟩
    · rw [h]; exact Or.inl rfl
    · rw [h]; exact Or.inr ⟨_, rfl⟩
  generalize FindFreePosition closer order s = r at hpos
  obtain ⟨s1, position⟩ := r
  simp only at hpos ⊢
  by_cases hz : (position == (⟨0, 0⟩ : PositionInt)) = true
  · simp only [hz, if_true]
    exact hpos
  simp only [hz, Bool.false_eq_true, if_false]
  cases hl : s1.availablePlayerIDs.IDs with
  | nil =>
    have : s1.availablePlayerIDs.getNextAvailableID = (s1.availablePlayerIDs, 0, false) := by
      simp [AvailableIDs.getNextAvailableID, hl]
    simp only [this]
    exact hpos
  | cons playerID rest =>
    have : s1.availablePlayerIDs.getNextAvailableID = (⟨rest⟩, playerID, true) := by
      simp [AvailableIDs.getNextAvailableID, hl]
    simp only [this]
    exact hpos

/-- A step makes a position available only by removing the player on it. -/
theorem available_only_by_remove (closer : Root → Root → Bool) (s s1 : GameState)
    (hs : StateInv s) (call : StateCall) (pos : PositionInt)
    (hrun : call.run closer s = some s1)
    (hbefore : positionGet s.AvailablePositions pos = false)
    (hafter : positionGet s1.AvailablePositions pos = true) :
    ∃ conn id p, call = .remove conn ∧ mapGet s.Players id = some p ∧ p.Conn = conn ∧
      p.Base.Position = pos ∧ mapGet s1.Players id = none := by
  cases call with
  | add conn permission ptr order =>
    exfalso
    simp only [StateCall.run, Option.some.injEq] at hrun
    subst hrun
    rcases AddPlayer_positions closer s conn permission ptr order with h | ⟨x, h⟩
    · rw [h, hbefore] at hafter; cases hafter
    · rw [h, positionGet_positionSet] at hafter
      by_cases hx : pos = x
      · simp [hx] at hafter
      · simp only [hx, if_false] at hafter
        rw [hbefore] at hafter; cases hafter
  | remove conn =>
    simp only [StateCall.run, Option.some.injEq] at hrun
    subst hrun
    rcases RemovePlayer_cases s conn hs with h | ⟨id, p, hget, hconn, h⟩
    · exfalso
      rw [h] at hafter
      rw [hbefore] at hafter; cases hafter
    · refine ⟨conn, id, p, rfl, hget, hconn, ?_, ?_⟩
      · rw [h] at hafter
        simp only at hafter
        rw [positionGet_positionSet] at hafter
        by_cases hx : pos = p.Base.Position
        · exact hx.symm
        · simp only [hx, if_false] at hafter
          rw [hbefore] at hafter; cases hafter
      · rw [h]
        show mapGet (mapDelete s.Players id) id = none
        rw [mapGet_mapDelete]
        simp
  | capture playerID neutralPtr wallPtr =>
    exfalso
    obtain ⟨s', h1, _, _, h4⟩ := StateInv_capture closer s playerID neutralPtr wallPtr hs
    rw [h1] at hrun
    cases hrun
    rw [h4, hbefore] at hafter; cases hafter
  | coreHit playerID otherID unit =>
    exfalso
    rw [(coreHit_players closer s s1 playerID otherID unit hrun).2, hbefore] at hafter
    cases hafter

theorem runStateCalls_start_inv (closer : Root → Root → Bool) (positions : List PositionInt)
    (neutrals : List (Nat × ID)) (calls : List StateCall)
    (hn : (neutrals.map (fun n => n.1)).Nodup) (hp : (newPlayerPtrs calls).Nodup) :
    ∃ s, runStateCalls closer (startState positions neutrals) calls = some s ∧ StateInv s :=
  runStateCalls_inv closer calls _ (StateInv_startState positions neutrals hn) hp
    (fun _ _ _ _ h => by cases h)

/-- Claim C39: from the state after `Start`, with distinct neutral base objects,
every sequence of `AddPlayer`, `RemovePlayer`, captures and core hits in which
each `AddPlayer` allocates a new player object ends in a state `s` with these
properties.  Two players under different IDs do not have the same base
position.  `FindFreePosition` on `s` returns the zero position and leaves the
state as it is, the result for which `AddPlayer` places no player, or it returns
a position that is marked available in `s` and is marked unavailable in the
state it leaves.  And a step from `s` after which a position that was not
available in `s` is available is a `RemovePlayer` that removes a player of `s`
whose base was at this position. -/
theorem C39_positions_distinct (closer : Root → Root → Bool) (positions : List PositionInt)
    (neutrals : List (Nat × ID)) (calls : List StateCall)
    (hn : (neutrals.map (fun n => n.1)).Nodup) (hp : (newPlayerPtrs calls).Nodup) :
    ∃ s, runStateCalls closer (startState positions neutrals) calls = some s ∧
      (∀ id id' p p', mapGet s.Players id = some p → mapGet s.Players id' = some p' →
        id ≠ id' → p.Base.Position ≠ p'.Base.Position) ∧
      (∀ order,
        ((FindFreePosition closer order s).2 = ⟨0, 0⟩ ∧ (FindFreePosition closer order s).1 = s) ∨
        (positionGet s.AvailablePositions (FindFreePosition closer order s).2 = true ∧
          positionGet (FindFreePosition closer order s).1.AvailablePositions
            (FindFreePosition closer order s).2 = false)) ∧
      (∀ (call : StateCall) (s1 : GameState) (pos : PositionInt), call.run closer s = some s1 →
        positionGet s.AvailablePositions pos = false →
        positionGet s1.AvailablePositions pos = true →
        ∃ conn id p, call = .remove conn ∧ mapGet s.Players id = some p ∧ p.Conn = conn ∧
          p.Base.Position = pos ∧ mapGet s1.Players id = none) := by
  obtain ⟨s, hrun, hs⟩ := runStateCalls_start_inv closer positions neutrals calls hn hp
  refine ⟨s, hrun, ?_, ?_, ?_⟩
  · intro id id' p p' h h' hne hpos
    exact hne (hs.positions id id' p p' h h' hpos)
  · intro order
    rcases FindFreePosition_spec closer order s with h | ⟨h1, h2⟩
    · exact Or.inl h
    · refine Or.inr ⟨h1, ?_⟩
      rw [h2]
      show positionGet (positionSet s.AvailablePositions _ false) _ = false
      rw [positionGet_positionSet]
      simp
  · intro call s1 pos hrun1 hb ha
    exact available_only_by_remove closer s s1 hs call pos hrun1 hb ha

set_option maxRecDepth 100000 in
/-- Witness of C39: two players join on the small map, one is killed and
removed, and a third joins. -/
theorem C39_positions_distinct_witness :
    ([(1000, 0), (1001, 1)].map (fun n : Nat × ID => n.1)).Nodup ∧
    (newPlayerPtrs rejoinCalls).Nodup ∧
    ∃ s, runStateCalls closerByRadicand sampleState
        rejoinCalls = some s ∧
      ∀ id id' p p', mapGet s.Players id = some p → mapGet s.Players id' = some p' →
        id ≠ id' → p.Base.Position ≠ p'.Base.Position :=
  ⟨by decide, by decide,
    (C39_positions_distinct closerByRadicand samplePositions [(1000, 0), (1001, 1)]
      rejoinCalls (by decide) (by decide)).imp
      (fun _ h => ⟨h.1, h.2.1⟩)⟩

set_option maxRecDepth 100000 in
/-- Claim C23, counterexample: after the steps of `killCalls` the base of
player 1 is destroyed and player 1 is marked for removal, and player 1 is still
in `State.Players` and is still the `CapturedBy` of the neutral base at 1000.
The steps do not reach a floating point comparison: the second player gets the
only position that is left. -/
theorem C23_owner_marked_after_kill :
    ∃ s p n, runStateCalls closerByRadicand sampleState killCalls = some s ∧
      mapGet s.Players 1 = some p ∧ p.RemoveFlag = true ∧
      n ∈ s.NeutralBases ∧ n.Ptr = 1000 ∧ n.CapturedBy = some p.Ptr := by
  have h : (runStateCalls closerByRadicand sampleState killCalls).map
      (fun s => ((mapGet s.Players 1).map (fun p => (p.RemoveFlag, p.Ptr)),
        (s.NeutralBases.head?).map (fun n => (n.Ptr, n.CapturedBy)))) =
      some (some (true, 502), some (1000, some 502)) := rfl
  cases hr : runStateCalls closerByRadicand sampleState killCalls with
  | none => rw [hr] at h; cases h
  | some s =>
    rw [hr] at h
    simp only [Option.map_some', Option.some.injEq, Prod.mk.injEq] at h
    obtain ⟨h1, h2⟩ := h
    cases hp : mapGet s.Players 1 with
    | none => rw [hp] at h1; cases h1
    | some p =>
      rw [hp] at h1
      simp only [Option.map_some', Option.some.injEq, Prod.mk.injEq] at h1
      cases hn : s.NeutralBases with
      | nil => rw [hn] at h2; cases h2
      | cons n rest =>
        rw [hn] at h2
        simp only [List.head?_cons, Option.map_some', Option.some.injEq, Prod.mk.injEq] at h2
        exact ⟨s, p, n, rfl, hp, h1.1, by rw [hn]; exact List.mem_cons_self _ _, h2.1,
          by rw [h2.2, h1.2]⟩

/-- Claim C23, amended: from the state after `Start`, with distinct neutral
base objects, every sequence of `AddPlayer`, `RemovePlayer`, captures and core
hits in which each `AddPlayer` allocates a new player object ends in a state
`s` with these properties.  The `CapturedBy` of each neutral base is nil or the
address of a player in `State.Players`.  A neutral base address is in
`p.CapturedNeutralBases` of a player `p` in `State.Players` exactly if it is
the address of a neutral base of the state whose `CapturedBy` is `p`.  And
after a `RemovePlayer` that removes the player `p`, the ID of `p` is not in
`State.Players` and no neutral base has `CapturedBy = p`. -/
theorem C23_owner_in_state (closer : Root → Root → Bool) (positions : List PositionInt)
    (neutrals : List (Nat × ID)) (calls : List StateCall)
    (hn : (neutrals.map (fun n => n.1)).Nodup) (hp : (newPlayerPtrs calls).Nodup) :
    ∃ s, runStateCalls closer (startState positions neutrals) calls = some s ∧
      (∀ n ∈ s.NeutralBases, n.CapturedBy = none ∨
        ∃ id p, mapGet s.Players id = some p ∧ n.CapturedBy = some p.Ptr) ∧
      (∀ id p, mapGet s.Players id = some p → ∀ neutralPtr,
        (neutralPtr ∈ p.CapturedNeutralBases ↔
          ∃ n ∈ s.NeutralBases, n.Ptr = neutralPtr ∧ n.CapturedBy = some p.Ptr)) ∧
      (∀ conn id p, (RemovePlayer s conn).2 = some id → mapGet s.Players id = some p →
        mapGet (RemovePlayer s conn).1.Players id = none ∧
        ∀ n ∈ (RemovePlayer s conn).1.NeutralBases, n.CapturedBy ≠ some p.Ptr) := by
  obtain ⟨s, hrun, hs⟩ := runStateCalls_start_inv closer positions neutrals calls hn hp
  refine ⟨s, hrun, ?_, ?_, ?_⟩
  · intro n hm
    cases hc : n.CapturedBy with
    | none => exact Or.inl rfl
    | some q =>
      right
      have h := capturedByOf_of_mem s hs.neutrals n hm
      rw [hc] at h
      obtain ⟨id, p, hget, hptr⟩ := hs.owner n.Ptr q h
      exact ⟨id, p, hget, by rw [hptr]⟩
  · intro id p hget neutralPtr
    rw [(hs.lists id p hget).2 neutralPtr]
    exact capturedByOf_iff_mem s hs.neutrals neutralPtr (some p.Ptr)
  · intro conn id p hrem hget
    rcases RemovePlayer_cases s conn hs with h | ⟨id', p', hget', _, h⟩
    · rw [h] at hrem; cases hrem
    · rw [h] at hrem
      simp only [Option.some.injEq] at hrem
      subst hrem
      rw [hget] at hget'
      cases hget'
      obtain ⟨hinv, hcap⟩ := StateInv_removed s id' p p.MarkForRemoval hs hget
      rw [h]
      refine ⟨?_, ?_⟩
      · show mapGet (mapDelete s.Players id') id' = none
        rw [mapGet_mapDelete]
        simp
      · intro n hm hc
        have h1 := capturedByOf_of_mem _ hinv.neutrals n hm
        rw [hc] at h1
        exact ((hcap n.Ptr p.Ptr).mp h1).2 rfl

set_option maxRecDepth 100000 in
/-- Witness of the amended C23: after the steps of `killCalls`, the
`RemovePlayer` of connection 12 removes player 1, and no neutral base has this
player as `CapturedBy` afterwards. -/
theorem C23_owner_in_state_witness :
    ([(1000, 0), (1001, 1)].map (fun n : Nat × ID => n.1)).Nodup ∧
    (newPlayerPtrs killCalls).Nodup ∧
    ∃ s, runStateCalls closerByRadicand sampleState killCalls = some s ∧
      ∀ n ∈ s.NeutralBases, n.CapturedBy = none ∨
        ∃ id p, mapGet s.Players id = some p ∧ n.CapturedBy = some p.Ptr :=
  ⟨by decide, by decide,
    (C23_owner_in_state closerByRadicand samplePositions [(1000, 0), (1001, 1)] killCalls
      (by decide) (by decide)).imp (fun _ h => ⟨h.1, h.2.1⟩)⟩

end Game

namespace Network

open Game

theorem runServerCalls_cons (closer : Root → Root → Bool) (sv : Server) (call : ServerCall)
    (calls : List ServerCall) :
    runServerCalls closer sv (call :: calls) = runServerCalls closer (call.run closer sv) calls :=
  rfl

set_option maxRecDepth 100000 in
/-- Claim C29, failing input: on a map whose positions are all taken, the join
of a connection with the Discord account "d3" is rejected by `AddPlayer` after
the fingerprint and the Discord ID were registered.  After
`removePlayerByConnection` the two players of the other connections are in the
game, the connection is not in `activeConnections`, its fingerprint is not in
the index of its address, and "d3" is still in `playingDiscordIds`. -/
theorem C29_rejected_join_keeps_discord_id :
    ∀ closer : Root → Root → Bool,
      (mapKeys (runServerCalls closer sampleServer fullMapCalls).State.Players).length = 2 ∧
      GetUserDataByConn (runServerCalls closer sampleServer fullMapCalls) 13 = none ∧
      IsFingerprintUsedForIP (runServerCalls closer sampleServer fullMapCalls) "10.0.0.3" 7
        = false ∧
      isDiscordAccountAlreadyPlaying (runServerCalls closer sampleServer fullMapCalls) "d3"
        = true := by
  intro closer
  have c3 : StoreUserData (StoreUserData (StoreUserData sampleServer 11
      (sampleUser "10.0.0.1" "")) 12 (sampleUser "10.0.0.2" "")) 13 (sampleUser "10.0.0.3" "d3") =
      ⟨sampleState,
        [(13, ⟨"10.0.0.3", none, "", ⟨"d3"⟩⟩), (12, ⟨"10.0.0.2", none, "", ⟨""⟩⟩),
          (11, ⟨"10.0.0.1", none, "", ⟨""⟩⟩)], [], []⟩ := rfl
  have j1 : ∀ g : GameState, (handleJoinMessage closer
      ⟨g, [(13, ⟨"10.0.0.3", none, "", ⟨"d3"⟩⟩), (12, ⟨"10.0.0.2", none, "", ⟨""⟩⟩),
          (11, ⟨"10.0.0.1", none, "", ⟨""⟩⟩)], [], []⟩
      false 11 [0, 0, 0, 0, 5] 501 samplePositions).1 =
      ⟨(AddPlayer closer g 11 0 501 samplePositions).1,
        [(11, ⟨"10.0.0.1", some 5, "", ⟨""⟩⟩), (13, ⟨"10.0.0.3", none, "", ⟨"d3"⟩⟩),
          (12, ⟨"10.0.0.2", none, "", ⟨""⟩⟩)], [("10.0.0.1", [5])], []⟩ := fun _ => rfl
  have j2 : ∀ g : GameState, (handleJoinMessage closer
      ⟨g, [(11, ⟨"10.0.0.1", some 5, "", ⟨""⟩⟩), (13, ⟨"10.0.0.3", none, "", ⟨"d3"⟩⟩),
          (12, ⟨"10.0.0.2", none, "", ⟨""⟩⟩)], [("10.0.0.1", [5])], []⟩
      false 12 [0, 0, 0, 0, 6] 502 samplePositions).1 =
      ⟨(AddPlayer closer g 12 0 502 samplePositions).1,
        [(12, ⟨"10.0.0.2", some 6, "", ⟨""⟩⟩), (11, ⟨"10.0.0.1", some 5, "", ⟨""⟩⟩),
          (13, ⟨"10.0.0.3", none, "", ⟨"d3"⟩⟩)],
        [("10.0.0.2", [6]), ("10.0.0.1", [5])], []⟩ := fun _ => rfl
  have j3 : ∀ g : GameState, (handleJoinMessage closer
      ⟨g, [(12, ⟨"10.0.0.2", some 6, "", ⟨""⟩⟩), (11, ⟨"10.0.0.1", some 5, "", ⟨""⟩⟩),
          (13, ⟨"10.0.0.3", none, "", ⟨"d3"⟩⟩)],
        [("10.0.0.2", [6]), ("10.0.0.1", [5])], []⟩
      false 13 [0, 0, 0, 0, 7] 503 samplePositions).1 =
      ⟨(AddPlayer closer g 13 0 503 samplePositions).1,
        [(13, ⟨"10.0.0.3", some 7, "", ⟨"d3"⟩⟩), (12, ⟨"10.0.0.2", some 6, "", ⟨""⟩⟩),
          (11, ⟨"10.0.0.1", some 5, "", ⟨""⟩⟩)],
        [("10.0.0.3", [7]), ("10.0.0.2", [6]), ("10.0.0.1", [5])], ["d3"]⟩ := fun _ => rfl
  have hg : (fun g : GameState => ((RemovePlayer g 13).2,
      (mapKeys (RemovePlayer g 13).1.Players).length))
      (AddPlayer closer (AddPlayer closer (AddPlayer closer sampleState 11 0 501
        samplePositions).1 12 0 502 samplePositions).1 13 0 503 samplePositions).1 =
      (none, 2) := rfl
  simp only [Prod.mk.injEq] at hg
  have hrun : runServerCalls closer sampleServer fullMapCalls =
      removePlayerByConnection
        ⟨(AddPlayer closer (AddPlayer closer (AddPlayer closer sampleState 11 0 501
          samplePositions).1 12 0 502 samplePositions).1 13 0 503 samplePositions).1,
        [(13, ⟨"10.0.0.3", some 7, "", ⟨"d3"⟩⟩), (12, ⟨"10.0.0.2", some 6, "", ⟨""⟩⟩),
          (11, ⟨"10.0.0.1", some 5, "", ⟨""⟩⟩)],
        [("10.0.0.3", [7]), ("10.0.0.2", [6]), ("10.0.0.1", [5])], ["d3"]⟩ 13 := by
    simp only [fullMapCalls, runServerCalls_cons, ServerCall.run]
    rw [c3, j1, j2, j3]
    rfl
  have hrem : ∀ g : GameState, (RemovePlayer g 13).2 = none →
      removePlayerByConnection
        ⟨g, [(13, ⟨"10.0.0.3", some 7, "", ⟨"d3"⟩⟩), (12, ⟨"10.0.0.2", some 6, "", ⟨""⟩⟩),
          (11, ⟨"10.0.0.1", some 5, "", ⟨""⟩⟩)],
        [("10.0.0.3", [7]), ("10.0.0.2", [6]), ("10.0.0.1", [5])], ["d3"]⟩ 13 =
      ⟨(RemovePlayer g 13).1, [(12, ⟨"10.0.0.2", some 6, "", ⟨""⟩⟩),
          (11, ⟨"10.0.0.1", some 5, "", ⟨""⟩⟩)],
        [("10.0.0.3", []), ("10.0.0.2", [6]), ("10.0.0.1", [5])], ["d3"]⟩ := by
    intro g h
    unfold removePlayerByConnection
    simp only [h]
    rfl
  rw [hrun, hrem _ hg.1]
  exact ⟨hg.2, rfl, rfl, rfl⟩

end Network
